import Mathlib

/-!
# GuC-based command submission

Shallow embedding of `drivers/gpu/drm/i915/gt/uc/intel_guc_submission.c`
(with the inline helpers of `intel_guc.h`) and the properties proved about it.

Conventions of the embedding

* A context (`struct intel_context *`) is a handle, a natural number indexing the
  table `Guc.ctx`.
* C functions that mutate state take the state and return the new state, paired
  with the C return value when there is one. Negative errno values are negative
  integers.
* 32-bit unsigned fields are natural numbers; arithmetic that can wrap is reduced
  modulo `2 ^ 32` explicitly.
* `GEM_BUG_ON` is compiled out (non-debug build): an assertion is a precondition of
  the caller and never changes state.
* Locks, memory barriers, tracing, runtime power management and the reference
  count of the context object (`intel_context_get` / `intel_context_put`) carry no
  state in the embedding.
-/

namespace GucSubmission

/-! ## Constants -/

/-- Errno value `EAGAIN`. -/
def EAGAIN : Int := 11
/-- Errno value `ENOMEM`. -/
def ENOMEM : Int := 12
/-- Errno value `EBUSY`. -/
def EBUSY : Int := 16
/-- Errno value `ENODEV`. -/
def ENODEV : Int := 19
/-- Errno value `ENOSPC`. -/
def ENOSPC : Int := 28
/-- Errno value `EPIPE`. -/
def EPIPE : Int := 32
/-- Errno value `EPROTO`. -/
def EPROTO : Int := 71
/-- Errno value `E2BIG`. -/
def E2BIG : Int := 7
/-- Errno value `ETXTBSY`. -/
def ETXTBSY : Int := 26

/-- Constants declared in headers that are not among the sources: the firmware
interface header `intel_guc_fwif.h` and, for the last five, `i915_priolist_types.h`
and `i915_request.h`. The embedding takes them as parameters. -/
structure Fwif where
  GUC_WQ_SIZE : Nat
  WQ_TYPE_NOOP : Nat
  WQ_TYPE_MULTI_LRC : Nat
  WQ_LEN_SHIFT : Nat
  WQ_GUC_ID_SHIFT : Nat
  WQ_RING_TAIL_SHIFT : Nat
  GUC_INVALID_LRC_ID : Nat
  GUC_MAX_LRC_DESCRIPTORS : Nat
  G2H_LEN_DW_SCHED_CONTEXT_MODE_SET : Nat
  G2H_LEN_DW_DEREGISTER_CONTEXT : Nat
  CONTEXT_REGISTRATION_FLAG_KMD : Nat
  GUC_CLIENT_PRIORITY_KMD_NORMAL : Nat
  SIZEOF_GUC_LRC_DESC : Nat
  GUC_CLIENT_PRIORITY_KMD_HIGH : Nat
  GUC_CLIENT_PRIORITY_HIGH : Nat
  GUC_CLIENT_PRIORITY_NORMAL : Nat
  GUC_CLIENT_PRIORITY_NUM : Nat
  I915_PRIORITY_INVALID : Int
  I915_PRIORITY_NORMAL : Int
  I915_PRIORITY_DISPLAY : Int
  GUC_PRIO_INIT : Nat
  GUC_PRIO_FINI : Nat

/-- The values the firmware interface header of the upstream driver gives to the
constants of `Fwif`; used for concrete evaluations only. -/
def fwif_upstream : Fwif where
  GUC_WQ_SIZE := 2048
  WQ_TYPE_NOOP := 4
  WQ_TYPE_MULTI_LRC := 5
  WQ_LEN_SHIFT := 16
  WQ_GUC_ID_SHIFT := 0
  WQ_RING_TAIL_SHIFT := 18
  GUC_INVALID_LRC_ID := 65535
  GUC_MAX_LRC_DESCRIPTORS := 65535
  G2H_LEN_DW_SCHED_CONTEXT_MODE_SET := 2
  G2H_LEN_DW_DEREGISTER_CONTEXT := 1
  CONTEXT_REGISTRATION_FLAG_KMD := 1
  GUC_CLIENT_PRIORITY_KMD_NORMAL := 2
  SIZEOF_GUC_LRC_DESC := 64
  GUC_CLIENT_PRIORITY_KMD_HIGH := 0
  GUC_CLIENT_PRIORITY_HIGH := 1
  GUC_CLIENT_PRIORITY_NORMAL := 3
  GUC_CLIENT_PRIORITY_NUM := 4
  I915_PRIORITY_INVALID := -2147483648
  I915_PRIORITY_NORMAL := 0
  I915_PRIORITY_DISPLAY := 1026
  GUC_PRIO_INIT := 255
  GUC_PRIO_FINI := 254

/-- Truncation to `u32`. -/
def u32 (x : Nat) : Nat := x % 2 ^ 32

/-- Subtraction of `u32` values, wrapping. -/
def u32_sub (a b : Nat) : Nat := (a % 2 ^ 32 + 2 ^ 32 - b % 2 ^ 32) % 2 ^ 32

/-- The `u32` operation `a & ~m`. -/
def u32_andnot (a m : Nat) : Nat := a &&& ((2 ^ 32 - 1) ^^^ (m % 2 ^ 32))

/-! ## Data model -/

/-- The fields of `struct intel_context` the submission code reads and writes.
`wq` is the log of the dwords stored into the work queue of a parent context, each
with the dword index inside the work queue it was stored at. `desc_head` and
`desc_tail` are the `head` and `tail` fields of the process descriptor the context
shares with the firmware. `requests` is the list `guc_state.requests` of the
requests in flight, head first, as handles into `Guc.rq`, and `prio_count` the array
`guc_state.prio_count`. -/
structure IntelContext where
  guc_id : Nat
  guc_id_ref : Int
  sched_state : Nat
  prio : Nat
  guc_number_children : Nat
  parent : Option Nat
  guc_child_list : List Nat
  banned : Bool
  pin_count : Int
  number_committed_requests : Int
  guc_wqi_tail : Nat
  guc_wqi_head : Nat
  desc_head : Nat
  desc_tail : Nat
  wq : List (Nat × Nat)
  lrca : Nat
  ring_tail : Nat
  requests : List Nat
  prio_count : Nat → Nat

/-- A context as `intel_context_init` leaves it, before an identifier is bound. -/
def IntelContext.fresh (K : Fwif) : IntelContext where
  guc_id := K.GUC_INVALID_LRC_ID
  guc_id_ref := 0
  sched_state := 0
  prio := 0
  guc_number_children := 0
  parent := none
  guc_child_list := []
  banned := false
  pin_count := 0
  number_committed_requests := 0
  guc_wqi_tail := 0
  guc_wqi_head := 0
  desc_head := 0
  desc_tail := 0
  wq := []
  lrca := 0
  ring_tail := 0
  requests := []
  prio_count := fun _ => 0

/-- Modelled from the spec: `intel_context_is_parent` is declared in
`gt/intel_context.h`, which is not among the sources. A group leader is a context
with a non-zero number of children. -/
def intel_context_is_parent (ce : IntelContext) : Bool := ce.guc_number_children != 0

/-- Modelled from the spec: `intel_context_is_child` is declared in
`gt/intel_context.h`, which is not among the sources. A group member is a context
that has a parent. -/
def intel_context_is_child (ce : IntelContext) : Bool := ce.parent.isSome

/-- Modelled from the spec: `intel_context_is_banned` is declared in
`gt/intel_context.h`, which is not among the sources. It tests the banned flag of
the context. -/
def intel_context_is_banned (ce : IntelContext) : Bool := ce.banned

/-- Modelled from the spec: `intel_context_is_pinned` is declared in
`gt/intel_context.h`, which is not among the sources. A context is pinned while
its pin count is non-zero. -/
def intel_context_is_pinned (ce : IntelContext) : Bool := ce.pin_count != 0

/-! ## Scheduling state bits (`ce->guc_state.sched_state`) -/

/-- Bit 0 of the scheduling state. -/
def SCHED_STATE_WAIT_FOR_DEREGISTER_TO_REGISTER : Nat := 2 ^ 0
/-- Bit 1 of the scheduling state. -/
def SCHED_STATE_DESTROYED : Nat := 2 ^ 1
/-- Bit 2 of the scheduling state. -/
def SCHED_STATE_PENDING_DISABLE : Nat := 2 ^ 2
/-- Bit 3 of the scheduling state. -/
def SCHED_STATE_BANNED : Nat := 2 ^ 3
/-- Bit 4 of the scheduling state. -/
def SCHED_STATE_ENABLED : Nat := 2 ^ 4
/-- Bit 5 of the scheduling state. -/
def SCHED_STATE_PENDING_ENABLE : Nat := 2 ^ 5
/-- Bit 6 of the scheduling state. -/
def SCHED_STATE_REGISTERED : Nat := 2 ^ 6
/-- Position of the blocked counter. -/
def SCHED_STATE_BLOCKED_SHIFT : Nat := 7
/-- One unit of the blocked counter. -/
def SCHED_STATE_BLOCKED : Nat := 2 ^ SCHED_STATE_BLOCKED_SHIFT
/-- The twelve bits of the blocked counter. -/
def SCHED_STATE_BLOCKED_MASK : Nat := 0xfff <<< SCHED_STATE_BLOCKED_SHIFT

/-- `ce->guc_state.sched_state |= flag`. -/
def set_sched_flag (flag : Nat) (ce : IntelContext) : IntelContext :=
  { ce with sched_state := ce.sched_state ||| flag }

/-- `ce->guc_state.sched_state &= ~flag`. -/
def clr_sched_flag (flag : Nat) (ce : IntelContext) : IntelContext :=
  { ce with sched_state := u32_andnot ce.sched_state flag }

/-- `ce->guc_state.sched_state & flag`, as a truth value. -/
def sched_flag (flag : Nat) (ce : IntelContext) : Bool := ce.sched_state &&& flag != 0

def init_sched_state (ce : IntelContext) : IntelContext :=
  { ce with sched_state := ce.sched_state &&& SCHED_STATE_BLOCKED_MASK }

def context_wait_for_deregister_to_register (ce : IntelContext) : Bool :=
  sched_flag SCHED_STATE_WAIT_FOR_DEREGISTER_TO_REGISTER ce

def set_context_wait_for_deregister_to_register (ce : IntelContext) : IntelContext :=
  set_sched_flag SCHED_STATE_WAIT_FOR_DEREGISTER_TO_REGISTER ce

def clr_context_wait_for_deregister_to_register (ce : IntelContext) : IntelContext :=
  clr_sched_flag SCHED_STATE_WAIT_FOR_DEREGISTER_TO_REGISTER ce

def context_destroyed (ce : IntelContext) : Bool := sched_flag SCHED_STATE_DESTROYED ce

def set_context_destroyed (ce : IntelContext) : IntelContext :=
  set_sched_flag SCHED_STATE_DESTROYED ce

def context_pending_disable (ce : IntelContext) : Bool :=
  sched_flag SCHED_STATE_PENDING_DISABLE ce

def set_context_pending_disable (ce : IntelContext) : IntelContext :=
  set_sched_flag SCHED_STATE_PENDING_DISABLE ce

def clr_context_pending_disable (ce : IntelContext) : IntelContext :=
  clr_sched_flag SCHED_STATE_PENDING_DISABLE ce

def context_banned (ce : IntelContext) : Bool := sched_flag SCHED_STATE_BANNED ce

def set_context_banned (ce : IntelContext) : IntelContext :=
  set_sched_flag SCHED_STATE_BANNED ce

def clr_context_banned (ce : IntelContext) : IntelContext :=
  clr_sched_flag SCHED_STATE_BANNED ce

def context_enabled (ce : IntelContext) : Bool := sched_flag SCHED_STATE_ENABLED ce

def set_context_enabled (ce : IntelContext) : IntelContext :=
  set_sched_flag SCHED_STATE_ENABLED ce

def clr_context_enabled (ce : IntelContext) : IntelContext :=
  clr_sched_flag SCHED_STATE_ENABLED ce

def context_pending_enable (ce : IntelContext) : Bool :=
  sched_flag SCHED_STATE_PENDING_ENABLE ce

def set_context_pending_enable (ce : IntelContext) : IntelContext :=
  set_sched_flag SCHED_STATE_PENDING_ENABLE ce

def clr_context_pending_enable (ce : IntelContext) : IntelContext :=
  clr_sched_flag SCHED_STATE_PENDING_ENABLE ce

def context_registered (ce : IntelContext) : Bool := sched_flag SCHED_STATE_REGISTERED ce

def set_context_registered (ce : IntelContext) : IntelContext :=
  set_sched_flag SCHED_STATE_REGISTERED ce

def clr_context_registered (ce : IntelContext) : IntelContext :=
  clr_sched_flag SCHED_STATE_REGISTERED ce

def context_blocked (ce : IntelContext) : Nat :=
  (ce.sched_state &&& SCHED_STATE_BLOCKED_MASK) >>> SCHED_STATE_BLOCKED_SHIFT

def incr_context_blocked (ce : IntelContext) : IntelContext :=
  { ce with sched_state := u32 (ce.sched_state + SCHED_STATE_BLOCKED) }

def decr_context_blocked (ce : IntelContext) : IntelContext :=
  { ce with sched_state := u32_sub ce.sched_state SCHED_STATE_BLOCKED }

/-- The test is written with `&=`: the masked value is stored back into
`sched_state` before it is negated. -/
def sched_state_is_init (ce : IntelContext) : Bool × IntelContext :=
  let mask := SCHED_STATE_BLOCKED_MASK ||| SCHED_STATE_REGISTERED
  let ce1 := { ce with sched_state := u32_andnot ce.sched_state mask }
  (ce1.sched_state == 0, ce1)

def context_has_committed_requests (ce : IntelContext) : Bool :=
  ce.number_committed_requests != 0

def context_guc_id_invalid (K : Fwif) (ce : IntelContext) : Bool :=
  ce.guc_id == K.GUC_INVALID_LRC_ID

def set_context_guc_id_invalid (K : Fwif) (ce : IntelContext) : IntelContext :=
  { ce with guc_id := K.GUC_INVALID_LRC_ID }

/-! ## Work-queue ring writer -/

/-- Modelled from the spec: `CIRC_CNT` of `linux/circ_buf.h`, which is not among the
sources: the number of bytes between `tail` and `head` in a ring whose size is a
power of two, in 32-bit unsigned arithmetic. -/
def CIRC_CNT (head tail size : Nat) : Nat := u32_sub head tail &&& (size - 1)

/-- Modelled from the spec: `CIRC_SPACE` of `linux/circ_buf.h`, which is not among
the sources: the space available to the producer of a ring whose size is a power
of two; one byte is always left unused. -/
def CIRC_SPACE (head tail size : Nat) : Nat := CIRC_CNT tail (head + 1) size

/-- The macro `AVAILABLE_SPACE` local to `get_wq_pointer`. -/
def AVAILABLE_SPACE (K : Fwif) (ce : IntelContext) : Nat :=
  CIRC_SPACE ce.guc_wqi_tail ce.guc_wqi_head K.GUC_WQ_SIZE

/-- The result is the dword index inside the work queue of the returned pointer
(`none` for `NULL`) and the context with its cached head possibly refreshed from
the process descriptor. -/
def get_wq_pointer (K : Fwif) (ce : IntelContext) (wqi_size : Nat) :
    Option Nat × IntelContext :=
  if wqi_size > AVAILABLE_SPACE K ce then
    let ce1 := { ce with guc_wqi_head := ce.desc_head }
    if wqi_size > AVAILABLE_SPACE K ce1 then (none, ce1)
    else (some (ce1.guc_wqi_tail / 4), ce1)
  else (some (ce.guc_wqi_tail / 4), ce)

def wq_space_until_wrap (K : Fwif) (ce : IntelContext) : Nat :=
  u32_sub K.GUC_WQ_SIZE ce.guc_wqi_tail

def write_wqi (K : Fwif) (ce : IntelContext) (wqi_size : Nat) : IntelContext :=
  let tail := u32 (ce.guc_wqi_tail + wqi_size) &&& (K.GUC_WQ_SIZE - 1)
  { ce with guc_wqi_tail := tail, desc_tail := tail }

def guc_wq_noop_append (K : Fwif) (ce : IntelContext) : Int × IntelContext :=
  match get_wq_pointer K ce (wq_space_until_wrap K ce) with
  | (none, ce1) => (-EBUSY, ce1)
  | (some wqi, ce1) =>
    (0, { ce1 with
            wq := ce1.wq ++ [(wqi, u32 (K.WQ_TYPE_NOOP |||
                    (u32_sub (wq_space_until_wrap K ce1 / 4) 1 <<< K.WQ_LEN_SHIFT)))],
            guc_wqi_tail := 0 })

/-- The dwords `__guc_wq_item_append` stores for one work-queue item: header,
context descriptor, identifier and ring tail of the parent, fence id, then the
ring tail of every child. -/
def wq_item_dwords (K : Fwif) (ce : IntelContext) (wqi_size : Nat)
    (child_ring_tails : List Nat) : List Nat :=
  [ u32 (K.WQ_TYPE_MULTI_LRC ||| (u32_sub (wqi_size / 4) 1 <<< K.WQ_LEN_SHIFT)),
    u32 ce.lrca,
    u32 ((ce.guc_id <<< K.WQ_GUC_ID_SHIFT) |||
         ((ce.ring_tail / 8) <<< K.WQ_RING_TAIL_SHIFT)),
    0 ] ++ child_ring_tails.map (fun t => u32 (t / 8))

/-- Stores `dwords` at consecutive dword indices from `wqi` (`*wqi++ = ...`). -/
def wq_store (wq : List (Nat × Nat)) (wqi : Nat) (dwords : List Nat) : List (Nat × Nat) :=
  wq ++ (List.range' wqi dwords.length).zip dwords

/-! ## Global submission state -/

/-- A host-to-GuC action handed to the command transport. -/
inductive H2G where
  | register_context (guc_id offset : Nat)
  | register_context_multi_lrc (guc_id count offset : Nat) (child_offsets : List Nat)
  | deregister_context (guc_id : Nat)
  | sched_context_mode_set (guc_id : Nat) (enable : Bool)
  | sched_context (guc_id : Nat)
  | set_context_preemption_timeout (guc_id timeout : Nat)
  | set_context_priority (guc_id prio : Nat)
  deriving DecidableEq, Repr

/-- The fields of `struct guc_lrc_desc` that `guc_lrc_desc_pin` fills from the
context itself (the engine class, submit mask and policy fields, filled from the
engine, are left out). -/
structure LrcDesc where
  hw_context_desc : Nat
  priority : Nat
  context_flags : Nat
  wq_size : Nat
  deriving DecidableEq, Repr

/-- A descriptor after `memset(desc, 0, sizeof(*desc))`. -/
def LrcDesc.zero : LrcDesc := ⟨0, 0, 0, 0⟩

/-- The fields of `struct i915_request` the submission code reads and writes:
`context` is `rq->context`, `priority` is `rq->sched.attr.priority`,
`submit_parallel`, `pqueue` and `active` are the bits `I915_FENCE_FLAG_SUBMIT_PARALLEL`,
`I915_FENCE_FLAG_PQUEUE` and `I915_FENCE_FLAG_ACTIVE` of `rq->fence.flags`, and
`completed` is what `i915_request_completed(rq)` returns. -/
structure I915Request where
  context : Nat
  priority : Int
  submit_parallel : Bool
  pqueue : Bool
  active : Bool
  completed : Bool
  guc_prio : Nat
  tail : Nat

/-- The type of `guc->submission_stall_reason` (`intel_guc.h`). -/
inductive StallReason where
  | STALL_NONE
  | STALL_REGISTER_CONTEXT
  | STALL_MOVE_LRC_TAIL
  | STALL_ADD_REQUEST
  deriving DecidableEq, Repr

/-- The fields of `struct intel_guc` the submission code reads and writes.

* `guc_ids` is the set of identifiers the single-context allocator
  (`submission_state.guc_ids`, an ida) has handed out.
* `guc_ids_bitmap` is the bitmap of the multi-context allocator.
* `guc_id_list` lists the contexts linked through `guc_id.link`, head first.
* `context_lookup` is the xarray from identifier to context, as the list of its
  entries in ascending order of identifier.
* `lrc_desc_pool_offset` is the GGTT offset of the descriptor pool.
* `tasklet_count` is the disable count of the submission tasklet and
  `has_sched_engine` tells whether `guc->sched_engine` is set.
* `ct_replies` holds the values the next calls of `intel_guc_ct_send` return (once
  it is used up every call returns 0) and `h2g` logs every action handed to it.
* `rq` is the table of the requests, indexed by their handles.
* `queue` is the priority queue `sched_engine->queue`: its priority lists with their
  priorities, in the order `rb_first_cached` visits them, each list head first.
-/
structure Guc where
  ctx : Nat → IntelContext
  guc_ids : List Nat
  guc_ids_bitmap : Nat → Bool
  num_guc_ids : Nat
  max_guc_ids : Nat
  guc_id_list : List Nat
  destroyed_contexts : List Nat
  context_lookup : List (Nat × Nat)
  lrc_desc_pool : Nat → LrcDesc
  lrc_desc_pool_vaddr : Bool
  lrc_desc_pool_offset : Nat
  outstanding_submission_g2h : Int
  has_sched_engine : Bool
  tasklet_count : Nat
  tasklet_callback : Bool
  tasklet_scheduled : Bool
  wedged : Bool
  ct_replies : List Int
  h2g : List H2G
  rq : Nat → I915Request
  queue : List (Int × List Nat)
  stalled_request : Option Nat
  submission_stall_reason : StallReason

/-- Replaces the request behind handle `rq`. -/
def Guc.set_rq (g : Guc) (rq : Nat) (r : I915Request) : Guc :=
  { g with rq := fun i => if i = rq then r else g.rq i }

/-- Replaces the context behind handle `ce`. -/
def Guc.set_ctx (g : Guc) (ce : Nat) (c : IntelContext) : Guc :=
  { g with ctx := fun i => if i = ce then c else g.ctx i }

/-- The request is represented by its scheduling context `ce`
(`request_to_scheduling_context(rq)`). -/
def __guc_wq_item_append (K : Fwif) (g : Guc) (ce : Nat) : Int × Guc :=
  let c := g.ctx ce
  let wqi_size := u32 ((c.guc_number_children + 4) * 4)
  let r := if wqi_size > wq_space_until_wrap K c then guc_wq_noop_append K c else (0, c)
  if r.1 ≠ 0 then (r.1, g.set_ctx ce r.2)
  else
    match get_wq_pointer K r.2 wqi_size with
    | (none, c2) => (-EBUSY, g.set_ctx ce c2)
    | (some wqi, c2) =>
      let tails := c2.guc_child_list.map (fun child => (g.ctx child).ring_tail)
      let c3 := { c2 with wq := wq_store c2.wq wqi (wq_item_dwords K c2 wqi_size tails) }
      (0, g.set_ctx ce (write_wqi K c3 wqi_size))


/-! ## Registration store (`guc->context_lookup`) and descriptor pool -/

/-- Modelled from the spec: `xa_load` of the kernel xarray, which is not among the
sources: the entry stored at `id`, if any. -/
def xa_load (xa : List (Nat × Nat)) (id : Nat) : Option Nat :=
  (xa.find? (fun e => e.1 == id)).map (fun e => e.2)

/-- Modelled from the spec: `__xa_erase` of the kernel xarray, which is not among the
sources: removes the entry stored at `id`, if any. -/
def xa_erase (xa : List (Nat × Nat)) (id : Nat) : List (Nat × Nat) :=
  xa.filter (fun e => e.1 != id)

/-- Modelled from the spec: `__xa_store` of the kernel xarray, which is not among the
sources: binds `id` to `ce`, replacing the entry stored at `id`, if any. The
entries are kept in ascending order of identifier. -/
def xa_store : List (Nat × Nat) → Nat → Nat → List (Nat × Nat)
  | [], id, ce => [(id, ce)]
  | (k, v) :: xs, id, ce =>
    if id < k then (id, ce) :: (k, v) :: xs
    else if id = k then (k, ce) :: xs
    else (k, v) :: xa_store xs id ce

def __get_context (g : Guc) (id : Nat) : Option Nat := xa_load g.context_lookup id

/-- The descriptor at `index`, or `none` where the assertion
`GEM_BUG_ON(index >= guc->submission_state.max_guc_ids)` of `__get_lrc_desc`
fails. -/
def __get_lrc_desc (g : Guc) (index : Nat) : Option LrcDesc :=
  if index ≥ g.max_guc_ids then none else some (g.lrc_desc_pool index)

def guc_submission_initialized (g : Guc) : Bool := g.lrc_desc_pool_vaddr

def reset_lrc_desc (g : Guc) (id : Nat) : Guc :=
  if guc_submission_initialized g then
    { g with
      lrc_desc_pool := fun i => if i = id then LrcDesc.zero else g.lrc_desc_pool i,
      context_lookup := xa_erase g.context_lookup id }
  else g

def lrc_desc_registered (g : Guc) (id : Nat) : Bool := (__get_context g id).isSome

def set_lrc_desc_registered (g : Guc) (id ce : Nat) : Guc :=
  { g with context_lookup := xa_store g.context_lookup id ce }

def decr_outstanding_submission_g2h (g : Guc) : Guc :=
  { g with outstanding_submission_g2h := g.outstanding_submission_g2h - 1 }

/-! ## Identifier allocator -/

/-- The macro `NUMBER_MULTI_LRC_GUC_ID`. -/
def NUMBER_MULTI_LRC_GUC_ID (g : Guc) : Nat :=
  if g.num_guc_ids / 16 > 32 then g.num_guc_ids / 16 else 32

/-- Search of `order_base_2`: the least `k` from `k` on with `n ≤ 2 ^ k`. -/
def order_base_2_from (n : Nat) : Nat → Nat → Nat
  | 0, k => k
  | fuel + 1, k => if n ≤ 2 ^ k then k else order_base_2_from n fuel (k + 1)

/-- Modelled from the spec: `order_base_2` of `linux/log2.h`, which is not among the
sources: the exponent of the least power of two that is at least `n`. -/
def order_base_2 (n : Nat) : Nat := order_base_2_from n n 0

/-- Modelled from the spec: `ida_simple_get` of the kernel id allocator, which is
not among the sources. Single-slot acquisition draws the lowest identifier of
`[start, end_)` that is not allocated and marks it allocated; without a free
identifier it fails with `-ENOSPC`. -/
def ida_simple_get (ida : List Nat) (start end_ : Nat) : Int × List Nat :=
  match (List.range' start (end_ - start)).find? (fun i => !ida.contains i) with
  | some id => ((id : Int), id :: ida)
  | none => (-ENOSPC, ida)

/-- Modelled from the spec: `ida_simple_remove` of the kernel id allocator, which is
not among the sources: returns the slot `id` to the pool. -/
def ida_simple_remove (ida : List Nat) (id : Nat) : List Nat := ida.filter (fun i => i != id)

/-- Modelled from the spec: `ida_is_empty` of the kernel id allocator, which is not
among the sources. -/
def ida_is_empty (ida : List Nat) : Bool := ida.isEmpty

/-- All `len` bits from `pos` are clear. -/
def bitmap_region_free (bitmap : Nat → Bool) (pos len : Nat) : Bool :=
  (List.range' pos len).all (fun i => !bitmap i)

/-- Modelled from the spec: `bitmap_find_free_region` of the kernel bitmap library,
which is not among the sources. Group acquisition draws a contiguous
power-of-two-aligned range: the first region of `2 ^ order` clear bits that starts
at a multiple of `2 ^ order` and ends within `bits` is set and its position
returned; without such a region it fails with `-ENOMEM`. -/
def bitmap_find_free_region (bitmap : Nat → Bool) (bits order : Nat) : Int × (Nat → Bool) :=
  match (List.range (bits / 2 ^ order)).find?
      (fun j => bitmap_region_free bitmap (j * 2 ^ order) (2 ^ order)) with
  | some j =>
    (((j * 2 ^ order : Nat) : Int),
      fun i => if j * 2 ^ order ≤ i ∧ i < j * 2 ^ order + 2 ^ order then true else bitmap i)
  | none => (-ENOMEM, bitmap)

/-- Modelled from the spec: `bitmap_release_region` of the kernel bitmap library,
which is not among the sources: clears the `2 ^ order` bits from `pos`. -/
def bitmap_release_region (bitmap : Nat → Bool) (pos order : Nat) : Nat → Bool :=
  fun i => if pos ≤ i ∧ i < pos + 2 ^ order then false else bitmap i

def new_guc_id (g : Guc) (ce : Nat) : Int × Guc :=
  if intel_context_is_parent (g.ctx ce) then
    let r := bitmap_find_free_region g.guc_ids_bitmap (NUMBER_MULTI_LRC_GUC_ID g)
      (order_base_2 ((g.ctx ce).guc_number_children + 1))
    let g1 := { g with guc_ids_bitmap := r.2 }
    if r.1 < 0 then (r.1, g1)
    else (0, g1.set_ctx ce { g1.ctx ce with guc_id := r.1.toNat })
  else
    let r := ida_simple_get g.guc_ids (NUMBER_MULTI_LRC_GUC_ID g) g.num_guc_ids
    let g1 := { g with guc_ids := r.2 }
    if r.1 < 0 then (r.1, g1)
    else (0, g1.set_ctx ce { g1.ctx ce with guc_id := r.1.toNat })

/-- `list_del_init(&ce->guc_id.link)` on the list `l` the context is linked in. -/
def list_del_init (l : List Nat) (ce : Nat) : List Nat := l.filter (fun x => x != ce)

def __release_guc_id (K : Fwif) (g : Guc) (ce : Nat) : Guc :=
  let g1 :=
    if !context_guc_id_invalid K (g.ctx ce) then
      let order := order_base_2 ((g.ctx ce).guc_number_children + 1)
      let g2 :=
        if intel_context_is_parent (g.ctx ce) then
          { g with
            guc_ids_bitmap := bitmap_release_region g.guc_ids_bitmap (g.ctx ce).guc_id order }
        else { g with guc_ids := ida_simple_remove g.guc_ids (g.ctx ce).guc_id }
      let g3 := reset_lrc_desc g2 (g2.ctx ce).guc_id
      g3.set_ctx ce (set_context_guc_id_invalid K (g3.ctx ce))
    else g
  if g1.guc_id_list.contains ce then
    { g1 with guc_id_list := list_del_init g1.guc_id_list ce }
  else g1

def release_guc_id (K : Fwif) (g : Guc) (ce : Nat) : Guc := __release_guc_id K g ce

/-- The assignment `ce->guc_id = cn->guc_id` copies the identifier together with its
reference count. -/
def steal_guc_id (K : Fwif) (g : Guc) (ce : Nat) : Int × Guc :=
  match g.guc_id_list with
  | cn :: rest =>
    let g1 := { g with guc_id_list := rest }
    let g2 := g1.set_ctx ce
      { g1.ctx ce with guc_id := (g1.ctx cn).guc_id, guc_id_ref := (g1.ctx cn).guc_id_ref }
    let g3 := g2.set_ctx cn (clr_context_registered (g2.ctx cn))
    let g4 := g3.set_ctx cn (set_context_guc_id_invalid K (g3.ctx cn))
    (0, g4)
  | [] => (-EAGAIN, g)

/-- The loop `for_each_child(ce, child) child->guc_id.id = ce->guc_id.id + i++`. -/
def assign_child_ids (ce : Nat) : Guc → List Nat → Nat → Guc
  | g, [], _ => g
  | g, child :: rest, i =>
    assign_child_ids ce
      (g.set_ctx child { g.ctx child with guc_id := (g.ctx ce).guc_id + i }) rest (i + 1)

def assign_guc_id (K : Fwif) (g : Guc) (ce : Nat) : Int × Guc :=
  let r := new_guc_id g ce
  let r1 : Option Int × Guc :=
    if r.1 < 0 then
      if intel_context_is_parent (r.2.ctx ce) then (some (-ENOSPC), r.2)
      else
        let s := steal_guc_id K r.2 ce
        if s.1 < 0 then (some s.1, s.2) else (none, s.2)
    else (none, r.2)
  match r1 with
  | (some err, g1) => (err, g1)
  | (none, g1) =>
    if intel_context_is_parent (g1.ctx ce) then
      (0, assign_child_ids ce g1 (g1.ctx ce).guc_child_list 1)
    else (0, g1)

def unpin_guc_id (K : Fwif) (g : Guc) (ce : Nat) : Guc :=
  if context_guc_id_invalid K (g.ctx ce) || intel_context_is_parent (g.ctx ce) then g
  else if !context_guc_id_invalid K (g.ctx ce) && !g.guc_id_list.contains ce &&
      (g.ctx ce).guc_id_ref == 0 then
    { g with guc_id_list := g.guc_id_list ++ [ce] }
  else g

/-- One call of the allocator interface. -/
inductive AllocOp where
  | assign (ce : Nat)
  | release (ce : Nat)
  | unpin (ce : Nat)
  deriving DecidableEq, Repr

/-- Runs one allocator call. The result is `none` when the call breaks an assertion
of the callee or the guard of its caller: none of the three functions is called for
a child context, and `assign_guc_id` is only called (by `pin_guc_id`) for a context
whose identifier is invalid. -/
def alloc_step (K : Fwif) (g : Guc) : AllocOp → Option Guc
  | .assign ce =>
    if !intel_context_is_child (g.ctx ce) && context_guc_id_invalid K (g.ctx ce) then
      some (assign_guc_id K g ce).2
    else none
  | .release ce =>
    if !intel_context_is_child (g.ctx ce) then some (__release_guc_id K g ce) else none
  | .unpin ce =>
    if !intel_context_is_child (g.ctx ce) then some (unpin_guc_id K g ce) else none

/-- Runs a sequence of allocator calls. -/
def alloc_run (K : Fwif) (g : Guc) : List AllocOp → Option Guc
  | [] => some g
  | op :: ops =>
    match alloc_step K g op with
    | some g1 => alloc_run K g1 ops
    | none => none

/-- Number of identifiers a context that is not a child holds: one, or for a parent
the `2 ^ order_base_2(children + 1)` slots of its region. -/
def guc_id_span (c : IntelContext) : Nat :=
  if intel_context_is_parent c then 2 ^ order_base_2 (c.guc_number_children + 1) else 1

/-- The context holds identifier `i`: it is not a child, its identifier is valid and
`i` lies in `[guc_id, guc_id + guc_id_span)`. -/
def holds_guc_id (K : Fwif) (c : IntelContext) (i : Nat) : Bool :=
  !intel_context_is_child c && !context_guc_id_invalid K c &&
    decide (c.guc_id ≤ i) && decide (i < c.guc_id + guc_id_span c)

/-- Empty pools: no identifier allocated, no context on the list of contexts whose
identifier can be stolen, no context with an identifier; and the child lists only
name child contexts. -/
def alloc_pools_empty (K : Fwif) (g : Guc) : Prop :=
  g.guc_ids = [] ∧ (∀ i, g.guc_ids_bitmap i = false) ∧ g.guc_id_list = [] ∧
    (∀ c, context_guc_id_invalid K (g.ctx c) = true) ∧
    (∀ p c, c ∈ (g.ctx p).guc_child_list → intel_context_is_child (g.ctx c) = true)

/-! ## Command transport and submission state -/

/-- Modelled from the spec: `intel_guc_ct_send` of the command transport, which is
not among the sources: `send(action, payload) -> immediate status`. Every action
handed to the transport is logged in `h2g`; the status is the next value of
`ct_replies`, or 0 once they are used up. -/
def intel_guc_ct_send (g : Guc) (action : H2G) : Int × Guc :=
  match g.ct_replies with
  | [] => (0, { g with h2g := g.h2g ++ [action] })
  | r :: rs => (r, { g with ct_replies := rs, h2g := g.h2g ++ [action] })

/-- The length of the expected reply only sets flags of the transport. -/
def intel_guc_send_nb (g : Guc) (action : H2G) (_g2h_len_dw : Nat) : Int × Guc :=
  intel_guc_ct_send g action

/-- The `retry:` loop of `intel_guc_send_busy_loop`, run at most `fuel + 1` times. The
sleep between two tries is never interrupted by a signal. -/
def send_busy_loop_retry (action : H2G) (g2h_len_dw : Nat) (loop : Bool) :
    Nat → Guc → Int × Guc
  | 0, g => intel_guc_send_nb g action g2h_len_dw
  | fuel + 1, g =>
    let r := intel_guc_send_nb g action g2h_len_dw
    if r.1 = -EBUSY ∧ loop = true then send_busy_loop_retry action g2h_len_dw loop fuel r.2
    else r

/-- The transport answers `-EBUSY` at most once for every value left in
`ct_replies`, which bounds the number of retries. -/
def intel_guc_send_busy_loop (g : Guc) (action : H2G) (g2h_len_dw : Nat) (loop : Bool) :
    Int × Guc :=
  send_busy_loop_retry action g2h_len_dw loop g.ct_replies.length g

def guc_submission_send_busy_loop (g : Guc) (action : H2G) (g2h_len_dw : Nat)
    (loop : Bool) : Int × Guc :=
  let g1 :=
    if g2h_len_dw ≠ 0 then
      { g with outstanding_submission_g2h := g.outstanding_submission_g2h + 1 }
    else g
  let r := intel_guc_send_busy_loop g1 action g2h_len_dw loop
  if r.1 = -EBUSY ∧ g2h_len_dw ≠ 0 then (r.1, decr_outstanding_submission_g2h r.2) else r

/-- Modelled from the spec: `__tasklet_is_enabled` of `i915_tasklet.h`, which is not
among the sources: the dispatcher runs while its disable count is zero. -/
def __tasklet_is_enabled (g : Guc) : Bool := g.tasklet_count == 0

/-- Modelled from the spec: `__tasklet_enable` of `i915_tasklet.h`, which is not among
the sources: drops one disable of the dispatcher and tells whether it runs again. -/
def __tasklet_enable (g : Guc) : Bool × Guc :=
  (g.tasklet_count - 1 == 0, { g with tasklet_count := g.tasklet_count - 1 })

/-- Modelled from the spec: `__tasklet_disable_sync_once` of `i915_tasklet.h`, which
is not among the sources: disables the dispatcher once more. -/
def __tasklet_disable_sync_once (g : Guc) : Guc :=
  { g with tasklet_count := g.tasklet_count + 1 }

def submission_disabled (g : Guc) : Bool :=
  !g.has_sched_engine || !__tasklet_is_enabled g

def disable_submission (g : Guc) : Guc :=
  if __tasklet_is_enabled g then
    { __tasklet_disable_sync_once g with tasklet_callback := false }
  else g

def enable_submission (g : Guc) : Guc :=
  let g1 := { g with tasklet_callback := true }
  if !__tasklet_is_enabled g1 then
    let r := __tasklet_enable g1
    if r.1 then { r.2 with tasklet_scheduled := true } else r.2
  else g1

/-! ## Context registration -/

def __guc_action_register_multi_lrc (K : Fwif) (g : Guc) (ce guc_id offset : Nat)
    (loop : Bool) : Int × Guc :=
  let child_offsets := (List.range (g.ctx ce).guc_child_list.length).map
    (fun i => u32 (offset + (i + 1) * K.SIZEOF_GUC_LRC_DESC))
  guc_submission_send_busy_loop g
    (.register_context_multi_lrc guc_id ((g.ctx ce).guc_number_children + 1) offset
      child_offsets) 0 loop

def __guc_action_register_context (g : Guc) (guc_id offset : Nat) (loop : Bool) :
    Int × Guc :=
  guc_submission_send_busy_loop g (.register_context guc_id offset) 0 loop

def register_context (K : Fwif) (g : Guc) (ce : Nat) (loop : Bool) : Int × Guc :=
  let offset := u32 (g.lrc_desc_pool_offset + (g.ctx ce).guc_id * K.SIZEOF_GUC_LRC_DESC)
  let r :=
    if intel_context_is_parent (g.ctx ce) then
      __guc_action_register_multi_lrc K g ce (g.ctx ce).guc_id offset loop
    else __guc_action_register_context g (g.ctx ce).guc_id offset loop
  if r.1 = 0 then (r.1, r.2.set_ctx ce (set_context_registered (r.2.ctx ce))) else r

def __guc_action_deregister_context (K : Fwif) (g : Guc) (guc_id : Nat) (loop : Bool) :
    Int × Guc :=
  guc_submission_send_busy_loop g (.deregister_context guc_id)
    K.G2H_LEN_DW_DEREGISTER_CONTEXT loop

def deregister_context (K : Fwif) (g : Guc) (_ce guc_id : Nat) (loop : Bool) : Int × Guc :=
  __guc_action_deregister_context K g guc_id loop

/-- The part of `guc_lrc_desc_pin` that fills the descriptors of the children of a
parent (`for_each_child(ce, child) { desc = __get_lrc_desc(guc, child->guc_id.id);
... }`). -/
def fill_child_descs (K : Fwif) : Guc → List Nat → Guc
  | g, [] => g
  | g, child :: rest =>
    fill_child_descs K
      { g with lrc_desc_pool := fun i =>
          if i = (g.ctx child).guc_id then
            { g.lrc_desc_pool i with
              hw_context_desc := (g.ctx child).lrca,
              priority := K.GUC_CLIENT_PRIORITY_KMD_NORMAL,
              context_flags := K.CONTEXT_REGISTRATION_FLAG_KMD }
          else g.lrc_desc_pool i } rest

/-- The first part of `guc_lrc_desc_pin`: the identifier is bound to the context in
the registration store and the descriptors of the context and of its children are
filled in. -/
def guc_lrc_desc_pin_fill (K : Fwif) (g : Guc) (ce : Nat) : Guc :=
  let desc_idx := (g.ctx ce).guc_id
  let g1 := reset_lrc_desc g desc_idx
  let g2 := set_lrc_desc_registered g1 desc_idx ce
  let g3 := { g2 with lrc_desc_pool := fun i =>
    if i = desc_idx then
      { g2.lrc_desc_pool i with
        hw_context_desc := (g2.ctx ce).lrca,
        priority := (g2.ctx ce).prio,
        context_flags := K.CONTEXT_REGISTRATION_FLAG_KMD }
    else g2.lrc_desc_pool i }
  if intel_context_is_parent (g3.ctx ce) then
    let a := g3.set_ctx ce
      { g3.ctx ce with guc_wqi_tail := 0, guc_wqi_head := 0, desc_head := 0, desc_tail := 0 }
    let b := { a with lrc_desc_pool := fun i =>
      if i = desc_idx then { a.lrc_desc_pool i with wq_size := K.GUC_WQ_SIZE }
      else a.lrc_desc_pool i }
    fill_child_descs K b (b.ctx ce).guc_child_list
  else g3

def guc_lrc_desc_pin (K : Fwif) (g : Guc) (ce : Nat) (loop : Bool) : Int × Guc :=
  let desc_idx := (g.ctx ce).guc_id
  let context_registered := lrc_desc_registered g desc_idx
  let g4 := guc_lrc_desc_pin_fill K g ce
  if context_registered then
    let disabled := submission_disabled g4
    let g5 :=
      if !disabled then g4.set_ctx ce (set_context_wait_for_deregister_to_register (g4.ctx ce))
      else g4
    if disabled then (0, reset_lrc_desc g5 desc_idx)
    else
      let r := deregister_context K g5 ce (g5.ctx ce).guc_id loop
      if r.1 = -ENODEV then (0, r.2) else r
  else
    let r := register_context K g4 ce loop
    if r.1 = -EBUSY then (r.1, reset_lrc_desc r.2 desc_idx)
    else if r.1 = -ENODEV then (0, reset_lrc_desc r.2 desc_idx)
    else r

/-- Modelled from the spec: `intel_context_sched_disable_unpin` of
`gt/intel_context.h`, which is not among the sources: gives back the two pins taken
for a schedule disable and, when that was the last pin, unpins the context, which
for this backend ends in `unpin_guc_id` (`guc_context_unpin`). -/
def intel_context_sched_disable_unpin (K : Fwif) (g : Guc) (ce : Nat) : Guc :=
  let g1 := g.set_ctx ce { g.ctx ce with pin_count := (g.ctx ce).pin_count - 2 }
  if (g1.ctx ce).pin_count = 0 then unpin_guc_id K g1 ce else g1

/-- The context object is freed; the embedding keeps no allocation state. -/
def __guc_context_destroy (g : Guc) (_ce : Nat) : Guc := g

/-- Clears the wait flag; the requests fenced on the context, which it releases, are
not part of the embedding. -/
def guc_signal_context_fence (g : Guc) (ce : Nat) : Guc :=
  g.set_ctx ce (clr_context_wait_for_deregister_to_register (g.ctx ce))

/-! ## Scheduling-state operations -/

/-- The request is represented by its scheduling context `ce`; the two sends use the
next values of `ct_replies`. -/
def __guc_add_request (K : Fwif) (g : Guc) (ce : Nat) : Int × Guc :=
  if intel_context_is_banned (g.ctx ce) then (0, g)
  else if context_blocked (g.ctx ce) ≠ 0 ∧ !intel_context_is_parent (g.ctx ce) then (0, g)
  else
    let enabled := context_enabled (g.ctx ce) || decide (context_blocked (g.ctx ce) ≠ 0)
    if !enabled then
      let g1 := g.set_ctx ce (set_context_pending_enable (g.ctx ce))
      let r := intel_guc_send_nb g1 (.sched_context_mode_set (g1.ctx ce).guc_id true)
        K.G2H_LEN_DW_SCHED_CONTEXT_MODE_SET
      if r.1 = 0 then
        let g2 := { r.2 with outstanding_submission_g2h := r.2.outstanding_submission_g2h + 1 }
        let g3 := g2.set_ctx ce (set_context_enabled (g2.ctx ce))
        if intel_context_is_parent (g3.ctx ce) then
          intel_guc_send_nb g3 (.sched_context (g3.ctx ce).guc_id) 0
        else (r.1, g3)
      else (r.1, r.2.set_ctx ce (clr_context_pending_enable (r.2.ctx ce)))
    else intel_guc_send_nb g (.sched_context (g.ctx ce).guc_id) 0

def __guc_context_sched_enable (K : Fwif) (g : Guc) (ce : Nat) : Guc :=
  (guc_submission_send_busy_loop g (.sched_context_mode_set (g.ctx ce).guc_id true)
    K.G2H_LEN_DW_SCHED_CONTEXT_MODE_SET true).2

def __guc_context_sched_disable (K : Fwif) (g : Guc) (_ce guc_id : Nat) : Guc :=
  (guc_submission_send_busy_loop g (.sched_context_mode_set guc_id false)
    K.G2H_LEN_DW_SCHED_CONTEXT_MODE_SET true).2

/-- Sets `PENDING_DISABLE`, clears `ENABLED` and returns the identifier; arming the
blocked fence and taking a reference carry no state. -/
def prep_context_pending_disable (g : Guc) (ce : Nat) : Nat × Guc :=
  let g1 := g.set_ctx ce (set_context_pending_disable (g.ctx ce))
  let g2 := g1.set_ctx ce (clr_context_enabled (g1.ctx ce))
  ((g2.ctx ce).guc_id, g2)

def guc_context_block (K : Fwif) (g : Guc) (ce : Nat) : Guc :=
  let g1 := g.set_ctx ce (incr_context_blocked (g.ctx ce))
  let enabled := context_enabled (g1.ctx ce)
  if !enabled || submission_disabled g1 then
    if enabled then g1.set_ctx ce (clr_context_enabled (g1.ctx ce)) else g1
  else
    let g2 := g1.set_ctx ce { g1.ctx ce with pin_count := (g1.ctx ce).pin_count + 2 }
    let r := prep_context_pending_disable g2 ce
    __guc_context_sched_disable K r.2 ce r.1

def guc_context_unblock (K : Fwif) (g : Guc) (ce : Nat) : Guc :=
  let enable : Bool :=
    !(submission_disabled g || intel_context_is_banned (g.ctx ce) ||
      context_guc_id_invalid K (g.ctx ce) || !lrc_desc_registered g (g.ctx ce).guc_id ||
      !intel_context_is_pinned (g.ctx ce) || context_pending_disable (g.ctx ce) ||
      decide (context_blocked (g.ctx ce) > 1))
  let g1 :=
    if enable then
      let a := g.set_ctx ce (set_context_pending_enable (g.ctx ce))
      a.set_ctx ce (set_context_enabled (a.ctx ce))
    else g
  let g2 := g1.set_ctx ce (decr_context_blocked (g1.ctx ce))
  if enable then __guc_context_sched_enable K g2 ce else g2

def __guc_context_set_preemption_timeout (g : Guc) (guc_id preemption_timeout : Nat) : Guc :=
  (intel_guc_send_busy_loop g (.set_context_preemption_timeout guc_id preemption_timeout)
    0 true).2

/-- Cancelling the requests of the context and signalling breadcrumbs carry no
state. -/
def guc_context_ban (K : Fwif) (g : Guc) (ce : Nat) : Guc :=
  let g1 := g.set_ctx ce (set_context_banned (g.ctx ce))
  if submission_disabled g1 ||
      (!context_enabled (g1.ctx ce) && !context_pending_disable (g1.ctx ce)) then g1
  else if !context_pending_disable (g1.ctx ce) then
    let g2 := g1.set_ctx ce { g1.ctx ce with pin_count := (g1.ctx ce).pin_count + 2 }
    let r := prep_context_pending_disable g2 ce
    let g3 := __guc_context_set_preemption_timeout r.2 r.1 1
    __guc_context_sched_disable K g3 ce r.1
  else
    if !context_guc_id_invalid K (g1.ctx ce) then
      __guc_context_set_preemption_timeout g1 (g1.ctx ce).guc_id 1
    else g1

def guc_context_sched_disable (K : Fwif) (g : Guc) (ce : Nat) : Guc :=
  if submission_disabled g || context_guc_id_invalid K (g.ctx ce) ||
      !lrc_desc_registered g (g.ctx ce).guc_id then
    intel_context_sched_disable_unpin K (g.set_ctx ce (clr_context_enabled (g.ctx ce))) ce
  else if !context_enabled (g.ctx ce) then intel_context_sched_disable_unpin K g ce
  else
    let enabled := context_enabled (g.ctx ce)
    if !enabled || submission_disabled g then
      let g1 := if enabled then g.set_ctx ce (clr_context_enabled (g.ctx ce)) else g
      intel_context_sched_disable_unpin K g1 ce
    else if context_has_committed_requests (g.ctx ce) then
      intel_context_sched_disable_unpin K g ce
    else
      let r := prep_context_pending_disable g ce
      __guc_context_sched_disable K r.2 ce r.1

/-! ## Requests and the dispatcher -/

/-- Modelled from the spec: `intel_context_to_parent` is declared in
`gt/intel_context.h`, which is not among the sources. A group member is scheduled
through its leader, every other context through itself. -/
def intel_context_to_parent (g : Guc) (ce : Nat) : Nat :=
  match (g.ctx ce).parent with
  | some p => p
  | none => ce

/-- Modelled from the spec: `intel_context_is_parallel` is declared in
`gt/intel_context.h`, which is not among the sources. A context belongs to a parallel
group when it is a group leader or a group member. -/
def intel_context_is_parallel (ce : IntelContext) : Bool :=
  intel_context_is_child ce || intel_context_is_parent ce

def request_to_scheduling_context (g : Guc) (rq : Nat) : Nat :=
  intel_context_to_parent g (g.rq rq).context

def rq_prio (g : Guc) (rq : Nat) : Int := (g.rq rq).priority

def is_multi_lrc_rq (g : Guc) (rq : Nat) : Bool :=
  intel_context_is_parallel (g.ctx (g.rq rq).context)

def can_merge_rq (g : Guc) (rq last : Nat) : Bool :=
  request_to_scheduling_context g rq == request_to_scheduling_context g last

/-- Modelled from the spec: `intel_ring_set_tail` is declared in `gt/intel_ring.h`,
which is not among the sources. It moves the tail of the ring of the context to
`tail`. -/
def intel_ring_set_tail (g : Guc) (ce tail : Nat) : Guc :=
  g.set_ctx ce { g.ctx ce with ring_tail := tail }

/-- The register image `lrc_reg_state` the tail is copied to carries no state in the
embedding. -/
def guc_set_lrc_tail (g : Guc) (rq : Nat) : Guc :=
  intel_ring_set_tail g (g.rq rq).context (g.rq rq).tail

def guc_add_request (K : Fwif) (g : Guc) (rq : Nat) : Int × Guc :=
  let r := __guc_add_request K g (request_to_scheduling_context g rq)
  if r.1 = -EBUSY then
    (r.1, { r.2 with stalled_request := some rq,
                     submission_stall_reason := .STALL_ADD_REQUEST })
  else r

def guc_wq_item_append (K : Fwif) (g : Guc) (rq : Nat) : Int × Guc :=
  let ce := request_to_scheduling_context g rq
  if !intel_context_is_banned (g.ctx ce) then
    let r := __guc_wq_item_append K g ce
    if r.1 = -EBUSY then
      (r.1, { r.2 with stalled_request := some rq,
                       submission_stall_reason := .STALL_MOVE_LRC_TAIL })
    else r
  else (0, g)

def multi_lrc_submit (g : Guc) (rq : Nat) : Bool × Guc :=
  let ce := request_to_scheduling_context g rq
  let g1 := intel_ring_set_tail g (g.rq rq).context (g.rq rq).tail
  ((g1.rq rq).submit_parallel || intel_context_is_banned (g1.ctx ce), g1)

/-- Modelled from the spec: `tasklet_hi_schedule` and `tasklet_schedule` of
`linux/interrupt.h`, which is not among the sources: a dispatch pass is scheduled. -/
def tasklet_hi_schedule (g : Guc) : Guc := { g with tasklet_scheduled := true }

/-- Modelled from the spec: `tasklet_disable_nosync` of `linux/interrupt.h`, which is
not among the sources: disables the dispatcher once more. -/
def tasklet_disable_nosync (g : Guc) : Guc := { g with tasklet_count := g.tasklet_count + 1 }

/-! ### Priority of the requests in flight -/

def guc_context_set_prio (g : Guc) (ce prio : Nat) : Guc :=
  if (g.ctx ce).prio = prio ∨ submission_disabled g = true ∨
      context_registered (g.ctx ce) = false then
    g.set_ctx ce { g.ctx ce with prio := prio }
  else
    let g1 := (guc_submission_send_busy_loop g
      (.set_context_priority (g.ctx ce).guc_id prio) 0 true).2
    g1.set_ctx ce { g1.ctx ce with prio := prio }

def map_i915_prio_to_guc_prio (K : Fwif) (prio : Int) : Nat :=
  if prio = K.I915_PRIORITY_NORMAL then K.GUC_CLIENT_PRIORITY_KMD_NORMAL
  else if prio < K.I915_PRIORITY_NORMAL then K.GUC_CLIENT_PRIORITY_NORMAL
  else if prio < K.I915_PRIORITY_DISPLAY then K.GUC_CLIENT_PRIORITY_HIGH
  else K.GUC_CLIENT_PRIORITY_KMD_HIGH

def add_context_inflight_prio (ce : IntelContext) (guc_prio : Nat) : IntelContext :=
  let count := fun i => if i = guc_prio then u32 (ce.prio_count i + 1) else ce.prio_count i
  { ce with prio_count := count }

def sub_context_inflight_prio (ce : IntelContext) (guc_prio : Nat) : IntelContext :=
  let count := fun i => if i = guc_prio then u32_sub (ce.prio_count i) 1 else ce.prio_count i
  { ce with prio_count := count }

/-- The array `prio_count` has `GUC_CLIENT_PRIORITY_NUM` entries. -/
def update_context_prio (K : Fwif) (g : Guc) (ce : Nat) : Guc :=
  match (List.range K.GUC_CLIENT_PRIORITY_NUM).find?
      (fun i => (g.ctx ce).prio_count i != 0) with
  | some i => guc_context_set_prio g ce i
  | none => g

def new_guc_prio_higher (old_guc_prio new_guc_prio : Nat) : Bool :=
  decide (new_guc_prio < old_guc_prio)

/-- The hook `engine->add_active_request`. `list_move_tail` takes the link of the
request off the list it is on and puts it at the tail of the in-flight list of the
scheduling context; its callers in this file have taken the request off the priority
queue before, so only the in-flight list is searched for it. -/
def add_to_context (K : Fwif) (g : Guc) (rq : Nat) : Guc :=
  let ce := request_to_scheduling_context g rq
  let new_guc_prio := map_i915_prio_to_guc_prio K (rq_prio g rq)
  let g1 := g.set_ctx ce
    { g.ctx ce with requests := list_del_init (g.ctx ce).requests rq ++ [rq] }
  let g2 :=
    if (g1.rq rq).guc_prio = K.GUC_PRIO_INIT then
      let a := g1.set_rq rq { g1.rq rq with guc_prio := new_guc_prio }
      a.set_ctx ce (add_context_inflight_prio (a.ctx ce) (a.rq rq).guc_prio)
    else if new_guc_prio_higher (g1.rq rq).guc_prio new_guc_prio then
      let a := g1.set_ctx ce (sub_context_inflight_prio (g1.ctx ce) (g1.rq rq).guc_prio)
      let b := a.set_rq rq { a.rq rq with guc_prio := new_guc_prio }
      b.set_ctx ce (add_context_inflight_prio (b.ctx ce) (b.rq rq).guc_prio)
    else g1
  update_context_prio K g2 ce

/-- Modelled from the spec: `__i915_request_submit` of `i915_request.c`, which is not
among the sources: the request is marked submitted, handed to the hook
`add_active_request` of its engine, which `guc_default_vfuncs` sets to
`add_to_context`, and no longer marked queued. -/
def __i915_request_submit (K : Fwif) (g : Guc) (rq : Nat) : Guc :=
  let g1 := g.set_rq rq { g.rq rq with active := true }
  let g2 := add_to_context K g1 rq
  g2.set_rq rq { g2.rq rq with pqueue := false }

/-- Modelled from the spec: `__i915_request_unsubmit` of `i915_request.c`, which is
not among the sources: the request is no longer marked submitted. -/
def __i915_request_unsubmit (g : Guc) (rq : Nat) : Guc :=
  g.set_rq rq { g.rq rq with active := false }

/-! ### Priority queue -/

/-- Modelled from the spec: `i915_sched_engine_is_empty` of `i915_scheduler.h`, which
is not among the sources: the queue holds no priority list. -/
def i915_sched_engine_is_empty (g : Guc) : Bool := g.queue.isEmpty

/-- Adds an empty list of priority `prio` in front of the first list of lower
priority. -/
def priolist_insert (prio : Int) : List (Int × List Nat) → List (Int × List Nat)
  | [] => [(prio, [])]
  | p :: q => if p.1 < prio then (prio, []) :: p :: q else p :: priolist_insert prio q

/-- Modelled from the spec: `i915_sched_lookup_priolist` of `i915_scheduler.c`, which
is not among the sources: the queue is priority-ordered and has one list for every
priority queued; the list of priority `prio` is looked up and, when there is none
yet, an empty one is added in priority order. The result is the queue; the list
itself is named by its priority. -/
def i915_sched_lookup_priolist (queue : List (Int × List Nat)) (prio : Int) :
    List (Int × List Nat) :=
  if queue.any (fun p => p.1 == prio) then queue else priolist_insert prio queue

/-- The requests on the list of priority `prio`, head first. -/
def priolist (queue : List (Int × List Nat)) (prio : Int) : List Nat :=
  match queue.find? (fun p => p.1 == prio) with
  | some p => p.2
  | none => []

/-- Applies `f` to the list of priority `prio`: `list_add` is `f l = rq :: l` and
`list_add_tail` is `f l = l ++ [rq]`. -/
def priolist_update (queue : List (Int × List Nat)) (prio : Int)
    (f : List Nat → List Nat) : List (Int × List Nat) :=
  queue.map (fun p => if p.1 = prio then (p.1, f p.2) else p)

def queue_request (g : Guc) (rq : Nat) (prio : Int) : Guc :=
  let q := priolist_update (i915_sched_lookup_priolist g.queue prio) prio (fun l => l ++ [rq])
  let g1 := { g with queue := q }
  let g2 := g1.set_rq rq { g1.rq rq with pqueue := true }
  tasklet_hi_schedule g2

/-- The local `ret` is declared without an initialiser (`int ret;`) and is assigned
only on the paths that call `guc_wq_item_append` or `guc_add_request`; `ret_uninit`
is the indeterminate value it holds otherwise. -/
def guc_bypass_tasklet_submit (K : Fwif) (ret_uninit : Int) (g : Guc) (rq : Nat) :
    Int × Guc :=
  let g1 := __i915_request_submit K g rq
  let r : Int × Guc :=
    if is_multi_lrc_rq g1 rq then
      let m := multi_lrc_submit g1 rq
      if m.1 then
        let a := guc_wq_item_append K m.2 rq
        if a.1 = 0 then guc_add_request K a.2 rq else a
      else (ret_uninit, m.2)
    else guc_add_request K (guc_set_lrc_tail g1 rq) rq
  if r.1 = -EPIPE then (r.1, disable_submission r.2) else r

def need_tasklet (g : Guc) (rq : Nat) : Bool :=
  let ce := request_to_scheduling_context g rq
  submission_disabled g || g.stalled_request.isSome || !i915_sched_engine_is_empty g ||
    !lrc_desc_registered g (g.ctx ce).guc_id

/-- The argument `ret_uninit` is handed on to `guc_bypass_tasklet_submit`. -/
def guc_submit_request (K : Fwif) (ret_uninit : Int) (g : Guc) (rq : Nat) : Guc :=
  if need_tasklet g rq then queue_request g rq (rq_prio g rq)
  else
    let r := guc_bypass_tasklet_submit K ret_uninit g rq
    if r.1 = -EBUSY then tasklet_hi_schedule r.2 else r.2

/-! ### Dispatch pass -/

/-- A stage of a dispatch pass that has run: the stage, named by the stall reason it
records, the request it ran for and the value it returned (0 for a stage that was
skipped or returns nothing). -/
structure DequeueEvent where
  stage : StallReason
  rq : Nat
  ret : Int
  deriving DecidableEq, Repr

/-- The loop `priolist_for_each_request_consume` over the requests `l` of one
priority list. The result is the state, `last`, `submit`, the requests left on the
list and whether the loop was left by `goto register_context`. -/
def dequeue_priolist (K : Fwif) :
    Guc → Option Nat → Bool → List Nat → Guc × Option Nat × Bool × List Nat × Bool
  | g, last, submit, [] => (g, last, submit, [], false)
  | g, last, submit, rq :: rest =>
    if (match last with
        | some l => !can_merge_rq g rq l
        | none => false) then (g, last, submit, rq :: rest, true)
    else
      let g1 := __i915_request_submit K g rq
      if is_multi_lrc_rq g1 rq then
        let m := multi_lrc_submit g1 rq
        if m.1 then (m.2, some rq, true, rest, true)
        else dequeue_priolist K m.2 (some rq) submit rest
      else dequeue_priolist K g1 (some rq) true rest

/-- The loop `while ((rb = rb_first_cached(&sched_engine->queue)))` over the priority
lists `queue`; a list that has been consumed is erased. The result is the state,
`last`, `submit` and the queue that is left, which the caller stores. -/
def dequeue_queue (K : Fwif) :
    Guc → Option Nat → Bool → List (Int × List Nat) →
      Guc × Option Nat × Bool × List (Int × List Nat)
  | g, last, submit, [] => (g, last, submit, [])
  | g, last, submit, p :: q =>
    let r := dequeue_priolist K g last submit p.2
    if r.2.2.2.2 then (r.1, r.2.1, r.2.2.1, (p.1, r.2.2.2.1) :: q)
    else dequeue_queue K r.1 r.2.1 r.2.2.1 q

/-- The label `deadlk:`. -/
def dequeue_deadlk (g : Guc) : Guc :=
  tasklet_disable_nosync { g with tasklet_callback := false }

/-- The code from the label `add_request:` to the end of the function. -/
def dequeue_add_request (K : Fwif) (g : Guc) (last : Nat) :
    Bool × Guc × List DequeueEvent :=
  let r := guc_add_request K g last
  let ev : DequeueEvent := ⟨.STALL_ADD_REQUEST, last, r.1⟩
  if r.1 = -EPIPE then (false, dequeue_deadlk r.2, [ev])
  else if r.1 = -EBUSY then (false, tasklet_hi_schedule r.2, [ev])
  else if r.1 ≠ 0 then (false, dequeue_deadlk r.2, [ev])
  else
    (true, { r.2 with stalled_request := none, submission_stall_reason := .STALL_NONE },
      [ev])

/-- The code from the label `move_lrc_tail:` to the end of the function. -/
def dequeue_move_lrc_tail (K : Fwif) (g : Guc) (last : Nat) :
    Bool × Guc × List DequeueEvent :=
  if is_multi_lrc_rq g last then
    let r := guc_wq_item_append K g last
    let ev : DequeueEvent := ⟨.STALL_MOVE_LRC_TAIL, last, r.1⟩
    if r.1 = -EBUSY then (false, tasklet_hi_schedule r.2, [ev])
    else if r.1 ≠ 0 then (false, dequeue_deadlk r.2, [ev])
    else
      let n := dequeue_add_request K r.2 last
      (n.1, n.2.1, ev :: n.2.2)
  else
    let n := dequeue_add_request K (guc_set_lrc_tail g last) last
    (n.1, n.2.1, ⟨.STALL_MOVE_LRC_TAIL, last, 0⟩ :: n.2.2)

/-- The code from the label `register_context:`, inside `if (submit)`, to the end of
the function. -/
def dequeue_register_context (K : Fwif) (g : Guc) (last : Nat) :
    Bool × Guc × List DequeueEvent :=
  let ce := request_to_scheduling_context g last
  if !lrc_desc_registered g (g.ctx ce).guc_id && !intel_context_is_banned (g.ctx ce) then
    let r := guc_lrc_desc_pin K g ce false
    let ev : DequeueEvent := ⟨.STALL_REGISTER_CONTEXT, last, r.1⟩
    if r.1 = -EPIPE then (false, dequeue_deadlk r.2, [ev])
    else if r.1 = -EBUSY then
      (false, tasklet_hi_schedule
        { r.2 with stalled_request := some last,
                   submission_stall_reason := .STALL_REGISTER_CONTEXT }, [ev])
    else if r.1 ≠ 0 then (false, dequeue_deadlk r.2, [ev])
    else
      let n := dequeue_move_lrc_tail K r.2 last
      (n.1, n.2.1, ev :: n.2.2)
  else
    let n := dequeue_move_lrc_tail K g last
    (n.1, n.2.1, ⟨.STALL_REGISTER_CONTEXT, last, 0⟩ :: n.2.2)

/-- The result is the value returned, the state and the stages that have run, in
order. A stalled request with the reason `STALL_NONE` is the `MISSING_CASE` of the
switch, which falls through to the loop. -/
def guc_dequeue_one_context (K : Fwif) (g : Guc) : Bool × Guc × List DequeueEvent :=
  match g.stalled_request, g.submission_stall_reason with
  | some last, .STALL_REGISTER_CONTEXT => dequeue_register_context K g last
  | some last, .STALL_MOVE_LRC_TAIL => dequeue_move_lrc_tail K g last
  | some last, .STALL_ADD_REQUEST => dequeue_add_request K g last
  | stalled, _ =>
    let r := dequeue_queue K g stalled stalled.isSome g.queue
    let g1 := { r.1 with queue := r.2.2.2 }
    match r.2.2.1, r.2.1 with
    | true, some last => dequeue_register_context K g1 last
    | submit, _ =>
      (submit, { g1 with stalled_request := none, submission_stall_reason := .STALL_NONE },
        [])

/-! ## Reply handlers -/

def g2h_context_lookup (g : Guc) (desc_idx : Nat) : Option Nat :=
  if desc_idx ≥ g.max_guc_ids then none
  else
    match __get_context g desc_idx with
    | none => none
    | some ce => if intel_context_is_child (g.ctx ce) then none else some ce

/-- The message is the list of its dwords (`msg[0]` is read before the length is
checked); the self-test hook that drops a reply is compiled out. -/
def intel_guc_deregister_done_process_msg (K : Fwif) (g : Guc) (msg : List Nat)
    (len : Nat) : Int × Guc :=
  let desc_idx := msg.getD 0 0
  if len < 1 then (-EPROTO, g)
  else
    match g2h_context_lookup g desc_idx with
    | none => (-EPROTO, g)
    | some ce =>
      let g1 :=
        if context_wait_for_deregister_to_register (g.ctx ce) then
          guc_signal_context_fence (register_context K g ce true).2 ce
        else if context_destroyed (g.ctx ce) then
          __guc_context_destroy (release_guc_id K g ce) ce
        else g
      (0, decr_outstanding_submission_g2h g1)

/-- The message is the list of its dwords; the self-test hooks that drop a reply
are compiled out. Releasing the fenced requests, completing the blocked fence and
cancelling the requests of a banned context carry no state. -/
def intel_guc_sched_done_process_msg (K : Fwif) (g : Guc) (msg : List Nat) (len : Nat) :
    Int × Guc :=
  let desc_idx := msg.getD 0 0
  if len < 2 then (-EPROTO, g)
  else
    match g2h_context_lookup g desc_idx with
    | none => (-EPROTO, g)
    | some ce =>
      if context_destroyed (g.ctx ce) ||
          (!context_pending_enable (g.ctx ce) && !context_pending_disable (g.ctx ce)) then
        (-EPROTO, g)
      else
        let g1 :=
          if context_pending_enable (g.ctx ce) then
            g.set_ctx ce (clr_context_pending_enable (g.ctx ce))
          else if context_pending_disable (g.ctx ce) then
            let a := intel_context_sched_disable_unpin K g ce
            let b := a.set_ctx ce (clr_context_banned (a.ctx ce))
            b.set_ctx ce (clr_context_pending_disable (b.ctx ce))
          else g
        (0, decr_outstanding_submission_g2h g1)

/-! ## Reset -/

/-- The body of the loop of `scrub_guc_desc_for_outstanding_g2h` for one context of
the registration store. -/
def scrub_context (K : Fwif) (g : Guc) (ce : Nat) : Guc :=
  let destroyed := context_destroyed (g.ctx ce)
  let pending_enable := context_pending_enable (g.ctx ce)
  let pending_disable := context_pending_disable (g.ctx ce)
  let deregister := context_wait_for_deregister_to_register (g.ctx ce)
  let g1 := g.set_ctx ce (init_sched_state (g.ctx ce))
  let g2 :=
    if pending_enable || destroyed || deregister then
      let a := decr_outstanding_submission_g2h g1
      let b := if deregister then guc_signal_context_fence a ce else a
      if destroyed then __guc_context_destroy (release_guc_id K b ce) ce else b
    else g1
  if pending_disable then
    let a := guc_signal_context_fence g2 ce
    let b := intel_context_sched_disable_unpin K a ce
    decr_outstanding_submission_g2h b
  else g2

/-- The loop `xa_for_each(&guc->context_lookup, index, ce)` over the entries the
store had on entry, in ascending order of identifier; an entry erased in the
meantime is skipped, as the iteration looks up the next present entry afresh. -/
def scrub_loop (K : Fwif) : Guc → List (Nat × Nat) → Guc
  | g, [] => g
  | g, (index, ce) :: rest =>
    if xa_load g.context_lookup index = some ce then scrub_loop K (scrub_context K g ce) rest
    else scrub_loop K g rest

def scrub_guc_desc_for_outstanding_g2h (K : Fwif) (g : Guc) : Guc :=
  scrub_loop K g g.context_lookup

/-- Modelled from the spec: `intel_guc_global_policies_update` of `intel_guc_ads.c`,
which is not among the sources: re-applies the global scheduling policy, which
touches none of the state of the embedding. -/
def intel_guc_global_policies_update (g : Guc) : Guc := g

def intel_guc_submission_reset_finish (g : Guc) : Guc :=
  if !guc_submission_initialized g || g.wedged then g
  else
    let g1 := { g with outstanding_submission_g2h := 0 }
    let g2 := intel_guc_global_policies_update g1
    enable_submission g2

/-- One scheduling-state operation on a context, or the arrival of a schedule-done
reply, or the scrub of a reset. -/
inductive SchedOp where
  | add_request (ce : Nat)
  | block (ce : Nat)
  | unblock (ce : Nat)
  | ban (ce : Nat)
  | sched_disable (ce : Nat)
  | sched_done (msg : List Nat) (len : Nat)
  | scrub
  deriving DecidableEq, Repr

/-- Runs one scheduling-state operation. -/
def sched_step (K : Fwif) (g : Guc) : SchedOp → Guc
  | .add_request ce => (__guc_add_request K g ce).2
  | .block ce => guc_context_block K g ce
  | .unblock ce => guc_context_unblock K g ce
  | .ban ce => guc_context_ban K g ce
  | .sched_disable ce => guc_context_sched_disable K g ce
  | .sched_done msg len => (intel_guc_sched_done_process_msg K g msg len).2
  | .scrub => scrub_guc_desc_for_outstanding_g2h K g

/-- Runs a sequence of scheduling-state operations. -/
def sched_run (K : Fwif) (g : Guc) : List SchedOp → Guc
  | [] => g
  | op :: ops => sched_run K (sched_step K g op) ops

/-! ## Pinning an identifier -/

/-- What `pin_guc_id` does besides changing the submission state, in order: a call
of `assign_guc_id` with its return value, a sleep of `ms` milliseconds, a call of
`intel_gt_retire_requests`. -/
inductive PinEvent where
  | assign (ret : Int)
  | msleep (ms : Nat)
  | retire
  deriving DecidableEq, Repr

/-- The macro `PIN_GUC_ID_TRIES`. -/
def PIN_GUC_ID_TRIES : Nat := 4

/-- The part of `pin_guc_id` run under `submission_state.lock`, from the label
`try_again` to the label `out_unlock`. -/
def pin_guc_id_locked (K : Fwif) (g : Guc) (ce : Nat) : Int × Guc × List PinEvent :=
  let a : Option Int × Guc × List PinEvent :=
    if context_guc_id_invalid K (g.ctx ce) then
      let r := assign_guc_id K g ce
      if r.1 ≠ 0 then (some r.1, r.2, [.assign r.1]) else (none, r.2, [.assign r.1])
    else (none, g, [])
  match a with
  | (some ret, g1, ev) => (ret, g1, ev)
  | (none, g1, ev) =>
    let ret : Int := if context_guc_id_invalid K (g.ctx ce) then 1 else 0
    let g2 :=
      if g1.guc_id_list.contains ce then
        { g1 with guc_id_list := list_del_init g1.guc_id_list ce }
      else g1
    (ret, g2.set_ctx ce { g2.ctx ce with guc_id_ref := (g2.ctx ce).guc_id_ref + 1 }, ev)

/-- The loop of `pin_guc_id` entered at `try_again` while the variable `tries` holds
`n + 1`. The time slice of the engine of the context and `intel_gt_retire_requests`,
which is not among the sources and changes the state by retiring the requests that
have completed, are parameters. -/
def pin_guc_id_try (K : Fwif) (timeslice_duration_ms : Nat) (retire : Guc → Guc) (ce : Nat) :
    Nat → Guc → Int × Guc × List PinEvent
  | 0, g => pin_guc_id_locked K g ce
  | n + 1, g =>
    let r := pin_guc_id_locked K g ce
    if r.1 = -EAGAIN then
      let tries := n + 1
      let sleep : List PinEvent :=
        if PIN_GUC_ID_TRIES - tries > 1 then
          let timeslice_shifted :=
            u32 (timeslice_duration_ms <<< (PIN_GUC_ID_TRIES - tries - 2))
          [.msleep (max (min 100 timeslice_shifted) 1)]
        else []
      let rest := pin_guc_id_try K timeslice_duration_ms retire ce n (retire r.2.1)
      (rest.1, rest.2.1, r.2.2 ++ sleep ++ [.retire] ++ rest.2.2)
    else r

def pin_guc_id (K : Fwif) (timeslice_duration_ms : Nat) (retire : Guc → Guc) (g : Guc)
    (ce : Nat) : Int × Guc × List PinEvent :=
  pin_guc_id_try K timeslice_duration_ms retire ce (PIN_GUC_ID_TRIES - 1) g

/-! ## Identifier limit and context destruction -/

def intel_guc_submission_limit_ids (K : Fwif) (g : Guc) (limit : Nat) : Int × Guc :=
  if limit > K.GUC_MAX_LRC_DESCRIPTORS then (-E2BIG, g)
  else if !ida_is_empty g.guc_ids then (-ETXTBSY, g)
  else (0, { g with max_guc_ids := limit, num_guc_ids := min limit g.num_guc_ids })

/-- The return value of `deregister_context` is not looked at. -/
def guc_lrc_desc_unpin (K : Fwif) (g : Guc) (ce : Nat) : Guc :=
  let disabled := submission_disabled g
  let g1 :=
    if !disabled then
      let a := g.set_ctx ce (set_context_destroyed (g.ctx ce))
      a.set_ctx ce (clr_context_registered (a.ctx ce))
    else g
  if disabled then __guc_context_destroy (release_guc_id K g1 ce) ce
  else (deregister_context K g1 ce (g1.ctx ce).guc_id true).2

/-! ## Replay after a context reset and the other reply handlers -/

/-- The body of the loop of `__unwind_incomplete_requests` for a request that has not
completed. `prio` and `pl` are the locals of the function: `pl` names the priority
list that was looked up last by its priority and is `none` as long as the pointer is
not initialised, in which case the request taken off the in-flight list is put on no
list. The result is the state and the new values of `prio` and `pl`. -/
def unwind_request (g : Guc) (ce : Nat) (prio : Int) (pl : Option Int) (rq : Nat) :
    Guc × Int × Option Int :=
  let g1 := g.set_ctx ce { g.ctx ce with requests := list_del_init (g.ctx ce).requests rq }
  let g2 := __i915_request_unsubmit g1 rq
  let lookup := decide (rq_prio g2 rq ≠ prio)
  let prio1 := if lookup then rq_prio g2 rq else prio
  let pl1 := if lookup then some prio1 else pl
  let g3 := if lookup then { g2 with queue := i915_sched_lookup_priolist g2.queue prio1 } else g2
  let g4 :=
    match pl1 with
    | some p => { g3 with queue := priolist_update g3.queue p (fun l => rq :: l) }
    | none => g3
  (g4.set_rq rq { g4.rq rq with pqueue := true }, prio1, pl1)

/-- The loop `list_for_each_entry_safe_reverse` over the requests in flight, given
from the tail of the list to its head. -/
def unwind_loop (g : Guc) (ce : Nat) (prio : Int) (pl : Option Int) : List Nat → Guc :=
  fun l => match l with
  | [] => g
  | rq :: rest =>
    if (g.rq rq).completed then unwind_loop g ce prio pl rest
    else
      let s := unwind_request g ce prio pl rq
      unwind_loop s.1 ce s.2.1 s.2.2 rest

def __unwind_incomplete_requests (K : Fwif) (g : Guc) (ce : Nat) : Guc :=
  unwind_loop g ce K.I915_PRIORITY_INVALID none (g.ctx ce).requests.reverse

/-- The loop over the context and its children rewinds the ring of each to its
active request and rebuilds its register image (`guc_reset_state`), which carry no
state in the embedding. -/
def __guc_reset_context (K : Fwif) (g : Guc) (ce : Nat) (_stalled : Bool) : Guc :=
  if !context_pending_enable (g.ctx ce) then
    __unwind_incomplete_requests K (g.set_ctx ce (clr_context_enabled (g.ctx ce))) ce
  else g

/-- The error state that is captured is not part of the embedding. -/
def capture_error_state (g : Guc) (_ce : Nat) : Guc := g

def guc_context_replay (K : Fwif) (g : Guc) (ce : Nat) : Guc :=
  tasklet_hi_schedule (__guc_reset_context K g ce true)

def guc_handle_context_reset (K : Fwif) (g : Guc) (ce : Nat) : Guc :=
  if !intel_context_is_banned (g.ctx ce) && context_blocked (g.ctx ce) == 0 then
    guc_context_replay K (capture_error_state g ce) ce
  else g

def intel_guc_context_reset_process_msg (K : Fwif) (g : Guc) (msg : List Nat)
    (len : Nat) : Int × Guc :=
  if len ≠ 1 then (-EPROTO, g)
  else
    match g2h_context_lookup g (msg.getD 0 0) with
    | none => (-EPROTO, g)
    | some ce => (0, guc_handle_context_reset K g ce)

def intel_guc_error_capture_process_msg (g : Guc) (_msg : List Nat) (len : Nat) :
    Int × Guc :=
  if len ≠ 1 then (-EPROTO, g) else (0, g)

/-- The table `gt->engine_class` and the conversion `guc_class_to_engine_class` are
not among the sources and are parameters; an engine is represented by its mask. -/
def guc_lookup_engine (engine_class : Nat → Nat → Option Nat)
    (guc_class_to_engine_class : Nat → Nat) (guc_class inst : Nat) : Option Nat :=
  engine_class (guc_class_to_engine_class guc_class) inst

/-- The error handler `intel_gt_handle_error` of `gt/intel_reset.c` is not among the
sources and is a parameter, called with the mask of the engine. The class and the
instance are the low bytes of the first two dwords (`u8`). -/
def intel_guc_engine_failure_process_msg (engine_class : Nat → Nat → Option Nat)
    (guc_class_to_engine_class : Nat → Nat) (intel_gt_handle_error : Guc → Nat → Guc)
    (g : Guc) (msg : List Nat) (len : Nat) : Int × Guc :=
  if len ≠ 3 then (-EPROTO, g)
  else
    match guc_lookup_engine engine_class guc_class_to_engine_class
        (msg.getD 0 0 % 256) (msg.getD 1 0 % 256) with
    | none => (-EPROTO, g)
    | some mask => (0, intel_gt_handle_error g mask)

/-! ## Invariants used in the proofs -/

/-- The invariant of the allocator: identifiers of standalone contexts are
allocated in the single pool, regions of parents are set in the bitmap of the group
pool, no identifier is held twice, and the contexts whose identifier can be stolen
are standalone contexts with a valid identifier. -/
structure AllocInv (K : Fwif) (g : Guc) : Prop where
  wf : ∀ p c, c ∈ (g.ctx p).guc_child_list → intel_context_is_child (g.ctx c) = true
  single : ∀ c, intel_context_is_child (g.ctx c) = false →
    intel_context_is_parent (g.ctx c) = false → context_guc_id_invalid K (g.ctx c) = false →
    (g.ctx c).guc_id ∈ g.guc_ids ∧ NUMBER_MULTI_LRC_GUC_ID g ≤ (g.ctx c).guc_id
  group : ∀ c, intel_context_is_child (g.ctx c) = false →
    intel_context_is_parent (g.ctx c) = true → context_guc_id_invalid K (g.ctx c) = false →
    (∀ i, (g.ctx c).guc_id ≤ i → i < (g.ctx c).guc_id + guc_id_span (g.ctx c) →
      g.guc_ids_bitmap i = true) ∧
    (g.ctx c).guc_id + guc_id_span (g.ctx c) ≤ NUMBER_MULTI_LRC_GUC_ID g
  disjoint : ∀ a b i, a ≠ b → holds_guc_id K (g.ctx a) i = true →
    holds_guc_id K (g.ctx b) i = true → False
  list : ∀ c ∈ g.guc_id_list, intel_context_is_child (g.ctx c) = false ∧
    intel_context_is_parent (g.ctx c) = false ∧ context_guc_id_invalid K (g.ctx c) = false
  nodup : g.guc_id_list.Nodup

/-- What the body of the scrub loop has done to the state `g` it started from, for
the context `ce`, once it has counted `k` replies; `rel` tells whether the identifier
of the context has been released. -/
structure ScrubInv (K : Fwif) (g : Guc) (ce : Nat) (k : Int) (rel : Bool) (g1 : Guc) :
    Prop where
  h2g : g1.h2g = g.h2g
  count : g1.outstanding_submission_g2h = g.outstanding_submission_g2h - k
  sched : (g1.ctx ce).sched_state = (g.ctx ce).sched_state &&& SCHED_STATE_BLOCKED_MASK
  others : ∀ x, x ≠ ce → g1.ctx x = g.ctx x
  keeps : ∀ j c, xa_load g.context_lookup j = some c →
    (j ≠ (g.ctx ce).guc_id ∨ rel = false ∨ context_guc_id_invalid K (g.ctx ce) = true) →
    xa_load g1.context_lookup j = some c
  sub : ∀ j c, xa_load g1.context_lookup j = some c → xa_load g.context_lookup j = some c
  fresh : rel = false →
    g1.context_lookup = g.context_lookup ∧ (g1.ctx ce).guc_id = (g.ctx ce).guc_id

/-! ## Concrete states used to evaluate the embedding -/

/-- The submission state right after `intel_guc_submission_init`, with `num`
identifiers, the tasklet enabled and no context bound to an identifier. -/
def Guc.init (K : Fwif) (num : Nat) : Guc where
  ctx := fun _ => IntelContext.fresh K
  guc_ids := []
  guc_ids_bitmap := fun _ => false
  num_guc_ids := num
  max_guc_ids := num
  guc_id_list := []
  destroyed_contexts := []
  context_lookup := []
  lrc_desc_pool := fun _ => LrcDesc.zero
  lrc_desc_pool_vaddr := true
  lrc_desc_pool_offset := 0
  outstanding_submission_g2h := 0
  has_sched_engine := true
  tasklet_count := 0
  tasklet_callback := true
  tasklet_scheduled := false
  wedged := false
  ct_replies := []
  h2g := []
  rq := fun _ => ⟨0, 0, false, false, false, false, K.GUC_PRIO_INIT, 0⟩
  queue := []
  stalled_request := none
  submission_stall_reason := .STALL_NONE

/-- A parent context (handle 0, identifier 3) with one child (handle 1) whose work
queue has its tail at `tail`, its cached head at `head` and the head of the shared
descriptor at `dhead`. -/
def wq_demo (tail head dhead : Nat) : Guc :=
  ((Guc.init fwif_upstream 64).set_ctx 0
    { IntelContext.fresh fwif_upstream with
      guc_id := 3, guc_number_children := 1, guc_child_list := [1],
      guc_wqi_tail := tail, guc_wqi_head := head, desc_head := dhead, desc_tail := tail,
      ring_tail := 64 }).set_ctx 1
    { IntelContext.fresh fwif_upstream with guc_id := 4, parent := some 0, ring_tail := 128 }

/-- Thirty-four identifiers (two of them in the single pool), a parent context
(handle 0) with one child (handle 1) and otherwise standalone contexts. -/
def alloc_demo : Guc :=
  Guc.set_ctx
    (Guc.set_ctx (Guc.init fwif_upstream 34) 0
      { IntelContext.fresh fwif_upstream with guc_number_children := 1, guc_child_list := [1] })
    1 { IntelContext.fresh fwif_upstream with parent := some 0 }

/-- The calls run on `alloc_demo`: the parent and two standalone contexts take
identifiers, one of them is unpinned and robbed, the parent releases its region and
takes it again, and a last context finds the pool exhausted. -/
def alloc_demo_ops : List AllocOp :=
  [.assign 0, .assign 2, .assign 3, .unpin 2, .assign 4, .release 0, .assign 0, .assign 5]

/-- The state `alloc_demo_ops` leads to from `alloc_demo`. -/
def alloc_demo_final : Guc := (alloc_run fwif_upstream alloc_demo alloc_demo_ops).getD alloc_demo

/-- A pool of thirty-three identifiers, of which a single one (32) is for standalone
contexts, after context 2 has taken that identifier, registered and been unpinned:
the single pool is exhausted and context 2 is the only entry of the stealable
list. -/
def steal_demo : Guc :=
  unpin_guc_id fwif_upstream
    (guc_lrc_desc_pin fwif_upstream
      (assign_guc_id fwif_upstream (Guc.init fwif_upstream 33) 2).2 2 true).2 2

/-- The state `steal_demo` after context 3 has asked for an identifier. -/
def steal_demo_stolen : Guc := (assign_guc_id fwif_upstream steal_demo 3).2

/-- A state in the middle of a reset: `disable_submission` has disabled the
dispatcher and five replies are still counted as outstanding. `wedged` tells whether
the reset found the device wedged. -/
def reset_demo (wedged : Bool) : Guc :=
  { disable_submission (Guc.init fwif_upstream 64) with
    outstanding_submission_g2h := 5, wedged := wedged }

/-- The number of replies the reset scrub accounts for a context, in the words of the
specification: one if `PENDING_ENABLE`, `DESTROYED` or
`WAIT_FOR_DEREGISTER_TO_REGISTER` is set, and one more if `PENDING_DISABLE` is set. -/
def scrub_g2h_count (c : IntelContext) : Int :=
  (if context_pending_enable c || context_destroyed c ||
      context_wait_for_deregister_to_register c then 1 else 0) +
  (if context_pending_disable c then 1 else 0)

/-- Pins context `ce` and registers it under a fresh identifier, as the first
request of a context does: `assign_guc_id` followed by `guc_lrc_desc_pin`. -/
def demo_register (g : Guc) (ce : Nat) : Guc :=
  let g1 := (assign_guc_id fwif_upstream g ce).2
  (guc_lrc_desc_pin fwif_upstream (g1.set_ctx ce { g1.ctx ce with pin_count := 1 }) ce true).2

/-- Three pinned and registered contexts, 2, 3 and 4, none of them enabled yet. -/
def sched_demo_registered : Guc :=
  demo_register (demo_register (demo_register (Guc.init fwif_upstream 64) 2) 3) 4

/-- Three registered contexts, of which 2 and 3 wait for the reply to their schedule
enable and 4 has been enabled. -/
def scrub_demo_enabled : Guc :=
  sched_run fwif_upstream sched_demo_registered
    [.add_request 4, .sched_done [34, 1] 2, .add_request 2, .add_request 3]

/-- The state `scrub_demo_enabled` after the last pin of context 4 has been handed
to its schedule disable: contexts 2 and 3 wait for the reply to their schedule
enable, context 4 for the reply to its schedule disable, and three replies are
outstanding. -/
def scrub_demo : Guc :=
  guc_context_sched_disable fwif_upstream
    (scrub_demo_enabled.set_ctx 4 { scrub_demo_enabled.ctx 4 with pin_count := 2 }) 4

/-- A pool of thirty-three identifiers whose single identifier for standalone contexts
is held by the pinned context 2: both the pool and the stealable list have nothing
for another standalone context. -/
def pin_demo : Guc :=
  (pin_guc_id fwif_upstream 1 id (Guc.init fwif_upstream 33) 2).2.1

/-- Makes context `p` a parent with the `n` children `p + 1`, ..., `p + n`, none of
them bound to an identifier. -/
def demo_group (g : Guc) (p n : Nat) : Guc :=
  (List.range' (p + 1) n).foldl
    (fun g1 c => g1.set_ctx c { IntelContext.fresh fwif_upstream with parent := some p })
    (g.set_ctx p
      { IntelContext.fresh fwif_upstream with
        guc_number_children := n, guc_child_list := List.range' (p + 1) n })

/-- Sixty-four identifiers, five parents (0, 10, 20, 30 and 40) with seven children
each and the standalone context 50, which holds identifier 32 and is on the stealable
list. -/
def group_demo : Guc :=
  let g := demo_group (demo_group (demo_group (demo_group (demo_group
    (Guc.init fwif_upstream 64) 0 7) 10 7) 20 7) 30 7) 40 7
  unpin_guc_id fwif_upstream (assign_guc_id fwif_upstream g 50).2 50

/-- The state `group_demo` after the parents 0, 10, 20 and 30 have taken the four
regions of eight identifiers of the group pool. -/
def group_demo_full : Guc :=
  (assign_guc_id fwif_upstream (assign_guc_id fwif_upstream (assign_guc_id fwif_upstream
    (assign_guc_id fwif_upstream group_demo 0).2 10).2 20).2 30).2

/-- An idle allocator with three parents (0, 10 and 20) of seven children each, after
`intel_guc_submission_limit_ids` has accepted a limit of 16 identifiers. -/
def limit_demo : Guc :=
  (intel_guc_submission_limit_ids fwif_upstream
    (demo_group (demo_group (demo_group (Guc.init fwif_upstream 64) 0 7) 10 7) 20 7) 16).2

/-- The state `limit_demo` after the parents 0, 10 and 20 have taken identifiers. -/
def limit_demo_assigned : Guc :=
  (assign_guc_id fwif_upstream (assign_guc_id fwif_upstream
    (assign_guc_id fwif_upstream limit_demo 0).2 10).2 20).2

/-- A standalone context 2 that has just been given identifier 32 and is not yet
registered, with a transport that is broken: its next send fails with `-EPIPE`. -/
def register_fail_demo : Guc :=
  { (assign_guc_id fwif_upstream (Guc.init fwif_upstream 64) 2).2 with ct_replies := [-EPIPE] }

/-- The state `sched_demo_registered` after context 2 has been enabled, the reply to
its schedule enable has arrived, and it has been blocked once: the schedule disable
of the block is in flight. -/
def unblock_demo : Guc :=
  sched_run fwif_upstream sched_demo_registered
    [.add_request 2, .sched_done [32, 1] 2, .block 2]

/-- The state `unblock_demo` after the reply to the schedule disable of context 2 has
arrived: the context is blocked once and disabled, with no reply outstanding. -/
def unblock_demo_disabled : Guc :=
  sched_run fwif_upstream unblock_demo [.sched_done [32, 0] 2]

/-- The parent context 0 of `wq_demo`, with identifier 3 and an empty work queue,
after it has been blocked once while not enabled. -/
def blocked_parent_demo : Guc := guc_context_block fwif_upstream (wq_demo 0 0 0) 0

/-- The state `sched_demo_registered` with four requests of context 2 in flight, 10 to
13, of which 11 has completed; request 12 has priority 5 and the others priority 0.
Request 20 of context 3, of priority 0, is queued. -/
def unwind_demo : Guc :=
  let g := sched_demo_registered.set_ctx 2
    { sched_demo_registered.ctx 2 with requests := [10, 11, 12, 13] }
  { g with
    rq := fun i =>
      ⟨if i = 20 then 3 else 2, if i = 12 then 5 else 0, false, i == 20, i != 20, i == 11,
        fwif_upstream.GUC_PRIO_INIT, 0⟩,
    queue := [(0, [20])] }

/-- The two states have the same priority queue and the same record of a stalled
request. -/
structure DispatchFrame (g g1 : Guc) : Prop where
  queue : g1.queue = g.queue
  stalled_request : g1.stalled_request = g.stalled_request
  reason : g1.submission_stall_reason = g.submission_stall_reason

/-- The context `c1` is `c` up to its in-flight list and its priority bookkeeping. -/
def CtxUpd (c c1 : IntelContext) : Prop :=
  ∃ rs pc pr, c1 = { c with requests := rs, prio_count := pc, prio := pr }

/-- The request `r1` is `r` up to its submitted and queued marks and its `guc_prio`. -/
def RqUpd (r r1 : I915Request) : Prop :=
  ∃ a q gp, r1 = { r with active := a, pqueue := q, guc_prio := gp }

/-- What submitting a request changes at most: the in-flight lists and the priority
bookkeeping of the contexts, the marks of the requests, and the transport, to which
only priority updates are handed. -/
def SubmitFrame (g g1 : Guc) : Prop :=
  ∃ c rt r msgs, g1 = { g with ctx := c, rq := rt, ct_replies := r, h2g := g.h2g ++ msgs } ∧
    (∀ x, CtxUpd (g.ctx x) (c x)) ∧ (∀ i, RqUpd (g.rq i) (rt i)) ∧
    ∀ m ∈ msgs, ∃ id p, m = H2G.set_context_priority id p

/-- A parent context (handle 0) with one child (handle 1), pinned and registered with
identifiers 0 and 1. Every request of this state is a request of the parent that does
not carry `I915_FENCE_FLAG_SUBMIT_PARALLEL`. -/
def bypass_demo : Guc := demo_register (demo_group (Guc.init fwif_upstream 64) 0 1) 0

/-- The state `sched_demo_registered` after `disable_submission`; every request of
this state is a request of the registered context 2 with priority 0. -/
def disabled_demo : Guc :=
  { disable_submission sched_demo_registered with
    rq := fun _ => ⟨2, 0, false, false, false, false, fwif_upstream.GUC_PRIO_INIT, 0⟩ }

/-- What the stages of a dispatch pass run for the request `last` from the state `g`
guarantee about their result `out`: the queue is untouched; every stage ran for `last`;
a stage that returned `-EBUSY` left `last` recorded as stalled at that stage; if every
stage returned 0 no stall is recorded; and after a hard failure the record of a stalled
request is the one of `g`. -/
def StageSpec (g : Guc) (last : Nat) (out : Bool × Guc × List DequeueEvent) : Prop :=
  out.2.1.queue = g.queue ∧
  (∀ e ∈ out.2.2, e.rq = last ∧ e.stage ≠ StallReason.STALL_NONE) ∧
  (∀ e ∈ out.2.2, e.ret = -EBUSY →
    out.2.1.stalled_request = some last ∧ out.2.1.submission_stall_reason = e.stage) ∧
  ((∀ e ∈ out.2.2, e.ret = 0) →
    out.2.1.stalled_request = none ∧
    out.2.1.submission_stall_reason = StallReason.STALL_NONE) ∧
  ((∃ e ∈ out.2.2, e.ret ≠ 0 ∧ e.ret ≠ -EBUSY) →
    out.2.1.stalled_request = g.stalled_request ∧
    out.2.1.submission_stall_reason = g.submission_stall_reason)

/-- The state `sched_demo_registered` with request 10 of the registered context 2
queued at priority 0 and a transport that accepts the next message and answers the one
after it with `-EBUSY`. -/
def stall_demo : Guc :=
  { sched_demo_registered with
    rq := fun _ => ⟨2, 0, false, true, false, false, fwif_upstream.GUC_PRIO_INIT, 0⟩,
    queue := [(0, [10])],
    ct_replies := [0, -EBUSY] }

/-- The state a dispatch pass leaves `stall_demo` in. -/
def stall_demo_stalled : Guc := (guc_dequeue_one_context fwif_upstream stall_demo).2.1

/-- The state after `guc_context_block` has been called `n` times in a row for
context 2 of a fresh submission state, without an unblock in between. -/
def blocked_demo (n : Nat) : Guc :=
  (fun g => guc_context_block fwif_upstream g 2)^[n] (Guc.init fwif_upstream 64)

/-- The state `sched_demo_registered` after the descriptor pool has been destroyed
(`guc_lrc_desc_pool_destroy` in `intel_guc_submission_fini`): submission is no longer
initialised while the identifiers 32, 33 and 34 are still in the registration store. -/
def fini_demo : Guc := { sched_demo_registered with lrc_desc_pool_vaddr := false }

/-! # Properties -/

/-! ## Work-queue ring writer: auxiliary facts -/

theorem circ_space_eq (N k tail head : Nat) (hN : N = 2 ^ k) (hk : k < 32)
    (ht : tail < N) (hh : head < N) :
    CIRC_SPACE tail head N = if tail < head then head - tail - 1 else N + head - tail - 1 := by
  have hdvd : (2:Nat) ^ k ∣ 2 ^ 32 := Nat.pow_dvd_pow 2 (by omega)
  obtain ⟨m, hm⟩ := hdvd
  have hlt : (2:Nat) ^ k < 2 ^ 32 := Nat.pow_lt_pow_right (by norm_num) hk
  have hNpos : 0 < N := by omega
  have hm1 : 1 ≤ m := by
    rcases Nat.eq_zero_or_pos m with h | h
    · subst h; simp at hm
    · exact h
  unfold CIRC_SPACE CIRC_CNT u32_sub
  rw [hN, Nat.and_pow_two_sub_one_eq_mod, Nat.mod_mod_of_dvd _ ⟨m, hm⟩]
  have h1 : head % 2 ^ 32 = head := Nat.mod_eq_of_lt (by omega)
  have h2 : (tail + 1) % 2 ^ 32 = tail + 1 := Nat.mod_eq_of_lt (by omega)
  rw [h1, h2, hm, ← hN]
  obtain ⟨m', rfl⟩ : ∃ m', m = m' + 1 := ⟨m - 1, by omega⟩
  have e : head + N * (m' + 1) - (tail + 1) = (head + N - tail - 1) + N * m' := by
    rw [Nat.mul_add, Nat.mul_one]; omega
  rw [e, Nat.add_mul_mod_self_left]
  split
  · rw [Nat.mod_eq_sub_mod (by omega), Nat.mod_eq_of_lt (by omega)]; omega
  · rw [Nat.mod_eq_of_lt (by omega)]; omega

theorem EBUSY_ne : (-EBUSY : Int) ≠ 0 := by decide

theorem u32_sub_eq (a b : Nat) (h : b ≤ a) (ha : a < 2 ^ 32) : u32_sub a b = a - b := by
  unfold u32_sub
  have h1 : a % 2 ^ 32 = a := Nat.mod_eq_of_lt ha
  have h2 : b % 2 ^ 32 = b := Nat.mod_eq_of_lt (by omega)
  rw [h1, h2]
  omega

theorem wq_size_facts (K : Fwif) (k : Nat) (hN : K.GUC_WQ_SIZE = 2 ^ k) (hk2 : 2 ≤ k)
    (hk : k < 32) : K.GUC_WQ_SIZE < 2 ^ 32 ∧ K.GUC_WQ_SIZE % 4 = 0 ∧ 4 ≤ K.GUC_WQ_SIZE := by
  have hlt : (2:Nat) ^ k < 2 ^ 32 := Nat.pow_lt_pow_right (by norm_num) hk
  obtain ⟨j, rfl⟩ : ∃ j, k = j + 2 := ⟨k - 2, by omega⟩
  have : (2:Nat) ^ (j + 2) = 4 * 2 ^ j := by rw [pow_add]; ring
  have hp : 0 < (2:Nat) ^ j := Nat.pow_pos (by norm_num)
  rw [hN]
  omega

theorem wq_item_dwords_length (K : Fwif) (c : IntelContext) (sz : Nat) (tails : List Nat) :
    (wq_item_dwords K c sz tails).length = tails.length + 4 := by
  simp [wq_item_dwords]

theorem mem_wq_store_new (wqi n : Nat) (ds : List Nat) (p : Nat × Nat)
    (hp : p ∈ (List.range' wqi n).zip ds) : wqi ≤ p.1 ∧ p.1 < wqi + n := by
  have := (List.of_mem_zip (show (p.1, p.2) ∈ _ from hp)).1
  rw [List.mem_range'_1] at this
  exact this

/-- What `__guc_wq_item_append` computes, path by path: `hA` is the cached head
after the padding step, `T1` the tail the entry is written at, `hB` the cached head
after the entry step. -/
theorem wq_item_append_spec (K : Fwif) (g : Guc) (ce sz pad hA T1 hB : Nat)
    (hsz : sz = u32 (((g.ctx ce).guc_number_children + 4) * 4))
    (hpad : pad = wq_space_until_wrap K (g.ctx ce))
    (hhA : hA = if sz > pad ∧
        pad > CIRC_SPACE (g.ctx ce).guc_wqi_tail (g.ctx ce).guc_wqi_head K.GUC_WQ_SIZE
      then (g.ctx ce).desc_head else (g.ctx ce).guc_wqi_head)
    (hT1 : T1 = if sz > pad then 0 else (g.ctx ce).guc_wqi_tail)
    (hhB : hB = if sz > CIRC_SPACE T1 hA K.GUC_WQ_SIZE then (g.ctx ce).desc_head else hA) :
    ((__guc_wq_item_append K g ce).1 =
      if (sz ≤ pad ∨ pad ≤ CIRC_SPACE (g.ctx ce).guc_wqi_tail hA K.GUC_WQ_SIZE) ∧
          sz ≤ CIRC_SPACE T1 hB K.GUC_WQ_SIZE then 0 else -EBUSY) ∧
    (((__guc_wq_item_append K g ce).2.ctx ce).guc_wqi_tail =
      if (sz ≤ pad ∨ pad ≤ CIRC_SPACE (g.ctx ce).guc_wqi_tail hA K.GUC_WQ_SIZE) ∧
          sz ≤ CIRC_SPACE T1 hB K.GUC_WQ_SIZE then u32 (T1 + sz) &&& (K.GUC_WQ_SIZE - 1)
      else if sz > pad ∧ pad ≤ CIRC_SPACE (g.ctx ce).guc_wqi_tail hA K.GUC_WQ_SIZE then 0
      else (g.ctx ce).guc_wqi_tail) ∧
    (((__guc_wq_item_append K g ce).2.ctx ce).desc_tail =
      if (sz ≤ pad ∨ pad ≤ CIRC_SPACE (g.ctx ce).guc_wqi_tail hA K.GUC_WQ_SIZE) ∧
          sz ≤ CIRC_SPACE T1 hB K.GUC_WQ_SIZE then u32 (T1 + sz) &&& (K.GUC_WQ_SIZE - 1)
      else (g.ctx ce).desc_tail) ∧
    (((__guc_wq_item_append K g ce).2.ctx ce).wq =
      ((g.ctx ce).wq ++
        (if sz > pad ∧ pad ≤ CIRC_SPACE (g.ctx ce).guc_wqi_tail hA K.GUC_WQ_SIZE then
          [((g.ctx ce).guc_wqi_tail / 4,
            u32 (K.WQ_TYPE_NOOP ||| (u32_sub (pad / 4) 1 <<< K.WQ_LEN_SHIFT)))] else [])) ++
        (if (sz ≤ pad ∨ pad ≤ CIRC_SPACE (g.ctx ce).guc_wqi_tail hA K.GUC_WQ_SIZE) ∧
          sz ≤ CIRC_SPACE T1 hB K.GUC_WQ_SIZE then
          (List.range' (T1 / 4) (wq_item_dwords K (g.ctx ce) sz
              ((g.ctx ce).guc_child_list.map (fun child => (g.ctx child).ring_tail))).length).zip
            (wq_item_dwords K (g.ctx ce) sz
              ((g.ctx ce).guc_child_list.map (fun child => (g.ctx child).ring_tail)))
         else [])) := by
  generalize hc : g.ctx ce = c at *
  have hE' : EBUSY ≠ 0 := by decide
  simp only [wq_space_until_wrap] at hpad
  by_cases hw : sz > pad
  · by_cases h1 : pad > CIRC_SPACE c.guc_wqi_tail c.guc_wqi_head K.GUC_WQ_SIZE
    · simp only [hw, h1, and_self, ↓reduceIte] at hhA hT1
      subst hhA hT1
      by_cases h2 : pad > CIRC_SPACE c.guc_wqi_tail c.desc_head K.GUC_WQ_SIZE
      · simp only [__guc_wq_item_append, hc, ← hsz, guc_wq_noop_append, get_wq_pointer,
          AVAILABLE_SPACE, wq_space_until_wrap, ← hpad, hw, h1, h2, ↓reduceIte, Guc.set_ctx]
        simp [hE', Nat.not_le.2 hw, Nat.not_le.2 h2]
      · by_cases h3 : sz > CIRC_SPACE 0 c.desc_head K.GUC_WQ_SIZE
        · simp only [h3, ↓reduceIte] at hhB
          subst hhB
          simp only [__guc_wq_item_append, hc, ← hsz, guc_wq_noop_append, get_wq_pointer,
            AVAILABLE_SPACE, wq_space_until_wrap, ← hpad, hw, h1, h2, h3, ↓reduceIte,
            Guc.set_ctx]
          simp [hE', Nat.not_le.2 hw, Nat.not_le.2 h3, Nat.le_of_not_gt h2, hw]
        · simp only [h3, ↓reduceIte] at hhB
          subst hhB
          simp only [__guc_wq_item_append, hc, ← hsz, guc_wq_noop_append, get_wq_pointer,
            AVAILABLE_SPACE, wq_space_until_wrap, ← hpad, hw, h1, h2, h3, ↓reduceIte,
            Guc.set_ctx]
          simp [hE', Nat.not_le.2 hw, Nat.le_of_not_gt h3, Nat.le_of_not_gt h2, hw,
            write_wqi, wq_store, wq_item_dwords]
    · simp only [hw, h1, and_false, ↓reduceIte] at hhA hT1
      subst hhA hT1
      by_cases h3 : sz > CIRC_SPACE 0 c.guc_wqi_head K.GUC_WQ_SIZE
      · simp only [h3, ↓reduceIte] at hhB
        subst hhB
        by_cases h4 : sz > CIRC_SPACE 0 c.desc_head K.GUC_WQ_SIZE
        · simp only [__guc_wq_item_append, hc, ← hsz, guc_wq_noop_append, get_wq_pointer,
            AVAILABLE_SPACE, wq_space_until_wrap, ← hpad, hw, h1, h3, h4, ↓reduceIte,
            Guc.set_ctx]
          simp [hE', Nat.not_le.2 hw, Nat.not_le.2 h4, Nat.le_of_not_gt h1, hw]
        · simp only [__guc_wq_item_append, hc, ← hsz, guc_wq_noop_append, get_wq_pointer,
            AVAILABLE_SPACE, wq_space_until_wrap, ← hpad, hw, h1, h3, h4, ↓reduceIte,
            Guc.set_ctx]
          simp [hE', Nat.not_le.2 hw, Nat.le_of_not_gt h4, Nat.le_of_not_gt h1, hw,
            write_wqi, wq_store, wq_item_dwords]
      · simp only [h3, ↓reduceIte] at hhB
        subst hhB
        simp only [__guc_wq_item_append, hc, ← hsz, guc_wq_noop_append, get_wq_pointer,
          AVAILABLE_SPACE, wq_space_until_wrap, ← hpad, hw, h1, h3, ↓reduceIte,
          Guc.set_ctx]
        simp [hE', Nat.not_le.2 hw, Nat.le_of_not_gt h3, Nat.le_of_not_gt h1, hw,
          write_wqi, wq_store, wq_item_dwords]
  · simp only [hw, false_and, ↓reduceIte] at hhA hT1
    subst hhA hT1
    by_cases h3 : sz > CIRC_SPACE c.guc_wqi_tail c.guc_wqi_head K.GUC_WQ_SIZE
    · simp only [h3, ↓reduceIte] at hhB
      subst hhB
      by_cases h4 : sz > CIRC_SPACE c.guc_wqi_tail c.desc_head K.GUC_WQ_SIZE
      · simp only [__guc_wq_item_append, hc, ← hsz, guc_wq_noop_append, get_wq_pointer,
          AVAILABLE_SPACE, wq_space_until_wrap, ← hpad, hw, h3, h4, ↓reduceIte,
          Guc.set_ctx]
        simp [hE', Nat.le_of_not_gt hw, Nat.not_le.2 h4, hw]
      · simp only [__guc_wq_item_append, hc, ← hsz, guc_wq_noop_append, get_wq_pointer,
          AVAILABLE_SPACE, wq_space_until_wrap, ← hpad, hw, h3, h4, ↓reduceIte,
          Guc.set_ctx]
        simp [hE', Nat.le_of_not_gt hw, Nat.le_of_not_gt h4, hw,
          write_wqi, wq_store, wq_item_dwords]
    · simp only [h3, ↓reduceIte] at hhB
      subst hhB
      simp only [__guc_wq_item_append, hc, ← hsz, guc_wq_noop_append, get_wq_pointer,
        AVAILABLE_SPACE, wq_space_until_wrap, ← hpad, hw, h3, ↓reduceIte,
        Guc.set_ctx]
      simp [hE', Nat.le_of_not_gt hw, Nat.le_of_not_gt h3, hw,
        write_wqi, wq_store, wq_item_dwords]

theorem ring_offset_ahead (x N T : Nat) (hT : T ≤ x) (h : x - T < N) :
    (x + N - T) % N = x - T := by
  have e : x + N - T = (x - T) + N := by omega
  rw [e, Nat.add_mod_right, Nat.mod_eq_of_lt h]

theorem ring_offset_wrapped (x N T : Nat) (hx : x < T) (hT : T ≤ N) :
    (x + N - T) % N = x + N - T := Nat.mod_eq_of_lt (by omega)

/-- C3: for a dword-aligned tail and heads below `GUC_WQ_SIZE` (a power of two),
with the cached head a stale copy of the true head `desc_head` (the firmware only
advances the head, so the true free space is at least the cached one), a successful
`__guc_wq_item_append` consumes `pad` bytes of padding (none, or the bytes up to
the buffer end) plus the entry, never more than `CIRC_SPACE(tail, head)` for the
true head; the published tail moves forward by exactly that amount, and every
dword it stores lies in the free region in front of the old tail. -/
theorem wq_item_append_within_free_space (K : Fwif) (g : Guc) (ce k : Nat)
    (hN : K.GUC_WQ_SIZE = 2 ^ k) (hk2 : 2 ≤ k) (hk : k < 32)
    (htail : (g.ctx ce).guc_wqi_tail < K.GUC_WQ_SIZE)
    (halign : (g.ctx ce).guc_wqi_tail % 4 = 0)
    (hhead : (g.ctx ce).guc_wqi_head < K.GUC_WQ_SIZE)
    (hdesc : (g.ctx ce).desc_head < K.GUC_WQ_SIZE)
    (hstale : CIRC_SPACE (g.ctx ce).guc_wqi_tail (g.ctx ce).guc_wqi_head K.GUC_WQ_SIZE
        ≤ CIRC_SPACE (g.ctx ce).guc_wqi_tail (g.ctx ce).desc_head K.GUC_WQ_SIZE)
    (hlen : (g.ctx ce).guc_child_list.length = (g.ctx ce).guc_number_children)
    (hsz : ((g.ctx ce).guc_number_children + 4) * 4 < 2 ^ 32)
    (hret : (__guc_wq_item_append K g ce).1 = 0) :
    ∃ pad ws,
      (pad = 0 ∨ (g.ctx ce).guc_wqi_tail + pad = K.GUC_WQ_SIZE) ∧
      ((__guc_wq_item_append K g ce).2.ctx ce).guc_wqi_tail =
        ((g.ctx ce).guc_wqi_tail + pad + ((g.ctx ce).guc_number_children + 4) * 4)
          % K.GUC_WQ_SIZE ∧
      ((__guc_wq_item_append K g ce).2.ctx ce).desc_tail =
        ((__guc_wq_item_append K g ce).2.ctx ce).guc_wqi_tail ∧
      pad + ((g.ctx ce).guc_number_children + 4) * 4 ≤
        CIRC_SPACE (g.ctx ce).guc_wqi_tail (g.ctx ce).desc_head K.GUC_WQ_SIZE ∧
      ((__guc_wq_item_append K g ce).2.ctx ce).wq = (g.ctx ce).wq ++ ws ∧
      ∀ p ∈ ws, (p.1 * 4 + K.GUC_WQ_SIZE - (g.ctx ce).guc_wqi_tail) % K.GUC_WQ_SIZE + 4 ≤
        CIRC_SPACE (g.ctx ce).guc_wqi_tail (g.ctx ce).desc_head K.GUC_WQ_SIZE := by
  obtain ⟨hN32, hN4, hNge⟩ := wq_size_facts K k hN hk2 hk
  have hdvd : (2:Nat) ^ k ∣ 2 ^ 32 := Nat.pow_dvd_pow 2 (by omega)
  have hszeq : ((g.ctx ce).guc_number_children + 4) * 4 =
      u32 (((g.ctx ce).guc_number_children + 4) * 4) := (Nat.mod_eq_of_lt hsz).symm
  have hpadeq : K.GUC_WQ_SIZE - (g.ctx ce).guc_wqi_tail = wq_space_until_wrap K (g.ctx ce) :=
    (u32_sub_eq _ _ (by omega) hN32).symm
  have hSD := circ_space_eq K.GUC_WQ_SIZE k _ _ hN hk htail hdesc
  have hSH := circ_space_eq K.GUC_WQ_SIZE k _ _ hN hk htail hhead
  have hS0D := circ_space_eq K.GUC_WQ_SIZE k 0 _ hN hk (by omega) hdesc
  have hS0H := circ_space_eq K.GUC_WQ_SIZE k 0 _ hN hk (by omega) hhead
  have hmask : ∀ x, u32 x &&& (K.GUC_WQ_SIZE - 1) = x % K.GUC_WQ_SIZE := by
    intro x
    rw [hN, Nat.and_pow_two_sub_one_eq_mod, u32, Nat.mod_mod_of_dvd _ hdvd]
  have hlen' : (wq_item_dwords K (g.ctx ce) (((g.ctx ce).guc_number_children + 4) * 4)
      ((g.ctx ce).guc_child_list.map (fun child => (g.ctx child).ring_tail))).length
      = (g.ctx ce).guc_number_children + 4 := by
    rw [wq_item_dwords_length, List.length_map, hlen]
  -- the heads the two steps end up using
  obtain ⟨hA, hhA⟩ : ∃ hA, hA = if ((g.ctx ce).guc_number_children + 4) * 4 >
        K.GUC_WQ_SIZE - (g.ctx ce).guc_wqi_tail ∧ K.GUC_WQ_SIZE - (g.ctx ce).guc_wqi_tail >
        CIRC_SPACE (g.ctx ce).guc_wqi_tail (g.ctx ce).guc_wqi_head K.GUC_WQ_SIZE
      then (g.ctx ce).desc_head else (g.ctx ce).guc_wqi_head := ⟨_, rfl⟩
  obtain ⟨T1, hT1⟩ : ∃ T1, T1 = if ((g.ctx ce).guc_number_children + 4) * 4 >
        K.GUC_WQ_SIZE - (g.ctx ce).guc_wqi_tail then 0 else (g.ctx ce).guc_wqi_tail := ⟨_, rfl⟩
  obtain ⟨hB, hhB⟩ : ∃ hB, hB = if ((g.ctx ce).guc_number_children + 4) * 4 >
        CIRC_SPACE T1 hA K.GUC_WQ_SIZE then (g.ctx ce).desc_head else hA := ⟨_, rfl⟩
  obtain ⟨hr, ht, hdt, hwq⟩ := wq_item_append_spec K g ce _ _ hA T1 hB hszeq hpadeq hhA hT1 hhB
  rw [hr] at hret
  by_cases hok : (((g.ctx ce).guc_number_children + 4) * 4 ≤
      K.GUC_WQ_SIZE - (g.ctx ce).guc_wqi_tail ∨ K.GUC_WQ_SIZE - (g.ctx ce).guc_wqi_tail ≤
        CIRC_SPACE (g.ctx ce).guc_wqi_tail hA K.GUC_WQ_SIZE)
    ∧ ((g.ctx ce).guc_number_children + 4) * 4 ≤ CIRC_SPACE T1 hB K.GUC_WQ_SIZE
  swap
  · rw [if_neg hok] at hret; exact absurd hret EBUSY_ne
  rw [if_pos hok, hmask] at ht hdt
  rw [if_pos hok, hlen'] at hwq
  clear hr hret
  -- closed forms of the free space
  have hhAcase : hA = (g.ctx ce).guc_wqi_head ∨ (hA = (g.ctx ce).desc_head ∧
      ((g.ctx ce).guc_number_children + 4) * 4 >
        K.GUC_WQ_SIZE - (g.ctx ce).guc_wqi_tail) := by
    rw [hhA]; split
    · rename_i h; exact Or.inr ⟨rfl, h.1⟩
    · exact Or.inl rfl
  have hhBcase : hB = hA ∨ hB = (g.ctx ce).desc_head := by
    rw [hhB]; split
    · exact Or.inr rfl
    · exact Or.inl rfl
  clear hhA hhB
  generalize hc : g.ctx ce = c at *
  generalize hNN : K.GUC_WQ_SIZE = N at *
  generalize hres : (__guc_wq_item_append K g ce).2.ctx ce = c' at *
  generalize wq_item_dwords K c ((c.guc_number_children + 4) * 4)
      (c.guc_child_list.map (fun child => (g.ctx child).ring_tail)) = ds at *
  generalize hszn : (c.guc_number_children + 4) * 4 = sz at *
  have hsz4 : sz = 4 * (c.guc_number_children + 4) := by omega
  by_cases hw : sz > N - c.guc_wqi_tail
  · rw [if_pos hw] at hT1
    subst hT1
    have hpadok : N - c.guc_wqi_tail ≤ CIRC_SPACE c.guc_wqi_tail hA N := by
      rcases hok.1 with h | h
      · omega
      · exact h
    simp only [hw, hpadok, and_self, ↓reduceIte, List.append_assoc] at hwq
    have hkey : N - c.guc_wqi_tail + sz ≤ CIRC_SPACE c.guc_wqi_tail c.desc_head N ∧
        sz < c.guc_wqi_tail := by
      have h2 := hok.2
      rcases hhAcase with rfl | ⟨rfl, _⟩ <;> rcases hhBcase with rfl | rfl <;>
        split_ifs at hSD hSH hS0D hS0H <;> omega
    refine ⟨N - c.guc_wqi_tail, _, Or.inr (by omega), ?_, by rw [ht, hdt], hkey.1, hwq, ?_⟩
    · rw [ht]
      have e : c.guc_wqi_tail + (N - c.guc_wqi_tail) + sz = N + sz := by omega
      rw [e, Nat.add_mod_left, Nat.zero_add]
    · intro p hp
      rcases List.mem_append.1 hp with hp | hp
      · simp only [List.mem_singleton] at hp
        subst hp
        have e : c.guc_wqi_tail / 4 * 4 = c.guc_wqi_tail := by omega
        simp only [e]
        rw [ring_offset_ahead _ _ _ (Nat.le_refl _) (by omega)]
        omega
      · have hb := mem_wq_store_new _ _ _ _ hp
        rw [ring_offset_wrapped _ _ _ (by omega) (by omega)]
        omega
  · rw [if_neg hw] at hT1
    subst hT1
    simp only [hw, false_and, ↓reduceIte, List.append_nil] at hwq
    have hAH : hA = c.guc_wqi_head := by
      rcases hhAcase with h | ⟨_, h⟩
      · exact h
      · omega
    subst hAH
    have hkey : sz ≤ CIRC_SPACE c.guc_wqi_tail c.desc_head N ∧
        CIRC_SPACE c.guc_wqi_tail c.desc_head N < N := by
      have h2 := hok.2
      rcases hhBcase with rfl | rfl <;> split_ifs at hSD hSH <;> omega
    refine ⟨0, _, Or.inl rfl, by rw [ht, Nat.add_zero], by rw [ht, hdt], by omega, hwq, ?_⟩
    intro p hp
    have hb := mem_wq_store_new _ _ _ _ hp
    rw [ring_offset_ahead _ _ _ (by omega) (by omega)]
    omega

/-- C3, witness: tail 2040, stale cached head 8, true head 100, one child. -/
theorem wq_item_append_within_free_space_witness :
    ∃ pad ws,
      (pad = 0 ∨ 2040 + pad = 2048) ∧
      ((__guc_wq_item_append fwif_upstream (wq_demo 2040 8 100) 0).2.ctx 0).guc_wqi_tail =
        (2040 + pad + (1 + 4) * 4) % 2048 ∧
      ((__guc_wq_item_append fwif_upstream (wq_demo 2040 8 100) 0).2.ctx 0).desc_tail =
        ((__guc_wq_item_append fwif_upstream (wq_demo 2040 8 100) 0).2.ctx 0).guc_wqi_tail ∧
      pad + (1 + 4) * 4 ≤ CIRC_SPACE 2040 100 2048 ∧
      ((__guc_wq_item_append fwif_upstream (wq_demo 2040 8 100) 0).2.ctx 0).wq = [] ++ ws ∧
      ∀ p ∈ ws, (p.1 * 4 + 2048 - 2040) % 2048 + 4 ≤ CIRC_SPACE 2040 100 2048 :=
  wq_item_append_within_free_space fwif_upstream (wq_demo 2040 8 100) 0 11 (by decide)
    (by decide) (by decide) (by decide) (by decide) (by decide) (by decide) (by decide)
    (by decide) (by decide) (by decide)

/-- C4, counterexample: with the tail at 2040 and the head at 2044 the entry of 20
bytes exceeds the 8 bytes left before the buffer end, yet no padding entry is
written and the tail is not reset: there is no room for the padding, and the call
returns `-EBUSY`. -/
theorem wq_item_append_wrap_no_space :
    u32 ((((wq_demo 2040 2044 2044).ctx 0).guc_number_children + 4) * 4) >
        fwif_upstream.GUC_WQ_SIZE - ((wq_demo 2040 2044 2044).ctx 0).guc_wqi_tail ∧
      (__guc_wq_item_append fwif_upstream (wq_demo 2040 2044 2044) 0).1 = -EBUSY ∧
      ((__guc_wq_item_append fwif_upstream (wq_demo 2040 2044 2044) 0).2.ctx 0).wq = [] ∧
      ((__guc_wq_item_append fwif_upstream (wq_demo 2040 2044 2044) 0).2.ctx 0).guc_wqi_tail
        = 2040 := by
  decide

/-- C4, amended: when `__guc_wq_item_append` succeeds and the entry size exceeds
`GUC_WQ_SIZE - tail`, the stores are exactly one `WQ_TYPE_NOOP` header at the old
tail, whose length field `len` (plus the header dword) covers the
`GUC_WQ_SIZE - tail` bytes up to the buffer end, followed by the entry at dword 0,
and the tail ends at the entry size; when the entry fits before the buffer end the
only stores are those of the entry, at the old tail, and they end at or before the
buffer end. -/
theorem wq_item_append_padding (K : Fwif) (g : Guc) (ce k : Nat)
    (hN : K.GUC_WQ_SIZE = 2 ^ k) (hk2 : 2 ≤ k) (hk : k < 32)
    (htail : (g.ctx ce).guc_wqi_tail < K.GUC_WQ_SIZE)
    (halign : (g.ctx ce).guc_wqi_tail % 4 = 0)
    (hlen : (g.ctx ce).guc_child_list.length = (g.ctx ce).guc_number_children)
    (hsz : ((g.ctx ce).guc_number_children + 4) * 4 < 2 ^ 32)
    (hret : (__guc_wq_item_append K g ce).1 = 0) :
    (((g.ctx ce).guc_number_children + 4) * 4 > K.GUC_WQ_SIZE - (g.ctx ce).guc_wqi_tail →
      ∃ len,
        (len + 1) * 4 = K.GUC_WQ_SIZE - (g.ctx ce).guc_wqi_tail ∧
        ((__guc_wq_item_append K g ce).2.ctx ce).wq =
          (g.ctx ce).wq ++
            [((g.ctx ce).guc_wqi_tail / 4, u32 (K.WQ_TYPE_NOOP ||| (len <<< K.WQ_LEN_SHIFT)))] ++
            (List.range' 0 ((g.ctx ce).guc_number_children + 4)).zip
              (wq_item_dwords K (g.ctx ce) (((g.ctx ce).guc_number_children + 4) * 4)
                ((g.ctx ce).guc_child_list.map (fun child => (g.ctx child).ring_tail))) ∧
        ((__guc_wq_item_append K g ce).2.ctx ce).guc_wqi_tail =
          (0 + ((g.ctx ce).guc_number_children + 4) * 4) % K.GUC_WQ_SIZE) ∧
    (((g.ctx ce).guc_number_children + 4) * 4 ≤ K.GUC_WQ_SIZE - (g.ctx ce).guc_wqi_tail →
      ((__guc_wq_item_append K g ce).2.ctx ce).wq =
          (g.ctx ce).wq ++
            (List.range' ((g.ctx ce).guc_wqi_tail / 4) ((g.ctx ce).guc_number_children + 4)).zip
              (wq_item_dwords K (g.ctx ce) (((g.ctx ce).guc_number_children + 4) * 4)
                ((g.ctx ce).guc_child_list.map (fun child => (g.ctx child).ring_tail))) ∧
      ((g.ctx ce).guc_wqi_tail / 4 + ((g.ctx ce).guc_number_children + 4)) * 4
        ≤ K.GUC_WQ_SIZE) := by
  obtain ⟨hN32, hN4, hNge⟩ := wq_size_facts K k hN hk2 hk
  have hdvd : (2:Nat) ^ k ∣ 2 ^ 32 := Nat.pow_dvd_pow 2 (by omega)
  have hszeq : ((g.ctx ce).guc_number_children + 4) * 4 =
      u32 (((g.ctx ce).guc_number_children + 4) * 4) := (Nat.mod_eq_of_lt hsz).symm
  have hpadeq : K.GUC_WQ_SIZE - (g.ctx ce).guc_wqi_tail = wq_space_until_wrap K (g.ctx ce) :=
    (u32_sub_eq _ _ (by omega) hN32).symm
  have hmask : ∀ x, u32 x &&& (K.GUC_WQ_SIZE - 1) = x % K.GUC_WQ_SIZE := by
    intro x
    rw [hN, Nat.and_pow_two_sub_one_eq_mod, u32, Nat.mod_mod_of_dvd _ hdvd]
  have hlen' : (wq_item_dwords K (g.ctx ce) (((g.ctx ce).guc_number_children + 4) * 4)
      ((g.ctx ce).guc_child_list.map (fun child => (g.ctx child).ring_tail))).length
      = (g.ctx ce).guc_number_children + 4 := by
    rw [wq_item_dwords_length, List.length_map, hlen]
  obtain ⟨hA, hhA⟩ : ∃ hA, hA = if ((g.ctx ce).guc_number_children + 4) * 4 >
        K.GUC_WQ_SIZE - (g.ctx ce).guc_wqi_tail ∧ K.GUC_WQ_SIZE - (g.ctx ce).guc_wqi_tail >
        CIRC_SPACE (g.ctx ce).guc_wqi_tail (g.ctx ce).guc_wqi_head K.GUC_WQ_SIZE
      then (g.ctx ce).desc_head else (g.ctx ce).guc_wqi_head := ⟨_, rfl⟩
  obtain ⟨T1, hT1⟩ : ∃ T1, T1 = if ((g.ctx ce).guc_number_children + 4) * 4 >
        K.GUC_WQ_SIZE - (g.ctx ce).guc_wqi_tail then 0 else (g.ctx ce).guc_wqi_tail := ⟨_, rfl⟩
  obtain ⟨hB, hhB⟩ : ∃ hB, hB = if ((g.ctx ce).guc_number_children + 4) * 4 >
        CIRC_SPACE T1 hA K.GUC_WQ_SIZE then (g.ctx ce).desc_head else hA := ⟨_, rfl⟩
  obtain ⟨hr, ht, _, hwq⟩ := wq_item_append_spec K g ce _ _ hA T1 hB hszeq hpadeq hhA hT1 hhB
  rw [hr] at hret
  by_cases hok : (((g.ctx ce).guc_number_children + 4) * 4 ≤
      K.GUC_WQ_SIZE - (g.ctx ce).guc_wqi_tail ∨ K.GUC_WQ_SIZE - (g.ctx ce).guc_wqi_tail ≤
        CIRC_SPACE (g.ctx ce).guc_wqi_tail hA K.GUC_WQ_SIZE)
    ∧ ((g.ctx ce).guc_number_children + 4) * 4 ≤ CIRC_SPACE T1 hB K.GUC_WQ_SIZE
  swap
  · rw [if_neg hok] at hret; exact absurd hret EBUSY_ne
  rw [if_pos hok, hmask] at ht
  rw [if_pos hok, hlen'] at hwq
  constructor
  · intro hw
    have hpadok := hok.1.resolve_left (by omega)
    rw [if_pos hw] at hT1
    subst hT1
    simp only [hw, hpadok, and_self, ↓reduceIte] at hwq
    refine ⟨(K.GUC_WQ_SIZE - (g.ctx ce).guc_wqi_tail) / 4 - 1, by omega, ?_, ht⟩
    rw [hwq, u32_sub_eq _ _ (by omega) (by omega)]
  · intro hw
    rw [if_neg (Nat.not_lt.2 hw)] at hT1
    subst hT1
    simp only [Nat.not_lt.2 hw, false_and, ↓reduceIte, List.append_nil] at hwq
    exact ⟨hwq, by omega⟩

/-- C4, witness: tail 2040, one child, room in front of the head. -/
theorem wq_item_append_padding_witness :
    ((1 + 4) * 4 > 2048 - 2040 →
      ∃ len,
        (len + 1) * 4 = 2048 - 2040 ∧
        ((__guc_wq_item_append fwif_upstream (wq_demo 2040 8 100) 0).2.ctx 0).wq =
          [] ++ [(2040 / 4, u32 (4 ||| (len <<< 16)))] ++
            (List.range' 0 (1 + 4)).zip
              (wq_item_dwords fwif_upstream ((wq_demo 2040 8 100).ctx 0) ((1 + 4) * 4)
                ([1].map (fun child => ((wq_demo 2040 8 100).ctx child).ring_tail))) ∧
        ((__guc_wq_item_append fwif_upstream (wq_demo 2040 8 100) 0).2.ctx 0).guc_wqi_tail =
          (0 + (1 + 4) * 4) % 2048) ∧
    ((1 + 4) * 4 ≤ 2048 - 2040 →
      ((__guc_wq_item_append fwif_upstream (wq_demo 2040 8 100) 0).2.ctx 0).wq =
          [] ++ (List.range' (2040 / 4) (1 + 4)).zip
              (wq_item_dwords fwif_upstream ((wq_demo 2040 8 100).ctx 0) ((1 + 4) * 4)
                ([1].map (fun child => ((wq_demo 2040 8 100).ctx child).ring_tail))) ∧
      (2040 / 4 + (1 + 4)) * 4 ≤ 2048) :=
  wq_item_append_padding fwif_upstream (wq_demo 2040 8 100) 0 11 (by decide)
    (by decide) (by decide) (by decide) (by decide) (by decide) (by decide) (by decide)

/-- C5: `__guc_wq_item_append` is a total function that returns 0 or `-EBUSY`; it
returns `-EBUSY` exactly when the size needed at the padding step, or at the entry
step, exceeds the available space both for the cached head and for the head read
again from the shared descriptor (after a refresh at the padding step the cached
head of the entry step is that refreshed head); and whenever it returns `-EBUSY`
the tail published in the descriptor is unchanged. -/
theorem wq_item_append_ebusy (K : Fwif) (g : Guc) (ce : Nat) :
    ((__guc_wq_item_append K g ce).1 = -EBUSY ↔
      (u32 (((g.ctx ce).guc_number_children + 4) * 4) > wq_space_until_wrap K (g.ctx ce) ∧
        wq_space_until_wrap K (g.ctx ce) >
          CIRC_SPACE (g.ctx ce).guc_wqi_tail (g.ctx ce).guc_wqi_head K.GUC_WQ_SIZE ∧
        wq_space_until_wrap K (g.ctx ce) >
          CIRC_SPACE (g.ctx ce).guc_wqi_tail (g.ctx ce).desc_head K.GUC_WQ_SIZE) ∨
      (u32 (((g.ctx ce).guc_number_children + 4) * 4) > wq_space_until_wrap K (g.ctx ce) ∧
        wq_space_until_wrap K (g.ctx ce) ≤
          CIRC_SPACE (g.ctx ce).guc_wqi_tail (g.ctx ce).guc_wqi_head K.GUC_WQ_SIZE ∧
        u32 (((g.ctx ce).guc_number_children + 4) * 4) >
          CIRC_SPACE 0 (g.ctx ce).guc_wqi_head K.GUC_WQ_SIZE ∧
        u32 (((g.ctx ce).guc_number_children + 4) * 4) >
          CIRC_SPACE 0 (g.ctx ce).desc_head K.GUC_WQ_SIZE) ∨
      (u32 (((g.ctx ce).guc_number_children + 4) * 4) > wq_space_until_wrap K (g.ctx ce) ∧
        wq_space_until_wrap K (g.ctx ce) >
          CIRC_SPACE (g.ctx ce).guc_wqi_tail (g.ctx ce).guc_wqi_head K.GUC_WQ_SIZE ∧
        wq_space_until_wrap K (g.ctx ce) ≤
          CIRC_SPACE (g.ctx ce).guc_wqi_tail (g.ctx ce).desc_head K.GUC_WQ_SIZE ∧
        u32 (((g.ctx ce).guc_number_children + 4) * 4) >
          CIRC_SPACE 0 (g.ctx ce).desc_head K.GUC_WQ_SIZE) ∨
      (u32 (((g.ctx ce).guc_number_children + 4) * 4) ≤ wq_space_until_wrap K (g.ctx ce) ∧
        u32 (((g.ctx ce).guc_number_children + 4) * 4) >
          CIRC_SPACE (g.ctx ce).guc_wqi_tail (g.ctx ce).guc_wqi_head K.GUC_WQ_SIZE ∧
        u32 (((g.ctx ce).guc_number_children + 4) * 4) >
          CIRC_SPACE (g.ctx ce).guc_wqi_tail (g.ctx ce).desc_head K.GUC_WQ_SIZE)) ∧
    ((__guc_wq_item_append K g ce).1 = 0 ∨ (__guc_wq_item_append K g ce).1 = -EBUSY) ∧
    ((__guc_wq_item_append K g ce).1 = -EBUSY →
      ((__guc_wq_item_append K g ce).2.ctx ce).desc_tail = (g.ctx ce).desc_tail) := by
  obtain ⟨hr, _, hdt, _⟩ := wq_item_append_spec K g ce _ _ _ _ _ rfl rfl rfl rfl rfl
  rw [hr, hdt]
  have hE := EBUSY_ne
  generalize u32 (((g.ctx ce).guc_number_children + 4) * 4) = sz
  generalize wq_space_until_wrap K (g.ctx ce) = pad
  by_cases hw : sz > pad
  · by_cases h1 : pad > CIRC_SPACE (g.ctx ce).guc_wqi_tail (g.ctx ce).guc_wqi_head K.GUC_WQ_SIZE
    · by_cases h2 : pad > CIRC_SPACE (g.ctx ce).guc_wqi_tail (g.ctx ce).desc_head K.GUC_WQ_SIZE
      · simp [hw, h1, h2, Nat.not_le.2 hw, Nat.not_le.2 h1, Nat.not_le.2 h2, hE]
      · by_cases h3 : sz > CIRC_SPACE 0 (g.ctx ce).desc_head K.GUC_WQ_SIZE
        · simp [hw, h1, h2, h3, Nat.not_le.2 hw, Nat.not_le.2 h1, Nat.le_of_not_gt h2,
            Nat.not_le.2 h3, hE]
        · simp [hw, h1, h2, h3, Nat.not_le.2 hw, Nat.not_le.2 h1, Nat.le_of_not_gt h2,
            Nat.le_of_not_gt h3, hE, hE.symm]
    · by_cases h3 : sz > CIRC_SPACE 0 (g.ctx ce).guc_wqi_head K.GUC_WQ_SIZE
      · by_cases h4 : sz > CIRC_SPACE 0 (g.ctx ce).desc_head K.GUC_WQ_SIZE
        · simp [hw, h1, h3, h4, Nat.not_le.2 hw, Nat.le_of_not_gt h1, Nat.not_le.2 h3,
            Nat.not_le.2 h4, hE]
        · simp [hw, h1, h3, h4, Nat.not_le.2 hw, Nat.le_of_not_gt h1, Nat.not_le.2 h3,
            Nat.le_of_not_gt h4, hE, hE.symm]
      · simp [hw, h1, h3, Nat.not_le.2 hw, Nat.le_of_not_gt h1, Nat.le_of_not_gt h3,
          hE, hE.symm]
  · by_cases h3 : sz > CIRC_SPACE (g.ctx ce).guc_wqi_tail (g.ctx ce).guc_wqi_head K.GUC_WQ_SIZE
    · by_cases h4 : sz > CIRC_SPACE (g.ctx ce).guc_wqi_tail (g.ctx ce).desc_head K.GUC_WQ_SIZE
      · simp [hw, h3, h4, Nat.le_of_not_gt hw, Nat.not_le.2 h3, Nat.not_le.2 h4, hE]
      · simp [hw, h3, h4, Nat.le_of_not_gt hw, Nat.not_le.2 h3, Nat.le_of_not_gt h4,
          hE, hE.symm]
    · simp [hw, h3, Nat.le_of_not_gt hw, Nat.le_of_not_gt h3, hE, hE.symm]

/-! ## Identifier allocator: auxiliary facts -/

@[simp] theorem set_ctx_ctx (g : Guc) (ce : Nat) (c : IntelContext) (x : Nat) :
    (g.set_ctx ce c).ctx x = if x = ce then c else g.ctx x := rfl

theorem ida_simple_get_ok (ida : List Nat) (start end_ : Nat)
    (h : ¬ (ida_simple_get ida start end_).1 < 0) :
    ∃ id : Nat, ida_simple_get ida start end_ = ((id : Int), id :: ida) ∧
      start ≤ id ∧ id < end_ ∧ id ∉ ida := by
  unfold ida_simple_get at h ⊢
  cases hf : (List.range' start (end_ - start)).find? (fun i => !ida.contains i) with
  | none => rw [hf] at h; exact absurd (show (-ENOSPC : Int) < 0 by decide) h
  | some id =>
    refine ⟨id, rfl, ?_⟩
    have h1 := List.find?_some hf
    have h2 := List.mem_of_find?_eq_some hf
    rw [List.mem_range'_1] at h2
    simp at h1
    exact ⟨h2.1, by omega, h1⟩

theorem ida_simple_get_fail (ida : List Nat) (start end_ : Nat)
    (h : (ida_simple_get ida start end_).1 < 0) :
    (ida_simple_get ida start end_).2 = ida := by
  unfold ida_simple_get at h ⊢
  cases hf : (List.range' start (end_ - start)).find? (fun i => !ida.contains i) with
  | none => rfl
  | some id =>
    rw [hf] at h
    exact absurd h (Int.not_lt.2 (Int.ofNat_nonneg _))

theorem bitmap_find_free_region_ok (bitmap : Nat → Bool) (bits order : Nat)
    (h : ¬ (bitmap_find_free_region bitmap bits order).1 < 0) :
    ∃ pos : Nat, bitmap_find_free_region bitmap bits order =
        ((pos : Int), fun i => if pos ≤ i ∧ i < pos + 2 ^ order then true else bitmap i) ∧
      pos + 2 ^ order ≤ bits ∧ (∀ i, pos ≤ i → i < pos + 2 ^ order → bitmap i = false) := by
  unfold bitmap_find_free_region at h ⊢
  cases hf : (List.range (bits / 2 ^ order)).find?
      (fun j => bitmap_region_free bitmap (j * 2 ^ order) (2 ^ order)) with
  | none => rw [hf] at h; exact absurd (show (-ENOMEM : Int) < 0 by decide) h
  | some j =>
    refine ⟨j * 2 ^ order, rfl, ?_, ?_⟩
    · have h2 := List.mem_of_find?_eq_some hf
      rw [List.mem_range] at h2
      have hp : 0 < 2 ^ order := Nat.pow_pos (by norm_num)
      have := (Nat.le_div_iff_mul_le hp).1 (Nat.succ_le_of_lt h2)
      rw [Nat.succ_mul] at this
      exact this
    · have h1 := List.find?_some hf
      simp only [bitmap_region_free, List.all_eq_true, List.mem_range'_1, Bool.not_eq_eq_eq_not,
        Bool.not_true] at h1
      intro i hi1 hi2
      exact h1 i ⟨hi1, hi2⟩

theorem bitmap_find_free_region_fail (bitmap : Nat → Bool) (bits order : Nat)
    (h : (bitmap_find_free_region bitmap bits order).1 < 0) :
    (bitmap_find_free_region bitmap bits order).2 = bitmap := by
  unfold bitmap_find_free_region at h ⊢
  cases hf : (List.range (bits / 2 ^ order)).find?
      (fun j => bitmap_region_free bitmap (j * 2 ^ order) (2 ^ order)) with
  | none => rfl
  | some id =>
    rw [hf] at h
    exact absurd h (Int.not_lt.2 (Int.ofNat_nonneg _))

theorem holds_guc_id_iff (K : Fwif) (c : IntelContext) (i : Nat) :
    holds_guc_id K c i = true ↔ intel_context_is_child c = false ∧
      context_guc_id_invalid K c = false ∧ c.guc_id ≤ i ∧ i < c.guc_id + guc_id_span c := by
  simp [holds_guc_id, and_assoc]

theorem guc_id_span_single (c : IntelContext) (h : intel_context_is_parent c = false) :
    guc_id_span c = 1 := by
  simp [guc_id_span, h]

theorem alloc_pools_empty_inv (K : Fwif) (g : Guc) (h : alloc_pools_empty K g) :
    AllocInv K g := by
  obtain ⟨h1, h2, h3, h4, h5⟩ := h
  refine ⟨h5, ?_, ?_, ?_, ?_, ?_⟩
  · intro c _ _ hv; rw [h4 c] at hv; exact absurd hv (by decide)
  · intro c _ _ hv; rw [h4 c] at hv; exact absurd hv (by decide)
  · intro a b i _ ha _
    rw [holds_guc_id_iff, h4 a] at ha
    exact absurd ha.2.1 (by decide)
  · intro c hc; rw [h3] at hc; exact absurd hc (List.not_mem_nil c)
  · rw [h3]; exact List.nodup_nil

/-- Contexts that are not children keep the invariant when only child contexts
change and no role changes. -/
theorem AllocInv.transfer (K : Fwif) (g g1 : Guc) (h : AllocInv K g)
    (hids : g1.guc_ids = g.guc_ids) (hbm : g1.guc_ids_bitmap = g.guc_ids_bitmap)
    (hlist : g1.guc_id_list = g.guc_id_list) (hnum : g1.num_guc_ids = g.num_guc_ids)
    (hchild : ∀ x, intel_context_is_child (g1.ctx x) = intel_context_is_child (g.ctx x))
    (hlists : ∀ x, (g1.ctx x).guc_child_list = (g.ctx x).guc_child_list)
    (hsame : ∀ x, intel_context_is_child (g.ctx x) = false → g1.ctx x = g.ctx x) :
    AllocInv K g1 := by
  have hN : NUMBER_MULTI_LRC_GUC_ID g1 = NUMBER_MULTI_LRC_GUC_ID g := by
    simp [NUMBER_MULTI_LRC_GUC_ID, hnum]
  have hholds : ∀ x i, holds_guc_id K (g1.ctx x) i = holds_guc_id K (g.ctx x) i := by
    intro x i
    cases hx : intel_context_is_child (g.ctx x)
    · rw [hsame x hx]
    · have := hchild x
      simp [holds_guc_id, hx, this]
  refine ⟨?_, ?_, ?_, ?_, ?_, hlist ▸ h.nodup⟩
  · intro p c hc
    rw [hlists] at hc
    rw [hchild]
    exact h.wf p c hc
  · intro c h1 h2 h3
    rw [hchild] at h1
    rw [hsame c h1] at h2 h3 ⊢
    rw [hids, hN]
    exact h.single c h1 h2 h3
  · intro c h1 h2 h3
    rw [hchild] at h1
    rw [hsame c h1] at h2 h3 ⊢
    rw [hbm, hN]
    exact h.group c h1 h2 h3
  · intro a b i hab ha hb
    rw [hholds] at ha hb
    exact h.disjoint a b i hab ha hb
  · intro c hc
    rw [hlist] at hc
    obtain ⟨h1, h2, h3⟩ := h.list c hc
    rw [hsame c h1]
    exact ⟨h1, h2, h3⟩

theorem assign_child_ids_frame (ce : Nat) (l : List Nat) :
    ∀ (g : Guc) (i : Nat),
      (assign_child_ids ce g l i).guc_ids = g.guc_ids ∧
      (assign_child_ids ce g l i).guc_ids_bitmap = g.guc_ids_bitmap ∧
      (assign_child_ids ce g l i).guc_id_list = g.guc_id_list ∧
      (assign_child_ids ce g l i).num_guc_ids = g.num_guc_ids ∧
      (assign_child_ids ce g l i).context_lookup = g.context_lookup ∧
      (∀ x, x ∉ l → (assign_child_ids ce g l i).ctx x = g.ctx x) ∧
      (∀ x, ((assign_child_ids ce g l i).ctx x).parent = (g.ctx x).parent ∧
        ((assign_child_ids ce g l i).ctx x).guc_child_list = (g.ctx x).guc_child_list ∧
        ((assign_child_ids ce g l i).ctx x).sched_state = (g.ctx x).sched_state) := by
  induction l with
  | nil => intro g i; simp [assign_child_ids]
  | cons child rest ih =>
    intro g i
    simp only [assign_child_ids]
    obtain ⟨h1, h2, h3, h4, h5, h6, h7⟩ :=
      ih (g.set_ctx child { g.ctx child with guc_id := (g.ctx ce).guc_id + i }) (i + 1)
    refine ⟨by rw [h1]; rfl, by rw [h2]; rfl, by rw [h3]; rfl, by rw [h4]; rfl,
      by rw [h5]; rfl, ?_, ?_⟩
    · intro x hx
      rw [List.mem_cons, not_or] at hx
      rw [h6 x hx.2, set_ctx_ctx, if_neg hx.1]
    · intro x
      obtain ⟨a, b, c⟩ := h7 x
      rw [a, b, c, set_ctx_ctx]
      by_cases hxc : x = child
      · subst hxc; simp
      · simp [hxc]

theorem new_guc_id_cases (g : Guc) (ce : Nat) :
    ((new_guc_id g ce).1 < 0 ∧ (new_guc_id g ce).2 = g) ∨
    (intel_context_is_parent (g.ctx ce) = false ∧ ∃ id : Nat,
      id ∉ g.guc_ids ∧ NUMBER_MULTI_LRC_GUC_ID g ≤ id ∧ id < g.num_guc_ids ∧
      new_guc_id g ce = (0, ({ g with guc_ids := id :: g.guc_ids }).set_ctx ce
        { g.ctx ce with guc_id := id })) ∨
    (intel_context_is_parent (g.ctx ce) = true ∧ ∃ pos : Nat,
      pos + guc_id_span (g.ctx ce) ≤ NUMBER_MULTI_LRC_GUC_ID g ∧
      (∀ i, pos ≤ i → i < pos + guc_id_span (g.ctx ce) → g.guc_ids_bitmap i = false) ∧
      new_guc_id g ce = (0, ({ g with guc_ids_bitmap := fun i =>
          if pos ≤ i ∧ i < pos + guc_id_span (g.ctx ce) then true else g.guc_ids_bitmap i }).set_ctx
        ce { g.ctx ce with guc_id := pos })) := by
  cases hp : intel_context_is_parent (g.ctx ce)
  · by_cases hr : (ida_simple_get g.guc_ids (NUMBER_MULTI_LRC_GUC_ID g) g.num_guc_ids).1 < 0
    · left
      have := ida_simple_get_fail _ _ _ hr
      simp only [new_guc_id, hp, Bool.false_eq_true, ↓reduceIte, hr, this]
      exact ⟨trivial, trivial⟩
    · right; left
      obtain ⟨id, he, h1, h2, h3⟩ := ida_simple_get_ok _ _ _ hr
      refine ⟨rfl, id, h3, h1, h2, ?_⟩
      simp only [new_guc_id, hp, Bool.false_eq_true, ↓reduceIte, he]
      simp
  · have hspan : guc_id_span (g.ctx ce) = 2 ^ order_base_2 ((g.ctx ce).guc_number_children + 1) := by
      simp [guc_id_span, hp]
    by_cases hr : (bitmap_find_free_region g.guc_ids_bitmap (NUMBER_MULTI_LRC_GUC_ID g)
        (order_base_2 ((g.ctx ce).guc_number_children + 1))).1 < 0
    · left
      have := bitmap_find_free_region_fail _ _ _ hr
      simp only [new_guc_id, hp, ↓reduceIte, hr, this]
      exact ⟨trivial, trivial⟩
    · right; right
      obtain ⟨pos, he, h1, h2⟩ := bitmap_find_free_region_ok _ _ _ hr
      rw [← hspan] at h1 h2 he
      refine ⟨rfl, pos, h1, h2, ?_⟩
      simp only [new_guc_id, hp, ↓reduceIte, ← hspan, he]
      simp

theorem steal_guc_id_nil (K : Fwif) (g : Guc) (ce : Nat) (h : g.guc_id_list = []) :
    steal_guc_id K g ce = (-EAGAIN, g) := by
  simp [steal_guc_id, h]

theorem steal_guc_id_cons (K : Fwif) (g : Guc) (ce cn : Nat) (rest : List Nat)
    (h : g.guc_id_list = cn :: rest) :
    (steal_guc_id K g ce).1 = 0 ∧
    (steal_guc_id K g ce).2.guc_id_list = rest ∧
    (steal_guc_id K g ce).2.guc_ids = g.guc_ids ∧
    (steal_guc_id K g ce).2.guc_ids_bitmap = g.guc_ids_bitmap ∧
    (steal_guc_id K g ce).2.num_guc_ids = g.num_guc_ids ∧
    (steal_guc_id K g ce).2.context_lookup = g.context_lookup ∧
    (∀ x, x ≠ ce → x ≠ cn → (steal_guc_id K g ce).2.ctx x = g.ctx x) ∧
    (∀ x, ((steal_guc_id K g ce).2.ctx x).parent = (g.ctx x).parent ∧
      ((steal_guc_id K g ce).2.ctx x).guc_number_children = (g.ctx x).guc_number_children ∧
      ((steal_guc_id K g ce).2.ctx x).guc_child_list = (g.ctx x).guc_child_list) ∧
    ((steal_guc_id K g ce).2.ctx cn).guc_id = K.GUC_INVALID_LRC_ID ∧
    (ce ≠ cn → ((steal_guc_id K g ce).2.ctx ce).guc_id = (g.ctx cn).guc_id) ∧
    ((steal_guc_id K g ce).2.ctx cn).sched_state =
      u32_andnot (g.ctx cn).sched_state SCHED_STATE_REGISTERED ∧
    (∀ x, x ≠ cn → ((steal_guc_id K g ce).2.ctx x).sched_state = (g.ctx x).sched_state) := by
  refine ⟨?_, ?_, ?_, ?_, ?_, ?_, ?_, ?_, ?_, ?_, ?_, ?_⟩
  all_goals simp only [steal_guc_id, h, Guc.set_ctx, clr_context_registered, clr_sched_flag,
    set_context_guc_id_invalid, ↓reduceIte]
  · intro x h1 h2; simp [h1, h2]
  · intro x
    by_cases h2 : x = cn
    · subst h2; by_cases h1 : x = ce
      · subst h1; simp
      · simp [h1]
    · by_cases h1 : x = ce
      · subst h1; simp [h2]
      · simp [h1, h2]
  · intro h1; simp [h1]
  · by_cases h1 : cn = ce
    · subst h1; simp
    · simp [h1]
  · intro x h2
    by_cases h1 : x = ce
    · subst h1; simp [h2]
    · simp [h1, h2]

theorem assign_guc_id_cases (K : Fwif) (g : Guc) (ce : Nat) :
    ((assign_guc_id K g ce).1 < 0 ∧ (assign_guc_id K g ce).2 = g) ∨
    (intel_context_is_parent (g.ctx ce) = false ∧ ∃ id : Nat,
      id ∉ g.guc_ids ∧ NUMBER_MULTI_LRC_GUC_ID g ≤ id ∧ id < g.num_guc_ids ∧
      assign_guc_id K g ce = (0, ({ g with guc_ids := id :: g.guc_ids }).set_ctx ce
        { g.ctx ce with guc_id := id })) ∨
    (intel_context_is_parent (g.ctx ce) = false ∧ (new_guc_id g ce).1 < 0 ∧
      ∃ cn rest, g.guc_id_list = cn :: rest ∧
        assign_guc_id K g ce = (0, (steal_guc_id K g ce).2) ∧ (steal_guc_id K g ce).1 = 0) ∨
    (intel_context_is_parent (g.ctx ce) = true ∧ ∃ pos : Nat,
      pos + guc_id_span (g.ctx ce) ≤ NUMBER_MULTI_LRC_GUC_ID g ∧
      (∀ i, pos ≤ i → i < pos + guc_id_span (g.ctx ce) → g.guc_ids_bitmap i = false) ∧
      assign_guc_id K g ce = (0, assign_child_ids ce
        (({ g with guc_ids_bitmap := fun i =>
          if pos ≤ i ∧ i < pos + guc_id_span (g.ctx ce) then true else g.guc_ids_bitmap i }).set_ctx
          ce { g.ctx ce with guc_id := pos }) (g.ctx ce).guc_child_list 1)) := by
  rcases new_guc_id_cases g ce with ⟨h1, h2⟩ | ⟨hp, id, h1, h2, h3, h4⟩ | ⟨hp, pos, h1, h2, h3⟩
  · cases hp : intel_context_is_parent (g.ctx ce)
    · cases hl : g.guc_id_list with
      | nil =>
        left
        simp only [assign_guc_id, h1, h2, hp, steal_guc_id_nil K g ce hl, ↓reduceIte]
        simp [EAGAIN]
      | cons cn rest =>
        right; right; left
        obtain ⟨hs1, -, -, -, -, -, -, hroles, -⟩ := steal_guc_id_cons K g ce cn rest hl
        refine ⟨rfl, h1, cn, rest, rfl, ?_, hs1⟩
        have hs2 : intel_context_is_parent ((steal_guc_id K g ce).2.ctx ce) = false := by
          simp only [intel_context_is_parent, (hroles ce).2.1] at hp ⊢
          exact hp
        simp only [assign_guc_id, h1, h2, hp, ↓reduceIte, hs1, hs2]
        simp [hs2]
    · left
      simp only [assign_guc_id, h1, h2, hp, ↓reduceIte]
      simp [ENOSPC]
  · right; left
    refine ⟨hp, id, h1, h2, h3, ?_⟩
    simp only [assign_guc_id, h4]
    simp [intel_context_is_parent] at hp ⊢
    simp [hp]
  · right; right; right
    refine ⟨hp, pos, h1, h2, ?_⟩
    simp only [assign_guc_id, h3]
    simp [intel_context_is_parent] at hp ⊢
    simp [hp]

theorem holds_own_guc_id (K : Fwif) (c : IntelContext)
    (h1 : intel_context_is_child c = false) (h2 : context_guc_id_invalid K c = false) :
    holds_guc_id K c c.guc_id = true := by
  rw [holds_guc_id_iff]
  refine ⟨h1, h2, Nat.le_refl _, ?_⟩
  have : 0 < guc_id_span c := by
    unfold guc_id_span; split
    · exact Nat.pow_pos (by norm_num)
    · exact Nat.one_pos
  omega

/-- Roles of a context: what makes it a child or a parent. -/
theorem roles_congr (c1 c : IntelContext) (hp : c1.parent = c.parent)
    (hn : c1.guc_number_children = c.guc_number_children) :
    intel_context_is_child c1 = intel_context_is_child c ∧
    intel_context_is_parent c1 = intel_context_is_parent c ∧
    guc_id_span c1 = guc_id_span c := by
  simp [intel_context_is_child, intel_context_is_parent, guc_id_span, hp, hn]

/-- The invariant survives a context giving up its identifier, when the pools keep
every slot the context did not hold. -/
theorem AllocInv.invalidate (K : Fwif) (g g1 : Guc) (ce : Nat) (h : AllocInv K g)
    (hctx : ∀ x, x ≠ ce → g1.ctx x = g.ctx x)
    (hp : (g1.ctx ce).parent = (g.ctx ce).parent)
    (hn : (g1.ctx ce).guc_number_children = (g.ctx ce).guc_number_children)
    (hl : (g1.ctx ce).guc_child_list = (g.ctx ce).guc_child_list)
    (hinv : context_guc_id_invalid K (g1.ctx ce) = true)
    (hnum : g1.num_guc_ids = g.num_guc_ids)
    (hlist : ∀ c ∈ g1.guc_id_list, c ∈ g.guc_id_list ∧ c ≠ ce)
    (hnodup : g1.guc_id_list.Nodup)
    (hids : ∀ i ∈ g.guc_ids, holds_guc_id K (g.ctx ce) i = false → i ∈ g1.guc_ids)
    (hbm : ∀ i, g.guc_ids_bitmap i = true → holds_guc_id K (g.ctx ce) i = false →
      g1.guc_ids_bitmap i = true) :
    AllocInv K g1 := by
  have hN : NUMBER_MULTI_LRC_GUC_ID g1 = NUMBER_MULTI_LRC_GUC_ID g := by
    simp [NUMBER_MULTI_LRC_GUC_ID, hnum]
  obtain ⟨hrc, hrp, hrs⟩ := roles_congr _ _ hp hn
  have hnot : ∀ c i, c ≠ ce → holds_guc_id K (g.ctx c) i = true →
      holds_guc_id K (g.ctx ce) i = false := by
    intro c i hc hci
    cases hh : holds_guc_id K (g.ctx ce) i
    · rfl
    · exact absurd (h.disjoint c ce i hc hci hh) id
  refine ⟨?_, ?_, ?_, ?_, ?_, hnodup⟩
  · intro p c hc
    have hc' : c ∈ (g.ctx p).guc_child_list := by
      by_cases hpe : p = ce
      · subst hpe; rwa [hl] at hc
      · rwa [hctx p hpe] at hc
    have := h.wf p c hc'
    by_cases hce : c = ce
    · subst hce; rwa [hrc]
    · rwa [hctx c hce]
  · intro c h1 h2 h3
    by_cases hce : c = ce
    · subst hce; rw [hinv] at h3; exact absurd h3 (by decide)
    · rw [hctx c hce] at h1 h2 h3 ⊢
      obtain ⟨ha, hb⟩ := h.single c h1 h2 h3
      exact ⟨hids _ ha (hnot c _ hce (holds_own_guc_id K _ h1 h3)), hN ▸ hb⟩
  · intro c h1 h2 h3
    by_cases hce : c = ce
    · subst hce; rw [hinv] at h3; exact absurd h3 (by decide)
    · rw [hctx c hce] at h1 h2 h3 ⊢
      obtain ⟨ha, hb⟩ := h.group c h1 h2 h3
      refine ⟨?_, hN ▸ hb⟩
      intro i hi1 hi2
      exact hbm i (ha i hi1 hi2) (hnot c i hce ((holds_guc_id_iff K _ i).2 ⟨h1, h3, hi1, hi2⟩))
  · intro a b i hab ha hb
    by_cases hae : a = ce
    · subst hae
      rw [holds_guc_id_iff, hinv] at ha
      exact absurd ha.2.1 (by decide)
    · by_cases hbe : b = ce
      · subst hbe
        rw [holds_guc_id_iff, hinv] at hb
        exact absurd hb.2.1 (by decide)
      · rw [hctx a hae] at ha
        rw [hctx b hbe] at hb
        exact h.disjoint a b i hab ha hb
  · intro c hc
    obtain ⟨h1, h2⟩ := hlist c hc
    rw [hctx c h2]
    exact h.list c h1

/-- The invariant survives a context without identifier acquiring slots nobody
holds, when the pools only grow. -/
theorem AllocInv.acquire (K : Fwif) (g g1 : Guc) (ce : Nat) (h : AllocInv K g)
    (hold : context_guc_id_invalid K (g.ctx ce) = true)
    (hctx : ∀ x, x ≠ ce → g1.ctx x = g.ctx x)
    (hp : (g1.ctx ce).parent = (g.ctx ce).parent)
    (hn : (g1.ctx ce).guc_number_children = (g.ctx ce).guc_number_children)
    (hl : (g1.ctx ce).guc_child_list = (g.ctx ce).guc_child_list)
    (hnum : g1.num_guc_ids = g.num_guc_ids)
    (hlist : ∀ c ∈ g1.guc_id_list, c ∈ g.guc_id_list)
    (hnodup : g1.guc_id_list.Nodup)
    (hids : ∀ i ∈ g.guc_ids, i ∈ g1.guc_ids)
    (hbm : ∀ i, g.guc_ids_bitmap i = true → g1.guc_ids_bitmap i = true)
    (hsingle : intel_context_is_child (g.ctx ce) = false →
      intel_context_is_parent (g.ctx ce) = false →
      context_guc_id_invalid K (g1.ctx ce) = false →
      (g1.ctx ce).guc_id ∈ g1.guc_ids ∧ NUMBER_MULTI_LRC_GUC_ID g ≤ (g1.ctx ce).guc_id)
    (hgroup : intel_context_is_child (g.ctx ce) = false →
      intel_context_is_parent (g.ctx ce) = true →
      context_guc_id_invalid K (g1.ctx ce) = false →
      (∀ i, (g1.ctx ce).guc_id ≤ i → i < (g1.ctx ce).guc_id + guc_id_span (g.ctx ce) →
        g1.guc_ids_bitmap i = true) ∧
      (g1.ctx ce).guc_id + guc_id_span (g.ctx ce) ≤ NUMBER_MULTI_LRC_GUC_ID g)
    (hfresh : ∀ b i, b ≠ ce → holds_guc_id K (g.ctx b) i = true →
      holds_guc_id K (g1.ctx ce) i = true → False) :
    AllocInv K g1 := by
  have hN : NUMBER_MULTI_LRC_GUC_ID g1 = NUMBER_MULTI_LRC_GUC_ID g := by
    simp [NUMBER_MULTI_LRC_GUC_ID, hnum]
  obtain ⟨hrc, hrp, hrs⟩ := roles_congr _ _ hp hn
  refine ⟨?_, ?_, ?_, ?_, ?_, hnodup⟩
  · intro p c hc
    have hc' : c ∈ (g.ctx p).guc_child_list := by
      by_cases hpe : p = ce
      · subst hpe; rwa [hl] at hc
      · rwa [hctx p hpe] at hc
    have := h.wf p c hc'
    by_cases hce : c = ce
    · subst hce; rwa [hrc]
    · rwa [hctx c hce]
  · intro c h1 h2 h3
    by_cases hce : c = ce
    · subst hce
      rw [hrc] at h1
      rw [hrp] at h2
      rw [hN]
      exact hsingle h1 h2 h3
    · rw [hctx c hce] at h1 h2 h3 ⊢
      obtain ⟨ha, hb⟩ := h.single c h1 h2 h3
      exact ⟨hids _ ha, hN ▸ hb⟩
  · intro c h1 h2 h3
    by_cases hce : c = ce
    · subst hce
      rw [hrc] at h1
      rw [hrp] at h2
      rw [hN, hrs]
      exact hgroup h1 h2 h3
    · rw [hctx c hce] at h1 h2 h3 ⊢
      obtain ⟨ha, hb⟩ := h.group c h1 h2 h3
      exact ⟨fun i hi1 hi2 => hbm i (ha i hi1 hi2), hN ▸ hb⟩
  · intro a b i hab ha hb
    by_cases hae : a = ce
    · subst hae
      have hbe : b ≠ a := fun e => hab e.symm
      rw [hctx b hbe] at hb
      exact hfresh b i hbe hb ha
    · by_cases hbe : b = ce
      · subst hbe
        rw [hctx a hae] at ha
        exact hfresh a i hae ha hb
      · rw [hctx a hae] at ha
        rw [hctx b hbe] at hb
        exact h.disjoint a b i hab ha hb
  · intro c hc
    have h1 := hlist c hc
    obtain ⟨h2, h3, h4⟩ := h.list c h1
    have hce : c ≠ ce := by
      intro e; subst e; rw [hold] at h4; exact absurd h4 (by decide)
    rw [hctx c hce]
    exact ⟨h2, h3, h4⟩

theorem AllocInv.unpin (K : Fwif) (g : Guc) (ce : Nat) (h : AllocInv K g)
    (hchild : intel_context_is_child (g.ctx ce) = false) :
    AllocInv K (unpin_guc_id K g ce) := by
  unfold unpin_guc_id
  split
  · exact h
  · rename_i h1
    split
    · rename_i h2
      simp only [Bool.or_eq_true, not_or, Bool.not_eq_true] at h1
      simp only [Bool.and_eq_true, Bool.not_eq_eq_eq_not, Bool.not_true, beq_iff_eq] at h2
      refine ⟨h.wf, h.single, h.group, h.disjoint, ?_, ?_⟩
      · intro c hc
        rcases List.mem_append.1 hc with hc | hc
        · exact h.list c hc
        · rw [List.mem_singleton] at hc
          subst hc
          exact ⟨hchild, h1.2, h1.1⟩
      · refine List.Nodup.append h.nodup (List.nodup_singleton ce) ?_
        intro x hx hx'
        rw [List.mem_singleton] at hx'
        subst hx'
        have := h2.1.2
        rw [List.contains_eq_any_beq, List.any_eq_false] at this
        exact absurd (beq_self_eq_true x) (this x hx)
    · exact h

theorem reset_lrc_desc_frame (g : Guc) (id : Nat) :
    (reset_lrc_desc g id).ctx = g.ctx ∧ (reset_lrc_desc g id).guc_ids = g.guc_ids ∧
    (reset_lrc_desc g id).guc_ids_bitmap = g.guc_ids_bitmap ∧
    (reset_lrc_desc g id).num_guc_ids = g.num_guc_ids ∧
    (reset_lrc_desc g id).guc_id_list = g.guc_id_list := by
  unfold reset_lrc_desc
  split <;> exact ⟨rfl, rfl, rfl, rfl, rfl⟩

theorem release_guc_id_fields (K : Fwif) (g : Guc) (ce : Nat) :
    (∀ x, x ≠ ce → (__release_guc_id K g ce).ctx x = g.ctx x) ∧
    ((__release_guc_id K g ce).ctx ce).guc_id = K.GUC_INVALID_LRC_ID ∧
    ((__release_guc_id K g ce).ctx ce).parent = (g.ctx ce).parent ∧
    ((__release_guc_id K g ce).ctx ce).guc_number_children = (g.ctx ce).guc_number_children ∧
    ((__release_guc_id K g ce).ctx ce).guc_child_list = (g.ctx ce).guc_child_list ∧
    ((__release_guc_id K g ce).ctx ce).sched_state = (g.ctx ce).sched_state ∧
    (__release_guc_id K g ce).num_guc_ids = g.num_guc_ids ∧
    (__release_guc_id K g ce).guc_id_list = list_del_init g.guc_id_list ce ∧
    (__release_guc_id K g ce).guc_ids =
      (if context_guc_id_invalid K (g.ctx ce) = false ∧
          intel_context_is_parent (g.ctx ce) = false
        then ida_simple_remove g.guc_ids (g.ctx ce).guc_id else g.guc_ids) ∧
    (__release_guc_id K g ce).guc_ids_bitmap =
      (if context_guc_id_invalid K (g.ctx ce) = false ∧
          intel_context_is_parent (g.ctx ce) = true
        then bitmap_release_region g.guc_ids_bitmap (g.ctx ce).guc_id
          (order_base_2 ((g.ctx ce).guc_number_children + 1)) else g.guc_ids_bitmap) := by
  have hfilter : ∀ l : List Nat, l.contains ce = false → list_del_init l ce = l := by
    intro l hc
    rw [List.contains_eq_any_beq, List.any_eq_false] at hc
    unfold list_del_init
    rw [List.filter_eq_self]
    intro a ha
    have := hc a ha
    simp only [bne_iff_ne, ne_eq]
    intro e; subst e; simp at this
  have hfin : ∀ g1 : Guc, (if g1.guc_id_list.contains ce then
      { g1 with guc_id_list := list_del_init g1.guc_id_list ce } else g1) =
      { g1 with guc_id_list := list_del_init g1.guc_id_list ce } := by
    intro g1
    split
    · rfl
    · rename_i hc
      simp only [Bool.not_eq_true] at hc
      rw [hfilter _ hc]
  unfold __release_guc_id
  simp only [hfin]
  cases hv : context_guc_id_invalid K (g.ctx ce)
  · cases hp : intel_context_is_parent (g.ctx ce)
    · simp only [Bool.not_false, ↓reduceIte, Bool.false_eq_true, and_self, and_false]
      obtain ⟨f1, f2, f3, f4, f5⟩ := reset_lrc_desc_frame
        { g with guc_ids := ida_simple_remove g.guc_ids (g.ctx ce).guc_id } (g.ctx ce).guc_id
      simp only [Guc.set_ctx, f1, f2, f3, f4, f5, set_context_guc_id_invalid, ↓reduceIte]
      simp +contextual
    · simp only [Bool.not_false, ↓reduceIte, Bool.false_eq_true, and_self, and_false]
      generalize bitmap_release_region g.guc_ids_bitmap (g.ctx ce).guc_id
            (order_base_2 ((g.ctx ce).guc_number_children + 1)) = bm
      obtain ⟨f1, f2, f3, f4, f5⟩ := reset_lrc_desc_frame
        { g with guc_ids_bitmap := bm } (g.ctx ce).guc_id
      simp only [Guc.set_ctx, f1, f2, f3, f4, f5, set_context_guc_id_invalid, ↓reduceIte]
      simp +contextual
  · have hid : (g.ctx ce).guc_id = K.GUC_INVALID_LRC_ID := by
      simpa [context_guc_id_invalid] using hv
    simp [hid]

theorem steal_guc_id_ctx (K : Fwif) (g : Guc) (ce cn : Nat) (rest : List Nat)
    (h : g.guc_id_list = cn :: rest) (hne : ce ≠ cn) :
    (steal_guc_id K g ce).2.ctx cn =
      set_context_guc_id_invalid K (clr_context_registered (g.ctx cn)) ∧
    (steal_guc_id K g ce).2.ctx ce =
      { g.ctx ce with guc_id := (g.ctx cn).guc_id, guc_id_ref := (g.ctx cn).guc_id_ref } := by
  have hne' : cn ≠ ce := fun e => hne e.symm
  simp [steal_guc_id, h, Guc.set_ctx, hne, hne']

theorem mem_list_del_init (l : List Nat) (ce c : Nat) :
    c ∈ list_del_init l ce ↔ c ∈ l ∧ c ≠ ce := by
  simp [list_del_init]

theorem AllocInv.release (K : Fwif) (g : Guc) (ce : Nat) (h : AllocInv K g)
    (hchild : intel_context_is_child (g.ctx ce) = false) :
    AllocInv K (__release_guc_id K g ce) := by
  obtain ⟨r1, r2, r3, r4, r5, -, r6, r7, r8, r9⟩ := release_guc_id_fields K g ce
  refine AllocInv.invalidate K g _ ce h r1 r3 r4 r5 ?_ r6 ?_ ?_ ?_ ?_
  · simp [context_guc_id_invalid, r2]
  · intro c hc
    rw [r7, mem_list_del_init] at hc
    exact hc
  · rw [r7]
    exact List.Nodup.filter _ h.nodup
  · intro i hi hh
    rw [r8]
    split
    · rename_i hc
      simp only [ida_simple_remove, List.mem_filter, bne_iff_ne, ne_eq]
      refine ⟨hi, ?_⟩
      intro e
      subst e
      rw [holds_own_guc_id K _ hchild hc.1] at hh
      exact absurd hh (by decide)
    · exact hi
  · intro i hi hh
    rw [r9]
    split
    · rename_i hc
      simp only [bitmap_release_region]
      rw [if_neg, hi]
      intro hr
      have : holds_guc_id K (g.ctx ce) i = true := by
        rw [holds_guc_id_iff]
        refine ⟨hchild, hc.1, hr.1, ?_⟩
        simpa [guc_id_span, hc.2] using hr.2
      rw [this] at hh
      exact absurd hh (by decide)
    · exact hi

theorem AllocInv.assign (K : Fwif) (g : Guc) (ce : Nat) (h : AllocInv K g)
    (_hchild : intel_context_is_child (g.ctx ce) = false)
    (hinv : context_guc_id_invalid K (g.ctx ce) = true) :
    AllocInv K (assign_guc_id K g ce).2 := by
  rcases assign_guc_id_cases K g ce with ⟨-, h2⟩ | ⟨hp, id, h1, h2, h3, h4⟩ |
    ⟨hp, hneg, cn, rest, hl, h4, -⟩ | ⟨hp, pos, h1, h2, h3⟩
  · rw [h2]; exact h
  · rw [h4]
    refine AllocInv.acquire K g _ ce h hinv ?_ (by simp) (by simp) (by simp) rfl
      (fun c hc => hc) h.nodup ?_ (fun i hi => hi) ?_ ?_ ?_
    · intro x hx; simp [hx]
    · intro i hi; exact List.mem_cons_of_mem _ hi
    · intro _ _ _
      simp only [set_ctx_ctx, ↓reduceIte]
      exact ⟨List.mem_cons_self _ _, h2⟩
    · intro _ hq; rw [hp] at hq; exact absurd hq (by decide)
    · intro b i hb hbi hci
      simp only [set_ctx_ctx, ↓reduceIte] at hci
      rw [holds_guc_id_iff] at hbi hci
      have hs : guc_id_span { g.ctx ce with guc_id := id } = 1 := by
        apply guc_id_span_single; simpa [intel_context_is_parent] using hp
      rw [hs] at hci
      have hi : i = id := by have := hci.2.2; simp at this; omega
      subst hi
      cases hbp : intel_context_is_parent (g.ctx b)
      · have := (h.single b hbi.1 hbp hbi.2.1).1
        rw [guc_id_span_single _ hbp] at hbi
        have e : (g.ctx b).guc_id = i := by omega
        rw [e] at this
        exact h1 this
      · have := (h.group b hbi.1 hbp hbi.2.1).2
        omega
  · -- the identifier of `cn`, the head of the list, moves to `ce`
    rw [h4]
    obtain ⟨-, s2, s3, s4, s5, -, s7, s8, -, s10, -⟩ := steal_guc_id_cons K g ce cn rest hl
    obtain ⟨c1, c2, c3⟩ := h.list cn (hl ▸ List.mem_cons_self _ _)
    have hne : ce ≠ cn := by
      intro e; subst e; rw [hinv] at c3; exact absurd c3 (by decide)
    obtain ⟨t1, t2⟩ := steal_guc_id_ctx K g ce cn rest hl hne
    have hnd : (cn :: rest).Nodup := hl ▸ h.nodup
    -- first `cn` gives up its identifier
    have hmid : AllocInv K (({ g with guc_id_list := rest }).set_ctx cn
        (set_context_guc_id_invalid K (clr_context_registered (g.ctx cn)))) := by
      refine AllocInv.invalidate K g _ cn h ?_ (by simp; rfl) (by simp; rfl) (by simp; rfl)
        ?_ rfl ?_ (List.nodup_cons.1 hnd).2 (fun i hi _ => hi) (fun i hi _ => hi)
      · intro x hx; simp [hx]
      · simp [context_guc_id_invalid, set_context_guc_id_invalid]
      · intro c hc
        refine ⟨hl ▸ List.mem_cons_of_mem _ hc, ?_⟩
        intro e; subst e
        exact (List.nodup_cons.1 hnd).1 hc
    -- then `ce` takes it
    refine AllocInv.acquire K _ _ ce hmid ?_ ?_ ?_ ?_ ?_ s5 ?_ ?_ ?_ ?_ ?_ ?_ ?_
    · simpa [hne] using hinv
    · intro x hx
      by_cases hxc : x = cn
      · subst hxc; rw [t1]; simp
      · rw [s7 x hx hxc]; simp [hxc]
    · rw [t2]; simp [hne]
    · rw [t2]; simp [hne]
    · rw [t2]; simp [hne]
    · intro c hc; rw [s2] at hc; exact hc
    · rw [s2]; exact (List.nodup_cons.1 hnd).2
    · intro i hi; rw [s3]; exact hi
    · intro i hi; rw [s4]; exact hi
    · intro _ _ _
      rw [t2, s3]
      exact h.single cn c1 c2 c3
    · intro _ hq
      simp only [set_ctx_ctx, if_neg hne] at hq
      rw [hp] at hq; exact absurd hq (by decide)
    · intro b i hb hbi hci
      by_cases hbc : b = cn
      · subst hbc
        simp [holds_guc_id, context_guc_id_invalid, set_context_guc_id_invalid] at hbi
      · simp only [set_ctx_ctx, if_neg hbc] at hbi
        have hcn : holds_guc_id K (g.ctx cn) i = true := by
          obtain ⟨-, -, hrs⟩ := roles_congr _ _ (s8 ce).1 (s8 ce).2.1
          rw [holds_guc_id_iff, hrs, s10 hne, guc_id_span_single _ hp] at hci
          rw [holds_guc_id_iff, guc_id_span_single _ c2]
          exact ⟨c1, c3, hci.2.2.1, hci.2.2.2⟩
        exact h.disjoint b cn i hbc hbi hcn
  · -- a parent takes a free region of the bitmap, then numbers its children
    rw [h3]
    have hg1 : AllocInv K (({ g with guc_ids_bitmap := fun i =>
          if pos ≤ i ∧ i < pos + guc_id_span (g.ctx ce) then true else g.guc_ids_bitmap i }).set_ctx
          ce { g.ctx ce with guc_id := pos }) := by
      refine AllocInv.acquire K g _ ce h hinv ?_ (by simp) (by simp) (by simp) rfl
        (fun c hc => hc) h.nodup (fun i hi => hi) ?_ ?_ ?_ ?_
      · intro x hx; simp [hx]
      · intro i hi
        show (if pos ≤ i ∧ i < pos + guc_id_span (g.ctx ce) then true
          else g.guc_ids_bitmap i) = true
        split
        · rfl
        · exact hi
      · intro _ hq; rw [hp] at hq; exact absurd hq (by decide)
      · intro _ _ _
        simp only [set_ctx_ctx, ↓reduceIte]
        refine ⟨?_, h1⟩
        intro i hi1 hi2
        show (if pos ≤ i ∧ i < pos + guc_id_span (g.ctx ce) then true
          else g.guc_ids_bitmap i) = true
        rw [if_pos ⟨hi1, hi2⟩]
      · intro b i hb hbi hci
        simp only [set_ctx_ctx, ↓reduceIte] at hci
        rw [holds_guc_id_iff] at hbi hci
        have hs : guc_id_span { g.ctx ce with guc_id := pos } = guc_id_span (g.ctx ce) := rfl
        rw [hs] at hci
        have hi1 : pos ≤ i := hci.2.2.1
        have hi2 : i < pos + guc_id_span (g.ctx ce) := hci.2.2.2
        cases hbp : intel_context_is_parent (g.ctx b)
        · have := (h.single b hbi.1 hbp hbi.2.1).2
          rw [guc_id_span_single _ hbp] at hbi
          omega
        · have := (h.group b hbi.1 hbp hbi.2.1).1 i hbi.2.2.1 hbi.2.2.2
          rw [h2 i hi1 hi2] at this
          exact absurd this (by decide)
    obtain ⟨f1, f2, f3, f4, -, f6, f7⟩ := assign_child_ids_frame ce (g.ctx ce).guc_child_list
      (({ g with guc_ids_bitmap := fun i =>
          if pos ≤ i ∧ i < pos + guc_id_span (g.ctx ce) then true else g.guc_ids_bitmap i }).set_ctx
          ce { g.ctx ce with guc_id := pos }) 1
    refine AllocInv.transfer K _ _ hg1 f1 f2 f3 f4 ?_ (fun x => (f7 x).2.1) ?_
    · intro x
      simp only [intel_context_is_child, (f7 x).1]
    · intro x hx
      apply f6
      intro hmem
      have := hg1.wf ce x (by simpa using hmem)
      rw [hx] at this
      exact absurd this (by decide)

theorem alloc_step_inv (K : Fwif) (g g1 : Guc) (op : AllocOp) (h : AllocInv K g)
    (hs : alloc_step K g op = some g1) : AllocInv K g1 := by
  cases op with
  | assign ce =>
    simp only [alloc_step] at hs
    split at hs
    · rename_i hc
      simp only [Bool.and_eq_true, Bool.not_eq_eq_eq_not, Bool.not_true] at hc
      simp only [Option.some.injEq] at hs
      subst hs
      exact AllocInv.assign K g ce h hc.1 hc.2
    · exact absurd hs (by simp)
  | release ce =>
    simp only [alloc_step] at hs
    split at hs
    · rename_i hc
      simp only [Bool.not_eq_eq_eq_not, Bool.not_true] at hc
      simp only [Option.some.injEq] at hs
      subst hs
      exact AllocInv.release K g ce h hc
    · exact absurd hs (by simp)
  | unpin ce =>
    simp only [alloc_step] at hs
    split at hs
    · rename_i hc
      simp only [Bool.not_eq_eq_eq_not, Bool.not_true] at hc
      simp only [Option.some.injEq] at hs
      subst hs
      exact AllocInv.unpin K g ce h hc
    · exact absurd hs (by simp)

theorem alloc_run_inv (K : Fwif) (ops : List AllocOp) :
    ∀ (g g1 : Guc), AllocInv K g → alloc_run K g ops = some g1 → AllocInv K g1 := by
  induction ops with
  | nil =>
    intro g g1 h hr
    simp only [alloc_run, Option.some.injEq] at hr
    subst hr; exact h
  | cons op ops ih =>
    intro g g1 h hr
    simp only [alloc_run] at hr
    cases hs : alloc_step K g op with
    | none => rw [hs] at hr; exact absurd hr (by simp)
    | some g2 =>
      rw [hs] at hr
      exact ih g2 g1 (alloc_step_inv K g g2 op h hs) hr

/-- C1: after any sequence of `assign_guc_id` (which allocates through `new_guc_id`
or takes over an identifier through `steal_guc_id`), `__release_guc_id` and
`unpin_guc_id` calls that starts from empty pools, two different contexts that both
hold a valid identifier never hold the same one, and no slot of the region
`[id, id + 2 ^ order_base_2(children + 1))` of a parent is held by another context
(a standalone context holds its identifier, a parent its region; the identifiers
of children are slots of the region of their parent). -/
theorem guc_ids_never_shared (K : Fwif) (g0 g : Guc) (ops : List AllocOp)
    (h0 : alloc_pools_empty K g0) (hrun : alloc_run K g0 ops = some g) :
    (∀ a b, a ≠ b →
      intel_context_is_child (g.ctx a) = false → context_guc_id_invalid K (g.ctx a) = false →
      intel_context_is_child (g.ctx b) = false → context_guc_id_invalid K (g.ctx b) = false →
      (g.ctx a).guc_id ≠ (g.ctx b).guc_id) ∧
    (∀ a b i, a ≠ b →
      intel_context_is_child (g.ctx a) = false → context_guc_id_invalid K (g.ctx a) = false →
      intel_context_is_parent (g.ctx a) = true →
      (g.ctx a).guc_id ≤ i →
      i < (g.ctx a).guc_id + 2 ^ order_base_2 ((g.ctx a).guc_number_children + 1) →
      holds_guc_id K (g.ctx b) i = false) := by
  have hinv := alloc_run_inv K ops g0 g (alloc_pools_empty_inv K g0 h0) hrun
  constructor
  · intro a b hab ha1 ha2 hb1 hb2 e
    have h1 := holds_own_guc_id K _ ha1 ha2
    have h2 := holds_own_guc_id K _ hb1 hb2
    rw [e] at h1
    exact hinv.disjoint a b _ hab h1 h2
  · intro a b i hab ha1 ha2 ha3 hi1 hi2
    cases hb : holds_guc_id K (g.ctx b) i
    · rfl
    · have ha : holds_guc_id K (g.ctx a) i = true := by
        rw [holds_guc_id_iff]
        refine ⟨ha1, ha2, hi1, ?_⟩
        simpa [guc_id_span, ha3] using hi2
      exact absurd (hinv.disjoint a b i hab ha hb) id

theorem alloc_demo_pools_empty : alloc_pools_empty fwif_upstream alloc_demo := by
  refine ⟨rfl, fun _ => rfl, rfl, ?_, ?_⟩
  · intro c
    simp only [alloc_demo, Guc.set_ctx]
    split
    · rfl
    · split <;> rfl
  · intro p c
    simp only [alloc_demo, Guc.set_ctx]
    split
    · intro h; simp [IntelContext.fresh] at h
    · split
      · intro h
        simp only [List.mem_singleton] at h
        subst h
        rfl
      · intro h; simp [Guc.init, IntelContext.fresh] at h

/-- C1, witness: the identifiers held at the end of `alloc_demo_ops`. -/
theorem guc_ids_never_shared_witness :
    ((List.range 6).map (fun c => (alloc_demo_final.ctx c).guc_id) =
        [0, 1, 65535, 33, 32, 65535]) ∧
    ((∀ a b, a ≠ b →
      intel_context_is_child (alloc_demo_final.ctx a) = false →
      context_guc_id_invalid fwif_upstream (alloc_demo_final.ctx a) = false →
      intel_context_is_child (alloc_demo_final.ctx b) = false →
      context_guc_id_invalid fwif_upstream (alloc_demo_final.ctx b) = false →
      (alloc_demo_final.ctx a).guc_id ≠ (alloc_demo_final.ctx b).guc_id) ∧
    (∀ a b i, a ≠ b →
      intel_context_is_child (alloc_demo_final.ctx a) = false →
      context_guc_id_invalid fwif_upstream (alloc_demo_final.ctx a) = false →
      intel_context_is_parent (alloc_demo_final.ctx a) = true →
      (alloc_demo_final.ctx a).guc_id ≤ i →
      i < (alloc_demo_final.ctx a).guc_id +
        2 ^ order_base_2 ((alloc_demo_final.ctx a).guc_number_children + 1) →
      holds_guc_id fwif_upstream (alloc_demo_final.ctx b) i = false)) :=
  ⟨by decide, guc_ids_never_shared fwif_upstream alloc_demo alloc_demo_final alloc_demo_ops
    alloc_demo_pools_empty rfl⟩

/-! ## Scheduling-state bits -/

theorem sched_flag_testBit (k : Nat) (c : IntelContext) :
    sched_flag (2 ^ k) c = c.sched_state.testBit k := by
  unfold sched_flag
  rw [Nat.and_two_pow]
  cases h : c.sched_state.testBit k <;> simp [h]

theorem set_sched_flag_testBit (k j : Nat) (c : IntelContext) :
    (set_sched_flag (2 ^ k) c).sched_state.testBit j =
      (c.sched_state.testBit j || decide (k = j)) := by
  simp [set_sched_flag, Nat.testBit_or, Nat.testBit_two_pow]

theorem u32_andnot_testBit (a k j : Nat) (hk : k < 32) :
    (u32_andnot a (2 ^ k)).testBit j =
      (a.testBit j && decide (j < 32) && !decide (k = j)) := by
  have h1 : 2 ^ k % 2 ^ 32 = 2 ^ k :=
    Nat.mod_eq_of_lt (Nat.pow_lt_pow_right (by decide) hk)
  unfold u32_andnot
  rw [h1, Nat.testBit_and, Nat.testBit_xor, Nat.testBit_two_pow_sub_one, Nat.testBit_two_pow]
  by_cases h2 : j < 32 <;> by_cases h3 : k = j <;> simp [h2, h3]
  omega

theorem clr_sched_flag_testBit (k j : Nat) (c : IntelContext) (hk : k < 32) :
    (clr_sched_flag (2 ^ k) c).sched_state.testBit j =
      (c.sched_state.testBit j && decide (j < 32) && !decide (k = j)) := by
  simp only [clr_sched_flag]
  exact u32_andnot_testBit _ k j hk

/-! ## Command transport -/

theorem ct_send_frame (g : Guc) (a : H2G) :
    ∃ r, (intel_guc_ct_send g a).2 = { g with ct_replies := r, h2g := g.h2g ++ [a] } ∧
      r.length ≤ g.ct_replies.length := by
  unfold intel_guc_ct_send
  cases h : g.ct_replies with
  | nil => exact ⟨[], by simp [← h], by simp⟩
  | cons r rs => exact ⟨rs, rfl, by simp⟩

theorem send_busy_loop_retry_frame (a : H2G) (len : Nat) (loop : Bool) (fuel : Nat) :
    ∀ g : Guc, ∃ r n, 0 < n ∧
      (send_busy_loop_retry a len loop fuel g).2 =
        { g with ct_replies := r, h2g := g.h2g ++ List.replicate n a } := by
  induction fuel with
  | zero =>
    intro g
    obtain ⟨r, hr, _⟩ := ct_send_frame g a
    exact ⟨r, 1, by decide, by simpa [send_busy_loop_retry, intel_guc_send_nb] using hr⟩
  | succ fuel ih =>
    intro g
    obtain ⟨r, hr, _⟩ := ct_send_frame g a
    unfold send_busy_loop_retry
    simp only [intel_guc_send_nb]
    split
    · obtain ⟨r2, n, hn, h2⟩ := ih (intel_guc_ct_send g a).2
      refine ⟨r2, n + 1, by omega, ?_⟩
      rw [h2, hr]
      simp [List.replicate_succ]
    · exact ⟨r, 1, by decide, by simpa using hr⟩

theorem intel_guc_send_busy_loop_frame (g : Guc) (a : H2G) (len : Nat) (loop : Bool) :
    ∃ r n, 0 < n ∧ (intel_guc_send_busy_loop g a len loop).2 =
      { g with ct_replies := r, h2g := g.h2g ++ List.replicate n a } :=
  send_busy_loop_retry_frame a len loop g.ct_replies.length g

theorem guc_submission_send_busy_loop_eq (g : Guc) (a : H2G) (len : Nat) (loop : Bool) :
    guc_submission_send_busy_loop g a len loop =
      (fun r : Int × Guc =>
        if r.1 = -EBUSY ∧ len ≠ 0 then (r.1, decr_outstanding_submission_g2h r.2) else r)
      (intel_guc_send_busy_loop
        (if len ≠ 0 then
          { g with outstanding_submission_g2h := g.outstanding_submission_g2h + 1 }
         else g) a len loop) := rfl

theorem guc_submission_send_busy_loop_frame (g : Guc) (a : H2G) (len : Nat) (loop : Bool) :
    ∃ r n, 0 < n ∧
      (guc_submission_send_busy_loop g a len loop).2 =
        { g with ct_replies := r, h2g := g.h2g ++ List.replicate n a,
                 outstanding_submission_g2h := g.outstanding_submission_g2h +
                   (if len ≠ 0 ∧ (guc_submission_send_busy_loop g a len loop).1 ≠ -EBUSY
                    then 1 else 0) } := by
  rw [guc_submission_send_busy_loop_eq]
  generalize hg1 : (if len ≠ 0 then
      ({ g with outstanding_submission_g2h := g.outstanding_submission_g2h + 1 } : Guc)
    else g) = g1
  obtain ⟨r, n, hn, h⟩ := intel_guc_send_busy_loop_frame g1 a len loop
  generalize intel_guc_send_busy_loop g1 a len loop = x at h ⊢
  refine ⟨r, n, hn, ?_⟩
  by_cases hl : len ≠ 0
  · rw [if_pos hl] at hg1
    subst hg1
    by_cases hb : x.1 = -EBUSY
    · simp [hb, hl, h, decr_outstanding_submission_g2h]
    · simp [hb, hl, h]
  · rw [if_neg hl] at hg1
    subst hg1
    have hl0 : len = 0 := by omega
    simp [hl0, h]

/-! ## Registration store -/

theorem xa_load_xa_store_self (xa : List (Nat × Nat)) (id ce : Nat) :
    xa_load (xa_store xa id ce) id = some ce := by
  induction xa with
  | nil => simp [xa_store, xa_load]
  | cons e xs ih =>
    obtain ⟨k, v⟩ := e
    unfold xa_store
    by_cases h1 : id < k
    · simp [h1, xa_load]
    · by_cases h2 : id = k
      · subst h2; simp [xa_load]
      · have h3 : (k == id) = false := by simpa using fun e => h2 e.symm
        simp only [h1, h2, ↓reduceIte]
        simp only [xa_load, List.find?_cons, h3] at ih ⊢
        exact ih

theorem xa_load_xa_erase_self (xa : List (Nat × Nat)) (id : Nat) :
    xa_load (xa_erase xa id) id = none := by
  simp only [xa_load, xa_erase, Option.map_eq_none', List.find?_eq_none]
  intro e he
  simp only [List.mem_filter, bne_iff_ne, ne_eq] at he
  simpa using he.2

theorem assign_guc_id_context_lookup (K : Fwif) (g : Guc) (ce : Nat) :
    (assign_guc_id K g ce).2.context_lookup = g.context_lookup := by
  rcases assign_guc_id_cases K g ce with ⟨-, h⟩ | ⟨-, id, -, -, -, h⟩ |
    ⟨-, -, cn, rest, hl, h, -⟩ | ⟨-, pos, -, -, h⟩
  · rw [h]
  · rw [h]; rfl
  · rw [h]
    exact (steal_guc_id_cons K g ce cn rest hl).2.2.2.2.2.1
  · rw [h]
    rw [(assign_child_ids_frame ce _ _ _).2.2.2.2.1]
    rfl

theorem fill_child_descs_frame (K : Fwif) (l : List Nat) :
    ∀ g : Guc, (fill_child_descs K g l).ctx = g.ctx ∧
      (fill_child_descs K g l).context_lookup = g.context_lookup ∧
      (fill_child_descs K g l).h2g = g.h2g ∧
      (fill_child_descs K g l).ct_replies = g.ct_replies ∧
      (fill_child_descs K g l).outstanding_submission_g2h = g.outstanding_submission_g2h ∧
      (fill_child_descs K g l).max_guc_ids = g.max_guc_ids ∧
      (fill_child_descs K g l).lrc_desc_pool_vaddr = g.lrc_desc_pool_vaddr ∧
      (fill_child_descs K g l).has_sched_engine = g.has_sched_engine ∧
      (fill_child_descs K g l).tasklet_count = g.tasklet_count := by
  induction l with
  | nil => intro g; simp [fill_child_descs]
  | cons child rest ih =>
    intro g
    unfold fill_child_descs
    exact ih _

/-- What the first part of `guc_lrc_desc_pin` leaves alone, and the entry it makes in
the registration store. -/
theorem guc_lrc_desc_pin_fill_frame (K : Fwif) (g : Guc) (ce : Nat) :
    (guc_lrc_desc_pin_fill K g ce).context_lookup =
      xa_store (reset_lrc_desc g (g.ctx ce).guc_id).context_lookup (g.ctx ce).guc_id ce ∧
    (∀ x, x ≠ ce → (guc_lrc_desc_pin_fill K g ce).ctx x = g.ctx x) ∧
    ((guc_lrc_desc_pin_fill K g ce).ctx ce).sched_state = (g.ctx ce).sched_state ∧
    ((guc_lrc_desc_pin_fill K g ce).ctx ce).guc_id = (g.ctx ce).guc_id ∧
    ((guc_lrc_desc_pin_fill K g ce).ctx ce).parent = (g.ctx ce).parent ∧
    ((guc_lrc_desc_pin_fill K g ce).ctx ce).guc_number_children =
      (g.ctx ce).guc_number_children ∧
    (guc_lrc_desc_pin_fill K g ce).h2g = g.h2g ∧
    (guc_lrc_desc_pin_fill K g ce).ct_replies = g.ct_replies ∧
    (guc_lrc_desc_pin_fill K g ce).outstanding_submission_g2h = g.outstanding_submission_g2h ∧
    (guc_lrc_desc_pin_fill K g ce).max_guc_ids = g.max_guc_ids ∧
    (guc_lrc_desc_pin_fill K g ce).lrc_desc_pool_vaddr = g.lrc_desc_pool_vaddr ∧
    submission_disabled (guc_lrc_desc_pin_fill K g ce) = submission_disabled g := by
  have hr : ∃ p l, reset_lrc_desc g (g.ctx ce).guc_id =
      { g with lrc_desc_pool := p, context_lookup := l } := by
    unfold reset_lrc_desc
    split
    · exact ⟨_, _, rfl⟩
    · exact ⟨_, _, rfl⟩
  obtain ⟨p, l, hr⟩ := hr
  unfold guc_lrc_desc_pin_fill
  simp only [hr, set_lrc_desc_registered, Guc.set_ctx]
  split
  · simp only [submission_disabled, __tasklet_is_enabled,
      fun l g => (fill_child_descs_frame K l g).1,
      fun l g => (fill_child_descs_frame K l g).2.1,
      fun l g => (fill_child_descs_frame K l g).2.2.1,
      fun l g => (fill_child_descs_frame K l g).2.2.2.1,
      fun l g => (fill_child_descs_frame K l g).2.2.2.2.1,
      fun l g => (fill_child_descs_frame K l g).2.2.2.2.2.1,
      fun l g => (fill_child_descs_frame K l g).2.2.2.2.2.2.1,
      fun l g => (fill_child_descs_frame K l g).2.2.2.2.2.2.2.1,
      fun l g => (fill_child_descs_frame K l g).2.2.2.2.2.2.2.2]
    simp +contextual
  · simp +contextual [submission_disabled, __tasklet_is_enabled]

/-! ## Registration and deregistration -/

theorem send_busy_loop_retry_accepted (a : H2G) (len : Nat) (fuel : Nat) :
    ∀ g : Guc, g.ct_replies.length ≤ fuel → (∀ x ∈ g.ct_replies, x = 0 ∨ x = -EBUSY) →
      (send_busy_loop_retry a len true fuel g).1 = 0 := by
  induction fuel with
  | zero =>
    intro g hlen _
    have h0 : g.ct_replies = [] := List.length_eq_zero.mp (by omega)
    simp [send_busy_loop_retry, intel_guc_send_nb, intel_guc_ct_send, h0]
  | succ fuel ih =>
    intro g hlen hall
    unfold send_busy_loop_retry
    cases hr : g.ct_replies with
    | nil => simp [intel_guc_send_nb, intel_guc_ct_send, hr, EBUSY]
    | cons r rs =>
      rw [hr] at hall hlen
      have hrest : ∀ x ∈ rs, x = 0 ∨ x = -EBUSY := fun x hx => hall x (List.mem_cons_of_mem _ hx)
      rcases hall r (List.mem_cons_self _ _) with h0 | hb
      · simp [intel_guc_send_nb, intel_guc_ct_send, hr, h0, EBUSY]
      · simp only [intel_guc_send_nb, intel_guc_ct_send, hr, hb, and_self, ↓reduceIte]
        apply ih
        · simp only [List.length_cons] at hlen ⊢
          omega
        · exact hrest

theorem guc_submission_send_busy_loop_accepted (g : Guc) (a : H2G) (len : Nat)
    (hall : ∀ x ∈ g.ct_replies, x = 0 ∨ x = -EBUSY) :
    (guc_submission_send_busy_loop g a len true).1 = 0 := by
  have h : ∀ g1 : Guc, g1.ct_replies = g.ct_replies →
      (intel_guc_send_busy_loop g1 a len true).1 = 0 := by
    intro g1 h1
    unfold intel_guc_send_busy_loop
    exact send_busy_loop_retry_accepted a len _ g1 (le_refl _) (by rw [h1]; exact hall)
  rw [guc_submission_send_busy_loop_eq]
  by_cases hl : len ≠ 0
  · rw [if_pos hl]
    have := h { g with outstanding_submission_g2h := g.outstanding_submission_g2h + 1 } rfl
    simp [this, EBUSY]
  · rw [if_neg hl]
    have := h g rfl
    simp [this, EBUSY]

/-- The two kinds of register message. -/
theorem register_context_frame (K : Fwif) (g : Guc) (ce : Nat) (loop : Bool) :
    (register_context K g ce loop).2.context_lookup = g.context_lookup ∧
    (register_context K g ce loop).2.max_guc_ids = g.max_guc_ids ∧
    (∀ x, x ≠ ce → (register_context K g ce loop).2.ctx x = g.ctx x) ∧
    (register_context K g ce loop).2.ctx ce =
      (if (register_context K g ce loop).1 = 0 then set_context_registered (g.ctx ce)
       else g.ctx ce) ∧
    ((∀ x ∈ g.ct_replies, x = 0 ∨ x = -EBUSY) → loop = true →
      (register_context K g ce loop).1 = 0) := by
  unfold register_context
  simp only []
  generalize u32 (g.lrc_desc_pool_offset + (g.ctx ce).guc_id * K.SIZEOF_GUC_LRC_DESC) = off
  have key : ∀ a : H2G,
      let r := guc_submission_send_busy_loop g a 0 loop
      let res : Int × Guc :=
        if r.1 = 0 then (r.1, r.2.set_ctx ce (set_context_registered (r.2.ctx ce))) else r
      res.2.context_lookup = g.context_lookup ∧ res.2.max_guc_ids = g.max_guc_ids ∧
      (∀ x, x ≠ ce → res.2.ctx x = g.ctx x) ∧
      res.2.ctx ce = (if res.1 = 0 then set_context_registered (g.ctx ce) else g.ctx ce) ∧
      ((∀ x ∈ g.ct_replies, x = 0 ∨ x = -EBUSY) → loop = true → res.1 = 0) := by
    intro a
    obtain ⟨rr, n, -, h⟩ := guc_submission_send_busy_loop_frame g a 0 loop
    have hacc : (∀ x ∈ g.ct_replies, x = 0 ∨ x = -EBUSY) → loop = true →
        (guc_submission_send_busy_loop g a 0 loop).1 = 0 := by
      intro hall hl
      subst hl
      exact guc_submission_send_busy_loop_accepted g a 0 hall
    generalize guc_submission_send_busy_loop g a 0 loop = x at h hacc ⊢
    simp only []
    by_cases h0 : x.1 = 0
    · simp only [h0, ↓reduceIte, Guc.set_ctx, h]
      simp +contextual
    · simp only [h0, ↓reduceIte, h]
      exact ⟨trivial, trivial, fun _ _ => trivial, trivial, fun hall hl => h0 (hacc hall hl)⟩
  split
  · exact key _
  · exact key _

theorem lookup_after_send (g : Guc) (a : H2G) (len : Nat) (loop : Bool) :
    (guc_submission_send_busy_loop g a len loop).2.context_lookup = g.context_lookup ∧
    (guc_submission_send_busy_loop g a len loop).2.ctx = g.ctx ∧
    (guc_submission_send_busy_loop g a len loop).2.max_guc_ids = g.max_guc_ids ∧
    (guc_submission_send_busy_loop g a len loop).2.lrc_desc_pool_vaddr =
      g.lrc_desc_pool_vaddr ∧
    (guc_submission_send_busy_loop g a len loop).2.lrc_desc_pool = g.lrc_desc_pool ∧
    ∃ n, 0 < n ∧
      (guc_submission_send_busy_loop g a len loop).2.h2g = g.h2g ++ List.replicate n a := by
  obtain ⟨r, n, hn, h⟩ := guc_submission_send_busy_loop_frame g a len loop
  rw [h]
  exact ⟨rfl, rfl, rfl, rfl, rfl, n, hn, rfl⟩

/-- The path of `guc_lrc_desc_pin` taken for an identifier that is still bound in
the registration store while submission is enabled. -/
theorem guc_lrc_desc_pin_steal_path (K : Fwif) (g : Guc) (ce : Nat) (loop : Bool)
    (hreg : lrc_desc_registered g (g.ctx ce).guc_id = true)
    (hen : submission_disabled g = false) :
    (guc_lrc_desc_pin K g ce loop).2.ctx ce =
      set_context_wait_for_deregister_to_register ((guc_lrc_desc_pin_fill K g ce).ctx ce) ∧
    (∀ x, x ≠ ce → (guc_lrc_desc_pin K g ce loop).2.ctx x = g.ctx x) ∧
    (∃ n, 0 < n ∧ (guc_lrc_desc_pin K g ce loop).2.h2g =
      g.h2g ++ List.replicate n (H2G.deregister_context (g.ctx ce).guc_id)) ∧
    xa_load (guc_lrc_desc_pin K g ce loop).2.context_lookup (g.ctx ce).guc_id = some ce ∧
    (guc_lrc_desc_pin K g ce loop).2.max_guc_ids = g.max_guc_ids := by
  obtain ⟨f1, f2, f3, f4, f5, f6, f7, f8, f9, f10, f11, f12⟩ := guc_lrc_desc_pin_fill_frame K g ce
  have hid : (((guc_lrc_desc_pin_fill K g ce).set_ctx ce
      (set_context_wait_for_deregister_to_register ((guc_lrc_desc_pin_fill K g ce).ctx ce))).ctx
        ce).guc_id = (g.ctx ce).guc_id := by
    simp [Guc.set_ctx, set_context_wait_for_deregister_to_register, set_sched_flag, f4]
  have h2 : (guc_lrc_desc_pin K g ce loop).2 =
      (guc_submission_send_busy_loop ((guc_lrc_desc_pin_fill K g ce).set_ctx ce
        (set_context_wait_for_deregister_to_register ((guc_lrc_desc_pin_fill K g ce).ctx ce)))
        (H2G.deregister_context (g.ctx ce).guc_id) K.G2H_LEN_DW_DEREGISTER_CONTEXT loop).2 := by
    unfold guc_lrc_desc_pin
    simp only [hreg, f12, hen, ↓reduceIte, Bool.not_false, Bool.false_eq_true,
      deregister_context, __guc_action_deregister_context, hid]
    split <;> rfl
  obtain ⟨s1, s2, s3, -, -, n, hn, s6⟩ := lookup_after_send
    ((guc_lrc_desc_pin_fill K g ce).set_ctx ce
      (set_context_wait_for_deregister_to_register ((guc_lrc_desc_pin_fill K g ce).ctx ce)))
    (H2G.deregister_context (g.ctx ce).guc_id) K.G2H_LEN_DW_DEREGISTER_CONTEXT loop
  rw [h2, s1, s2, s3, s6]
  refine ⟨by simp [Guc.set_ctx], ?_, ⟨n, hn, ?_⟩, ?_, ?_⟩
  · intro x hx
    simp [Guc.set_ctx, hx, f2 x hx]
  · simp [Guc.set_ctx, f7]
  · simp only [Guc.set_ctx, f1]
    exact xa_load_xa_store_self _ _ _
  · simp [Guc.set_ctx, f10]

theorem flag_bits_preserved (c : IntelContext) :
    context_registered (set_context_wait_for_deregister_to_register c) = context_registered c ∧
    context_wait_for_deregister_to_register
      (set_context_wait_for_deregister_to_register c) = true ∧
    context_wait_for_deregister_to_register
      (clr_context_wait_for_deregister_to_register c) = false ∧
    context_registered (clr_context_wait_for_deregister_to_register c) = context_registered c ∧
    context_registered (set_context_registered c) = true := by
  have e0 : ∀ c, context_wait_for_deregister_to_register c = c.sched_state.testBit 0 :=
    fun c => sched_flag_testBit 0 c
  have e6 : ∀ c, context_registered c = c.sched_state.testBit 6 :=
    fun c => sched_flag_testBit 6 c
  have hlt : c.sched_state.testBit 6 = true → True := fun _ => trivial
  simp only [e0, e6, set_context_wait_for_deregister_to_register,
    clr_context_wait_for_deregister_to_register, set_context_registered,
    SCHED_STATE_WAIT_FOR_DEREGISTER_TO_REGISTER, SCHED_STATE_REGISTERED,
    set_sched_flag_testBit, clr_sched_flag_testBit _ _ _ (show 0 < 32 by decide)]
  simp

theorem deregister_done_other (K : Fwif) (g : Guc) (ce : Nat) (msg : List Nat) (len : Nat)
    (h : g2h_context_lookup g (msg.getD 0 0) ≠ some ce) :
    (intel_guc_deregister_done_process_msg K g msg len).2.ctx ce = g.ctx ce := by
  unfold intel_guc_deregister_done_process_msg
  simp only []
  split
  · rfl
  · cases hl : g2h_context_lookup g (msg.getD 0 0) with
    | none => rfl
    | some c =>
      have hc : ce ≠ c := by
        intro e
        subst e
        exact h hl
      simp only [decr_outstanding_submission_g2h]
      split
      · simp only [guc_signal_context_fence, Guc.set_ctx, if_neg hc]
        exact (register_context_frame K g c true).2.2.1 ce hc
      · split
        · simp only [__guc_context_destroy, release_guc_id]
          exact (release_guc_id_fields K g c).1 ce hc
        · rfl

theorem deregister_done_waiting (K : Fwif) (g : Guc) (ce : Nat) (msg : List Nat) (len : Nat)
    (hlen : 1 ≤ len) (h : g2h_context_lookup g (msg.getD 0 0) = some ce)
    (hw : context_wait_for_deregister_to_register (g.ctx ce) = true) :
    (intel_guc_deregister_done_process_msg K g msg len).1 = 0 ∧
    (intel_guc_deregister_done_process_msg K g msg len).2.ctx ce =
      clr_context_wait_for_deregister_to_register ((register_context K g ce true).2.ctx ce) := by
  unfold intel_guc_deregister_done_process_msg
  have hl : ¬ len < 1 := by omega
  simp only [hl, h, hw, ↓reduceIte, decr_outstanding_submission_g2h, guc_signal_context_fence,
    Guc.set_ctx, true_and]

/-- C8: when `guc_lrc_desc_pin` runs for a context whose identifier is still bound in
the registration store while submission is enabled, it sets
`WAIT_FOR_DEREGISTER_TO_REGISTER` on that context and changes no other context, the
messages it hands to the transport are deregister messages for the identifier, and
it leaves `REGISTERED` of the context as it was. The deregister-done reply for the
identifier is accepted, clears the wait flag and sets `REGISTERED` exactly when the
register message it sends is accepted, which it is whenever the transport only
answers 0 or `-EBUSY`; a reply that resolves to another context leaves the context
untouched. -/
theorem stolen_id_deregisters_before_register (K : Fwif) (g : Guc) (ce : Nat) (loop : Bool)
    (hreg : lrc_desc_registered g (g.ctx ce).guc_id = true)
    (hen : submission_disabled g = false)
    (hchild : intel_context_is_child (g.ctx ce) = false)
    (hmax : (g.ctx ce).guc_id < g.max_guc_ids) :
    context_wait_for_deregister_to_register ((guc_lrc_desc_pin K g ce loop).2.ctx ce) = true ∧
    (∀ x, x ≠ ce → (guc_lrc_desc_pin K g ce loop).2.ctx x = g.ctx x) ∧
    (∃ n, 0 < n ∧ (guc_lrc_desc_pin K g ce loop).2.h2g =
      g.h2g ++ List.replicate n (H2G.deregister_context (g.ctx ce).guc_id)) ∧
    context_registered ((guc_lrc_desc_pin K g ce loop).2.ctx ce) =
      context_registered (g.ctx ce) ∧
    (intel_guc_deregister_done_process_msg K (guc_lrc_desc_pin K g ce loop).2
      [(g.ctx ce).guc_id] 1).1 = 0 ∧
    context_wait_for_deregister_to_register
      ((intel_guc_deregister_done_process_msg K (guc_lrc_desc_pin K g ce loop).2
        [(g.ctx ce).guc_id] 1).2.ctx ce) = false ∧
    context_registered
      ((intel_guc_deregister_done_process_msg K (guc_lrc_desc_pin K g ce loop).2
        [(g.ctx ce).guc_id] 1).2.ctx ce) =
      (context_registered (g.ctx ce) ||
        decide ((register_context K (guc_lrc_desc_pin K g ce loop).2 ce true).1 = 0)) ∧
    ((∀ x ∈ (guc_lrc_desc_pin K g ce loop).2.ct_replies, x = 0 ∨ x = -EBUSY) →
      context_registered
        ((intel_guc_deregister_done_process_msg K (guc_lrc_desc_pin K g ce loop).2
          [(g.ctx ce).guc_id] 1).2.ctx ce) = true) ∧
    (∀ g1 msg len, g2h_context_lookup g1 (msg.getD 0 0) ≠ some ce →
      (intel_guc_deregister_done_process_msg K g1 msg len).2.ctx ce = g1.ctx ce) := by
  obtain ⟨p1, p2, p3, p4, p5⟩ := guc_lrc_desc_pin_steal_path K g ce loop hreg hen
  obtain ⟨-, -, f3, -, f5, -⟩ := guc_lrc_desc_pin_fill_frame K g ce
  generalize guc_lrc_desc_pin K g ce loop = r at p1 p2 p3 p4 p5 ⊢
  obtain ⟨b1, b2, b3, b4, b5⟩ := flag_bits_preserved ((guc_lrc_desc_pin_fill K g ce).ctx ce)
  have hregf : context_registered ((guc_lrc_desc_pin_fill K g ce).ctx ce) =
      context_registered (g.ctx ce) := by
    simp only [context_registered, sched_flag, f3]
  have hw : context_wait_for_deregister_to_register (r.2.ctx ce) = true := by rw [p1]; exact b2
  have hr : context_registered (r.2.ctx ce) = context_registered (g.ctx ce) := by
    rw [p1, b1, hregf]
  have hlook : g2h_context_lookup r.2 ([(g.ctx ce).guc_id].getD 0 0) = some ce := by
    have hc : intel_context_is_child (r.2.ctx ce) = false := by
      rw [p1]
      simpa [intel_context_is_child, set_context_wait_for_deregister_to_register,
        set_sched_flag, f5] using hchild
    have hm : ¬ (g.ctx ce).guc_id ≥ r.2.max_guc_ids := by rw [p5]; omega
    simp [g2h_context_lookup, __get_context, hm, p4, hc]
  obtain ⟨d1, d2⟩ := deregister_done_waiting K r.2 ce [(g.ctx ce).guc_id] 1 (le_refl 1) hlook hw
  obtain ⟨-, -, -, q4, q5⟩ := register_context_frame K r.2 ce true
  obtain ⟨c1, c2, c3, c4, c5⟩ := flag_bits_preserved ((register_context K r.2 ce true).2.ctx ce)
  have hfinal : context_registered
      ((intel_guc_deregister_done_process_msg K r.2 [(g.ctx ce).guc_id] 1).2.ctx ce) =
      (context_registered (g.ctx ce) || decide ((register_context K r.2 ce true).1 = 0)) := by
    rw [d2, c4, q4]
    by_cases h0 : (register_context K r.2 ce true).1 = 0
    · simp only [h0, ↓reduceIte, decide_True, Bool.or_true]
      exact (flag_bits_preserved (r.2.ctx ce)).2.2.2.2
    · simp only [h0, ↓reduceIte, decide_False, Bool.or_false]
      exact hr
  refine ⟨hw, p2, p3, hr, d1, ?_, hfinal, ?_, ?_⟩
  · rw [d2]; exact c3
  · intro hall
    rw [hfinal, q5 hall rfl]
    simp
  · intro g1 msg len h
    exact deregister_done_other K g1 ce msg len h

/-- C8 at the stealing scenario: context 3 has taken identifier 32 from the registered
context 2. -/
theorem stolen_id_deregisters_before_register_witness :
    (guc_lrc_desc_pin fwif_upstream steal_demo_stolen 3 true).2.h2g =
      steal_demo_stolen.h2g ++ [H2G.deregister_context 32] ∧
    context_registered ((guc_lrc_desc_pin fwif_upstream steal_demo_stolen 3 true).2.ctx 3) =
      false ∧
    context_wait_for_deregister_to_register
      ((guc_lrc_desc_pin fwif_upstream steal_demo_stolen 3 true).2.ctx 3) = true ∧
    context_registered
      ((intel_guc_deregister_done_process_msg fwif_upstream
        (guc_lrc_desc_pin fwif_upstream steal_demo_stolen 3 true).2
        [(steal_demo_stolen.ctx 3).guc_id] 1).2.ctx 3) = true :=
  ⟨by decide, by decide,
    (stolen_id_deregisters_before_register fwif_upstream steal_demo_stolen 3 true
      (by decide) (by decide) (by decide) (by decide)).1,
    (stolen_id_deregisters_before_register fwif_upstream steal_demo_stolen 3 true
      (by decide) (by decide) (by decide) (by decide)).2.2.2.2.2.2.2.1 (by decide)⟩

/-- C9: `steal_guc_id` robs the head of the stealable list. With a non-empty list
whose head is `cn` it returns 0, removes `cn` from the list, gives the identifier of
`cn` to the stealer, marks the identifier of `cn` invalid, clears the `REGISTERED`
flag of `cn` and touches no third context; with an empty list it returns `-EAGAIN`
and leaves the whole state as it was. `unpin_guc_id` leaves the list as it is or
appends the context at its tail, so the head is the least recently unpinned entry. -/
theorem steal_guc_id_takes_head (K : Fwif) (g : Guc) (ce : Nat) :
    (∀ cn rest, g.guc_id_list = cn :: rest → ce ≠ cn →
      (steal_guc_id K g ce).1 = 0 ∧
      (steal_guc_id K g ce).2.guc_id_list = rest ∧
      ((steal_guc_id K g ce).2.ctx ce).guc_id = (g.ctx cn).guc_id ∧
      context_guc_id_invalid K ((steal_guc_id K g ce).2.ctx cn) = true ∧
      context_registered ((steal_guc_id K g ce).2.ctx cn) = false ∧
      (∀ x, x ≠ ce → x ≠ cn → (steal_guc_id K g ce).2.ctx x = g.ctx x)) ∧
    (g.guc_id_list = [] → steal_guc_id K g ce = (-EAGAIN, g)) ∧
    (∀ c, (unpin_guc_id K g c).guc_id_list = g.guc_id_list ∨
      (unpin_guc_id K g c).guc_id_list = g.guc_id_list ++ [c]) := by
  refine ⟨?_, steal_guc_id_nil K g ce, ?_⟩
  · intro cn rest h hne
    obtain ⟨h1, h2, -, -, -, -, h7, -, h9, h10, h11, -⟩ := steal_guc_id_cons K g ce cn rest h
    refine ⟨h1, h2, h10 hne, ?_, ?_, h7⟩
    · simp [context_guc_id_invalid, h9]
    · have e : context_registered ((steal_guc_id K g ce).2.ctx cn) =
          ((steal_guc_id K g ce).2.ctx cn).sched_state.testBit 6 :=
        sched_flag_testBit 6 _
      rw [e, h11]
      have := u32_andnot_testBit (g.ctx cn).sched_state 6 6 (by decide)
      simp only [SCHED_STATE_REGISTERED]
      rw [this]
      simp
  · intro c
    unfold unpin_guc_id
    split
    · exact Or.inl rfl
    · split
      · exact Or.inr rfl
      · exact Or.inl rfl

/-- C9 at the stealing scenario: context 2 is the head of the stealable list and
context 3 robs it. -/
theorem steal_guc_id_takes_head_witness :
    steal_demo.guc_id_list = [2] ∧ (steal_demo.ctx 2).guc_id = 32 ∧
    (steal_guc_id fwif_upstream steal_demo 3).1 = 0 ∧
    (steal_guc_id fwif_upstream steal_demo 3).2.guc_id_list = [] ∧
    ((steal_guc_id fwif_upstream steal_demo 3).2.ctx 3).guc_id = (steal_demo.ctx 2).guc_id ∧
    context_guc_id_invalid fwif_upstream ((steal_guc_id fwif_upstream steal_demo 3).2.ctx 2) =
      true ∧
    context_registered ((steal_guc_id fwif_upstream steal_demo 3).2.ctx 2) = false ∧
    (∀ x, x ≠ 3 → x ≠ 2 → (steal_guc_id fwif_upstream steal_demo 3).2.ctx x =
      steal_demo.ctx x) :=
  ⟨by decide, by decide,
    (steal_guc_id_takes_head fwif_upstream steal_demo 3).1 2 [] (by decide) (by decide)⟩

/-- C10, refuted as stated: in the stealing scenario `assign_guc_id` succeeds for
context 3 by robbing context 2 of identifier 32, and the registration store still
maps 32 to context 2. -/
theorem stolen_id_still_bound_to_victim :
    (assign_guc_id fwif_upstream steal_demo 3).1 = 0 ∧
    ((assign_guc_id fwif_upstream steal_demo 3).2.ctx 3).guc_id = 32 ∧
    context_guc_id_invalid fwif_upstream ((assign_guc_id fwif_upstream steal_demo 3).2.ctx 2) =
      true ∧
    xa_load (assign_guc_id fwif_upstream steal_demo 3).2.context_lookup 32 = some 2 := by
  decide

/-- C10, amended: `assign_guc_id` never changes the registration store, so a stolen
identifier stays bound to the victim until the stealer runs `guc_lrc_desc_pin`;
after that call the store binds the identifier to the stealer or to no context. -/
theorem stolen_id_rebound_by_desc_pin (K : Fwif) (g : Guc) (ce : Nat) (loop : Bool) :
    (assign_guc_id K g ce).2.context_lookup = g.context_lookup ∧
    (xa_load (guc_lrc_desc_pin K (assign_guc_id K g ce).2 ce loop).2.context_lookup
        (((assign_guc_id K g ce).2.ctx ce).guc_id) = some ce ∨
     xa_load (guc_lrc_desc_pin K (assign_guc_id K g ce).2 ce loop).2.context_lookup
        (((assign_guc_id K g ce).2.ctx ce).guc_id) = none) := by
  refine ⟨assign_guc_id_context_lookup K g ce, ?_⟩
  generalize (assign_guc_id K g ce).2 = g1
  obtain ⟨f1, -, -, f4, -⟩ := guc_lrc_desc_pin_fill_frame K g1 ce
  have hstore : xa_load (guc_lrc_desc_pin_fill K g1 ce).context_lookup (g1.ctx ce).guc_id =
      some ce := by
    rw [f1]; exact xa_load_xa_store_self _ _ _
  have hreset : ∀ g2 : Guc, xa_load g2.context_lookup (g1.ctx ce).guc_id = some ce →
      (xa_load (reset_lrc_desc g2 (g1.ctx ce).guc_id).context_lookup (g1.ctx ce).guc_id =
        some ce ∨
       xa_load (reset_lrc_desc g2 (g1.ctx ce).guc_id).context_lookup (g1.ctx ce).guc_id =
        none) := by
    intro g2 h2
    unfold reset_lrc_desc
    split
    · exact Or.inr (xa_load_xa_erase_self _ _)
    · exact Or.inl h2
  have hsend : ∀ (g2 : Guc) (a : H2G) (len : Nat),
      (guc_submission_send_busy_loop g2 a len loop).2.context_lookup = g2.context_lookup :=
    fun g2 a len => (lookup_after_send g2 a len loop).1
  have hregc := (register_context_frame K (guc_lrc_desc_pin_fill K g1 ce) ce loop).1
  unfold guc_lrc_desc_pin
  simp only []
  split
  · split
    · apply hreset
      split
      · simp only [Guc.set_ctx]; exact hstore
      · exact hstore
    · have : ∀ g2 : Guc, xa_load g2.context_lookup (g1.ctx ce).guc_id = some ce →
          ∀ id, xa_load (deregister_context K g2 ce id loop).2.context_lookup
            (g1.ctx ce).guc_id = some ce := by
        intro g2 h2 id
        unfold deregister_context __guc_action_deregister_context
        rw [hsend]; exact h2
      have e : ∀ x : Int × Guc, (if x.1 = -ENODEV then ((0 : Int), x.2) else x).2 = x.2 := by
        intro x; split <;> rfl
      left
      rw [e]
      apply this
      split
      · simp only [Guc.set_ctx]; exact hstore
      · exact hstore
  · split
    · apply hreset
      rw [hregc]; exact hstore
    · split
      · apply hreset
        rw [hregc]; exact hstore
      · left
        rw [hregc]; exact hstore

/-- C7, refuted as stated: on a wedged device `intel_guc_submission_reset_finish`
returns at once, leaving the counter at 5 and the dispatcher disabled. -/
theorem reset_finish_wedged_keeps_state :
    (intel_guc_submission_reset_finish (reset_demo true)).outstanding_submission_g2h = 5 ∧
    submission_disabled (intel_guc_submission_reset_finish (reset_demo true)) = true := by
  decide

/-- C7, amended: when submission is not initialised or the device is wedged,
`intel_guc_submission_reset_finish` changes nothing; otherwise it leaves the
outstanding-reply counter at zero and the tasklet callback installed, and the
dispatcher enabled provided it was disabled at most once before the call, as
`disable_submission` leaves it. -/
theorem reset_finish_reenables (g : Guc) :
    ((guc_submission_initialized g = false ∨ g.wedged = true) →
      intel_guc_submission_reset_finish g = g) ∧
    (guc_submission_initialized g = true → g.wedged = false →
      (intel_guc_submission_reset_finish g).outstanding_submission_g2h = 0 ∧
      (intel_guc_submission_reset_finish g).tasklet_callback = true ∧
      (g.has_sched_engine = true → g.tasklet_count ≤ 1 →
        submission_disabled (intel_guc_submission_reset_finish g) = false)) := by
  constructor
  · intro h
    unfold intel_guc_submission_reset_finish
    rcases h with h | h <;> simp [h]
  · intro hi hw
    unfold intel_guc_submission_reset_finish enable_submission
      intel_guc_global_policies_update __tasklet_enable __tasklet_is_enabled
    simp only [hi, hw, Bool.not_true, Bool.or_self, Bool.false_eq_true, ↓reduceIte]
    by_cases h0 : g.tasklet_count = 0
    · simp [h0, submission_disabled, __tasklet_is_enabled]
    · refine ⟨?_, ?_, ?_⟩
      · by_cases h1 : g.tasklet_count - 1 = 0 <;> simp [h0, h1]
      · by_cases h1 : g.tasklet_count - 1 = 0 <;> simp [h0, h1]
      · intro hse hc
        have h1 : g.tasklet_count = 1 := by omega
        simp [h1, submission_disabled, __tasklet_is_enabled, hse]

/-- C7 at a reset of a device that is not wedged: the counter goes from 5 to 0 and
the dispatcher runs again. -/
theorem reset_finish_reenables_witness :
    (reset_demo false).outstanding_submission_g2h = 5 ∧
    submission_disabled (reset_demo false) = true ∧
    (intel_guc_submission_reset_finish (reset_demo false)).outstanding_submission_g2h = 0 ∧
    submission_disabled (intel_guc_submission_reset_finish (reset_demo false)) = false :=
  ⟨by decide, by decide,
    ((reset_finish_reenables (reset_demo false)).2 (by decide) (by decide)).1,
    ((reset_finish_reenables (reset_demo false)).2 (by decide) (by decide)).2.2
      (by decide) (by decide)⟩

/-! ## Reset scrub -/

theorem blocked_mask_testBit (s j : Nat) :
    (s &&& SCHED_STATE_BLOCKED_MASK).testBit j =
      (s.testBit j && decide (7 ≤ j) && decide (j < 19)) := by
  have h : (0xfff : Nat) = 2 ^ 12 - 1 := by norm_num
  simp only [SCHED_STATE_BLOCKED_MASK, SCHED_STATE_BLOCKED_SHIFT, h, Nat.testBit_and,
    Nat.testBit_shiftLeft, Nat.testBit_two_pow_sub_one]
  by_cases h7 : 7 ≤ j <;> by_cases h19 : j < 19 <;> simp [h7, h19] <;> omega

theorem clr_flag_of_init (s k : Nat) (hk : k < 7) :
    u32_andnot (s &&& SCHED_STATE_BLOCKED_MASK) (2 ^ k) = s &&& SCHED_STATE_BLOCKED_MASK := by
  apply Nat.eq_of_testBit_eq
  intro j
  rw [u32_andnot_testBit _ k j (by omega), blocked_mask_testBit]
  by_cases h7 : 7 ≤ j <;> by_cases h19 : j < 19 <;> simp [h7, h19]
  have h32 : j < 32 := by omega
  have hkj : k ≠ j := by omega
  simp [h32, hkj]

theorem unpin_guc_id_frame (K : Fwif) (g : Guc) (ce : Nat) :
    (unpin_guc_id K g ce).ctx = g.ctx ∧ (unpin_guc_id K g ce).h2g = g.h2g ∧
    (unpin_guc_id K g ce).outstanding_submission_g2h = g.outstanding_submission_g2h ∧
    (unpin_guc_id K g ce).context_lookup = g.context_lookup ∧
    (unpin_guc_id K g ce).ct_replies = g.ct_replies := by
  unfold unpin_guc_id
  split
  · exact ⟨rfl, rfl, rfl, rfl, rfl⟩
  · split <;> exact ⟨rfl, rfl, rfl, rfl, rfl⟩

theorem sched_disable_unpin_frame (K : Fwif) (g : Guc) (ce : Nat) :
    (intel_context_sched_disable_unpin K g ce).h2g = g.h2g ∧
    (intel_context_sched_disable_unpin K g ce).outstanding_submission_g2h =
      g.outstanding_submission_g2h ∧
    (intel_context_sched_disable_unpin K g ce).context_lookup = g.context_lookup ∧
    (intel_context_sched_disable_unpin K g ce).ct_replies = g.ct_replies ∧
    (∀ x, x ≠ ce → (intel_context_sched_disable_unpin K g ce).ctx x = g.ctx x) ∧
    ((intel_context_sched_disable_unpin K g ce).ctx ce).sched_state = (g.ctx ce).sched_state ∧
    ((intel_context_sched_disable_unpin K g ce).ctx ce).guc_id = (g.ctx ce).guc_id := by
  unfold intel_context_sched_disable_unpin
  simp only []
  split
  · obtain ⟨h1, h2, h3, h4, h5⟩ := unpin_guc_id_frame K
      (g.set_ctx ce { g.ctx ce with pin_count := (g.ctx ce).pin_count - 2 }) ce
    rw [h1, h2, h3, h4, h5]
    simp +contextual [Guc.set_ctx]
  · simp +contextual [Guc.set_ctx]

theorem xa_load_xa_erase (xa : List (Nat × Nat)) (id j : Nat) :
    xa_load (xa_erase xa id) j = if j = id then none else xa_load xa j := by
  split
  · rename_i h; subst h; exact xa_load_xa_erase_self xa j
  · rename_i h
    induction xa with
    | nil => rfl
    | cons e xs ih =>
      simp only [xa_load, xa_erase] at ih ⊢
      by_cases h1 : e.1 = id
      · have h2 : (e.1 == j) = false := by
          simp only [beq_eq_false_iff_ne, ne_eq]; intro e2; exact h (e2.symm.trans h1)
        have h3 : (e.1 != id) = false := by simp [h1]
        simp only [List.filter_cons, h3, List.find?_cons, h2, Bool.false_eq_true, ↓reduceIte]
        exact ih
      · have h3 : (e.1 != id) = true := by simpa using h1
        simp only [List.filter_cons, h3, List.find?_cons, ↓reduceIte]
        cases h4 : (e.1 == j)
        · exact ih
        · rfl

theorem release_list_eq (g1 : Guc) (ce : Nat) :
    (if g1.guc_id_list.contains ce then
      { g1 with guc_id_list := list_del_init g1.guc_id_list ce } else g1) =
      { g1 with guc_id_list := list_del_init g1.guc_id_list ce } := by
  split
  · rfl
  · rename_i hc
    simp only [Bool.not_eq_true] at hc
    rw [List.contains_eq_any_beq, List.any_eq_false] at hc
    have : list_del_init g1.guc_id_list ce = g1.guc_id_list := by
      unfold list_del_init
      rw [List.filter_eq_self]
      intro a ha
      have := hc a ha
      simp only [bne_iff_ne, ne_eq]
      intro e; subst e; simp at this
    rw [this]

theorem release_guc_id_store (K : Fwif) (g : Guc) (ce : Nat) :
    (__release_guc_id K g ce).h2g = g.h2g ∧
    (__release_guc_id K g ce).outstanding_submission_g2h = g.outstanding_submission_g2h ∧
    (__release_guc_id K g ce).ct_replies = g.ct_replies ∧
    (∀ j c, xa_load g.context_lookup j = some c →
      (j ≠ (g.ctx ce).guc_id ∨ context_guc_id_invalid K (g.ctx ce) = true) →
      xa_load (__release_guc_id K g ce).context_lookup j = some c) ∧
    (∀ j c, xa_load (__release_guc_id K g ce).context_lookup j = some c →
      xa_load g.context_lookup j = some c) := by
  have hreset : ∀ g2 : Guc, g2.h2g = g.h2g →
      g2.outstanding_submission_g2h = g.outstanding_submission_g2h →
      g2.ct_replies = g.ct_replies → g2.context_lookup = g.context_lookup →
      (reset_lrc_desc g2 (g.ctx ce).guc_id).h2g = g.h2g ∧
      (reset_lrc_desc g2 (g.ctx ce).guc_id).outstanding_submission_g2h =
        g.outstanding_submission_g2h ∧
      (reset_lrc_desc g2 (g.ctx ce).guc_id).ct_replies = g.ct_replies ∧
      (∀ j c, xa_load g.context_lookup j = some c → j ≠ (g.ctx ce).guc_id →
        xa_load (reset_lrc_desc g2 (g.ctx ce).guc_id).context_lookup j = some c) ∧
      (∀ j c, xa_load (reset_lrc_desc g2 (g.ctx ce).guc_id).context_lookup j = some c →
        xa_load g.context_lookup j = some c) := by
    intro g2 e1 e2 e3 e4
    unfold reset_lrc_desc
    split
    · refine ⟨e1, e2, e3, ?_, ?_⟩
      · intro j c hj hne
        simp only [e4, xa_load_xa_erase, if_neg hne, hj]
      · intro j c hj
        simp only [e4, xa_load_xa_erase] at hj
        split at hj
        · exact absurd hj (by simp)
        · exact hj
    · refine ⟨e1, e2, e3, ?_, ?_⟩
      · intro j c hj _; rw [e4]; exact hj
      · intro j c hj; rw [e4] at hj; exact hj
  unfold __release_guc_id
  simp only [release_list_eq]
  cases hv : context_guc_id_invalid K (g.ctx ce)
  · simp only [Bool.not_false, ↓reduceIte, Guc.set_ctx]
    cases hp : intel_context_is_parent (g.ctx ce)
    · simp only [Bool.false_eq_true, ↓reduceIte]
      obtain ⟨a1, a2, a3, a4, a5⟩ := hreset
        { g with guc_ids := ida_simple_remove g.guc_ids (g.ctx ce).guc_id } rfl rfl rfl rfl
      exact ⟨a1, a2, a3, fun j c hj hor => a4 j c hj (by simpa using hor), a5⟩
    · simp only [↓reduceIte]
      generalize bitmap_release_region g.guc_ids_bitmap (g.ctx ce).guc_id
            (order_base_2 ((g.ctx ce).guc_number_children + 1)) = bm
      obtain ⟨a1, a2, a3, a4, a5⟩ := hreset { g with guc_ids_bitmap := bm } rfl rfl rfl rfl
      exact ⟨a1, a2, a3, fun j c hj hor => a4 j c hj (by simpa using hor), a5⟩
  · simp only [Bool.not_true, Bool.false_eq_true, ↓reduceIte]
    exact ⟨trivial, trivial, trivial, fun j c hj _ => hj, fun j c hj => hj⟩

theorem ScrubInv.decr {K : Fwif} {g : Guc} {ce : Nat} {k : Int} {rel : Bool} {g1 : Guc}
    (h : ScrubInv K g ce k rel g1) :
    ScrubInv K g ce (k + 1) rel (decr_outstanding_submission_g2h g1) := by
  refine ⟨h.h2g, ?_, h.sched, h.others, h.keeps, h.sub, h.fresh⟩
  simp only [decr_outstanding_submission_g2h, h.count]
  omega

theorem ScrubInv.fence {K : Fwif} {g : Guc} {ce : Nat} {k : Int} {rel : Bool} {g1 : Guc}
    (h : ScrubInv K g ce k rel g1) :
    ScrubInv K g ce k rel (guc_signal_context_fence g1 ce) := by
  refine ⟨h.h2g, h.count, ?_, ?_, h.keeps, h.sub, ?_⟩
  · simp only [guc_signal_context_fence, Guc.set_ctx, ↓reduceIte,
      clr_context_wait_for_deregister_to_register, clr_sched_flag, h.sched,
      SCHED_STATE_WAIT_FOR_DEREGISTER_TO_REGISTER]
    exact clr_flag_of_init _ 0 (by decide)
  · intro x hx
    simp only [guc_signal_context_fence, Guc.set_ctx, if_neg hx]
    exact h.others x hx
  · intro hr
    refine ⟨(h.fresh hr).1, ?_⟩
    simp only [guc_signal_context_fence, Guc.set_ctx, ↓reduceIte,
      clr_context_wait_for_deregister_to_register, clr_sched_flag]
    exact (h.fresh hr).2

theorem ScrubInv.drop_pins {K : Fwif} {g : Guc} {ce : Nat} {k : Int} {rel : Bool} {g1 : Guc}
    (h : ScrubInv K g ce k rel g1) :
    ScrubInv K g ce k rel (intel_context_sched_disable_unpin K g1 ce) := by
  obtain ⟨u1, u2, u3, -, u5, u6, u7⟩ := sched_disable_unpin_frame K g1 ce
  refine ⟨u1.trans h.h2g, u2.trans h.count, u6.trans h.sched, ?_, ?_, ?_, ?_⟩
  · intro x hx; rw [u5 x hx]; exact h.others x hx
  · intro j c hj hor; rw [u3]; exact h.keeps j c hj hor
  · intro j c hj; rw [u3] at hj; exact h.sub j c hj
  · intro hr; rw [u3, u7]; exact h.fresh hr

theorem ScrubInv.release_id {K : Fwif} {g : Guc} {ce : Nat} {k : Int} {g1 : Guc}
    (h : ScrubInv K g ce k false g1) :
    ScrubInv K g ce k true (release_guc_id K g1 ce) := by
  obtain ⟨r1, r2, -, r4, r5⟩ := release_guc_id_store K g1 ce
  obtain ⟨q1, -, -, -, -, q6, -⟩ := release_guc_id_fields K g1 ce
  obtain ⟨e1, e2⟩ := h.fresh rfl
  refine ⟨r1.trans h.h2g, r2.trans h.count, q6.trans h.sched, ?_, ?_, ?_, ?_⟩
  · intro x hx; exact (q1 x hx).trans (h.others x hx)
  · intro j c hj hor
    apply r4 j c (by rw [e1]; exact hj)
    rw [e2]
    rcases hor with h1 | h1 | h1
    · exact Or.inl h1
    · exact absurd h1 (by decide)
    · right
      simpa [context_guc_id_invalid, e2] using h1
  · intro j c hj
    have := r5 j c hj
    rw [e1] at this
    exact this
  · intro hr; exact absurd hr (by decide)

theorem ScrubInv.weaken {K : Fwif} {g : Guc} {ce : Nat} {k : Int} {g1 : Guc}
    (h : ScrubInv K g ce k false g1) : ScrubInv K g ce k true g1 :=
  ⟨h.h2g, h.count, h.sched, h.others,
    fun j c hj _ => h.keeps j c hj (Or.inr (Or.inl rfl)), h.sub,
    fun hr => absurd hr (by decide)⟩

theorem scrub_context_spec (K : Fwif) (g : Guc) (ce : Nat) :
    ∃ rel, (rel = true → context_destroyed (g.ctx ce) = true) ∧
      ScrubInv K g ce (scrub_g2h_count (g.ctx ce)) rel (scrub_context K g ce) := by
  have base : ScrubInv K g ce 0 false (g.set_ctx ce (init_sched_state (g.ctx ce))) := by
    refine ⟨rfl, by simp [Guc.set_ctx], by simp [Guc.set_ctx, init_sched_state], ?_,
      fun j c hj _ => hj, fun j c hj => hj, fun _ => ⟨rfl, by simp [Guc.set_ctx, init_sched_state]⟩⟩
    intro x hx
    simp [Guc.set_ctx, hx]
  have tail : ∀ (k : Int) (rel : Bool) (g1 : Guc), ScrubInv K g ce k rel g1 →
      ScrubInv K g ce (k + (if context_pending_disable (g.ctx ce) then 1 else 0)) rel
        (if context_pending_disable (g.ctx ce) then
          decr_outstanding_submission_g2h
            (intel_context_sched_disable_unpin K (guc_signal_context_fence g1 ce) ce)
         else g1) := by
    intro k rel g1 h
    split
    · exact ((h.fence.drop_pins).decr)
    · simpa using h
  unfold scrub_context scrub_g2h_count
  simp only [__guc_context_destroy]
  cases hd : context_destroyed (g.ctx ce)
  · refine ⟨false, fun h => absurd h (by decide), ?_⟩
    cases hw : context_wait_for_deregister_to_register (g.ctx ce)
    · cases hp : context_pending_enable (g.ctx ce)
      · simp only [Bool.or_self, Bool.false_eq_true, ↓reduceIte]
        exact tail 0 false _ base
      · simp only [Bool.or_false, Bool.or_true, ↓reduceIte, Bool.false_eq_true]
        exact tail 1 false _ (by simpa using base.decr)
    · simp only [Bool.or_true, ↓reduceIte, Bool.false_eq_true]
      exact tail 1 false _ (by simpa using base.decr.fence)
  · refine ⟨true, fun _ => rfl, ?_⟩
    cases hw : context_wait_for_deregister_to_register (g.ctx ce)
    · simp only [Bool.or_true, Bool.or_false, ↓reduceIte, Bool.false_eq_true]
      exact tail 1 true _ (by simpa using base.decr.release_id)
    · simp only [Bool.or_true, ↓reduceIte]
      exact tail 1 true _ (by simpa using base.decr.fence.release_id)

theorem scrub_g2h_count_of_init (c : IntelContext)
    (h : c.sched_state &&& SCHED_STATE_BLOCKED_MASK = c.sched_state) :
    scrub_g2h_count c = 0 ∧ context_destroyed c = false := by
  have hb : ∀ j, j < 7 → c.sched_state.testBit j = false := by
    intro j hj
    rw [← h, blocked_mask_testBit]
    have : ¬ 7 ≤ j := by omega
    simp [this]
  have e0 : context_wait_for_deregister_to_register c = false := by
    rw [context_wait_for_deregister_to_register, SCHED_STATE_WAIT_FOR_DEREGISTER_TO_REGISTER,
      sched_flag_testBit]; exact hb 0 (by decide)
  have e1 : context_destroyed c = false := by
    rw [context_destroyed, SCHED_STATE_DESTROYED, sched_flag_testBit]; exact hb 1 (by decide)
  have e2 : context_pending_disable c = false := by
    rw [context_pending_disable, SCHED_STATE_PENDING_DISABLE, sched_flag_testBit]
    exact hb 2 (by decide)
  have e5 : context_pending_enable c = false := by
    rw [context_pending_enable, SCHED_STATE_PENDING_ENABLE, sched_flag_testBit]
    exact hb 5 (by decide)
  exact ⟨by simp [scrub_g2h_count, e0, e1, e2, e5], e1⟩

theorem blocked_mask_idem (s : Nat) :
    (s &&& SCHED_STATE_BLOCKED_MASK) &&& SCHED_STATE_BLOCKED_MASK =
      s &&& SCHED_STATE_BLOCKED_MASK := by
  rw [Nat.and_assoc, Nat.and_self]

theorem sum_insert_cleared (S : Finset Nat) (ce : Nat) (f f1 : Nat → Int)
    (h0 : f1 ce = 0) (hne : ∀ x, x ≠ ce → f1 x = f x) :
    ∑ x in insert ce S, f x = f ce + ∑ x in S, f1 x := by
  by_cases hm : ce ∈ S
  · rw [Finset.insert_eq_of_mem hm, ← Finset.add_sum_erase S f hm,
      ← Finset.add_sum_erase S f1 hm, h0, zero_add]
    congr 1
    apply Finset.sum_congr rfl
    intro x hx
    exact (hne x (Finset.ne_of_mem_erase hx)).symm
  · rw [Finset.sum_insert hm]
    congr 1
    apply Finset.sum_congr rfl
    intro x hx
    have : x ≠ ce := fun e => hm (e ▸ hx)
    exact (hne x this).symm

theorem scrub_loop_spec (K : Fwif) (l : List (Nat × Nat)) :
    ∀ g : Guc,
      (∀ e ∈ l, xa_load g.context_lookup e.1 = some e.2 ∨
        (g.ctx e.2).sched_state &&& SCHED_STATE_BLOCKED_MASK = (g.ctx e.2).sched_state) →
      (∀ e ∈ l, context_destroyed (g.ctx e.2) = true →
        context_guc_id_invalid K (g.ctx e.2) = false →
        ∀ e1 ∈ l, e1.1 = (g.ctx e.2).guc_id → e1.2 = e.2) →
      (scrub_loop K g l).h2g = g.h2g ∧
      (scrub_loop K g l).outstanding_submission_g2h = g.outstanding_submission_g2h -
        ∑ ce in (l.map Prod.snd).toFinset, scrub_g2h_count (g.ctx ce) ∧
      (∀ x, ((scrub_loop K g l).ctx x).sched_state =
        if x ∈ l.map Prod.snd then (g.ctx x).sched_state &&& SCHED_STATE_BLOCKED_MASK
        else (g.ctx x).sched_state) := by
  induction l with
  | nil => intro g _ _; simp [scrub_loop]
  | cons e rest ih =>
    obtain ⟨i, ce⟩ := e
    intro g ha hb
    have ha_rest : ∀ e ∈ rest, xa_load g.context_lookup e.1 = some e.2 ∨
        (g.ctx e.2).sched_state &&& SCHED_STATE_BLOCKED_MASK = (g.ctx e.2).sched_state :=
      fun e he => ha e (List.mem_cons_of_mem _ he)
    have hb_rest : ∀ e ∈ rest, context_destroyed (g.ctx e.2) = true →
        context_guc_id_invalid K (g.ctx e.2) = false →
        ∀ e1 ∈ rest, e1.1 = (g.ctx e.2).guc_id → e1.2 = e.2 :=
      fun e he h1 h2 e1 he1 => hb e (List.mem_cons_of_mem _ he) h1 h2 e1
        (List.mem_cons_of_mem _ he1)
    simp only [scrub_loop, List.map_cons, List.toFinset_cons, List.mem_cons]
    by_cases hc : xa_load g.context_lookup i = some ce
    · rw [if_pos hc]
      obtain ⟨rel, hrel, inv⟩ := scrub_context_spec K g ce
      have hclr : ((scrub_context K g ce).ctx ce).sched_state &&& SCHED_STATE_BLOCKED_MASK =
          ((scrub_context K g ce).ctx ce).sched_state := by
        rw [inv.sched]; exact blocked_mask_idem _
      have ha2 : ∀ e ∈ rest, xa_load (scrub_context K g ce).context_lookup e.1 = some e.2 ∨
          ((scrub_context K g ce).ctx e.2).sched_state &&& SCHED_STATE_BLOCKED_MASK =
            ((scrub_context K g ce).ctx e.2).sched_state := by
        intro e he
        by_cases hece : e.2 = ce
        · right; rw [hece]; exact hclr
        · rcases ha_rest e he with h1 | h1
          · left
            apply inv.keeps _ _ h1
            cases hr : rel
            · exact Or.inr (Or.inl rfl)
            · cases hv : context_guc_id_invalid K (g.ctx ce)
              · left
                intro heq
                exact hece (hb (i, ce) (List.mem_cons_self _ _) (hrel hr) hv e
                  (List.mem_cons_of_mem _ he) heq)
              · exact Or.inr (Or.inr rfl)
          · right; rw [inv.others _ hece]; exact h1
      have hb2 : ∀ e ∈ rest, context_destroyed ((scrub_context K g ce).ctx e.2) = true →
          context_guc_id_invalid K ((scrub_context K g ce).ctx e.2) = false →
          ∀ e1 ∈ rest, e1.1 = ((scrub_context K g ce).ctx e.2).guc_id → e1.2 = e.2 := by
        intro e he h1 h2 e1 he1 h3
        by_cases hece : e.2 = ce
        · rw [hece, (scrub_g2h_count_of_init _ hclr).2] at h1
          exact absurd h1 (by decide)
        · rw [inv.others _ hece] at h1 h2 h3
          exact hb_rest e he h1 h2 e1 he1 h3
      obtain ⟨r1, r2, r3⟩ := ih (scrub_context K g ce) ha2 hb2
      refine ⟨r1.trans inv.h2g, ?_, ?_⟩
      · rw [r2, inv.count,
          sum_insert_cleared _ ce (fun x => scrub_g2h_count (g.ctx x))
            (fun x => scrub_g2h_count ((scrub_context K g ce).ctx x))
            (scrub_g2h_count_of_init _ hclr).1
            (fun x hx => by simp only [inv.others x hx])]
        omega
      · intro x
        rw [r3 x]
        by_cases hx : x = ce
        · subst hx
          simp only [true_or, ↓reduceIte, inv.sched, blocked_mask_idem, ite_self]
        · simp only [hx, false_or, inv.others x hx]
    · rw [if_neg hc]
      have hclr : (g.ctx ce).sched_state &&& SCHED_STATE_BLOCKED_MASK =
          (g.ctx ce).sched_state := by
        rcases ha (i, ce) (List.mem_cons_self _ _) with h1 | h1
        · exact absurd h1 hc
        · exact h1
      obtain ⟨r1, r2, r3⟩ := ih g ha_rest hb_rest
      refine ⟨r1, ?_, ?_⟩
      · rw [r2, sum_insert_cleared _ ce (fun x => scrub_g2h_count (g.ctx x))
            (fun x => scrub_g2h_count (g.ctx x)) (scrub_g2h_count_of_init _ hclr).1
            (fun x _ => rfl), (scrub_g2h_count_of_init _ hclr).1]
        omega
      · intro x
        rw [r3 x]
        by_cases hx : x = ce
        · subst hx
          simp only [true_or, ↓reduceIte, hclr, ite_self]
        · simp only [hx, false_or]

theorem xa_load_of_mem (l : List (Nat × Nat)) (hk : (l.map Prod.fst).Nodup) :
    ∀ e ∈ l, xa_load l e.1 = some e.2 := by
  induction l with
  | nil => intro e he; exact absurd he (List.not_mem_nil _)
  | cons a rest ih =>
    intro e he
    rw [List.map_cons, List.nodup_cons] at hk
    rcases List.mem_cons.mp he with h | h
    · subst h; simp [xa_load]
    · have hne : (a.1 == e.1) = false := by
        simp only [beq_eq_false_iff_ne, ne_eq]
        intro heq
        exact hk.1 (heq ▸ List.mem_map_of_mem Prod.fst h)
      have := ih hk.2 e h
      simp only [xa_load, List.find?_cons, hne] at this ⊢
      exact this

/-- C6: `scrub_guc_desc_for_outstanding_g2h` hands no message to the transport and
lowers the outstanding-reply counter, for every context of the registration store,
by one if the context had `PENDING_ENABLE`, `DESTROYED` or
`WAIT_FOR_DEREGISTER_TO_REGISTER` set and by one more if it had `PENDING_DISABLE`
set; afterwards the scheduling state of every such context is its old state masked
to the blocked counter, so all seven flags are clear. The store is assumed to hold
one entry per identifier and a destroyed context with a valid identifier to be the
context bound to that identifier. -/
theorem scrub_synthesizes_replies (K : Fwif) (g : Guc)
    (hk : (g.context_lookup.map Prod.fst).Nodup)
    (hd : ∀ e ∈ g.context_lookup, context_destroyed (g.ctx e.2) = true →
      context_guc_id_invalid K (g.ctx e.2) = false →
      ∀ e1 ∈ g.context_lookup, e1.1 = (g.ctx e.2).guc_id → e1.2 = e.2) :
    (scrub_guc_desc_for_outstanding_g2h K g).h2g = g.h2g ∧
    (scrub_guc_desc_for_outstanding_g2h K g).outstanding_submission_g2h =
      g.outstanding_submission_g2h -
        ∑ ce in (g.context_lookup.map Prod.snd).toFinset, scrub_g2h_count (g.ctx ce) ∧
    (∀ e ∈ g.context_lookup,
      ((scrub_guc_desc_for_outstanding_g2h K g).ctx e.2).sched_state =
        (g.ctx e.2).sched_state &&& SCHED_STATE_BLOCKED_MASK ∧
      context_blocked ((scrub_guc_desc_for_outstanding_g2h K g).ctx e.2) =
        context_blocked (g.ctx e.2) ∧
      ∀ k, k < 7 →
        sched_flag (2 ^ k) ((scrub_guc_desc_for_outstanding_g2h K g).ctx e.2) = false) := by
  obtain ⟨h1, h2, h3⟩ := scrub_loop_spec K g.context_lookup g
    (fun e he => Or.inl (xa_load_of_mem _ hk e he)) hd
  refine ⟨h1, h2, ?_⟩
  intro e he
  have hs : ((scrub_guc_desc_for_outstanding_g2h K g).ctx e.2).sched_state =
      (g.ctx e.2).sched_state &&& SCHED_STATE_BLOCKED_MASK := by
    have := h3 e.2
    rw [if_pos (List.mem_map_of_mem Prod.snd he)] at this
    exact this
  refine ⟨hs, ?_, ?_⟩
  · simp only [context_blocked, hs, blocked_mask_idem]
  · intro k hk7
    rw [sched_flag_testBit, hs, blocked_mask_testBit]
    have : ¬ 7 ≤ k := by omega
    simp [this]

/-- C6 at the reset scenario: three registered contexts, two waiting for a schedule
enable and one for a schedule disable, with three replies outstanding. -/
theorem scrub_synthesizes_replies_witness :
    scrub_demo.context_lookup = [(32, 2), (33, 3), (34, 4)] ∧
    context_pending_enable (scrub_demo.ctx 2) = true ∧
    context_pending_enable (scrub_demo.ctx 3) = true ∧
    context_pending_disable (scrub_demo.ctx 4) = true ∧
    scrub_demo.outstanding_submission_g2h = 3 ∧
    (scrub_guc_desc_for_outstanding_g2h fwif_upstream scrub_demo).outstanding_submission_g2h
      = 0 ∧
    (scrub_guc_desc_for_outstanding_g2h fwif_upstream scrub_demo).h2g = scrub_demo.h2g :=
  ⟨by decide, by decide, by decide, by decide, by decide, by decide,
    (scrub_synthesizes_replies fwif_upstream scrub_demo (by decide) (by decide)).1⟩

/-! ## Pending flags -/

theorem incr_blocked_testBit (c : IntelContext) (j : Nat) (hj : j < 7) :
    (incr_context_blocked c).sched_state.testBit j = c.sched_state.testBit j := by
  simp only [incr_context_blocked, u32, SCHED_STATE_BLOCKED, SCHED_STATE_BLOCKED_SHIFT,
    Nat.testBit_mod_two_pow]
  rw [Nat.add_comm, Nat.testBit_two_pow_add_gt hj]
  have : j < 32 := by omega
  simp [this]

theorem decr_blocked_testBit (c : IntelContext) (j : Nat) (hj : j < 7) :
    (decr_context_blocked c).sched_state.testBit j = c.sched_state.testBit j := by
  simp only [decr_context_blocked, u32_sub, SCHED_STATE_BLOCKED, SCHED_STATE_BLOCKED_SHIFT]
  generalize c.sched_state = s
  have e : (s % 2 ^ 32 + 2 ^ 32 - 2 ^ 7 % 2 ^ 32) = 2 ^ 7 * (2 ^ 25 - 1) + s % 2 ^ 32 := by
    norm_num
    omega
  rw [e, Nat.testBit_mod_two_pow]
  have h32 : j < 32 := by omega
  simp only [h32, decide_True, Bool.true_and]
  have key : ∀ a b : Nat, (2 ^ 7 * a + b).testBit j = b.testBit j := by
    intro a b
    have hb : b = 2 ^ 7 * (b / 2 ^ 7) + b % 2 ^ 7 := (Nat.div_add_mod b (2 ^ 7)).symm
    conv_lhs => rw [hb, ← Nat.add_assoc, ← Nat.mul_add]
    rw [Nat.testBit_mul_pow_two_add _ (Nat.mod_lt _ (by norm_num)), if_pos hj]
    conv_rhs => rw [hb]
    rw [Nat.testBit_mul_pow_two_add _ (Nat.mod_lt _ (by norm_num)), if_pos hj]
  rw [key, Nat.testBit_mod_two_pow]
  simp [h32]

theorem send_nb_ctx (g : Guc) (a : H2G) (len : Nat) :
    (intel_guc_send_nb g a len).2.ctx = g.ctx := by
  obtain ⟨r, h, -⟩ := ct_send_frame g a
  rw [intel_guc_send_nb, h]

theorem sched_disable_send_ctx (K : Fwif) (g : Guc) (ce id : Nat) :
    (__guc_context_sched_disable K g ce id).ctx = g.ctx :=
  (lookup_after_send g _ _ _).2.1

theorem sched_enable_send_ctx (K : Fwif) (g : Guc) (ce : Nat) :
    (__guc_context_sched_enable K g ce).ctx = g.ctx :=
  (lookup_after_send g _ _ _).2.1

theorem preemption_timeout_send_ctx (g : Guc) (id t : Nat) :
    (__guc_context_set_preemption_timeout g id t).ctx = g.ctx := by
  obtain ⟨r, n, -, h⟩ := intel_guc_send_busy_loop_frame g
    (H2G.set_context_preemption_timeout id t) 0 true
  rw [__guc_context_set_preemption_timeout, h]

theorem prep_context_pending_disable_ctx (g : Guc) (ce : Nat) :
    (prep_context_pending_disable g ce).2.ctx = fun x =>
      if x = ce then clr_context_enabled (set_context_pending_disable (g.ctx ce))
      else g.ctx x := by
  funext x
  by_cases hx : x = ce <;> simp [prep_context_pending_disable, Guc.set_ctx, hx]

theorem submission_disabled_ctx (g : Guc) (f : Nat → IntelContext) :
    submission_disabled { g with ctx := f } = submission_disabled g := rfl

/-- Bits 5 (`PENDING_ENABLE`) and 2 (`PENDING_DISABLE`) after `guc_context_block`. -/
theorem guc_context_block_bits (K : Fwif) (g : Guc) (ce : Nat) :
    (∀ x, x ≠ ce → (guc_context_block K g ce).ctx x = g.ctx x) ∧
    ((guc_context_block K g ce).ctx ce).sched_state.testBit 5 =
      (g.ctx ce).sched_state.testBit 5 ∧
    (((guc_context_block K g ce).ctx ce).sched_state.testBit 2 = true →
      (g.ctx ce).sched_state.testBit 2 = true ∨ (g.ctx ce).sched_state.testBit 4 = true) := by
  have hi := incr_blocked_testBit (g.ctx ce)
  unfold guc_context_block
  cases h4 : (g.ctx ce).sched_state.testBit 4 <;> cases hd : submission_disabled g <;>
    simp +contextual [-Nat.reducePow, submission_disabled_ctx, hd, h4, hi, sched_disable_send_ctx,
      prep_context_pending_disable_ctx, Guc.set_ctx,
      context_enabled, SCHED_STATE_ENABLED, sched_flag_testBit, clr_context_enabled,
      set_context_pending_disable, SCHED_STATE_PENDING_DISABLE, clr_sched_flag_testBit,
      set_sched_flag_testBit]

theorem sched_disable_unpin_ctx (K : Fwif) (g : Guc) (ce : Nat) :
    (intel_context_sched_disable_unpin K g ce).ctx = fun x =>
      if x = ce then { g.ctx ce with pin_count := (g.ctx ce).pin_count - 2 } else g.ctx x := by
  unfold intel_context_sched_disable_unpin
  simp only []
  split
  · rw [(unpin_guc_id_frame K _ ce).1]
    funext x
    by_cases hx : x = ce <;> simp [Guc.set_ctx, hx]
  · funext x
    by_cases hx : x = ce <;> simp [Guc.set_ctx, hx]

/-- Bits 5 (`PENDING_ENABLE`) and 2 (`PENDING_DISABLE`) after `guc_context_ban`. -/
theorem guc_context_ban_bits (K : Fwif) (g : Guc) (ce : Nat) :
    (∀ x, x ≠ ce → (guc_context_ban K g ce).ctx x = g.ctx x) ∧
    ((guc_context_ban K g ce).ctx ce).sched_state.testBit 5 =
      (g.ctx ce).sched_state.testBit 5 ∧
    (((guc_context_ban K g ce).ctx ce).sched_state.testBit 2 = true →
      (g.ctx ce).sched_state.testBit 2 = true ∨ (g.ctx ce).sched_state.testBit 4 = true) := by
  unfold guc_context_ban
  cases h4 : (g.ctx ce).sched_state.testBit 4 <;> cases h2 : (g.ctx ce).sched_state.testBit 2 <;>
    cases hd : submission_disabled g <;>
    by_cases hv : (g.ctx ce).guc_id = K.GUC_INVALID_LRC_ID <;>
    simp +contextual [-Nat.reducePow, submission_disabled_ctx, hd, h4, h2, hv,
      sched_disable_send_ctx, preemption_timeout_send_ctx, context_guc_id_invalid,
      prep_context_pending_disable_ctx, Guc.set_ctx, set_context_banned, SCHED_STATE_BANNED,
      context_enabled, context_pending_disable, SCHED_STATE_ENABLED, sched_flag_testBit,
      clr_context_enabled, set_context_pending_disable, SCHED_STATE_PENDING_DISABLE,
      clr_sched_flag_testBit, set_sched_flag_testBit, set_sched_flag]

/-- Bits 5 (`PENDING_ENABLE`) and 2 (`PENDING_DISABLE`) after
`guc_context_sched_disable`. -/
theorem guc_context_sched_disable_bits (K : Fwif) (g : Guc) (ce : Nat) :
    (∀ x, x ≠ ce → (guc_context_sched_disable K g ce).ctx x = g.ctx x) ∧
    ((guc_context_sched_disable K g ce).ctx ce).sched_state.testBit 5 =
      (g.ctx ce).sched_state.testBit 5 ∧
    (((guc_context_sched_disable K g ce).ctx ce).sched_state.testBit 2 = true →
      (g.ctx ce).sched_state.testBit 2 = true ∨ (g.ctx ce).sched_state.testBit 4 = true) := by
  unfold guc_context_sched_disable
  cases h4 : (g.ctx ce).sched_state.testBit 4 <;>
    cases hd : submission_disabled g <;>
    cases hv : context_guc_id_invalid K (g.ctx ce) <;>
    cases hr : lrc_desc_registered g (g.ctx ce).guc_id <;>
    cases hc : context_has_committed_requests (g.ctx ce) <;>
    simp +contextual [-Nat.reducePow, submission_disabled_ctx, hd, h4, hv, hr, hc,
      sched_disable_send_ctx, sched_disable_unpin_ctx,
      prep_context_pending_disable_ctx, Guc.set_ctx,
      context_enabled, SCHED_STATE_ENABLED, sched_flag_testBit,
      clr_context_enabled, set_context_pending_disable, SCHED_STATE_PENDING_DISABLE,
      clr_sched_flag_testBit, set_sched_flag_testBit]

/-- Bits 5 (`PENDING_ENABLE`) and 2 (`PENDING_DISABLE`) after `guc_context_unblock`. -/
theorem guc_context_unblock_bits (K : Fwif) (g : Guc) (ce : Nat) :
    (∀ x, x ≠ ce → (guc_context_unblock K g ce).ctx x = g.ctx x) ∧
    ((guc_context_unblock K g ce).ctx ce).sched_state.testBit 2 =
      (g.ctx ce).sched_state.testBit 2 ∧
    (((guc_context_unblock K g ce).ctx ce).sched_state.testBit 5 = true →
      (g.ctx ce).sched_state.testBit 5 = true ∨ (g.ctx ce).sched_state.testBit 2 = false) := by
  have hdec := decr_blocked_testBit
  unfold guc_context_unblock
  simp only []
  cases h2 : (g.ctx ce).sched_state.testBit 2
  · split <;>
      simp +contextual [-Nat.reducePow, sched_enable_send_ctx, Guc.set_ctx, hdec, h2,
        set_context_pending_enable, set_context_enabled, SCHED_STATE_PENDING_ENABLE,
        SCHED_STATE_ENABLED, set_sched_flag_testBit]
  · have hpd : context_pending_disable (g.ctx ce) = true := by
      rw [context_pending_disable, SCHED_STATE_PENDING_DISABLE, sched_flag_testBit]; exact h2
    simp +contextual [-Nat.reducePow, hpd, Guc.set_ctx, hdec, h2]

/-- Bits 5 (`PENDING_ENABLE`) and 2 (`PENDING_DISABLE`) after `__guc_add_request`. -/
theorem guc_add_request_bits (K : Fwif) (g : Guc) (ce : Nat) :
    (∀ x, x ≠ ce → (__guc_add_request K g ce).2.ctx x = g.ctx x) ∧
    ((__guc_add_request K g ce).2.ctx ce).sched_state.testBit 2 =
      (g.ctx ce).sched_state.testBit 2 ∧
    (((__guc_add_request K g ce).2.ctx ce).sched_state.testBit 5 = true →
      (g.ctx ce).sched_state.testBit 5 = true ∨
      ((g.ctx ce).sched_state.testBit 4 = false ∧ context_blocked (g.ctx ce) = 0)) := by
  unfold __guc_add_request
  simp only []
  split
  · simp +contextual
  · split
    · simp +contextual
    · cases h4 : (g.ctx ce).sched_state.testBit 4
      · by_cases hb : context_blocked (g.ctx ce) = 0
        · have he : context_enabled (g.ctx ce) = false := by
            rw [context_enabled, SCHED_STATE_ENABLED, sched_flag_testBit]; exact h4
          simp only [he, hb, ne_eq, not_true_eq_false, decide_False, Bool.or_self,
            Bool.not_false, ↓reduceIte]
          split
          · split
            · simp +contextual [-Nat.reducePow, send_nb_ctx, Guc.set_ctx,
                set_context_pending_enable, set_context_enabled, SCHED_STATE_PENDING_ENABLE,
                SCHED_STATE_ENABLED, set_sched_flag_testBit]
            · simp +contextual [-Nat.reducePow, send_nb_ctx, Guc.set_ctx,
                set_context_pending_enable, set_context_enabled, SCHED_STATE_PENDING_ENABLE,
                SCHED_STATE_ENABLED, set_sched_flag_testBit]
          · simp +contextual [-Nat.reducePow, send_nb_ctx, Guc.set_ctx,
              set_context_pending_enable, clr_context_pending_enable,
              SCHED_STATE_PENDING_ENABLE, set_sched_flag_testBit, clr_sched_flag_testBit]
        · simp +contextual [-Nat.reducePow, hb, send_nb_ctx]
      · have he : context_enabled (g.ctx ce) = true := by
          rw [context_enabled, SCHED_STATE_ENABLED, sched_flag_testBit]; exact h4
        simp +contextual [-Nat.reducePow, he, send_nb_ctx]

/-- No bit of a scheduling state is set by `intel_guc_sched_done_process_msg`. -/
theorem sched_done_bits (K : Fwif) (g : Guc) (msg : List Nat) (len : Nat) (x j : Nat) :
    ((intel_guc_sched_done_process_msg K g msg len).2.ctx x).sched_state.testBit j = true →
      (g.ctx x).sched_state.testBit j = true := by
  unfold intel_guc_sched_done_process_msg
  simp only []
  split
  · exact id
  · cases hl : g2h_context_lookup g (msg.getD 0 0) with
    | none => exact id
    | some ce =>
      simp only []
      split
      · exact id
      · simp only [decr_outstanding_submission_g2h]
        by_cases hx : x = ce
        · subst hx
          split
          · simp +contextual [-Nat.reducePow, Guc.set_ctx, clr_context_pending_enable,
              SCHED_STATE_PENDING_ENABLE, clr_sched_flag_testBit]
          · split
            · simp +contextual [-Nat.reducePow, Guc.set_ctx, clr_context_pending_disable,
                clr_context_banned, SCHED_STATE_PENDING_DISABLE, SCHED_STATE_BANNED,
                clr_sched_flag_testBit, sched_disable_unpin_ctx]
            · exact id
        · split
          · simp +contextual [Guc.set_ctx, hx]
          · split
            · simp +contextual [Guc.set_ctx, hx, sched_disable_unpin_ctx]
            · exact id

/-- No bit of a scheduling state is set by the reset scrub. -/
theorem scrub_loop_bits (K : Fwif) (l : List (Nat × Nat)) (x j : Nat) :
    ∀ g : Guc, ((scrub_loop K g l).ctx x).sched_state.testBit j = true →
      (g.ctx x).sched_state.testBit j = true := by
  induction l with
  | nil => intro g h; exact h
  | cons e rest ih =>
    obtain ⟨i, ce⟩ := e
    intro g h
    unfold scrub_loop at h
    split at h
    · have h1 := ih _ h
      obtain ⟨rel, -, inv⟩ := scrub_context_spec K g ce
      by_cases hx : x = ce
      · subst hx
        rw [inv.sched, blocked_mask_testBit] at h1
        simp only [Bool.and_eq_true] at h1
        exact h1.1.1
      · rw [inv.others x hx] at h1
        exact h1
    · exact ih _ h

/-- C2, refuted as stated: a request is submitted on the registered context 2, which
sets `PENDING_ENABLE`, and the context is blocked before the reply arrives, which
sets `PENDING_DISABLE` as well. -/
theorem pending_enable_and_disable_both_set :
    context_pending_enable (sched_demo_registered.ctx 2) = false ∧
    context_pending_disable (sched_demo_registered.ctx 2) = false ∧
    context_pending_enable
      ((sched_run fwif_upstream sched_demo_registered [.add_request 2, .block 2]).ctx 2) =
      true ∧
    context_pending_disable
      ((sched_run fwif_upstream sched_demo_registered [.add_request 2, .block 2]).ctx 2) =
      true := by
  decide

/-- C2, amended: a scheduling-state operation takes a context from a state in which
`PENDING_ENABLE` and `PENDING_DISABLE` are not both set to a state in which they are
only in two ways: `guc_context_block`, `guc_context_ban` or
`guc_context_sched_disable` on that context while it is enabled with
`PENDING_ENABLE` set, or `__guc_add_request` on that context while it has
`PENDING_DISABLE` set and is neither enabled nor blocked. `guc_context_unblock`, the
schedule-done handler and the reset scrub never do. -/
theorem pending_flags_both_set_only_by (K : Fwif) (g : Guc) (op : SchedOp) (ce : Nat)
    (h0 : ¬ (context_pending_enable (g.ctx ce) = true ∧
      context_pending_disable (g.ctx ce) = true))
    (h1 : context_pending_enable ((sched_step K g op).ctx ce) = true ∧
      context_pending_disable ((sched_step K g op).ctx ce) = true) :
    ((op = .block ce ∨ op = .ban ce ∨ op = .sched_disable ce) ∧
      context_pending_enable (g.ctx ce) = true ∧ context_enabled (g.ctx ce) = true ∧
      context_pending_disable (g.ctx ce) = false) ∨
    (op = .add_request ce ∧ context_pending_disable (g.ctx ce) = true ∧
      context_pending_enable (g.ctx ce) = false ∧ context_enabled (g.ctx ce) = false ∧
      context_blocked (g.ctx ce) = 0) := by
  have e5 : ∀ c, context_pending_enable c = c.sched_state.testBit 5 :=
    fun c => sched_flag_testBit 5 c
  have e2 : ∀ c, context_pending_disable c = c.sched_state.testBit 2 :=
    fun c => sched_flag_testBit 2 c
  have e4 : ∀ c, context_enabled c = c.sched_state.testBit 4 :=
    fun c => sched_flag_testBit 4 c
  simp only [e5, e2, e4] at h0 h1 ⊢
  obtain ⟨h15, h12⟩ := h1
  have disable_case : ∀ c : Nat, ∀ g1 : Guc,
      (∀ x, x ≠ c → g1.ctx x = g.ctx x) →
      (g1.ctx c).sched_state.testBit 5 = (g.ctx c).sched_state.testBit 5 →
      ((g1.ctx c).sched_state.testBit 2 = true →
        (g.ctx c).sched_state.testBit 2 = true ∨ (g.ctx c).sched_state.testBit 4 = true) →
      (g1.ctx ce).sched_state.testBit 5 = true → (g1.ctx ce).sched_state.testBit 2 = true →
      c = ce ∧ (g.ctx ce).sched_state.testBit 5 = true ∧
        (g.ctx ce).sched_state.testBit 4 = true ∧
        (g.ctx ce).sched_state.testBit 2 = false := by
    intro c g1 a1 a2 a3 b5 b2
    by_cases hc : ce = c
    · subst hc
      rw [a2] at b5
      rcases a3 b2 with h | h
      · exact absurd ⟨b5, h⟩ h0
      · refine ⟨rfl, b5, h, ?_⟩
        cases h2 : (g.ctx ce).sched_state.testBit 2
        · rfl
        · exact absurd ⟨b5, h2⟩ h0
    · rw [a1 ce hc] at b5 b2
      exact absurd ⟨b5, b2⟩ h0
  cases op with
  | add_request c =>
    right
    obtain ⟨a1, a2, a3⟩ := guc_add_request_bits K g c
    simp only [sched_step] at h15 h12
    by_cases hc : ce = c
    · subst hc
      rw [a2] at h12
      rcases a3 h15 with h | ⟨h4, hb⟩
      · exact absurd ⟨h, h12⟩ h0
      · refine ⟨rfl, h12, ?_, h4, hb⟩
        cases h5 : (g.ctx ce).sched_state.testBit 5
        · rfl
        · exact absurd ⟨h5, h12⟩ h0
    · rw [a1 ce hc] at h15 h12
      exact absurd ⟨h15, h12⟩ h0
  | block c =>
    left
    obtain ⟨a1, a2, a3⟩ := guc_context_block_bits K g c
    obtain ⟨hc, r⟩ := disable_case c _ a1 a2 a3 h15 h12
    exact ⟨Or.inl (by rw [hc]), r⟩
  | ban c =>
    left
    obtain ⟨a1, a2, a3⟩ := guc_context_ban_bits K g c
    obtain ⟨hc, r⟩ := disable_case c _ a1 a2 a3 h15 h12
    exact ⟨Or.inr (Or.inl (by rw [hc])), r⟩
  | sched_disable c =>
    left
    obtain ⟨a1, a2, a3⟩ := guc_context_sched_disable_bits K g c
    obtain ⟨hc, r⟩ := disable_case c _ a1 a2 a3 h15 h12
    exact ⟨Or.inr (Or.inr (by rw [hc])), r⟩
  | unblock c =>
    exfalso
    obtain ⟨a1, a2, a3⟩ := guc_context_unblock_bits K g c
    simp only [sched_step] at h15 h12
    by_cases hc : ce = c
    · subst hc
      rw [a2] at h12
      rcases a3 h15 with h | h
      · exact h0 ⟨h, h12⟩
      · rw [h] at h12; exact absurd h12 (by decide)
    · rw [a1 ce hc] at h15 h12
      exact h0 ⟨h15, h12⟩
  | sched_done msg len =>
    exfalso
    exact h0 ⟨sched_done_bits K g msg len ce 5 h15, sched_done_bits K g msg len ce 2 h12⟩
  | scrub =>
    exfalso
    exact h0 ⟨scrub_loop_bits K _ ce 5 g h15, scrub_loop_bits K _ ce 2 g h12⟩

/-- C2 amended, at the blocking of context 2 while its schedule enable is pending. -/
theorem pending_flags_both_set_only_by_witness :
    ¬ (context_pending_enable (scrub_demo_enabled.ctx 2) = true ∧
      context_pending_disable (scrub_demo_enabled.ctx 2) = true) ∧
    (context_pending_enable
        ((sched_step fwif_upstream scrub_demo_enabled (.block 2)).ctx 2) = true ∧
      context_pending_disable
        ((sched_step fwif_upstream scrub_demo_enabled (.block 2)).ctx 2) = true) ∧
    (((SchedOp.block 2 = .block 2 ∨ SchedOp.block 2 = .ban 2 ∨
        SchedOp.block 2 = .sched_disable 2) ∧
      context_pending_enable (scrub_demo_enabled.ctx 2) = true ∧
      context_enabled (scrub_demo_enabled.ctx 2) = true ∧
      context_pending_disable (scrub_demo_enabled.ctx 2) = false) ∨
    (SchedOp.block 2 = .add_request 2 ∧
      context_pending_disable (scrub_demo_enabled.ctx 2) = true ∧
      context_pending_enable (scrub_demo_enabled.ctx 2) = false ∧
      context_enabled (scrub_demo_enabled.ctx 2) = false ∧
      context_blocked (scrub_demo_enabled.ctx 2) = 0)) :=
  ⟨by decide, by decide,
    pending_flags_both_set_only_by fwif_upstream scrub_demo_enabled (.block 2) 2
      (by decide) (by decide)⟩

/-! ## Pinning an identifier -/

theorem assign_guc_id_fail_state (K : Fwif) (g : Guc) (ce : Nat)
    (h : (assign_guc_id K g ce).1 < 0) : (assign_guc_id K g ce).2 = g := by
  rcases assign_guc_id_cases K g ce with ⟨-, h2⟩ | ⟨-, id, -, -, -, h2⟩ |
    ⟨-, -, cn, rest, -, h2, -⟩ | ⟨-, pos, -, -, h2⟩
  · exact h2
  · rw [h2] at h; exact absurd h (lt_irrefl (0 : Int))
  · rw [h2] at h; exact absurd h (lt_irrefl (0 : Int))
  · rw [h2] at h; exact absurd h (lt_irrefl (0 : Int))

theorem pin_guc_id_locked_fail (K : Fwif) (g : Guc) (ce : Nat) (e : Int) (he : e < 0)
    (hv : context_guc_id_invalid K (g.ctx ce) = true) (ha : (assign_guc_id K g ce).1 = e) :
    pin_guc_id_locked K g ce = (e, g, [.assign e]) := by
  have hne : (assign_guc_id K g ce).1 ≠ 0 := by rw [ha]; omega
  have hs := assign_guc_id_fail_state K g ce (by rw [ha]; exact he)
  have hne0 : ¬ e = 0 := by omega
  unfold pin_guc_id_locked
  simp only [hv, ↓reduceIte, ne_eq, ha, hs, hne0, not_false_eq_true]

/-- C11, refuted as stated: with the single pool exhausted, nothing to steal and a
time slice of 1 ms, `pin_guc_id` calls `assign_guc_id` four times, that is it retries
three times, and sleeps twice, for 1 ms and 2 ms. -/
theorem pin_guc_id_sleeps_twice :
    (pin_guc_id fwif_upstream 1 id pin_demo 3).1 = -EAGAIN ∧
    (pin_guc_id fwif_upstream 1 id pin_demo 3).2.2 =
      [.assign (-EAGAIN), .retire, .assign (-EAGAIN), .msleep 1, .retire,
       .assign (-EAGAIN), .msleep 2, .retire, .assign (-EAGAIN)] := by
  decide

/-- C11, amended: when every attempt of `assign_guc_id` finds the identifier invalid
and returns `-EAGAIN`, `pin_guc_id` makes four attempts, calls
`intel_gt_retire_requests` before each of the three retries, sleeps before the second
and the third retry only, for the time slice and twice the time slice, capped at
100 ms and at least 1 ms, and then returns `-EAGAIN`. -/
theorem pin_guc_id_exhausted (K : Fwif) (ts : Nat) (retire : Guc → Guc) (g : Guc) (ce : Nat)
    (h : ∀ k, k < 4 → context_guc_id_invalid K ((Nat.iterate retire k g).ctx ce) = true ∧
      (assign_guc_id K (Nat.iterate retire k g) ce).1 = -EAGAIN) :
    pin_guc_id K ts retire g ce =
      (-EAGAIN, Nat.iterate retire 3 g,
        [.assign (-EAGAIN), .retire,
         .assign (-EAGAIN), .msleep (max (min 100 (u32 ts)) 1), .retire,
         .assign (-EAGAIN), .msleep (max (min 100 (u32 (ts <<< 1))) 1), .retire,
         .assign (-EAGAIN)]) := by
  have hneg : (-EAGAIN : Int) < 0 := by decide
  have h0 := pin_guc_id_locked_fail K g ce _ hneg (h 0 (by decide)).1 (h 0 (by decide)).2
  have h1 := pin_guc_id_locked_fail K (retire g) ce _ hneg (h 1 (by decide)).1
    (h 1 (by decide)).2
  have h2 := pin_guc_id_locked_fail K (retire (retire g)) ce _ hneg (h 2 (by decide)).1
    (h 2 (by decide)).2
  have h3 := pin_guc_id_locked_fail K (retire (retire (retire g))) ce _ hneg
    (h 3 (by decide)).1 (h 3 (by decide)).2
  simp only [pin_guc_id, PIN_GUC_ID_TRIES, pin_guc_id_try, h0, h1, h2, h3]
  simp [Function.iterate_succ]

/-- C11 amended, at the exhausted pool with a time slice of 40 ms. -/
theorem pin_guc_id_exhausted_witness :
    pin_guc_id fwif_upstream 40 id pin_demo 3 =
      (-EAGAIN, Nat.iterate id 3 pin_demo,
        [.assign (-EAGAIN), .retire,
         .assign (-EAGAIN), .msleep (max (min 100 (u32 40)) 1), .retire,
         .assign (-EAGAIN), .msleep (max (min 100 (u32 (40 <<< 1))) 1), .retire,
         .assign (-EAGAIN)]) :=
  pin_guc_id_exhausted fwif_upstream 40 id pin_demo 3
    (fun k _ => by rw [Function.iterate_id]; exact ⟨by decide, by decide⟩)

/-! ## Group acquisition -/

theorem bitmap_find_free_region_full (bitmap : Nat → Bool) (bits order : Nat)
    (h : ∀ j, j < bits / 2 ^ order →
      bitmap_region_free bitmap (j * 2 ^ order) (2 ^ order) = false) :
    bitmap_find_free_region bitmap bits order = (-ENOMEM, bitmap) := by
  unfold bitmap_find_free_region
  have : (List.range (bits / 2 ^ order)).find?
      (fun j => bitmap_region_free bitmap (j * 2 ^ order) (2 ^ order)) = none := by
    rw [List.find?_eq_none]
    intro j hj
    rw [List.mem_range] at hj
    simp [h j hj]
  rw [this]

/-- C12: for a parent context `assign_guc_id` returns `-ENOSPC` whenever no aligned
region of the required order is free in the bitmap of the group pool; it does not
steal, the whole state, with the stealable list and every context, is as before, and
`pin_guc_id` returns the error after this one call, without retiring requests or
sleeping. -/
theorem assign_guc_id_parent_no_steal (K : Fwif) (ts : Nat) (retire : Guc → Guc) (g : Guc)
    (ce : Nat) (hp : intel_context_is_parent (g.ctx ce) = true)
    (hfull : ∀ j,
      j < NUMBER_MULTI_LRC_GUC_ID g / 2 ^ order_base_2 ((g.ctx ce).guc_number_children + 1) →
      bitmap_region_free g.guc_ids_bitmap
        (j * 2 ^ order_base_2 ((g.ctx ce).guc_number_children + 1))
        (2 ^ order_base_2 ((g.ctx ce).guc_number_children + 1)) = false) :
    assign_guc_id K g ce = (-ENOSPC, g) ∧
    (context_guc_id_invalid K (g.ctx ce) = true →
      pin_guc_id K ts retire g ce = (-ENOSPC, g, [.assign (-ENOSPC)])) := by
  have hnew : new_guc_id g ce = (-ENOMEM, g) := by
    unfold new_guc_id
    simp only [hp, ↓reduceIte, bitmap_find_free_region_full _ _ _ hfull]
    simp [ENOMEM]
  have ha : assign_guc_id K g ce = (-ENOSPC, g) := by
    unfold assign_guc_id
    simp only [hnew, hp, ↓reduceIte]
    simp [ENOMEM]
  refine ⟨ha, ?_⟩
  intro hv
  have hl := pin_guc_id_locked_fail K g ce (-ENOSPC) (by decide) hv (by rw [ha])
  simp only [pin_guc_id, PIN_GUC_ID_TRIES, pin_guc_id_try, hl]
  simp [ENOSPC, EAGAIN]

/-- C12 at a full group pool: the parent 40 asks for a region of eight identifiers
while the standalone context 50 is on the stealable list. -/
theorem assign_guc_id_parent_no_steal_witness :
    group_demo_full.guc_id_list = [50] ∧
    assign_guc_id fwif_upstream group_demo_full 40 = (-ENOSPC, group_demo_full) ∧
    pin_guc_id fwif_upstream 1 id group_demo_full 40 =
      (-ENOSPC, group_demo_full, [.assign (-ENOSPC)]) :=
  ⟨by decide,
    (assign_guc_id_parent_no_steal fwif_upstream 1 id group_demo_full 40 (by decide)
      (by decide)).1,
    (assign_guc_id_parent_no_steal fwif_upstream 1 id group_demo_full 40 (by decide)
      (by decide)).2 (by decide)⟩

theorem assign_child_ids_ids (ce : Nat) (l : List Nat) :
    ∀ (g : Guc) (k : Nat), l.Nodup → ce ∉ l → ∀ i c, l[i]? = some c →
      ((assign_child_ids ce g l k).ctx c).guc_id = (g.ctx ce).guc_id + (k + i) := by
  induction l with
  | nil => intro g k _ _ i c h; simp at h
  | cons child rest ih =>
    intro g k hnd hce i c h
    rw [List.nodup_cons] at hnd
    rw [List.mem_cons, not_or] at hce
    simp only [assign_child_ids]
    cases i with
    | zero =>
      simp only [List.getElem?_cons_zero, Option.some.injEq] at h
      subst h
      rw [(assign_child_ids_frame ce rest _ _).2.2.2.2.2.1 child hnd.1]
      simp [Guc.set_ctx]
    | succ i =>
      simp only [List.getElem?_cons_succ] at h
      rw [ih _ (k + 1) hnd.2 hce.2 i c h]
      simp only [Guc.set_ctx, if_neg hce.1]
      omega

theorem bitmap_find_free_region_aligned (bitmap : Nat → Bool) (bits order : Nat)
    (h : ¬ (bitmap_find_free_region bitmap bits order).1 < 0) :
    ∃ j : Nat, (bitmap_find_free_region bitmap bits order).1 = ((j * 2 ^ order : Nat) : Int) := by
  unfold bitmap_find_free_region at h ⊢
  cases hf : (List.range (bits / 2 ^ order)).find?
      (fun j => bitmap_region_free bitmap (j * 2 ^ order) (2 ^ order)) with
  | none => rw [hf] at h; exact absurd (show (-ENOMEM : Int) < 0 by decide) h
  | some j => exact ⟨j, rfl⟩

/-- C13: after a successful `assign_guc_id` on a parent with `n` children, the
identifier of the parent is a multiple of `2 ^ order_base_2 (n + 1)`, the region of
that many slots starting at it lies in the group pool, was free before the call and
is marked used after it, and the child at position `i` of the child list, counted
from 0, has the identifier of the parent plus `i + 1`. The child list is assumed to
name each child once and not the parent. -/
theorem assign_guc_id_parent_range (K : Fwif) (g : Guc) (ce : Nat)
    (hp : intel_context_is_parent (g.ctx ce) = true)
    (hok : (assign_guc_id K g ce).1 = 0)
    (hnd : (g.ctx ce).guc_child_list.Nodup) (hself : ce ∉ (g.ctx ce).guc_child_list) :
    2 ^ order_base_2 ((g.ctx ce).guc_number_children + 1) ∣
      ((assign_guc_id K g ce).2.ctx ce).guc_id ∧
    ((assign_guc_id K g ce).2.ctx ce).guc_id +
      2 ^ order_base_2 ((g.ctx ce).guc_number_children + 1) ≤ NUMBER_MULTI_LRC_GUC_ID g ∧
    (∀ i, ((assign_guc_id K g ce).2.ctx ce).guc_id ≤ i →
      i < ((assign_guc_id K g ce).2.ctx ce).guc_id +
        2 ^ order_base_2 ((g.ctx ce).guc_number_children + 1) →
      g.guc_ids_bitmap i = false ∧ (assign_guc_id K g ce).2.guc_ids_bitmap i = true) ∧
    (∀ i c, (g.ctx ce).guc_child_list[i]? = some c →
      ((assign_guc_id K g ce).2.ctx c).guc_id =
        ((assign_guc_id K g ce).2.ctx ce).guc_id + (i + 1)) := by
  have hspan : guc_id_span (g.ctx ce) =
      2 ^ order_base_2 ((g.ctx ce).guc_number_children + 1) := by
    simp [guc_id_span, hp]
  have hr : ¬ (bitmap_find_free_region g.guc_ids_bitmap (NUMBER_MULTI_LRC_GUC_ID g)
      (order_base_2 ((g.ctx ce).guc_number_children + 1))).1 < 0 := by
    intro hneg
    have hnew : (new_guc_id g ce).1 < 0 := by
      unfold new_guc_id
      simp only [hp, ↓reduceIte, hneg]
    have : assign_guc_id K g ce = (-ENOSPC, (new_guc_id g ce).2) := by
      have hp2 : intel_context_is_parent ((new_guc_id g ce).2.ctx ce) = true := by
        rcases new_guc_id_cases g ce with ⟨-, h2⟩ | ⟨hq, -⟩ | ⟨-, pos, -, -, h2⟩
        · rw [h2]; exact hp
        · rw [hq] at hp; exact absurd hp (by decide)
        · rw [h2] at hnew; exact absurd hnew (lt_irrefl (0 : Int))
      unfold assign_guc_id
      simp only [hnew, ↓reduceIte, hp2]
    rw [this] at hok
    have hok2 : (-ENOSPC : Int) = 0 := hok
    exact absurd hok2 (by decide)
  obtain ⟨pos, he, h1, h2⟩ := bitmap_find_free_region_ok _ _ _ hr
  obtain ⟨j, hj⟩ := bitmap_find_free_region_aligned _ _ _ hr
  have hpos : pos = j * 2 ^ order_base_2 ((g.ctx ce).guc_number_children + 1) := by
    rw [he] at hj
    have hj2 : (pos : Int) =
        ((j * 2 ^ order_base_2 ((g.ctx ce).guc_number_children + 1) : Nat) : Int) := hj
    exact_mod_cast hj2
  rw [← hspan] at he h1 h2
  have hnew : new_guc_id g ce =
      (0, ({ g with guc_ids_bitmap := fun i =>
            if pos ≤ i ∧ i < pos + guc_id_span (g.ctx ce) then true else g.guc_ids_bitmap i
          }).set_ctx ce { g.ctx ce with guc_id := pos }) := by
    simp only [new_guc_id, hp, ↓reduceIte, ← hspan, he]
    simp
  have hassign : (assign_guc_id K g ce).2 = assign_child_ids ce
      (({ g with guc_ids_bitmap := fun i =>
            if pos ≤ i ∧ i < pos + guc_id_span (g.ctx ce) then true else g.guc_ids_bitmap i
          }).set_ctx ce { g.ctx ce with guc_id := pos })
      (g.ctx ce).guc_child_list 1 := by
    simp only [assign_guc_id, hnew]
    simp [intel_context_is_parent] at hp ⊢
    simp [hp]
  obtain ⟨-, f2, -, -, -, f6, -⟩ := assign_child_ids_frame ce (g.ctx ce).guc_child_list
    (({ g with guc_ids_bitmap := fun i =>
          if pos ≤ i ∧ i < pos + guc_id_span (g.ctx ce) then true else g.guc_ids_bitmap i
        }).set_ctx ce { g.ctx ce with guc_id := pos }) 1
  have hid : ((assign_guc_id K g ce).2.ctx ce).guc_id = pos := by
    rw [hassign, f6 ce hself]
    simp [Guc.set_ctx]
  rw [hid, ← hspan]
  refine ⟨⟨j, by rw [hspan, hpos, Nat.mul_comm]⟩, h1, ?_, ?_⟩
  · intro i hi1 hi2
    refine ⟨h2 i hi1 hi2, ?_⟩
    rw [hassign, f2]
    simp [Guc.set_ctx, hi1, hi2]
  · intro i c hc
    rw [hassign, assign_child_ids_ids ce _ _ 1 hnd hself i c hc]
    simp [Guc.set_ctx]
    omega

/-- C13 at the first acquisition of the parent 0 with its seven children. -/
theorem assign_guc_id_parent_range_witness :
    (group_demo.ctx 0).guc_number_children = 7 ∧
    order_base_2 ((group_demo.ctx 0).guc_number_children + 1) = 3 ∧
    ((assign_guc_id fwif_upstream group_demo 0).2.ctx 0).guc_id = 0 ∧
    (∀ i c, (group_demo.ctx 0).guc_child_list[i]? = some c →
      ((assign_guc_id fwif_upstream group_demo 0).2.ctx c).guc_id =
        ((assign_guc_id fwif_upstream group_demo 0).2.ctx 0).guc_id + (i + 1)) :=
  ⟨by decide, by decide, by decide,
    (assign_guc_id_parent_range fwif_upstream group_demo 0 (by decide) (by decide)
      (by decide) (by decide)).2.2.2⟩

/-- C15, failing run: a limit of 16 is accepted on an idle allocator, yet the group
pool keeps its 32 slots; the third parent of seven children then gets identifier 16
and its last child 23, which are not below `max_guc_ids`, so the assertion of
`__get_lrc_desc` fails for them, and 24 identifiers are in use under a limit of
16. -/
theorem limit_ids_group_pool_exceeds_limit :
    (intel_guc_submission_limit_ids fwif_upstream
      (demo_group (demo_group (demo_group (Guc.init fwif_upstream 64) 0 7) 10 7) 20 7) 16).1
      = 0 ∧
    limit_demo.max_guc_ids = 16 ∧ NUMBER_MULTI_LRC_GUC_ID limit_demo = 32 ∧
    (assign_guc_id fwif_upstream (assign_guc_id fwif_upstream
      (assign_guc_id fwif_upstream limit_demo 0).2 10).2 20).1 = 0 ∧
    (limit_demo_assigned.ctx 20).guc_id = 16 ∧ (limit_demo_assigned.ctx 27).guc_id = 23 ∧
    __get_lrc_desc limit_demo_assigned (limit_demo_assigned.ctx 20).guc_id = none ∧
    __get_lrc_desc limit_demo_assigned (limit_demo_assigned.ctx 27).guc_id = none ∧
    ((List.range 32).filter limit_demo_assigned.guc_ids_bitmap).length = 24 := by
  decide

/-- C16: `intel_guc_submission_limit_ids` returns `-E2BIG` for a limit above
`GUC_MAX_LRC_DESCRIPTORS`, otherwise `-ETXTBSY` while the single-pool allocator
holds an identifier, in both cases with the state unchanged, and otherwise 0 with
`max_guc_ids = limit` and `num_guc_ids = min limit num_guc_ids`; so a call that
changes either value found the single pool empty, and `num_guc_ids ≤ max_guc_ids`
holds after every call that returns 0. -/
theorem limit_ids_result (K : Fwif) (g : Guc) (limit : Nat) :
    (limit > K.GUC_MAX_LRC_DESCRIPTORS →
      intel_guc_submission_limit_ids K g limit = (-E2BIG, g)) ∧
    (limit ≤ K.GUC_MAX_LRC_DESCRIPTORS → ida_is_empty g.guc_ids = false →
      intel_guc_submission_limit_ids K g limit = (-ETXTBSY, g)) ∧
    (limit ≤ K.GUC_MAX_LRC_DESCRIPTORS → ida_is_empty g.guc_ids = true →
      (intel_guc_submission_limit_ids K g limit).1 = 0 ∧
      (intel_guc_submission_limit_ids K g limit).2.max_guc_ids = limit ∧
      (intel_guc_submission_limit_ids K g limit).2.num_guc_ids = min limit g.num_guc_ids) ∧
    ((intel_guc_submission_limit_ids K g limit).1 = 0 →
      (intel_guc_submission_limit_ids K g limit).2.num_guc_ids ≤
        (intel_guc_submission_limit_ids K g limit).2.max_guc_ids) ∧
    (((intel_guc_submission_limit_ids K g limit).2.max_guc_ids ≠ g.max_guc_ids ∨
      (intel_guc_submission_limit_ids K g limit).2.num_guc_ids ≠ g.num_guc_ids) →
      ida_is_empty g.guc_ids = true) := by
  unfold intel_guc_submission_limit_ids
  by_cases h1 : limit > K.GUC_MAX_LRC_DESCRIPTORS
  · have h2 : ¬ limit ≤ K.GUC_MAX_LRC_DESCRIPTORS := by omega
    simp [h1, h2, E2BIG]
  · have h2 : limit ≤ K.GUC_MAX_LRC_DESCRIPTORS := by omega
    cases h3 : ida_is_empty g.guc_ids
    · simp [h1, h2, ETXTBSY]
    · simp [h1, h2]

/-- C17, refuted as stated: with identifier 32 of the single pool allocated, raising
the limit from 33 to 40 is refused with `-ETXTBSY`; and on an idle allocator raising
the limit from 64 to 128 leaves the number of usable identifiers at 64. -/
theorem limit_ids_raise_refused :
    pin_demo.max_guc_ids = 33 ∧ pin_demo.guc_ids = [32] ∧
    40 ≤ fwif_upstream.GUC_MAX_LRC_DESCRIPTORS ∧
    (intel_guc_submission_limit_ids fwif_upstream pin_demo 40).1 = -ETXTBSY ∧
    (intel_guc_submission_limit_ids fwif_upstream pin_demo 40).2.max_guc_ids = 33 ∧
    (intel_guc_submission_limit_ids fwif_upstream (Guc.init fwif_upstream 64) 128).1 = 0 ∧
    (intel_guc_submission_limit_ids fwif_upstream (Guc.init fwif_upstream 64) 128).2.num_guc_ids
      = 64 := by
  decide

/-- C17, amended: for a limit between the current `max_guc_ids` and
`GUC_MAX_LRC_DESCRIPTORS`, `intel_guc_submission_limit_ids` is refused with
`-ETXTBSY` and changes nothing while the single pool holds an identifier; with the
single pool empty it returns 0 and sets `max_guc_ids` to the limit, and it leaves
`num_guc_ids`, the number of identifiers the allocator hands out, as it was whenever
that did not exceed the old `max_guc_ids`. -/
theorem limit_ids_raise (K : Fwif) (g : Guc) (limit : Nat)
    (hmax : g.max_guc_ids ≤ limit) (hlim : limit ≤ K.GUC_MAX_LRC_DESCRIPTORS) :
    (ida_is_empty g.guc_ids = false →
      intel_guc_submission_limit_ids K g limit = (-ETXTBSY, g)) ∧
    (ida_is_empty g.guc_ids = true →
      (intel_guc_submission_limit_ids K g limit).1 = 0 ∧
      (intel_guc_submission_limit_ids K g limit).2.max_guc_ids = limit ∧
      (g.num_guc_ids ≤ g.max_guc_ids →
        (intel_guc_submission_limit_ids K g limit).2.num_guc_ids = g.num_guc_ids)) := by
  obtain ⟨-, h2, h3, -, -⟩ := limit_ids_result K g limit
  refine ⟨h2 hlim, fun he => ?_⟩
  obtain ⟨a, b, c⟩ := h3 hlim he
  refine ⟨a, b, fun hn => ?_⟩
  rw [c]
  omega

/-- C17 amended, at the raise of the limit of an idle allocator from 64 to 128. -/
theorem limit_ids_raise_witness :
    (Guc.init fwif_upstream 64).max_guc_ids ≤ 128 ∧
    128 ≤ fwif_upstream.GUC_MAX_LRC_DESCRIPTORS ∧
    (intel_guc_submission_limit_ids fwif_upstream (Guc.init fwif_upstream 64) 128).1 = 0 ∧
    (intel_guc_submission_limit_ids fwif_upstream (Guc.init fwif_upstream 64) 128).2.max_guc_ids
      = 128 ∧
    (intel_guc_submission_limit_ids fwif_upstream (Guc.init fwif_upstream 64) 128).2.num_guc_ids
      = (Guc.init fwif_upstream 64).num_guc_ids :=
  ⟨by decide, by decide,
    ((limit_ids_raise fwif_upstream (Guc.init fwif_upstream 64) 128 (by decide)
      (by decide)).2 (by decide)).1,
    ((limit_ids_raise fwif_upstream (Guc.init fwif_upstream 64) 128 (by decide)
      (by decide)).2 (by decide)).2.1,
    ((limit_ids_raise fwif_upstream (Guc.init fwif_upstream 64) 128 (by decide)
      (by decide)).2 (by decide)).2.2 (by decide)⟩

/-! ## Unbinding an identifier -/

/-- C18 (counterexample): once the descriptor pool has been destroyed `reset_lrc_desc`
does nothing, so identifier 32, which is in the registration store, is still
registered after the call. -/
theorem reset_lrc_desc_uninitialised_keeps_entry :
    guc_submission_initialized fini_demo = false ∧ 32 < fini_demo.max_guc_ids ∧
    lrc_desc_registered fini_demo 32 = true ∧
    lrc_desc_registered (reset_lrc_desc fini_demo 32) 32 = true ∧
    (reset_lrc_desc fini_demo 32).context_lookup = fini_demo.context_lookup := by
  decide

/-- C18 (amended): `reset_lrc_desc` is idempotent: a second call for the same
identifier changes nothing; while submission is initialised the identifier is not
registered after the call and its descriptor is zero; when it is not initialised the
call changes nothing at all; and the store entries and descriptors of all other
identifiers are as before. -/
theorem reset_lrc_desc_idempotent (g : Guc) (id : Nat) :
    (reset_lrc_desc (reset_lrc_desc g id) id).lrc_desc_pool =
      (reset_lrc_desc g id).lrc_desc_pool ∧
    (reset_lrc_desc (reset_lrc_desc g id) id).context_lookup =
      (reset_lrc_desc g id).context_lookup ∧
    (guc_submission_initialized g = true →
      lrc_desc_registered (reset_lrc_desc g id) id = false ∧
      (reset_lrc_desc g id).lrc_desc_pool id = LrcDesc.zero) ∧
    (guc_submission_initialized g = false → reset_lrc_desc g id = g) ∧
    (∀ j, j ≠ id →
      xa_load (reset_lrc_desc g id).context_lookup j = xa_load g.context_lookup j ∧
      (reset_lrc_desc g id).lrc_desc_pool j = g.lrc_desc_pool j) := by
  unfold reset_lrc_desc
  cases hi : guc_submission_initialized g
  · simp [hi]
  · have hi2 : guc_submission_initialized
        { g with
          lrc_desc_pool := fun i => if i = id then LrcDesc.zero else g.lrc_desc_pool i,
          context_lookup := xa_erase g.context_lookup id } = true := hi
    simp only [↓reduceIte, hi2, true_implies]
    refine ⟨?_, ?_, ⟨?_, ?_⟩, ?_, ?_⟩
    · funext i
      by_cases h : i = id <;> simp [h]
    · simp [xa_erase, List.filter_filter]
    · simp [lrc_desc_registered, __get_context, xa_load_xa_erase_self]
    · simp
    · intro h
      exact absurd h (by decide)
    · intro j hj
      simp [xa_load_xa_erase, hj]

/-! ## Destruction round trip -/

theorem send_busy_loop_retry_not_busy (a : H2G) (len : Nat) (fuel : Nat) :
    ∀ g : Guc, g.ct_replies.length ≤ fuel →
      (send_busy_loop_retry a len true fuel g).1 ≠ -EBUSY := by
  induction fuel with
  | zero =>
    intro g hlen
    have h0 : g.ct_replies = [] := List.length_eq_zero.mp (by omega)
    simp [send_busy_loop_retry, intel_guc_send_nb, intel_guc_ct_send, h0, EBUSY]
  | succ fuel ih =>
    intro g hlen
    unfold send_busy_loop_retry
    cases hr : g.ct_replies with
    | nil => simp [intel_guc_send_nb, intel_guc_ct_send, hr, EBUSY]
    | cons r rs =>
      rw [hr] at hlen
      by_cases hb : r = -EBUSY
      · simp only [intel_guc_send_nb, intel_guc_ct_send, hr, hb, and_self, ↓reduceIte]
        apply ih
        simp only [List.length_cons] at hlen ⊢
        omega
      · simp [intel_guc_send_nb, intel_guc_ct_send, hr, hb]

theorem guc_submission_send_busy_loop_not_busy (g : Guc) (a : H2G) (len : Nat) :
    (guc_submission_send_busy_loop g a len true).1 ≠ -EBUSY := by
  have h : ∀ g1 : Guc, (intel_guc_send_busy_loop g1 a len true).1 ≠ -EBUSY := by
    intro g1
    unfold intel_guc_send_busy_loop
    exact send_busy_loop_retry_not_busy a len _ g1 (le_refl _)
  rw [guc_submission_send_busy_loop_eq]
  generalize (if len ≠ 0 then
      ({ g with outstanding_submission_g2h := g.outstanding_submission_g2h + 1 } : Guc)
    else g) = g1
  have := h g1
  simp [this]

theorem release_guc_id_unbinds (K : Fwif) (g : Guc) (ce : Nat)
    (hinit : guc_submission_initialized g = true)
    (hv : context_guc_id_invalid K (g.ctx ce) = false) :
    xa_load (__release_guc_id K g ce).context_lookup (g.ctx ce).guc_id = none := by
  have hreset : ∀ g2 : Guc, g2.lrc_desc_pool_vaddr = g.lrc_desc_pool_vaddr →
      xa_load (reset_lrc_desc g2 (g.ctx ce).guc_id).context_lookup (g.ctx ce).guc_id = none := by
    intro g2 e
    have : guc_submission_initialized g2 = true := by
      simp only [guc_submission_initialized] at hinit ⊢
      rw [e]; exact hinit
    simp only [reset_lrc_desc, this, ↓reduceIte]
    exact xa_load_xa_erase_self _ _
  unfold __release_guc_id
  simp only [release_list_eq]
  simp only [hv, Bool.not_false, ↓reduceIte, Guc.set_ctx]
  cases hp : intel_context_is_parent (g.ctx ce)
  · simp only [Bool.false_eq_true, ↓reduceIte]
    exact hreset { g with guc_ids := ida_simple_remove g.guc_ids (g.ctx ce).guc_id } rfl
  · simp only [↓reduceIte]
    generalize bitmap_release_region g.guc_ids_bitmap (g.ctx ce).guc_id
      (order_base_2 ((g.ctx ce).guc_number_children + 1)) = bm
    exact hreset { g with guc_ids_bitmap := bm } rfl

theorem guc_lrc_desc_unpin_enabled (K : Fwif) (g : Guc) (ce : Nat)
    (hen : submission_disabled g = false) (hlen : K.G2H_LEN_DW_DEREGISTER_CONTEXT ≠ 0) :
    (guc_lrc_desc_unpin K g ce).ctx = (fun x =>
      if x = ce then clr_context_registered (set_context_destroyed (g.ctx ce)) else g.ctx x) ∧
    (∃ n, 0 < n ∧ (guc_lrc_desc_unpin K g ce).h2g =
      g.h2g ++ List.replicate n (H2G.deregister_context (g.ctx ce).guc_id)) ∧
    (guc_lrc_desc_unpin K g ce).outstanding_submission_g2h =
      g.outstanding_submission_g2h + 1 ∧
    (guc_lrc_desc_unpin K g ce).context_lookup = g.context_lookup ∧
    (guc_lrc_desc_unpin K g ce).max_guc_ids = g.max_guc_ids ∧
    (guc_lrc_desc_unpin K g ce).lrc_desc_pool_vaddr = g.lrc_desc_pool_vaddr ∧
    (guc_lrc_desc_unpin K g ce).guc_ids = g.guc_ids ∧
    (guc_lrc_desc_unpin K g ce).guc_ids_bitmap = g.guc_ids_bitmap ∧
    (guc_lrc_desc_unpin K g ce).guc_id_list = g.guc_id_list := by
  have hid : (clr_context_registered (set_context_destroyed (g.ctx ce))).guc_id =
      (g.ctx ce).guc_id := rfl
  have hu : guc_lrc_desc_unpin K g ce =
      (guc_submission_send_busy_loop
        ((g.set_ctx ce (set_context_destroyed (g.ctx ce))).set_ctx ce
          (clr_context_registered (set_context_destroyed (g.ctx ce))))
        (H2G.deregister_context (g.ctx ce).guc_id) K.G2H_LEN_DW_DEREGISTER_CONTEXT true).2 := by
    unfold guc_lrc_desc_unpin
    simp [hen, deregister_context, __guc_action_deregister_context, Guc.set_ctx, hid]
  obtain ⟨r, n, hn, h⟩ := guc_submission_send_busy_loop_frame
    ((g.set_ctx ce (set_context_destroyed (g.ctx ce))).set_ctx ce
      (clr_context_registered (set_context_destroyed (g.ctx ce))))
    (H2G.deregister_context (g.ctx ce).guc_id) K.G2H_LEN_DW_DEREGISTER_CONTEXT true
  have hnb := guc_submission_send_busy_loop_not_busy
    ((g.set_ctx ce (set_context_destroyed (g.ctx ce))).set_ctx ce
      (clr_context_registered (set_context_destroyed (g.ctx ce))))
    (H2G.deregister_context (g.ctx ce).guc_id) K.G2H_LEN_DW_DEREGISTER_CONTEXT
  rw [hu, h]
  refine ⟨?_, ⟨n, hn, rfl⟩, ?_, rfl, rfl, rfl, rfl, rfl, rfl⟩
  · funext x
    by_cases hx : x = ce <;> simp [Guc.set_ctx, hx]
  · simp only [ne_eq, hlen, not_false_eq_true, hnb, and_self, ↓reduceIte]
    rfl

/-- C19: for a registered context destroyed while submission is enabled,
`guc_lrc_desc_unpin` sets `DESTROYED`, clears `REGISTERED`, sends deregister messages
for the identifier only and counts one outstanding reply; the deregister-done reply
for the identifier is then accepted and leaves the counter at its old value, the
identifier of the context invalid, the context off the stealable list, no entry for
the identifier in the registration store and the identifier back in its pool: not
allocated in the single pool, or its region clear in the bitmap of the group
pool. -/
theorem destroy_round_trip (K : Fwif) (g : Guc) (ce : Nat)
    (hen : submission_disabled g = false)
    (hinit : guc_submission_initialized g = true)
    (hlen : K.G2H_LEN_DW_DEREGISTER_CONTEXT ≠ 0)
    (hvalid : context_guc_id_invalid K (g.ctx ce) = false)
    (hbound : xa_load g.context_lookup (g.ctx ce).guc_id = some ce)
    (hmax : (g.ctx ce).guc_id < g.max_guc_ids)
    (hchild : intel_context_is_child (g.ctx ce) = false)
    (hw : context_wait_for_deregister_to_register (g.ctx ce) = false) :
    context_destroyed ((guc_lrc_desc_unpin K g ce).ctx ce) = true ∧
    context_registered ((guc_lrc_desc_unpin K g ce).ctx ce) = false ∧
    (∃ n, 0 < n ∧ (guc_lrc_desc_unpin K g ce).h2g =
      g.h2g ++ List.replicate n (H2G.deregister_context (g.ctx ce).guc_id)) ∧
    (guc_lrc_desc_unpin K g ce).outstanding_submission_g2h =
      g.outstanding_submission_g2h + 1 ∧
    (intel_guc_deregister_done_process_msg K (guc_lrc_desc_unpin K g ce)
      [(g.ctx ce).guc_id] 1).1 = 0 ∧
    (intel_guc_deregister_done_process_msg K (guc_lrc_desc_unpin K g ce)
      [(g.ctx ce).guc_id] 1).2.outstanding_submission_g2h = g.outstanding_submission_g2h ∧
    context_guc_id_invalid K
      ((intel_guc_deregister_done_process_msg K (guc_lrc_desc_unpin K g ce)
        [(g.ctx ce).guc_id] 1).2.ctx ce) = true ∧
    ce ∉ (intel_guc_deregister_done_process_msg K (guc_lrc_desc_unpin K g ce)
      [(g.ctx ce).guc_id] 1).2.guc_id_list ∧
    xa_load (intel_guc_deregister_done_process_msg K (guc_lrc_desc_unpin K g ce)
      [(g.ctx ce).guc_id] 1).2.context_lookup (g.ctx ce).guc_id = none ∧
    (intel_context_is_parent (g.ctx ce) = false →
      (g.ctx ce).guc_id ∉ (intel_guc_deregister_done_process_msg K (guc_lrc_desc_unpin K g ce)
        [(g.ctx ce).guc_id] 1).2.guc_ids) ∧
    (intel_context_is_parent (g.ctx ce) = true →
      ∀ i, (g.ctx ce).guc_id ≤ i →
        i < (g.ctx ce).guc_id + 2 ^ order_base_2 ((g.ctx ce).guc_number_children + 1) →
        (intel_guc_deregister_done_process_msg K (guc_lrc_desc_unpin K g ce)
          [(g.ctx ce).guc_id] 1).2.guc_ids_bitmap i = false) := by
  obtain ⟨u1, u2, u3, u4, u5, u6, u7, u8, u9⟩ := guc_lrc_desc_unpin_enabled K g ce hen hlen
  generalize guc_lrc_desc_unpin K g ce = u at u1 u2 u3 u4 u5 u6 u7 u8 u9 ⊢
  have hce : u.ctx ce = clr_context_registered (set_context_destroyed (g.ctx ce)) := by
    rw [u1]; simp
  have hbits : ∀ j, (u.ctx ce).sched_state.testBit j =
      (((g.ctx ce).sched_state.testBit j || decide (1 = j)) && decide (j < 32) &&
        !decide (6 = j)) := by
    intro j
    rw [hce]
    simp only [clr_context_registered, set_context_destroyed, SCHED_STATE_REGISTERED,
      SCHED_STATE_DESTROYED, clr_sched_flag_testBit _ _ _ (show 6 < 32 by decide),
      set_sched_flag_testBit]
  have hdes : context_destroyed (u.ctx ce) = true := by
    rw [context_destroyed, SCHED_STATE_DESTROYED, sched_flag_testBit, hbits]; simp
  have hreg : context_registered (u.ctx ce) = false := by
    rw [context_registered, SCHED_STATE_REGISTERED, sched_flag_testBit, hbits]; simp
  have hwu : context_wait_for_deregister_to_register (u.ctx ce) = false := by
    rw [context_wait_for_deregister_to_register, SCHED_STATE_WAIT_FOR_DEREGISTER_TO_REGISTER,
      sched_flag_testBit] at hw ⊢
    rw [hbits, hw]; simp
  have hidu : (u.ctx ce).guc_id = (g.ctx ce).guc_id := by rw [hce]; rfl
  have hpar : (u.ctx ce).guc_number_children = (g.ctx ce).guc_number_children := by
    rw [hce]; rfl
  have hchu : intel_context_is_child (u.ctx ce) = false := by
    rw [hce]; exact hchild
  have hvu : context_guc_id_invalid K (u.ctx ce) = false := by
    simp only [context_guc_id_invalid, hidu] at hvalid ⊢; exact hvalid
  have hlook : g2h_context_lookup u ([(g.ctx ce).guc_id].getD 0 0) = some ce := by
    have hm : ¬ (g.ctx ce).guc_id ≥ u.max_guc_ids := by rw [u5]; omega
    simp [g2h_context_lookup, __get_context, hm, u4, hbound, hchu]
  have hd : intel_guc_deregister_done_process_msg K u [(g.ctx ce).guc_id] 1 =
      (0, decr_outstanding_submission_g2h (__release_guc_id K u ce)) := by
    unfold intel_guc_deregister_done_process_msg
    simp only [hlook, hwu, hdes, Nat.lt_irrefl, ↓reduceIte, Bool.false_eq_true,
      __guc_context_destroy, release_guc_id]
  obtain ⟨-, q2, -, q4, -, -, -, q8, q9, q10⟩ := release_guc_id_fields K u ce
  obtain ⟨-, s2, -, -, -⟩ := release_guc_id_store K u ce
  have hunb := release_guc_id_unbinds K u ce (by
    simp only [guc_submission_initialized] at hinit ⊢; rw [u6]; exact hinit) hvu
  rw [hd]
  refine ⟨hdes, hreg, u2, u3, rfl, ?_, ?_, ?_, ?_, ?_, ?_⟩
  · simp only [decr_outstanding_submission_g2h, s2, u3]; omega
  · simp [decr_outstanding_submission_g2h, context_guc_id_invalid, q2]
  · simp only [decr_outstanding_submission_g2h, q8, mem_list_del_init]
    exact fun h => h.2 rfl
  · simp only [decr_outstanding_submission_g2h]
    rw [← hidu]; exact hunb
  · intro hp
    have hpu : intel_context_is_parent (u.ctx ce) = false := by
      simp only [intel_context_is_parent, hpar] at hp ⊢; exact hp
    simp only [decr_outstanding_submission_g2h, q9, hvu, hpu, and_self, ↓reduceIte, hidu,
      ida_simple_remove, List.mem_filter, bne_self_eq_false, Bool.false_eq_true, and_false,
      not_false_eq_true]
  · intro hp i hi1 hi2
    have hpu : intel_context_is_parent (u.ctx ce) = true := by
      simp only [intel_context_is_parent, hpar] at hp ⊢; exact hp
    simp only [decr_outstanding_submission_g2h, q10, hvu, hpu, and_self, ↓reduceIte, hidu,
      hpar, bitmap_release_region, hi1, hi2]

/-- C19 at the destruction of the registered context 2, which holds identifier 32. -/
theorem destroy_round_trip_witness :
    (sched_demo_registered.ctx 2).guc_id = 32 ∧
    sched_demo_registered.guc_ids = [34, 33, 32] ∧
    (intel_guc_deregister_done_process_msg fwif_upstream
      (guc_lrc_desc_unpin fwif_upstream sched_demo_registered 2)
      [(sched_demo_registered.ctx 2).guc_id] 1).2.guc_ids = [34, 33] ∧
    xa_load (intel_guc_deregister_done_process_msg fwif_upstream
      (guc_lrc_desc_unpin fwif_upstream sched_demo_registered 2)
      [(sched_demo_registered.ctx 2).guc_id] 1).2.context_lookup
      (sched_demo_registered.ctx 2).guc_id = none ∧
    (intel_guc_deregister_done_process_msg fwif_upstream
      (guc_lrc_desc_unpin fwif_upstream sched_demo_registered 2)
      [(sched_demo_registered.ctx 2).guc_id] 1).2.outstanding_submission_g2h =
      sched_demo_registered.outstanding_submission_g2h :=
  ⟨by decide, by decide, by decide,
    (destroy_round_trip fwif_upstream sched_demo_registered 2 (by decide) (by decide)
      (by decide) (by decide) (by decide) (by decide) (by decide) (by decide)).2.2.2.2.2.2.2.2.1,
    (destroy_round_trip fwif_upstream sched_demo_registered 2 (by decide) (by decide)
      (by decide) (by decide) (by decide) (by decide) (by decide) (by decide)).2.2.2.2.2.1⟩

/-! ## Registration outcome -/

/-- C20, refuted as stated: the register message of context 2 for identifier 32 fails
with `-EPIPE`; `guc_lrc_desc_pin` returns the error with `REGISTERED` clear but
leaves the identifier bound to the context in the registration store, so that the
next `guc_lrc_desc_pin` of the context sends a deregister message. -/
theorem register_failure_keeps_store_entry :
    lrc_desc_registered register_fail_demo (register_fail_demo.ctx 2).guc_id = false ∧
    (guc_lrc_desc_pin fwif_upstream register_fail_demo 2 true).1 = -EPIPE ∧
    context_registered ((guc_lrc_desc_pin fwif_upstream register_fail_demo 2 true).2.ctx 2) =
      false ∧
    xa_load (guc_lrc_desc_pin fwif_upstream register_fail_demo 2 true).2.context_lookup 32 =
      some 2 ∧
    (guc_lrc_desc_pin fwif_upstream
      (guc_lrc_desc_pin fwif_upstream register_fail_demo 2 true).2 2 true).2.h2g =
      [H2G.register_context 32 2048, H2G.deregister_context 32] := by
  decide

/-- C20, amended: in `guc_lrc_desc_pin` for an identifier that is not in the
registration store, with submission initialised, the outcome follows the status of
the register send: on 0 the call returns 0 with `REGISTERED` set and the identifier
bound to the context; on `-EBUSY` it returns `-EBUSY` and on `-ENODEV` it returns 0,
in both cases with the store entry removed again and `REGISTERED` as before; on any
other status it returns that status with `REGISTERED` as before and the identifier
still bound to the context. -/
theorem desc_pin_register_outcome (K : Fwif) (g : Guc) (ce : Nat) (loop : Bool)
    (hunreg : lrc_desc_registered g (g.ctx ce).guc_id = false)
    (hinit : guc_submission_initialized g = true) :
    ((register_context K (guc_lrc_desc_pin_fill K g ce) ce loop).1 = 0 →
      (guc_lrc_desc_pin K g ce loop).1 = 0 ∧
      context_registered ((guc_lrc_desc_pin K g ce loop).2.ctx ce) = true ∧
      xa_load (guc_lrc_desc_pin K g ce loop).2.context_lookup (g.ctx ce).guc_id = some ce) ∧
    ((register_context K (guc_lrc_desc_pin_fill K g ce) ce loop).1 = -EBUSY →
      (guc_lrc_desc_pin K g ce loop).1 = -EBUSY ∧
      context_registered ((guc_lrc_desc_pin K g ce loop).2.ctx ce) =
        context_registered (g.ctx ce) ∧
      xa_load (guc_lrc_desc_pin K g ce loop).2.context_lookup (g.ctx ce).guc_id = none) ∧
    ((register_context K (guc_lrc_desc_pin_fill K g ce) ce loop).1 = -ENODEV →
      (guc_lrc_desc_pin K g ce loop).1 = 0 ∧
      context_registered ((guc_lrc_desc_pin K g ce loop).2.ctx ce) =
        context_registered (g.ctx ce) ∧
      xa_load (guc_lrc_desc_pin K g ce loop).2.context_lookup (g.ctx ce).guc_id = none) ∧
    ((register_context K (guc_lrc_desc_pin_fill K g ce) ce loop).1 ≠ 0 →
      (register_context K (guc_lrc_desc_pin_fill K g ce) ce loop).1 ≠ -EBUSY →
      (register_context K (guc_lrc_desc_pin_fill K g ce) ce loop).1 ≠ -ENODEV →
      (guc_lrc_desc_pin K g ce loop).1 =
        (register_context K (guc_lrc_desc_pin_fill K g ce) ce loop).1 ∧
      context_registered ((guc_lrc_desc_pin K g ce loop).2.ctx ce) =
        context_registered (g.ctx ce) ∧
      xa_load (guc_lrc_desc_pin K g ce loop).2.context_lookup (g.ctx ce).guc_id = some ce) := by
  obtain ⟨f1, -, f3, -, -, -, -, -, -, -, f11, -⟩ := guc_lrc_desc_pin_fill_frame K g ce
  obtain ⟨q1, -, -, q4, -⟩ := register_context_frame K (guc_lrc_desc_pin_fill K g ce) ce loop
  have hpin : guc_lrc_desc_pin K g ce loop =
      (fun r : Int × Guc =>
        if r.1 = -EBUSY then (r.1, reset_lrc_desc r.2 (g.ctx ce).guc_id)
        else if r.1 = -ENODEV then (0, reset_lrc_desc r.2 (g.ctx ce).guc_id)
        else r) (register_context K (guc_lrc_desc_pin_fill K g ce) ce loop) := by
    unfold guc_lrc_desc_pin
    simp only [hunreg, Bool.false_eq_true, ↓reduceIte]
  have hregf : context_registered ((guc_lrc_desc_pin_fill K g ce).ctx ce) =
      context_registered (g.ctx ce) := by
    simp only [context_registered, sched_flag, f3]
  have hstore : xa_load (register_context K (guc_lrc_desc_pin_fill K g ce) ce loop).2.context_lookup
      (g.ctx ce).guc_id = some ce := by
    rw [q1, f1]; exact xa_load_xa_store_self _ _ _
  have hreset : ∀ g2 : Guc, g2.lrc_desc_pool_vaddr = g.lrc_desc_pool_vaddr →
      xa_load (reset_lrc_desc g2 (g.ctx ce).guc_id).context_lookup (g.ctx ce).guc_id = none ∧
      (reset_lrc_desc g2 (g.ctx ce).guc_id).ctx = g2.ctx := by
    intro g2 e
    have : guc_submission_initialized g2 = true := by
      simp only [guc_submission_initialized] at hinit ⊢
      rw [e]; exact hinit
    simp only [reset_lrc_desc, this, ↓reduceIte, and_true]
    exact xa_load_xa_erase_self _ _
  have hvaddr : (register_context K (guc_lrc_desc_pin_fill K g ce) ce loop).2.lrc_desc_pool_vaddr
      = g.lrc_desc_pool_vaddr := by
    rw [← f11]
    unfold register_context
    simp only []
    split
    · split
      · simp only [Guc.set_ctx]
        exact (lookup_after_send _ _ _ _).2.2.2.1
      · exact (lookup_after_send _ _ _ _).2.2.2.1
    · split
      · simp only [Guc.set_ctx]
        exact (lookup_after_send _ _ _ _).2.2.2.1
      · exact (lookup_after_send _ _ _ _).2.2.2.1
  obtain ⟨t1, t2⟩ := hreset _ hvaddr
  rw [hpin]
  generalize register_context K (guc_lrc_desc_pin_fill K g ce) ce loop = r
    at q4 hstore t1 t2 ⊢
  have hb0 : (-EBUSY : Int) ≠ 0 := by decide
  have hn0 : (-ENODEV : Int) ≠ 0 := by decide
  have hnb : (-ENODEV : Int) ≠ -EBUSY := by decide
  refine ⟨?_, ?_, ?_, ?_⟩
  · intro h0
    have e1 : ¬ r.1 = -EBUSY := by rw [h0]; exact fun h => hb0 h.symm
    have e2 : ¬ r.1 = -ENODEV := by rw [h0]; exact fun h => hn0 h.symm
    simp only [e1, e2, ↓reduceIte]
    refine ⟨h0, ?_, hstore⟩
    rw [q4, if_pos h0]
    exact (flag_bits_preserved _).2.2.2.2
  · intro hb
    simp only [hb, ↓reduceIte]
    refine ⟨trivial, ?_, t1⟩
    rw [t2, q4, if_neg (by rw [hb]; exact hb0), hregf]
  · intro hn
    simp only [hn, hnb, ↓reduceIte]
    refine ⟨trivial, ?_, t1⟩
    rw [t2, q4, if_neg (by rw [hn]; exact hn0), hregf]
  · intro h0 hb hn
    simp only [hb, hn, ↓reduceIte]
    refine ⟨trivial, ?_, hstore⟩
    rw [q4, if_neg h0, hregf]

/-- C20 amended, at the broken transport: the status `-EPIPE` of the register send
is returned and the identifier stays bound. -/
theorem desc_pin_register_outcome_witness :
    (register_context fwif_upstream (guc_lrc_desc_pin_fill fwif_upstream register_fail_demo 2)
      2 true).1 = -EPIPE ∧
    (guc_lrc_desc_pin fwif_upstream register_fail_demo 2 true).1 =
      (register_context fwif_upstream
        (guc_lrc_desc_pin_fill fwif_upstream register_fail_demo 2) 2 true).1 ∧
    context_registered ((guc_lrc_desc_pin fwif_upstream register_fail_demo 2 true).2.ctx 2) =
      context_registered (register_fail_demo.ctx 2) ∧
    xa_load (guc_lrc_desc_pin fwif_upstream register_fail_demo 2 true).2.context_lookup
      (register_fail_demo.ctx 2).guc_id = some 2 :=
  ⟨by decide,
    (desc_pin_register_outcome fwif_upstream register_fail_demo 2 true (by decide)
      (by decide)).2.2.2 (by decide) (by decide) (by decide)⟩

/-! ## The test `sched_state_is_init` -/

theorem context_blocked_eq (c : IntelContext) :
    context_blocked c = c.sched_state / 2 ^ 7 % 2 ^ 12 := by
  unfold context_blocked
  apply Nat.eq_of_testBit_eq
  intro j
  rw [Nat.testBit_shiftRight, blocked_mask_testBit, Nat.testBit_mod_two_pow,
    ← Nat.shiftRight_eq_div_pow, Nat.testBit_shiftRight]
  simp only [SCHED_STATE_BLOCKED_SHIFT]
  by_cases h : j < 12
  · have h1 : 7 ≤ 7 + j := by omega
    have h2 : 7 + j < 19 := by omega
    simp [h, h1, h2]
  · have h2 : ¬ 7 + j < 19 := by omega
    simp [h, h2]

theorem sched_state_is_init_testBit (c : IntelContext) (j : Nat) :
    (sched_state_is_init c).2.sched_state.testBit j =
      (c.sched_state.testBit j && decide (j < 32) && !decide (6 ≤ j ∧ j < 19)) := by
  have h : (0xfff : Nat) = 2 ^ 12 - 1 := by norm_num
  have hm : (SCHED_STATE_BLOCKED_MASK ||| SCHED_STATE_REGISTERED) % 2 ^ 32 =
      SCHED_STATE_BLOCKED_MASK ||| SCHED_STATE_REGISTERED := by decide
  simp only [sched_state_is_init, u32_andnot, hm, Nat.testBit_and, Nat.testBit_xor,
    Nat.testBit_or, Nat.testBit_two_pow_sub_one]
  simp only [SCHED_STATE_BLOCKED_MASK, SCHED_STATE_BLOCKED_SHIFT, SCHED_STATE_REGISTERED, h,
    Nat.testBit_shiftLeft, Nat.testBit_two_pow_sub_one, Nat.testBit_two_pow]
  by_cases h32 : j < 32 <;> by_cases h6 : 6 ≤ j <;> by_cases h19 : j < 19 <;>
    simp [h32, h6, h19] <;> omega

/-- C29: `sched_state_is_init` is not a pure query. The value it returns is the one
claimed, true exactly when no bit of the 32-bit `sched_state` outside the blocked
counter and `SCHED_STATE_REGISTERED` is set, but the test is written with `&=`, so
every call clears the blocked counter and the `REGISTERED` flag: a registered context
blocked three times is reported as initial and left with `sched_state` 0. -/
theorem sched_state_is_init_clears_state :
    (∀ c : IntelContext,
      ((sched_state_is_init c).1 = true ↔
        ∀ j, j < 32 → c.sched_state.testBit j = true → 6 ≤ j ∧ j < 19) ∧
      context_blocked (sched_state_is_init c).2 = 0 ∧
      context_registered (sched_state_is_init c).2 = false) ∧
    (let c0 : IntelContext :=
      { IntelContext.fresh fwif_upstream with
        sched_state := SCHED_STATE_REGISTERED ||| 3 <<< SCHED_STATE_BLOCKED_SHIFT }
     context_registered c0 = true ∧ context_blocked c0 = 3 ∧
     (sched_state_is_init c0).1 = true ∧ (sched_state_is_init c0).2.sched_state = 0) := by
  refine ⟨fun c => ⟨?_, ?_, ?_⟩, ?_⟩
  · have e : (sched_state_is_init c).1 = ((sched_state_is_init c).2.sched_state == 0) := rfl
    rw [e, beq_iff_eq]
    constructor
    · intro h0 j h32 hj
      have h := sched_state_is_init_testBit c j
      rw [h0, Nat.zero_testBit, hj] at h
      by_contra hn
      simp [h32, hn] at h
    · intro hall
      apply Nat.eq_of_testBit_eq
      intro j
      rw [sched_state_is_init_testBit, Nat.zero_testBit]
      by_cases h32 : j < 32
      · cases hj : c.sched_state.testBit j
        · simp
        · have := hall j h32 hj
          simp [this]
      · simp [h32]
  · rw [context_blocked_eq]
    have h : (sched_state_is_init c).2.sched_state / 2 ^ 7 % 2 ^ 12 = 0 := by
      apply Nat.eq_of_testBit_eq
      intro j
      rw [Nat.testBit_mod_two_pow, ← Nat.shiftRight_eq_div_pow, Nat.testBit_shiftRight,
        sched_state_is_init_testBit, Nat.zero_testBit]
      by_cases h12 : j < 12
      · have h1 : 6 ≤ 7 + j ∧ 7 + j < 19 := by omega
        simp [h1]
      · simp [h12]
    exact h
  · have e6 : context_registered (sched_state_is_init c).2 =
        (sched_state_is_init c).2.sched_state.testBit 6 := sched_flag_testBit 6 _
    rw [e6, sched_state_is_init_testBit]
    simp
  · decide

/-! ## The blocked counter -/

theorem testBit_of_div_eq (a b k j : Nat) (h : a / 2 ^ k = b / 2 ^ k) (hj : k ≤ j) :
    a.testBit j = b.testBit j := by
  have e : j = k + (j - k) := by omega
  rw [e, ← Nat.testBit_shiftRight, ← Nat.testBit_shiftRight, Nat.shiftRight_eq_div_pow,
    Nat.shiftRight_eq_div_pow, h]

theorem blocked_mask_bits (j : Nat) :
    SCHED_STATE_BLOCKED_MASK.testBit j = decide (7 ≤ j ∧ j < 19) := by
  have h : (0xfff : Nat) = 2 ^ 12 - 1 := by norm_num
  simp only [SCHED_STATE_BLOCKED_MASK, SCHED_STATE_BLOCKED_SHIFT, h, Nat.testBit_shiftLeft,
    Nat.testBit_two_pow_sub_one]
  by_cases h7 : 7 ≤ j <;> by_cases h19 : j < 19 <;> simp [h7, h19] <;> omega

theorem context_blocked_congr (a b : IntelContext)
    (h : ∀ j, 7 ≤ j → j < 19 → a.sched_state.testBit j = b.sched_state.testBit j) :
    context_blocked a = context_blocked b := by
  unfold context_blocked
  apply Nat.eq_of_testBit_eq
  intro j
  rw [Nat.testBit_shiftRight, Nat.testBit_shiftRight, blocked_mask_testBit,
    blocked_mask_testBit]
  simp only [SCHED_STATE_BLOCKED_SHIFT]
  by_cases h19 : 7 + j < 19
  · rw [h (7 + j) (by omega) h19]
  · simp [h19]

theorem incr_context_blocked_spec (c : IntelContext) (h32 : c.sched_state < 2 ^ 32)
    (hlt : context_blocked c < 0xfff) :
    context_blocked (incr_context_blocked c) = context_blocked c + 1 ∧
    ∀ j, ¬ (7 ≤ j ∧ j < 19) →
      (incr_context_blocked c).sched_state.testBit j = c.sched_state.testBit j := by
  rw [context_blocked_eq] at hlt
  have e : (incr_context_blocked c).sched_state = c.sched_state + 2 ^ 7 := by
    simp only [incr_context_blocked, u32, SCHED_STATE_BLOCKED, SCHED_STATE_BLOCKED_SHIFT]
    norm_num at hlt h32 ⊢
    omega
  constructor
  · rw [context_blocked_eq, context_blocked_eq, e]
    norm_num at hlt h32 ⊢
    omega
  · intro j hj
    by_cases h7 : j < 7
    · exact incr_blocked_testBit c j h7
    · rw [e]
      apply testBit_of_div_eq _ _ 19 j _ (by omega)
      norm_num at hlt h32 ⊢
      omega

theorem decr_context_blocked_spec (c : IntelContext) (h32 : c.sched_state < 2 ^ 32)
    (hb : 1 ≤ context_blocked c) :
    context_blocked (decr_context_blocked c) + 1 = context_blocked c ∧
    ∀ j, ¬ (7 ≤ j ∧ j < 19) →
      (decr_context_blocked c).sched_state.testBit j = c.sched_state.testBit j := by
  rw [context_blocked_eq] at hb
  have e : (decr_context_blocked c).sched_state = c.sched_state - 2 ^ 7 := by
    simp only [decr_context_blocked, u32_sub, SCHED_STATE_BLOCKED, SCHED_STATE_BLOCKED_SHIFT]
    norm_num at hb h32 ⊢
    omega
  constructor
  · rw [context_blocked_eq, context_blocked_eq, e]
    norm_num at hb h32 ⊢
    omega
  · intro j hj
    by_cases h7 : j < 7
    · exact decr_blocked_testBit c j h7
    · rw [e]
      apply testBit_of_div_eq _ _ 19 j _ (by omega)
      norm_num at hb h32 ⊢
      omega

/-- While the blocked counter is below its maximum 0xfff, `incr_context_blocked` adds
exactly one to it and leaves every bit of the 32-bit `sched_state` outside
`SCHED_STATE_BLOCKED_MASK` unchanged. -/
theorem incr_context_blocked_below_max (c : IntelContext) (h32 : c.sched_state < 2 ^ 32)
    (hlt : context_blocked c < 0xfff) :
    context_blocked (incr_context_blocked c) = context_blocked c + 1 ∧
    ∀ j, SCHED_STATE_BLOCKED_MASK.testBit j = false →
      (incr_context_blocked c).sched_state.testBit j = c.sched_state.testBit j := by
  obtain ⟨h1, h2⟩ := incr_context_blocked_spec c h32 hlt
  refine ⟨h1, fun j hj => h2 j ?_⟩
  rw [blocked_mask_bits] at hj
  simpa using hj

/-! ## Overflow of the blocked counter -/

theorem testBit_low_of_mul_add (a j : Nat) (hj : j < 7) : (2 ^ 7 * a).testBit j = false := by
  have h := Nat.testBit_mul_pow_two_add a (show 0 < 2 ^ 7 by norm_num) j
  rw [Nat.add_zero] at h
  rw [h, if_pos hj]
  simp

theorem guc_context_block_not_enabled (K : Fwif) (g : Guc) (ce : Nat)
    (h : context_enabled (g.ctx ce) = false) :
    guc_context_block K g ce = g.set_ctx ce (incr_context_blocked (g.ctx ce)) := by
  have e : context_enabled (incr_context_blocked (g.ctx ce)) = false := by
    have e4 : ∀ c, context_enabled c = c.sched_state.testBit 4 := fun c => sched_flag_testBit 4 c
    rw [e4, incr_blocked_testBit _ 4 (by decide), ← e4, h]
  unfold guc_context_block
  simp [Guc.set_ctx, e]

theorem guc_context_block_iterate (K : Fwif) (ce : Nat) (g : Guc)
    (h0 : (g.ctx ce).sched_state = 0) :
    ∀ n, n ≤ 4096 →
      (((fun g => guc_context_block K g ce)^[n] g).ctx ce).sched_state = 2 ^ 7 * n := by
  intro n
  induction n with
  | zero =>
    intro _
    simpa using h0
  | succ n ih =>
    intro hn
    have ih2 := ih (by omega)
    rw [Function.iterate_succ_apply']
    generalize (fun g => guc_context_block K g ce)^[n] g = G at ih2
    have hen : context_enabled (G.ctx ce) = false := by
      have e4 : context_enabled (G.ctx ce) = (G.ctx ce).sched_state.testBit 4 :=
        sched_flag_testBit 4 _
      rw [e4, ih2]
      exact testBit_low_of_mul_add n 4 (by decide)
    show ((guc_context_block K G ce).ctx ce).sched_state = 2 ^ 7 * (n + 1)
    rw [guc_context_block_not_enabled K G ce hen]
    simp only [Guc.set_ctx, if_true, incr_context_blocked, u32, SCHED_STATE_BLOCKED,
      SCHED_STATE_BLOCKED_SHIFT, ih2]
    norm_num
    omega

theorem blocked_demo_state (n : Nat) (hn : n ≤ 4096) :
    ((blocked_demo n).ctx 2).sched_state = 2 ^ 7 * n := by
  have h0 : ((Guc.init fwif_upstream 64).ctx 2).sched_state = 0 := rfl
  unfold blocked_demo
  exact guc_context_block_iterate fwif_upstream 2 (Guc.init fwif_upstream 64) h0 n hn

/-- C25: the blocked counter is not saturating. For every `sched_state` whose counter
is at its maximum 0xfff, `incr_context_blocked` wraps the counter to 0 and the carry
flips bit 19 of `sched_state`, a bit outside `SCHED_STATE_BLOCKED_MASK`, so the overflow
check the function asserts after the increment, a non-zero counter, fails. -/
theorem incr_context_blocked_overflow (c : IntelContext)
    (hmax : context_blocked c = 0xfff) :
    context_blocked (incr_context_blocked c) = 0 ∧
    SCHED_STATE_BLOCKED_MASK.testBit 19 = false ∧
    (incr_context_blocked c).sched_state.testBit 19 = !c.sched_state.testBit 19 := by
  rw [context_blocked_eq] at hmax
  refine ⟨?_, by decide, ?_⟩
  · rw [context_blocked_eq]
    simp only [incr_context_blocked, u32, SCHED_STATE_BLOCKED, SCHED_STATE_BLOCKED_SHIFT]
    norm_num at hmax ⊢
    omega
  · simp only [incr_context_blocked, u32, SCHED_STATE_BLOCKED, SCHED_STATE_BLOCKED_SHIFT]
    rw [Nat.testBit_mod_two_pow]
    have hd : (c.sched_state + 2 ^ 7) / 2 ^ 19 = c.sched_state / 2 ^ 19 + 1 := by
      norm_num at hmax ⊢
      omega
    have e1 : ∀ x : Nat, x.testBit 19 = decide (x / 2 ^ 19 % 2 = 1) := by
      intro x
      rw [← Nat.shiftRight_eq_div_pow, ← Nat.testBit_zero, Nat.testBit_shiftRight]
    rw [e1, e1 c.sched_state, hd]
    by_cases hb : c.sched_state / 2 ^ 19 % 2 = 1
    · have h2 : ¬ (c.sched_state / 2 ^ 19 + 1) % 2 = 1 := by omega
      rw [decide_eq_false h2, decide_eq_true hb]
      rfl
    · have h2 : (c.sched_state / 2 ^ 19 + 1) % 2 = 1 := by omega
      rw [decide_eq_true h2, decide_eq_false hb]
      rfl

/-- C25 at the state reached by 4095 calls of `guc_context_block` for a fresh context:
its counter is 0xfff, the next `guc_context_block` is the increment of that context, and
it leaves the counter at 0 with bit 19 of `sched_state` flipped. -/
theorem incr_context_blocked_overflow_witness :
    context_blocked ((blocked_demo 4095).ctx 2) = 0xfff ∧
    (guc_context_block fwif_upstream (blocked_demo 4095) 2).ctx 2 =
      incr_context_blocked ((blocked_demo 4095).ctx 2) ∧
    context_blocked (incr_context_blocked ((blocked_demo 4095).ctx 2)) = 0 ∧
    (incr_context_blocked ((blocked_demo 4095).ctx 2)).sched_state.testBit 19 =
      !((blocked_demo 4095).ctx 2).sched_state.testBit 19 :=
  have hs : ((blocked_demo 4095).ctx 2).sched_state = 2 ^ 7 * 4095 :=
    blocked_demo_state 4095 (by omega)
  have hmax : context_blocked ((blocked_demo 4095).ctx 2) = 0xfff := by
    rw [context_blocked_eq, hs]
    decide
  have hen : context_enabled ((blocked_demo 4095).ctx 2) = false := by
    have e4 : context_enabled ((blocked_demo 4095).ctx 2) =
        ((blocked_demo 4095).ctx 2).sched_state.testBit 4 := sched_flag_testBit 4 _
    rw [e4, hs]
    exact testBit_low_of_mul_add 4095 4 (by decide)
  ⟨hmax,
    by rw [guc_context_block_not_enabled fwif_upstream (blocked_demo 4095) 2 hen]
       simp [Guc.set_ctx],
    (incr_context_blocked_overflow _ hmax).1,
    (incr_context_blocked_overflow _ hmax).2.2⟩

/-! ## Unblocking a context -/

theorem set_sched_flag_lt (k : Nat) (c : IntelContext) (hk : k < 32)
    (h : c.sched_state < 2 ^ 32) : (set_sched_flag (2 ^ k) c).sched_state < 2 ^ 32 := by
  simp only [set_sched_flag]
  exact Nat.or_lt_two_pow h (Nat.pow_lt_pow_right (by decide) hk)

theorem sched_enable_h2g (K : Fwif) (g : Guc) (ce : Nat) :
    ∃ n, 0 < n ∧ (__guc_context_sched_enable K g ce).h2g =
      g.h2g ++ List.replicate n (H2G.sched_context_mode_set (g.ctx ce).guc_id true) := by
  obtain ⟨-, -, -, -, -, n, hn, h⟩ := lookup_after_send g
    (H2G.sched_context_mode_set (g.ctx ce).guc_id true)
    K.G2H_LEN_DW_SCHED_CONTEXT_MODE_SET true
  exact ⟨n, hn, h⟩

/-- C24: `guc_context_unblock`, called on a context whose blocked counter is at least
one (the function asserts it) and whose `sched_state` is a 32-bit value, lowers the
counter by exactly one. A message is sent or a bit of `sched_state` outside the
counter changes only if the counter was exactly 1 and submission is not disabled, and
then `PENDING_ENABLE` and `ENABLED` are set and the messages sent are schedule-enable
messages for the context. Whenever the counter was above 1 or submission is disabled,
no message is sent and every bit of `sched_state` outside the counter is unchanged. -/
theorem guc_context_unblock_counter (K : Fwif) (g : Guc) (ce : Nat)
    (h32 : (g.ctx ce).sched_state < 2 ^ 32) (hb : 1 ≤ context_blocked (g.ctx ce)) :
    context_blocked ((guc_context_unblock K g ce).ctx ce) + 1 = context_blocked (g.ctx ce) ∧
    (((guc_context_unblock K g ce).h2g ≠ g.h2g ∨
        ∃ j, SCHED_STATE_BLOCKED_MASK.testBit j = false ∧
          ((guc_context_unblock K g ce).ctx ce).sched_state.testBit j ≠
            (g.ctx ce).sched_state.testBit j) →
      context_blocked (g.ctx ce) = 1 ∧ submission_disabled g = false ∧
      context_pending_enable ((guc_context_unblock K g ce).ctx ce) = true ∧
      context_enabled ((guc_context_unblock K g ce).ctx ce) = true ∧
      ∃ n, 0 < n ∧ (guc_context_unblock K g ce).h2g =
        g.h2g ++ List.replicate n (H2G.sched_context_mode_set (g.ctx ce).guc_id true)) ∧
    ((1 < context_blocked (g.ctx ce) ∨ submission_disabled g = true) →
      (guc_context_unblock K g ce).h2g = g.h2g ∧
      ∀ j, SCHED_STATE_BLOCKED_MASK.testBit j = false →
        ((guc_context_unblock K g ce).ctx ce).sched_state.testBit j =
          (g.ctx ce).sched_state.testBit j) := by
  have hmask : ∀ j, SCHED_STATE_BLOCKED_MASK.testBit j = false ↔ ¬ (7 ≤ j ∧ j < 19) := by
    intro j
    rw [blocked_mask_bits]
    simp
  by_cases hen : (!(submission_disabled g || intel_context_is_banned (g.ctx ce) ||
      context_guc_id_invalid K (g.ctx ce) || !lrc_desc_registered g (g.ctx ce).guc_id ||
      !intel_context_is_pinned (g.ctx ce) || context_pending_disable (g.ctx ce) ||
      decide (context_blocked (g.ctx ce) > 1))) = true
  · -- scheduling is enabled again
    have hd : submission_disabled g = false := by
      cases h : submission_disabled g
      · rfl
      · simp [h] at hen
    have h1 : context_blocked (g.ctx ce) = 1 := by
      have : ¬ context_blocked (g.ctx ce) > 1 := by
        intro h
        simp [h] at hen
      omega
    let c1 := set_context_enabled (set_context_pending_enable (g.ctx ce))
    have hc1 : c1.sched_state < 2 ^ 32 :=
      set_sched_flag_lt 4 _ (by decide) (set_sched_flag_lt 5 _ (by decide) h32)
    have hbit : ∀ j, c1.sched_state.testBit j =
        ((g.ctx ce).sched_state.testBit j || decide (5 = j) || decide (4 = j)) := by
      intro j
      simp only [c1, set_context_enabled, set_context_pending_enable, SCHED_STATE_ENABLED,
        SCHED_STATE_PENDING_ENABLE, set_sched_flag_testBit]
    have hcb : context_blocked c1 = context_blocked (g.ctx ce) := by
      apply context_blocked_congr
      intro j h7 h19
      rw [hbit]
      have e5 : ¬ 5 = j := by omega
      have e4 : ¬ 4 = j := by omega
      simp [e5, e4]
    obtain ⟨hd1, hd2⟩ := decr_context_blocked_spec c1 hc1 (by rw [hcb]; exact hb)
    have hctx : (guc_context_unblock K g ce).ctx ce = decr_context_blocked c1 := by
      unfold guc_context_unblock
      simp only [hen, if_true]
      rw [sched_enable_send_ctx]
      simp [Guc.set_ctx, c1]
    have hh : ∃ n, 0 < n ∧ (guc_context_unblock K g ce).h2g =
        g.h2g ++ List.replicate n (H2G.sched_context_mode_set (g.ctx ce).guc_id true) := by
      unfold guc_context_unblock
      simp only [hen, if_true]
      generalize hG : ((g.set_ctx ce (set_context_pending_enable (g.ctx ce))).set_ctx ce
          (set_context_enabled ((g.set_ctx ce (set_context_pending_enable (g.ctx ce))).ctx ce))
          ).set_ctx ce (decr_context_blocked
            (((g.set_ctx ce (set_context_pending_enable (g.ctx ce))).set_ctx ce
              (set_context_enabled
                ((g.set_ctx ce (set_context_pending_enable (g.ctx ce))).ctx ce))).ctx ce)) = G
      have e1 : G.h2g = g.h2g := by
        rw [← hG]
        rfl
      have e2 : (G.ctx ce).guc_id = (g.ctx ce).guc_id := by
        rw [← hG]
        simp [Guc.set_ctx, decr_context_blocked, set_context_enabled,
          set_context_pending_enable, set_sched_flag]
      obtain ⟨n, hn, h⟩ := sched_enable_h2g K G ce
      exact ⟨n, hn, by rw [h, e1, e2]⟩
    refine ⟨?_, ?_, ?_⟩
    · rw [hctx, hd1, hcb]
    · intro _
      refine ⟨h1, hd, ?_, ?_, hh⟩
      · have e5 : context_pending_enable ((guc_context_unblock K g ce).ctx ce) =
            ((guc_context_unblock K g ce).ctx ce).sched_state.testBit 5 :=
          sched_flag_testBit 5 _
        rw [e5, hctx, hd2 5 (by omega), hbit]
        simp
      · have e4 : context_enabled ((guc_context_unblock K g ce).ctx ce) =
            ((guc_context_unblock K g ce).ctx ce).sched_state.testBit 4 :=
          sched_flag_testBit 4 _
        rw [e4, hctx, hd2 4 (by omega), hbit]
        simp
    · intro h
      rcases h with h | h
      · omega
      · rw [hd] at h
        exact absurd h (by decide)
  · -- only the counter is lowered
    have hen2 : (!(submission_disabled g || intel_context_is_banned (g.ctx ce) ||
      context_guc_id_invalid K (g.ctx ce) || !lrc_desc_registered g (g.ctx ce).guc_id ||
      !intel_context_is_pinned (g.ctx ce) || context_pending_disable (g.ctx ce) ||
      decide (context_blocked (g.ctx ce) > 1))) = false := by
      simpa using hen
    obtain ⟨hd1, hd2⟩ := decr_context_blocked_spec (g.ctx ce) h32 hb
    have hg : guc_context_unblock K g ce = g.set_ctx ce (decr_context_blocked (g.ctx ce)) := by
      unfold guc_context_unblock
      simp only [hen2]
      simp
    have hctx : (guc_context_unblock K g ce).ctx ce = decr_context_blocked (g.ctx ce) := by
      rw [hg]
      simp [Guc.set_ctx]
    have hh : (guc_context_unblock K g ce).h2g = g.h2g := by
      rw [hg]
      rfl
    have hbits : ∀ j, SCHED_STATE_BLOCKED_MASK.testBit j = false →
        ((guc_context_unblock K g ce).ctx ce).sched_state.testBit j =
          (g.ctx ce).sched_state.testBit j := by
      intro j hj
      rw [hctx]
      exact hd2 j ((hmask j).1 hj)
    refine ⟨?_, ?_, fun _ => ⟨hh, hbits⟩⟩
    · rw [hctx, hd1]
    · intro h
      rcases h with h | ⟨j, hj, hne⟩
      · exact absurd hh h
      · exact absurd (hbits j hj) hne

/-- C24 at a registered, pinned context blocked once with no schedule disable in
flight: unblocking lowers the counter from 1 to 0, sets `PENDING_ENABLE` and `ENABLED`
and sends one schedule-enable message. -/
theorem guc_context_unblock_counter_witness :
    ((unblock_demo_disabled.ctx 2).sched_state < 2 ^ 32 ∧
      1 ≤ context_blocked (unblock_demo_disabled.ctx 2)) ∧
    (guc_context_unblock fwif_upstream unblock_demo_disabled 2).h2g ≠
      unblock_demo_disabled.h2g ∧
    context_blocked ((guc_context_unblock fwif_upstream unblock_demo_disabled 2).ctx 2) + 1 =
      context_blocked (unblock_demo_disabled.ctx 2) ∧
    context_blocked (unblock_demo_disabled.ctx 2) = 1 ∧
    context_pending_enable
      ((guc_context_unblock fwif_upstream unblock_demo_disabled 2).ctx 2) = true ∧
    context_enabled
      ((guc_context_unblock fwif_upstream unblock_demo_disabled 2).ctx 2) = true :=
  ⟨by decide, by decide,
    (guc_context_unblock_counter fwif_upstream unblock_demo_disabled 2 (by decide)
      (by decide)).1,
    ((guc_context_unblock_counter fwif_upstream unblock_demo_disabled 2 (by decide)
      (by decide)).2.1 (Or.inl (by decide))).1,
    ((guc_context_unblock_counter fwif_upstream unblock_demo_disabled 2 (by decide)
      (by decide)).2.1 (Or.inl (by decide))).2.2.1,
    ((guc_context_unblock_counter fwif_upstream unblock_demo_disabled 2 (by decide)
      (by decide)).2.1 (Or.inl (by decide))).2.2.2.1⟩

/-! ## Requests of a blocked context -/

theorem send_nb_h2g (g : Guc) (a : H2G) (len : Nat) :
    (intel_guc_send_nb g a len).2.h2g = g.h2g ++ [a] ∧
    (intel_guc_send_nb g a len).2.ctx = g.ctx ∧
    (intel_guc_send_nb g a len).2.outstanding_submission_g2h =
      g.outstanding_submission_g2h := by
  obtain ⟨r, h, -⟩ := ct_send_frame g a
  rw [intel_guc_send_nb, h]
  exact ⟨rfl, rfl, rfl⟩

/-- C26: for a context whose blocked counter is non-zero `__guc_add_request` changes
no context, so it sets no `PENDING_ENABLE`, counts no reply as outstanding and sends no
schedule-enable message. A blocked context that is not a parent gets no message at
all: the call returns 0 with the state unchanged. A blocked parent gets nothing when
it is banned and otherwise exactly one `SCHED_CONTEXT` message for its identifier. -/
theorem guc_add_request_blocked (K : Fwif) (g : Guc) (ce : Nat)
    (hb : context_blocked (g.ctx ce) ≠ 0) :
    (__guc_add_request K g ce).2.ctx = g.ctx ∧
    (__guc_add_request K g ce).2.outstanding_submission_g2h = g.outstanding_submission_g2h ∧
    (intel_context_is_parent (g.ctx ce) = false → __guc_add_request K g ce = (0, g)) ∧
    (intel_context_is_parent (g.ctx ce) = true →
      (intel_context_is_banned (g.ctx ce) = true → __guc_add_request K g ce = (0, g)) ∧
      (intel_context_is_banned (g.ctx ce) = false →
        (__guc_add_request K g ce).2.h2g = g.h2g ++ [H2G.sched_context (g.ctx ce).guc_id])) ∧
    (∀ id, H2G.sched_context_mode_set id true ∈ (__guc_add_request K g ce).2.h2g →
      H2G.sched_context_mode_set id true ∈ g.h2g) := by
  obtain ⟨s1, s2, s3⟩ := send_nb_h2g g (H2G.sched_context (g.ctx ce).guc_id) 0
  unfold __guc_add_request
  cases hban : intel_context_is_banned (g.ctx ce) <;>
    cases hp : intel_context_is_parent (g.ctx ce) <;>
    simp [hb, s1, s2, s3]

/-- C26 at the blocked parent context 0 of `blocked_parent_demo`: the only message is
the `SCHED_CONTEXT` submit for identifier 3. -/
theorem guc_add_request_blocked_witness :
    context_blocked (blocked_parent_demo.ctx 0) ≠ 0 ∧
    (__guc_add_request fwif_upstream blocked_parent_demo 0).2.ctx = blocked_parent_demo.ctx ∧
    (__guc_add_request fwif_upstream blocked_parent_demo 0).2.h2g =
      blocked_parent_demo.h2g ++ [H2G.sched_context 3] :=
  ⟨by decide,
    (guc_add_request_blocked fwif_upstream blocked_parent_demo 0 (by decide)).1,
    (guc_add_request_blocked fwif_upstream blocked_parent_demo 0 (by decide)).2.2.2.1
      (by decide) |>.2 (by decide)⟩

/-! ## Malformed schedule-done replies -/

/-- C21: `intel_guc_sched_done_process_msg` returns `-EPROTO` and leaves the whole
state unchanged, so no `sched_state` and not the count of outstanding replies, when
`len < 2`, when the identifier `msg[0]` is at least `max_guc_ids`, is not in the
registration store or names a child context, and when the context it names is
`DESTROYED` or has neither `PENDING_ENABLE` nor `PENDING_DISABLE` set. In every other
case it returns 0. -/
theorem sched_done_error_cases (K : Fwif) (g : Guc) (msg : List Nat) (len : Nat) :
    ((len < 2 ∨ g.max_guc_ids ≤ msg.getD 0 0 ∨ __get_context g (msg.getD 0 0) = none ∨
        ∃ ce, __get_context g (msg.getD 0 0) = some ce ∧
          (intel_context_is_child (g.ctx ce) = true ∨ context_destroyed (g.ctx ce) = true ∨
            (context_pending_enable (g.ctx ce) = false ∧
              context_pending_disable (g.ctx ce) = false))) →
      intel_guc_sched_done_process_msg K g msg len = (-EPROTO, g)) ∧
    (¬ (len < 2 ∨ g.max_guc_ids ≤ msg.getD 0 0 ∨ __get_context g (msg.getD 0 0) = none ∨
        ∃ ce, __get_context g (msg.getD 0 0) = some ce ∧
          (intel_context_is_child (g.ctx ce) = true ∨ context_destroyed (g.ctx ce) = true ∨
            (context_pending_enable (g.ctx ce) = false ∧
              context_pending_disable (g.ctx ce) = false))) →
      (intel_guc_sched_done_process_msg K g msg len).1 = 0) := by
  unfold intel_guc_sched_done_process_msg g2h_context_lookup
  simp only []
  generalize msg.getD 0 0 = idx
  by_cases hl : len < 2
  · simp [hl]
  by_cases hm : g.max_guc_ids ≤ idx
  · simp [hl, hm]
  cases hc : __get_context g idx with
  | none => simp [hl, hm]
  | some ce =>
    cases hch : intel_context_is_child (g.ctx ce) <;>
      cases hd : context_destroyed (g.ctx ce) <;>
      cases he : context_pending_enable (g.ctx ce) <;>
      cases hpd : context_pending_disable (g.ctx ce) <;>
      simp [hl, hm, hch, hd, he, hpd]

/-! ## Replies and the count of outstanding replies -/

theorem unwind_request_frame (g : Guc) (ce : Nat) (prio : Int) (pl : Option Int) (rq : Nat) :
    ∃ c r q, (unwind_request g ce prio pl rq).1 = { g with ctx := c, rq := r, queue := q } := by
  unfold unwind_request
  simp only []
  split <;> split <;> exact ⟨_, _, _, rfl⟩

theorem unwind_loop_frame (ce : Nat) (l : List Nat) :
    ∀ (g : Guc) (prio : Int) (pl : Option Int),
      ∃ c r q, unwind_loop g ce prio pl l = { g with ctx := c, rq := r, queue := q } := by
  induction l with
  | nil =>
    intro g prio pl
    exact ⟨g.ctx, g.rq, g.queue, rfl⟩
  | cons rq rest ih =>
    intro g prio pl
    rw [unwind_loop]
    simp only []
    split
    · exact ih g prio pl
    · obtain ⟨c1, r1, q1, h1⟩ := unwind_request_frame g ce prio pl rq
      obtain ⟨c, r, q, h⟩ := ih (unwind_request g ce prio pl rq).1
        (unwind_request g ce prio pl rq).2.1 (unwind_request g ce prio pl rq).2.2
      rw [h, h1]
      exact ⟨c, r, q, rfl⟩

theorem guc_handle_context_reset_frame (K : Fwif) (g : Guc) (ce : Nat) :
    ∃ c r q t, guc_handle_context_reset K g ce =
      { g with ctx := c, rq := r, queue := q, tasklet_scheduled := t } := by
  unfold guc_handle_context_reset
  split
  · unfold guc_context_replay __guc_reset_context capture_error_state tasklet_hi_schedule
    split
    · obtain ⟨c, r, q, h⟩ := unwind_loop_frame ce (((g.set_ctx ce
        (clr_context_enabled (g.ctx ce))).ctx ce).requests.reverse)
        (g.set_ctx ce (clr_context_enabled (g.ctx ce))) K.I915_PRIORITY_INVALID none
      unfold __unwind_incomplete_requests
      rw [h]
      exact ⟨c, r, q, true, rfl⟩
    · exact ⟨g.ctx, g.rq, g.queue, true, rfl⟩
  · exact ⟨g.ctx, g.rq, g.queue, g.tasklet_scheduled, rfl⟩

theorem register_context_counter (K : Fwif) (g : Guc) (ce : Nat) (loop : Bool) :
    (register_context K g ce loop).2.outstanding_submission_g2h =
      g.outstanding_submission_g2h := by
  have key : ∀ a : H2G,
      (guc_submission_send_busy_loop g a 0 loop).2.outstanding_submission_g2h =
        g.outstanding_submission_g2h := by
    intro a
    obtain ⟨r, n, -, h⟩ := guc_submission_send_busy_loop_frame g a 0 loop
    rw [h]
    simp
  unfold register_context __guc_action_register_multi_lrc __guc_action_register_context
  simp only []
  split <;> split <;> simp [Guc.set_ctx, key]

/-- C22 (counterexample): the error-capture and the context-reset handlers complete a
well-formed message, returning 0, without lowering the count of outstanding replies,
which stays at 3. -/
theorem reply_handlers_keep_counter :
    scrub_demo.outstanding_submission_g2h = 3 ∧
    (intel_guc_error_capture_process_msg scrub_demo [0] 1).1 = 0 ∧
    (intel_guc_error_capture_process_msg scrub_demo [0] 1).2.outstanding_submission_g2h = 3 ∧
    (intel_guc_context_reset_process_msg fwif_upstream scrub_demo [32] 1).1 = 0 ∧
    (intel_guc_context_reset_process_msg fwif_upstream scrub_demo [32] 1
      ).2.outstanding_submission_g2h = 3 := by
  decide

/-- C22 (amended): of the five reply handlers only schedule-done and deregister-done
lower the count of outstanding replies, by exactly one when they return 0. The
error-capture handler changes nothing, the context-reset handler leaves the count as it
is, and the engine-failure handler, when it returns 0, hands the state to the error
handler of the GT without touching the count itself. -/
theorem reply_handlers_counter (K : Fwif) (g : Guc) (msg : List Nat) (len : Nat)
    (engine_class : Nat → Nat → Option Nat) (guc_class_to_engine_class : Nat → Nat)
    (intel_gt_handle_error : Guc → Nat → Guc) :
    ((intel_guc_sched_done_process_msg K g msg len).1 = 0 →
      (intel_guc_sched_done_process_msg K g msg len).2.outstanding_submission_g2h =
        g.outstanding_submission_g2h - 1) ∧
    ((intel_guc_deregister_done_process_msg K g msg len).1 = 0 →
      (intel_guc_deregister_done_process_msg K g msg len).2.outstanding_submission_g2h =
        g.outstanding_submission_g2h - 1) ∧
    (intel_guc_context_reset_process_msg K g msg len).2.outstanding_submission_g2h =
      g.outstanding_submission_g2h ∧
    (intel_guc_error_capture_process_msg g msg len).2 = g ∧
    ((intel_guc_engine_failure_process_msg engine_class guc_class_to_engine_class
        intel_gt_handle_error g msg len).1 = 0 →
      ∃ mask, (intel_guc_engine_failure_process_msg engine_class guc_class_to_engine_class
        intel_gt_handle_error g msg len).2 = intel_gt_handle_error g mask) := by
  have hne : (-EPROTO : Int) ≠ 0 := by decide
  refine ⟨?_, ?_, ?_, ?_, ?_⟩
  · unfold intel_guc_sched_done_process_msg
    simp only []
    split
    · intro h
      exact absurd h hne
    · cases hl : g2h_context_lookup g (msg.getD 0 0) with
      | none =>
        intro h
        exact absurd h hne
      | some ce =>
        simp only []
        split
        · intro h
          exact absurd h hne
        · intro _
          obtain ⟨-, h2, -⟩ := sched_disable_unpin_frame K g ce
          simp only [decr_outstanding_submission_g2h]
          split
          · rfl
          · split
            · simp only [Guc.set_ctx]
              rw [h2]
            · rfl
  · unfold intel_guc_deregister_done_process_msg
    simp only []
    split
    · intro h
      exact absurd h hne
    · cases hl : g2h_context_lookup g (msg.getD 0 0) with
      | none =>
        intro h
        exact absurd h hne
      | some ce =>
        intro _
        simp only [decr_outstanding_submission_g2h]
        split
        · simp only [guc_signal_context_fence, Guc.set_ctx]
          rw [register_context_counter]
        · split
          · simp only [__guc_context_destroy, release_guc_id]
            rw [(release_guc_id_store K g ce).2.1]
          · rfl
  · unfold intel_guc_context_reset_process_msg
    split
    · rfl
    · cases hl : g2h_context_lookup g (msg.getD 0 0) with
      | none => rfl
      | some ce =>
        obtain ⟨c, r, q, t, h⟩ := guc_handle_context_reset_frame K g ce
        simp only []
        rw [h]
  · unfold intel_guc_error_capture_process_msg
    split <;> rfl
  · unfold intel_guc_engine_failure_process_msg
    split
    · intro h
      exact absurd h hne
    · cases hl : guc_lookup_engine engine_class guc_class_to_engine_class
        (msg.getD 0 0 % 256) (msg.getD 1 0 % 256) with
      | none =>
        intro h
        exact absurd h hne
      | some mask =>
        intro _
        exact ⟨mask, rfl⟩

/-! ## Priority lists -/

theorem priolist_insert_find (prio : Int) (q : List (Int × List Nat)) (p : Int)
    (h : q.any (fun e => e.1 == prio) = false) :
    priolist (priolist_insert prio q) p = priolist q p := by
  induction q with
  | nil =>
    unfold priolist priolist_insert
    by_cases e : prio = p
    · simp [List.find?, e]
    · have e2 : (prio == p) = false := by simpa using e
      simp [List.find?, e2]
  | cons a q ih =>
    simp only [List.any_cons, Bool.or_eq_false_iff, beq_eq_false_iff_ne, ne_eq] at h
    unfold priolist_insert
    split
    · unfold priolist
      by_cases e : prio = p
      · subst e
        have ha : (a.1 == prio) = false := by simpa using h.1
        have hq : q.find? (fun e => e.1 == prio) = none := by
          rw [List.find?_eq_none]
          intro x hx
          have h2 := h.2
          rw [List.any_eq_false] at h2
          exact h2 x hx
        simp [List.find?, ha, hq]
      · have e2 : (prio == p) = false := by simpa using e
        simp [List.find?, e2]
    · have := ih h.2
      unfold priolist at this ⊢
      by_cases e : a.1 = p
      · simp [List.find?, e]
      · have e2 : (a.1 == p) = false := by simpa using e
        simp only [List.find?, e2]
        exact this

theorem priolist_insert_any (prio : Int) (q : List (Int × List Nat)) :
    (priolist_insert prio q).any (fun e => e.1 == prio) = true := by
  induction q with
  | nil => simp [priolist_insert]
  | cons a q ih =>
    unfold priolist_insert
    split
    · simp
    · simp only [List.any_cons, ih, Bool.or_true]

theorem priolist_lookup (q : List (Int × List Nat)) (prio p : Int) :
    priolist (i915_sched_lookup_priolist q prio) p = priolist q p := by
  unfold i915_sched_lookup_priolist
  split
  · rfl
  · rename_i h
    have h2 : q.any (fun e => e.1 == prio) = false := by
      cases hq : q.any (fun e => e.1 == prio)
      · rfl
      · exact absurd hq h
    exact priolist_insert_find prio q p h2

theorem lookup_any (q : List (Int × List Nat)) (prio : Int) :
    (i915_sched_lookup_priolist q prio).any (fun e => e.1 == prio) = true := by
  unfold i915_sched_lookup_priolist
  split
  · rename_i h
    exact h
  · exact priolist_insert_any prio q

theorem priolist_update_any (q : List (Int × List Nat)) (prio p : Int)
    (f : List Nat → List Nat) :
    (priolist_update q prio f).any (fun e => e.1 == p) = q.any (fun e => e.1 == p) := by
  unfold priolist_update
  induction q with
  | nil => rfl
  | cons a q ih =>
    simp only [List.map_cons, List.any_cons, ih]
    split <;> rfl

theorem priolist_update_other (q : List (Int × List Nat)) (prio p : Int)
    (f : List Nat → List Nat) (h : p ≠ prio) :
    priolist (priolist_update q prio f) p = priolist q p := by
  unfold priolist_update priolist
  induction q with
  | nil => rfl
  | cons a q ih =>
    by_cases e : a.1 = prio
    · have e4 : (a.1 == p) = false := by
        simp only [beq_eq_false_iff_ne, ne_eq, e]
        exact fun h2 => h h2.symm
      simp only [List.map_cons, e, if_true, List.find?]
      have e5 : (prio == p) = false := by
        simp only [beq_eq_false_iff_ne, ne_eq]
        exact fun h2 => h h2.symm
      simp only [e5]
      exact ih
    · by_cases e5 : a.1 = p
      · have e6 : (a.1 == p) = true := by simpa using e5
        simp only [List.map_cons, if_neg e, List.find?, e6]
      · have e7 : (a.1 == p) = false := by simpa using e5
        simp only [List.map_cons, if_neg e, List.find?, e7]
        exact ih

theorem priolist_update_self (q : List (Int × List Nat)) (prio : Int)
    (f : List Nat → List Nat) (h : q.any (fun e => e.1 == prio) = true) :
    priolist (priolist_update q prio f) prio = f (priolist q prio) := by
  unfold priolist_update priolist
  induction q with
  | nil => simp at h
  | cons a q ih =>
    by_cases e : a.1 = prio
    · have e6 : (a.1 == prio) = true := by simpa using e
      simp only [List.map_cons, if_pos e, List.find?, e6]
    · have e7 : (a.1 == prio) = false := by simpa using e
      have hq : q.any (fun e => e.1 == prio) = true := by
        simpa [List.any_cons, e7] using h
      simp only [List.map_cons, if_neg e, List.find?, e7]
      exact ih hq

/-! ## Unwinding the requests in flight -/

theorem unwind_loop_completed (g : Guc) (ce : Nat) (prio : Int) (pl : Option Int)
    (rq : Nat) (rest : List Nat) (hc : (g.rq rq).completed = true) :
    unwind_loop g ce prio pl (rq :: rest) = unwind_loop g ce prio pl rest := by
  rw [unwind_loop]
  simp only [hc, if_true]

theorem unwind_request_spec (g : Guc) (ce : Nat) (prio : Int) (pl : Option Int) (rq : Nat)
    (hinv : (pl = some prio ∧ g.queue.any (fun e => e.1 == prio) = true) ∨
      (pl = none ∧ (g.rq rq).priority ≠ prio)) :
    (unwind_request g ce prio pl rq).2.1 = (g.rq rq).priority ∧
    (unwind_request g ce prio pl rq).2.2 = some (g.rq rq).priority ∧
    ((unwind_request g ce prio pl rq).1.ctx ce).requests =
      list_del_init (g.ctx ce).requests rq ∧
    (unwind_request g ce prio pl rq).1.rq =
      (fun i => if i = rq then { g.rq rq with active := false, pqueue := true }
        else g.rq i) ∧
    (∀ p, priolist (unwind_request g ce prio pl rq).1.queue p =
      if p = (g.rq rq).priority then rq :: priolist g.queue p else priolist g.queue p) ∧
    (unwind_request g ce prio pl rq).1.queue.any (fun e => e.1 == (g.rq rq).priority) =
      true := by
  have hp : rq_prio (__i915_request_unsubmit
      (g.set_ctx ce { g.ctx ce with requests := list_del_init (g.ctx ce).requests rq }) rq)
      rq = (g.rq rq).priority := by
    simp [rq_prio, __i915_request_unsubmit, Guc.set_rq, Guc.set_ctx]
  unfold unwind_request
  simp only [hp]
  by_cases hne : (g.rq rq).priority = prio
  · rcases hinv with ⟨hpl, hany⟩ | ⟨-, h⟩
    · subst hpl
      subst hne
      simp only [ne_eq, not_true_eq_false, decide_False, Bool.false_eq_true, if_false]
      refine ⟨trivial, trivial, ?_, ?_, ?_, ?_⟩
      · simp [Guc.set_rq, Guc.set_ctx, __i915_request_unsubmit]
      · funext i
        by_cases e : i = rq
        · subst e
          simp [Guc.set_rq, Guc.set_ctx, __i915_request_unsubmit]
        · simp [Guc.set_rq, Guc.set_ctx, __i915_request_unsubmit, e]
      · intro p
        show priolist (priolist_update g.queue (g.rq rq).priority (fun x => rq :: x)) p = _
        by_cases e : p = (g.rq rq).priority
        · subst e
          rw [priolist_update_self _ _ _ hany]
          simp
        · rw [priolist_update_other _ _ _ _ e]
          simp [e]
      · show (priolist_update g.queue (g.rq rq).priority (fun x => rq :: x)).any _ = true
        rw [priolist_update_any]
        exact hany
    · exact absurd hne h
  · simp only [ne_eq, hne, not_false_eq_true, decide_True, if_true]
    refine ⟨trivial, trivial, ?_, ?_, ?_, ?_⟩
    · simp [Guc.set_rq, Guc.set_ctx, __i915_request_unsubmit]
    · funext i
      by_cases e : i = rq
      · subst e
        simp [Guc.set_rq, Guc.set_ctx, __i915_request_unsubmit]
      · simp [Guc.set_rq, Guc.set_ctx, __i915_request_unsubmit, e]
    · intro p
      show priolist (priolist_update (i915_sched_lookup_priolist g.queue (g.rq rq).priority)
        (g.rq rq).priority (fun x => rq :: x)) p = _
      by_cases e : p = (g.rq rq).priority
      · subst e
        rw [priolist_update_self _ _ _ (lookup_any _ _), priolist_lookup]
        simp
      · rw [priolist_update_other _ _ _ _ e, priolist_lookup]
        simp [e]
    · show (priolist_update (i915_sched_lookup_priolist g.queue (g.rq rq).priority)
        (g.rq rq).priority (fun x => rq :: x)).any _ = true
      rw [priolist_update_any]
      exact lookup_any _ _

theorem unwind_loop_incomplete (g : Guc) (ce : Nat) (prio : Int) (pl : Option Int)
    (rq : Nat) (rest : List Nat) (hc : (g.rq rq).completed = false)
    (hinv : (pl = some prio ∧ g.queue.any (fun e => e.1 == prio) = true) ∨
      (pl = none ∧ (g.rq rq).priority ≠ prio)) :
    ∃ g5, unwind_loop g ce prio pl (rq :: rest) =
        unwind_loop g5 ce (g.rq rq).priority (some (g.rq rq).priority) rest ∧
      (g5.ctx ce).requests = list_del_init (g.ctx ce).requests rq ∧
      (∀ r, (g5.rq r).completed = (g.rq r).completed ∧
        (g5.rq r).priority = (g.rq r).priority) ∧
      (g5.rq rq).pqueue = true ∧ (g5.rq rq).active = false ∧
      (∀ r, r ≠ rq → g5.rq r = g.rq r) ∧
      (∀ p, priolist g5.queue p =
        if p = (g.rq rq).priority then rq :: priolist g.queue p else priolist g.queue p) ∧
      g5.queue.any (fun e => e.1 == (g.rq rq).priority) = true := by
  obtain ⟨h1, h2, h3, h4, h5, h6⟩ := unwind_request_spec g ce prio pl rq hinv
  refine ⟨(unwind_request g ce prio pl rq).1, ?_, h3, ?_, ?_, ?_, ?_, h5, h6⟩
  · rw [unwind_loop]
    simp only [hc, Bool.false_eq_true, if_false, h1, h2]
  · intro r
    rw [h4]
    by_cases e : r = rq
    · subst e
      simp
    · simp [e]
  · rw [h4]
    simp
  · rw [h4]
    simp
  · intro r e
    rw [h4]
    simp [e]

theorem unwind_loop_spec (ce : Nat) (l : List Nat) :
    ∀ (g : Guc) (prio : Int) (pl : Option Int),
      ((pl = some prio ∧ g.queue.any (fun e => e.1 == prio) = true) ∨
        (pl = none ∧ ∀ r ∈ l, (g.rq r).completed = false → (g.rq r).priority ≠ prio)) →
      ((unwind_loop g ce prio pl l).ctx ce).requests =
        (g.ctx ce).requests.filter (fun x => !decide (x ∈ l) || (g.rq x).completed) ∧
      (∀ p, priolist (unwind_loop g ce prio pl l).queue p =
        l.reverse.filter (fun r => !(g.rq r).completed && (g.rq r).priority == p) ++
          priolist g.queue p) ∧
      (∀ r, ((unwind_loop g ce prio pl l).rq r).completed = (g.rq r).completed ∧
        ((unwind_loop g ce prio pl l).rq r).priority = (g.rq r).priority) ∧
      (∀ r ∈ l, (g.rq r).completed = false →
        ((unwind_loop g ce prio pl l).rq r).pqueue = true ∧
        ((unwind_loop g ce prio pl l).rq r).active = false) ∧
      (∀ r, r ∉ l → (unwind_loop g ce prio pl l).rq r = g.rq r) := by
  induction l with
  | nil =>
    intro g prio pl _
    refine ⟨?_, ?_, ?_, ?_, ?_⟩
    · simp [unwind_loop]
    · simp [unwind_loop]
    · intro r
      simp [unwind_loop]
    · intro r hr
      simp at hr
    · intro r _
      simp [unwind_loop]
  | cons rq rest ih =>
    intro g prio pl hinv
    cases hc : (g.rq rq).completed
    · -- the request is unwound
      have hinv1 : (pl = some prio ∧ g.queue.any (fun e => e.1 == prio) = true) ∨
          (pl = none ∧ (g.rq rq).priority ≠ prio) := by
        rcases hinv with h | ⟨h1, h2⟩
        · exact Or.inl h
        · exact Or.inr ⟨h1, h2 rq (List.mem_cons_self _ _) hc⟩
      obtain ⟨g5, hstep, hreq, hrq, hpq, hact, hother, hprio, hany⟩ :=
        unwind_loop_incomplete g ce prio pl rq rest hc hinv1
      obtain ⟨i1, i2, i3, i4, i5⟩ := ih g5 (g.rq rq).priority (some (g.rq rq).priority)
        (Or.inl ⟨rfl, hany⟩)
      rw [hstep]
      refine ⟨?_, ?_, ?_, ?_, ?_⟩
      · rw [i1, hreq, list_del_init, List.filter_filter]
        apply List.filter_congr
        intro x _
        by_cases e : x = rq
        · subst e
          simp [hc]
        · simp [e, (hrq x).1]
      · intro p
        rw [i2, hprio, List.reverse_cons, List.filter_append]
        have hf : List.filter (fun r => !(g5.rq r).completed && (g5.rq r).priority == p)
            rest.reverse =
            List.filter (fun r => !(g.rq r).completed && (g.rq r).priority == p)
              rest.reverse := by
          apply List.filter_congr
          intro x _
          rw [(hrq x).1, (hrq x).2]
        rw [hf]
        by_cases e : p = (g.rq rq).priority
        · subst e
          simp [List.filter, hc]
        · have e2 : ((g.rq rq).priority == p) = false := by
            simp only [beq_eq_false_iff_ne, ne_eq]
            exact fun h => e h.symm
          simp [List.filter, hc, e, e2]
      · intro r
        rw [(i3 r).1, (i3 r).2]
        exact hrq r
      · intro r hr hcr
        by_cases hmem : r ∈ rest
        · exact i4 r hmem (by rw [(hrq r).1]; exact hcr)
        · have e : r = rq := by
            rcases List.mem_cons.1 hr with h | h
            · exact h
            · exact absurd h hmem
          subst e
          rw [i5 r hmem]
          exact ⟨hpq, hact⟩
      · intro r hr
        have h1 : r ≠ rq := fun e => hr (e ▸ List.mem_cons_self _ _)
        have h2 : r ∉ rest := fun h => hr (List.mem_cons_of_mem _ h)
        rw [i5 r h2, hother r h1]
    · -- a completed request stays
      rw [unwind_loop_completed g ce prio pl rq rest hc]
      have hinv1 : (pl = some prio ∧ g.queue.any (fun e => e.1 == prio) = true) ∨
          (pl = none ∧ ∀ r ∈ rest, (g.rq r).completed = false → (g.rq r).priority ≠ prio) := by
        rcases hinv with h | ⟨h1, h2⟩
        · exact Or.inl h
        · exact Or.inr ⟨h1, fun r hr => h2 r (List.mem_cons_of_mem _ hr)⟩
      obtain ⟨i1, i2, i3, i4, i5⟩ := ih g prio pl hinv1
      refine ⟨?_, ?_, i3, ?_, ?_⟩
      · rw [i1]
        apply List.filter_congr
        intro x _
        by_cases e : x = rq
        · subst e
          simp [hc]
        · simp [e]
      · intro p
        rw [i2, List.reverse_cons, List.filter_append]
        simp [List.filter, hc]
      · intro r hr hcr
        rcases List.mem_cons.1 hr with h | h
        · subst h
          rw [hc] at hcr
          exact absurd hcr (by decide)
        · exact i4 r h hcr
      · intro r hr
        exact i5 r (fun h => hr (List.mem_cons_of_mem _ h))

/-- C28: `__unwind_incomplete_requests`, for a context none of whose requests that
have not completed has the priority `I915_PRIORITY_INVALID` (the function asserts
it), leaves on the in-flight list exactly the completed requests, in their order, and
puts the others on the priority lists: the list of every priority begins with the
unwound requests of that priority, in the order they had on the in-flight list,
followed by what was queued there before. The unwound requests are marked queued and
no longer submitted. -/
theorem unwind_incomplete_requests_order (K : Fwif) (g : Guc) (ce : Nat)
    (hprio : ∀ r ∈ (g.ctx ce).requests, (g.rq r).completed = false →
      (g.rq r).priority ≠ K.I915_PRIORITY_INVALID) :
    ((__unwind_incomplete_requests K g ce).ctx ce).requests =
      (g.ctx ce).requests.filter (fun r => (g.rq r).completed) ∧
    (∀ p, priolist (__unwind_incomplete_requests K g ce).queue p =
      (g.ctx ce).requests.filter (fun r => !(g.rq r).completed && (g.rq r).priority == p) ++
        priolist g.queue p) ∧
    (∀ r ∈ (g.ctx ce).requests, (g.rq r).completed = false →
      ((__unwind_incomplete_requests K g ce).rq r).pqueue = true ∧
      ((__unwind_incomplete_requests K g ce).rq r).active = false) := by
  have hinv : (none = some K.I915_PRIORITY_INVALID ∧
      g.queue.any (fun e => e.1 == K.I915_PRIORITY_INVALID) = true) ∨
      ((none : Option Int) = none ∧ ∀ r ∈ (g.ctx ce).requests.reverse,
        (g.rq r).completed = false → (g.rq r).priority ≠ K.I915_PRIORITY_INVALID) :=
    Or.inr ⟨rfl, fun r hr => hprio r (List.mem_reverse.1 hr)⟩
  obtain ⟨h1, h2, -, h4, -⟩ := unwind_loop_spec ce (g.ctx ce).requests.reverse g
    K.I915_PRIORITY_INVALID none hinv
  unfold __unwind_incomplete_requests
  refine ⟨?_, ?_, ?_⟩
  · rw [h1]
    apply List.filter_congr
    intro x hx
    simp [hx]
  · intro p
    rw [h2, List.reverse_reverse]
  · intro r hr hc
    exact h4 r (List.mem_reverse.2 hr) hc

/-- C28 at `unwind_demo`: of the requests 10 to 13 in flight, only the completed
request 11 stays; 10 and 13 are put, in this order, in front of request 20 on the list
of priority 0, and 12 is put on the list of priority 5. -/
theorem unwind_incomplete_requests_order_witness :
    (∀ r ∈ (unwind_demo.ctx 2).requests, (unwind_demo.rq r).completed = false →
      (unwind_demo.rq r).priority ≠ fwif_upstream.I915_PRIORITY_INVALID) ∧
    (unwind_demo.ctx 2).requests = [10, 11, 12, 13] ∧
    ((__unwind_incomplete_requests fwif_upstream unwind_demo 2).ctx 2).requests = [11] ∧
    priolist (__unwind_incomplete_requests fwif_upstream unwind_demo 2).queue 0 =
      [10, 13, 20] ∧
    priolist (__unwind_incomplete_requests fwif_upstream unwind_demo 2).queue 5 = [12] :=
  ⟨by decide, by decide,
    (unwind_incomplete_requests_order fwif_upstream unwind_demo 2 (by decide)).1.trans
      (by decide),
    ((unwind_incomplete_requests_order fwif_upstream unwind_demo 2 (by decide)).2.1 0).trans
      (by decide),
    ((unwind_incomplete_requests_order fwif_upstream unwind_demo 2 (by decide)).2.1 5).trans
      (by decide)⟩

/-! ## What the steps of the dispatcher leave alone -/

theorem DispatchFrame.dispatch_refl (g : Guc) : DispatchFrame g g := ⟨rfl, rfl, rfl⟩

theorem DispatchFrame.dispatch_trans {g g1 g2 : Guc} (h1 : DispatchFrame g g1)
    (h2 : DispatchFrame g1 g2) : DispatchFrame g g2 :=
  ⟨h2.queue.trans h1.queue, h2.stalled_request.trans h1.stalled_request,
    h2.reason.trans h1.reason⟩

theorem dispatch_frame_ct_send (g : Guc) (a : H2G) :
    DispatchFrame g (intel_guc_ct_send g a).2 := by
  obtain ⟨r, h, -⟩ := ct_send_frame g a
  rw [h]
  exact ⟨rfl, rfl, rfl⟩

theorem dispatch_frame_send_nb (g : Guc) (a : H2G) (len : Nat) :
    DispatchFrame g (intel_guc_send_nb g a len).2 :=
  dispatch_frame_ct_send g a

theorem dispatch_frame_send (g : Guc) (a : H2G) (len : Nat) (loop : Bool) :
    DispatchFrame g (guc_submission_send_busy_loop g a len loop).2 := by
  obtain ⟨r, n, -, h⟩ := guc_submission_send_busy_loop_frame g a len loop
  rw [h]
  exact ⟨rfl, rfl, rfl⟩

theorem dispatch_frame_reset_lrc_desc (g : Guc) (id : Nat) :
    DispatchFrame g (reset_lrc_desc g id) := by
  unfold reset_lrc_desc
  split <;> exact ⟨rfl, rfl, rfl⟩

theorem dispatch_frame_fill_child_descs (K : Fwif) (l : List Nat) :
    ∀ g : Guc, DispatchFrame g (fill_child_descs K g l) := by
  induction l with
  | nil => exact fun g => ⟨rfl, rfl, rfl⟩
  | cons c rest ih =>
    intro g
    rw [fill_child_descs]
    exact ⟨(ih _).queue, (ih _).stalled_request, (ih _).reason⟩

theorem dispatch_frame_desc_pin_fill (K : Fwif) (g : Guc) (ce : Nat) :
    DispatchFrame g (guc_lrc_desc_pin_fill K g ce) := by
  unfold guc_lrc_desc_pin_fill
  simp only []
  have h1 := dispatch_frame_reset_lrc_desc g (g.ctx ce).guc_id
  split
  · refine DispatchFrame.dispatch_trans ?_ (dispatch_frame_fill_child_descs K _ _)
    exact ⟨h1.queue, h1.stalled_request, h1.reason⟩
  · exact ⟨h1.queue, h1.stalled_request, h1.reason⟩

theorem dispatch_frame_register_context (K : Fwif) (g : Guc) (ce : Nat) (loop : Bool) :
    DispatchFrame g (register_context K g ce loop).2 := by
  have h1 := fun a => dispatch_frame_send g a 0 loop
  unfold register_context __guc_action_register_multi_lrc __guc_action_register_context
  simp only []
  constructor <;> split <;> split <;>
    simp [Guc.set_ctx, (h1 _).queue, (h1 _).stalled_request, (h1 _).reason]

theorem dispatch_frame_deregister_context (K : Fwif) (g : Guc) (ce id : Nat) (loop : Bool) :
    DispatchFrame g (deregister_context K g ce id loop).2 :=
  dispatch_frame_send g _ _ _

theorem dispatch_frame_desc_pin (K : Fwif) (g : Guc) (ce : Nat) (loop : Bool) :
    DispatchFrame g (guc_lrc_desc_pin K g ce loop).2 := by
  have hf := dispatch_frame_desc_pin_fill K g ce
  have hr := fun g1 => dispatch_frame_register_context K g1 ce loop
  have hd := fun g1 id => dispatch_frame_deregister_context K g1 ce id loop
  have hz := fun g1 id => dispatch_frame_reset_lrc_desc g1 id
  unfold guc_lrc_desc_pin
  simp only []
  constructor <;> (repeat' split) <;>
    simp [Guc.set_ctx, (hr _).queue, (hr _).stalled_request, (hr _).reason,
      (hd _ _).queue, (hd _ _).stalled_request, (hd _ _).reason,
      (hz _ _).queue, (hz _ _).stalled_request, (hz _ _).reason,
      hf.queue, hf.stalled_request, hf.reason]

theorem dispatch_frame_wq_item_append (K : Fwif) (g : Guc) (ce : Nat) :
    DispatchFrame g (__guc_wq_item_append K g ce).2 := by
  unfold __guc_wq_item_append
  simp only []
  constructor <;> (repeat' split) <;> simp [Guc.set_ctx]

theorem dispatch_frame_add_request (K : Fwif) (g : Guc) (ce : Nat) :
    DispatchFrame g (__guc_add_request K g ce).2 := by
  have hs := fun g1 a len => dispatch_frame_send_nb g1 a len
  unfold __guc_add_request
  simp only []
  constructor <;> (repeat' split) <;>
    simp [Guc.set_ctx, (hs _ _ _).queue, (hs _ _ _).stalled_request, (hs _ _ _).reason]

/-! ## What submitting a request changes -/

theorem CtxUpd.ctx_refl (c : IntelContext) : CtxUpd c c := ⟨c.requests, c.prio_count, c.prio, rfl⟩

theorem CtxUpd.ctx_trans {a b c : IntelContext} (h1 : CtxUpd a b) (h2 : CtxUpd b c) :
    CtxUpd a c := by
  obtain ⟨rs1, pc1, pr1, e1⟩ := h1
  obtain ⟨rs2, pc2, pr2, e2⟩ := h2
  subst e1
  exact ⟨rs2, pc2, pr2, e2⟩

theorem RqUpd.rq_refl (r : I915Request) : RqUpd r r := ⟨r.active, r.pqueue, r.guc_prio, rfl⟩

theorem RqUpd.rq_trans {a b c : I915Request} (h1 : RqUpd a b) (h2 : RqUpd b c) : RqUpd a c := by
  obtain ⟨x1, y1, z1, e1⟩ := h1
  obtain ⟨x2, y2, z2, e2⟩ := h2
  subst e1
  exact ⟨x2, y2, z2, e2⟩

theorem SubmitFrame.submit_refl (g : Guc) : SubmitFrame g g :=
  ⟨g.ctx, g.rq, g.ct_replies, [], by simp, fun x => CtxUpd.ctx_refl _, fun i => RqUpd.rq_refl _,
    by simp⟩

theorem SubmitFrame.submit_trans {g g1 g2 : Guc} (h1 : SubmitFrame g g1) (h2 : SubmitFrame g1 g2) :
    SubmitFrame g g2 := by
  obtain ⟨c1, rt1, r1, m1, e1, hc1, hr1, hm1⟩ := h1
  obtain ⟨c2, rt2, r2, m2, e2, hc2, hr2, hm2⟩ := h2
  subst e1
  refine ⟨c2, rt2, r2, m1 ++ m2, ?_, ?_, ?_, ?_⟩
  · rw [e2]
    simp
  · exact fun x => CtxUpd.ctx_trans (hc1 x) (hc2 x)
  · exact fun i => RqUpd.rq_trans (hr1 i) (hr2 i)
  · intro m hm
    rcases List.mem_append.1 hm with h | h
    · exact hm1 m h
    · exact hm2 m h

theorem SubmitFrame.of_set_ctx (g : Guc) (ce : Nat) (c : IntelContext)
    (h : CtxUpd (g.ctx ce) c) : SubmitFrame g (g.set_ctx ce c) := by
  refine ⟨(g.set_ctx ce c).ctx, g.rq, g.ct_replies, [], by simp [Guc.set_ctx], ?_,
    fun i => RqUpd.rq_refl _, by simp⟩
  intro x
  by_cases e : x = ce
  · subst e
    simpa [Guc.set_ctx] using h
  · simpa [Guc.set_ctx, e] using CtxUpd.ctx_refl (g.ctx x)

theorem SubmitFrame.of_set_rq (g : Guc) (rq : Nat) (r : I915Request)
    (h : RqUpd (g.rq rq) r) : SubmitFrame g (g.set_rq rq r) := by
  refine ⟨g.ctx, (g.set_rq rq r).rq, g.ct_replies, [], by simp [Guc.set_rq],
    fun x => CtxUpd.ctx_refl _, ?_, by simp⟩
  intro i
  by_cases e : i = rq
  · subst e
    simpa [Guc.set_rq] using h
  · simpa [Guc.set_rq, e] using RqUpd.rq_refl (g.rq i)

theorem SubmitFrame.send_prio (g : Guc) (id p : Nat) (loop : Bool) :
    SubmitFrame g (guc_submission_send_busy_loop g (H2G.set_context_priority id p) 0 loop).2 := by
  obtain ⟨r, n, -, h⟩ := guc_submission_send_busy_loop_frame g
    (H2G.set_context_priority id p) 0 loop
  refine ⟨g.ctx, g.rq, r, List.replicate n (H2G.set_context_priority id p), ?_,
    fun x => CtxUpd.ctx_refl _, fun i => RqUpd.rq_refl _, ?_⟩
  · rw [h]
    simp
  · intro m hm
    exact ⟨id, p, (List.mem_replicate.1 hm).2⟩

theorem guc_context_set_prio_frame (g : Guc) (ce prio : Nat) :
    SubmitFrame g (guc_context_set_prio g ce prio) := by
  unfold guc_context_set_prio
  split
  · exact SubmitFrame.of_set_ctx g ce _ ⟨_, _, _, rfl⟩
  · exact SubmitFrame.submit_trans (SubmitFrame.send_prio g _ _ _)
      (SubmitFrame.of_set_ctx _ ce _ ⟨_, _, _, rfl⟩)

theorem update_context_prio_frame (K : Fwif) (g : Guc) (ce : Nat) :
    SubmitFrame g (update_context_prio K g ce) := by
  unfold update_context_prio
  split
  · exact guc_context_set_prio_frame g ce _
  · exact SubmitFrame.submit_refl g

theorem CtxUpd.add_prio (c : IntelContext) (p : Nat) :
    CtxUpd c (add_context_inflight_prio c p) := ⟨_, _, _, rfl⟩

theorem CtxUpd.sub_prio (c : IntelContext) (p : Nat) :
    CtxUpd c (sub_context_inflight_prio c p) := ⟨_, _, _, rfl⟩

theorem add_to_context_frame (K : Fwif) (g : Guc) (rq : Nat) :
    SubmitFrame g (add_to_context K g rq) := by
  unfold add_to_context
  simp only []
  generalize request_to_scheduling_context g rq = ce
  generalize map_i915_prio_to_guc_prio K (rq_prio g rq) = np
  have h1 : SubmitFrame g (g.set_ctx ce
      { g.ctx ce with requests := list_del_init (g.ctx ce).requests rq ++ [rq] }) :=
    SubmitFrame.of_set_ctx g ce _ ⟨_, _, _, rfl⟩
  generalize g.set_ctx ce
      { g.ctx ce with requests := list_del_init (g.ctx ce).requests rq ++ [rq] } = g1 at h1 ⊢
  refine SubmitFrame.submit_trans (SubmitFrame.submit_trans h1 ?_) (update_context_prio_frame K _ ce)
  split
  · have a1 : SubmitFrame g1 (g1.set_rq rq { g1.rq rq with guc_prio := np }) :=
      SubmitFrame.of_set_rq g1 rq _ ⟨_, _, _, rfl⟩
    exact SubmitFrame.submit_trans a1 (SubmitFrame.of_set_ctx _ ce _ (CtxUpd.add_prio _ _))
  · split
    · have a1 : SubmitFrame g1
          (g1.set_ctx ce (sub_context_inflight_prio (g1.ctx ce) (g1.rq rq).guc_prio)) :=
        SubmitFrame.of_set_ctx g1 ce _ (CtxUpd.sub_prio _ _)
      generalize g1.set_ctx ce (sub_context_inflight_prio (g1.ctx ce) (g1.rq rq).guc_prio) =
        a at a1 ⊢
      have a2 : SubmitFrame a (a.set_rq rq { a.rq rq with guc_prio := np }) :=
        SubmitFrame.of_set_rq a rq _ ⟨_, _, _, rfl⟩
      exact SubmitFrame.submit_trans (SubmitFrame.submit_trans a1 a2)
        (SubmitFrame.of_set_ctx _ ce _ (CtxUpd.add_prio _ _))
    · exact SubmitFrame.submit_refl _

theorem i915_request_submit_frame (K : Fwif) (g : Guc) (rq : Nat) :
    SubmitFrame g (__i915_request_submit K g rq) := by
  unfold __i915_request_submit
  simp only []
  have h1 : SubmitFrame g (g.set_rq rq { g.rq rq with active := true }) :=
    SubmitFrame.of_set_rq g rq _ ⟨_, _, _, rfl⟩
  generalize g.set_rq rq { g.rq rq with active := true } = g1 at h1 ⊢
  have h2 := add_to_context_frame K g1 rq
  generalize add_to_context K g1 rq = g2 at h2 ⊢
  exact SubmitFrame.submit_trans (SubmitFrame.submit_trans h1 h2) (SubmitFrame.of_set_rq g2 rq _ ⟨_, _, _, rfl⟩)

/-- The facts about a state that submitting a request leaves as they are. -/
theorem SubmitFrame.keeps {g g1 : Guc} (h : SubmitFrame g g1) :
    DispatchFrame g g1 ∧
    (∀ x, (g1.ctx x).parent = (g.ctx x).parent ∧
      (g1.ctx x).guc_number_children = (g.ctx x).guc_number_children ∧
      (g1.ctx x).banned = (g.ctx x).banned ∧ (g1.ctx x).wq = (g.ctx x).wq ∧
      (g1.ctx x).guc_wqi_tail = (g.ctx x).guc_wqi_tail ∧
      (g1.ctx x).guc_id = (g.ctx x).guc_id ∧
      (g1.ctx x).sched_state = (g.ctx x).sched_state ∧
      (g1.ctx x).ring_tail = (g.ctx x).ring_tail) ∧
    (∀ i, (g1.rq i).context = (g.rq i).context ∧ (g1.rq i).priority = (g.rq i).priority ∧
      (g1.rq i).submit_parallel = (g.rq i).submit_parallel ∧
      (g1.rq i).completed = (g.rq i).completed ∧ (g1.rq i).tail = (g.rq i).tail) ∧
    g1.context_lookup = g.context_lookup ∧
    g1.outstanding_submission_g2h = g.outstanding_submission_g2h ∧
    g1.has_sched_engine = g.has_sched_engine ∧ g1.tasklet_count = g.tasklet_count ∧
    g1.tasklet_callback = g.tasklet_callback ∧ g1.tasklet_scheduled = g.tasklet_scheduled ∧
    ∃ msgs, g1.h2g = g.h2g ++ msgs ∧ ∀ m ∈ msgs, ∃ id p, m = H2G.set_context_priority id p := by
  obtain ⟨c, rt, r, msgs, e, hc, hr, hm⟩ := h
  subst e
  refine ⟨⟨rfl, rfl, rfl⟩, ?_, ?_, rfl, rfl, rfl, rfl, rfl, rfl, msgs, rfl, hm⟩
  · intro x
    obtain ⟨rs, pc, pr, e⟩ := hc x
    simp [e]
  · intro i
    obtain ⟨a, q, gp, e⟩ := hr i
    simp [e]

/-! ## The bypass of the tasklet -/

theorem disable_submission_disabled (g : Guc) :
    submission_disabled (disable_submission g) = true := by
  unfold disable_submission submission_disabled __tasklet_is_enabled
    __tasklet_disable_sync_once
  by_cases h : g.tasklet_count = 0 <;> simp [h]

/-- C30: for a multi-LRC request that does not carry `I915_FENCE_FLAG_SUBMIT_PARALLEL`
and whose scheduling context is not banned, `guc_bypass_tasklet_submit` writes no
work-queue entry and hands nothing but priority updates to the transport, but the
value it returns is not 0: its local `ret` is never assigned on this path, so it
returns the indeterminate value `ret_uninit`. When that value is `-EPIPE` submission
is disabled, and when it is `-EBUSY` `guc_submit_request` schedules the tasklet. -/
theorem bypass_multi_lrc_ret_unassigned (K : Fwif) (ret_uninit : Int) (g : Guc) (rq : Nat)
    (hm : is_multi_lrc_rq g rq = true) (hp : (g.rq rq).submit_parallel = false)
    (hb : intel_context_is_banned (g.ctx (request_to_scheduling_context g rq)) = false) :
    (guc_bypass_tasklet_submit K ret_uninit g rq).1 = ret_uninit ∧
    (∀ x, ((guc_bypass_tasklet_submit K ret_uninit g rq).2.ctx x).wq = (g.ctx x).wq ∧
      ((guc_bypass_tasklet_submit K ret_uninit g rq).2.ctx x).guc_wqi_tail =
        (g.ctx x).guc_wqi_tail) ∧
    (∃ msgs, (guc_bypass_tasklet_submit K ret_uninit g rq).2.h2g = g.h2g ++ msgs ∧
      ∀ m ∈ msgs, ∃ id p, m = H2G.set_context_priority id p) ∧
    (ret_uninit = -EPIPE →
      submission_disabled (guc_bypass_tasklet_submit K ret_uninit g rq).2 = true) ∧
    (need_tasklet g rq = false → ret_uninit = -EBUSY →
      (guc_submit_request K ret_uninit g rq).tasklet_scheduled = true) := by
  obtain ⟨-, hctx, hrq, -, -, -, -, -, -, msgs, hmsg, hall⟩ :=
    (i915_request_submit_frame K g rq).keeps
  generalize hg1 : __i915_request_submit K g rq = g1 at hctx hrq hmsg
  have hsc : request_to_scheduling_context g1 rq = request_to_scheduling_context g rq := by
    simp only [request_to_scheduling_context, intel_context_to_parent, (hrq rq).1,
      (hctx _).1]
  have hm1 : is_multi_lrc_rq g1 rq = true := by
    rw [← hm]
    simp only [is_multi_lrc_rq, intel_context_is_parallel, intel_context_is_child,
      intel_context_is_parent, (hrq rq).1, (hctx _).1, (hctx _).2.1]
  have hsub : (multi_lrc_submit g1 rq).1 = false := by
    have e1 : request_to_scheduling_context g1 rq = request_to_scheduling_context g rq := hsc
    simp only [multi_lrc_submit, intel_ring_set_tail, request_to_scheduling_context,
      intel_context_to_parent] at e1 ⊢
    rw [e1]
    by_cases e : request_to_scheduling_context g rq = (g1.rq rq).context
    · simp only [request_to_scheduling_context, intel_context_to_parent] at e
      simp [Guc.set_ctx, e, intel_context_is_banned, (hrq rq).2.2.1, hp]
      have := hb
      simp only [request_to_scheduling_context, intel_context_to_parent, e,
        intel_context_is_banned] at this
      rw [(hrq rq).1] at this ⊢
      rw [(hctx _).2.2.1]
      exact this
    · simp only [request_to_scheduling_context, intel_context_to_parent] at e
      have := hb
      simp only [request_to_scheduling_context, intel_context_to_parent,
        intel_context_is_banned] at this
      simp [Guc.set_ctx, e, intel_context_is_banned, (hrq rq).2.2.1, hp, (hctx _).2.2.1, this]
  have hbody : guc_bypass_tasklet_submit K ret_uninit g rq =
      if ret_uninit = -EPIPE then (ret_uninit, disable_submission (multi_lrc_submit g1 rq).2)
      else (ret_uninit, (multi_lrc_submit g1 rq).2) := by
    unfold guc_bypass_tasklet_submit
    simp only [hg1, hm1, hsub, if_true, Bool.false_eq_true, if_false]
  have hX : ∀ x, ((multi_lrc_submit g1 rq).2.ctx x).wq = (g.ctx x).wq ∧
      ((multi_lrc_submit g1 rq).2.ctx x).guc_wqi_tail = (g.ctx x).guc_wqi_tail := by
    intro x
    simp only [multi_lrc_submit, intel_ring_set_tail, Guc.set_ctx]
    by_cases e : x = (g1.rq rq).context
    · subst e
      simp [(hctx _).2.2.2.1, (hctx _).2.2.2.2.1]
    · simp [e, (hctx _).2.2.2.1, (hctx _).2.2.2.2.1]
  have hXm : (multi_lrc_submit g1 rq).2.h2g = g.h2g ++ msgs := by
    simp only [multi_lrc_submit, intel_ring_set_tail, Guc.set_ctx, hmsg]
  have hdis : ∀ X : Guc, (disable_submission X).ctx = X.ctx ∧
      (disable_submission X).h2g = X.h2g := by
    intro X
    unfold disable_submission
    split <;> exact ⟨rfl, rfl⟩
  refine ⟨?_, ?_, ?_, ?_, ?_⟩
  · rw [hbody]
    split <;> rfl
  · intro x
    rw [hbody]
    split
    · simp only [(hdis _).1]
      exact hX x
    · exact hX x
  · refine ⟨msgs, ?_, hall⟩
    rw [hbody]
    split
    · simp only [(hdis _).2]
      exact hXm
    · exact hXm
  · intro e
    rw [hbody]
    simp only [e, if_true]
    exact disable_submission_disabled _
  · intro hn e
    have hne : (-EBUSY : Int) ≠ -EPIPE := by decide
    unfold guc_submit_request
    rw [hbody]
    simp [hn, e, hne, tasklet_hi_schedule]

/-- C30 at the registered parent context of `bypass_demo`, with `-EPIPE` for the
value of the unassigned local: the call returns `-EPIPE` and disables submission. -/
theorem bypass_multi_lrc_ret_unassigned_witness :
    (is_multi_lrc_rq bypass_demo 10 = true ∧ (bypass_demo.rq 10).submit_parallel = false ∧
      intel_context_is_banned
        (bypass_demo.ctx (request_to_scheduling_context bypass_demo 10)) = false) ∧
    submission_disabled bypass_demo = false ∧
    (guc_bypass_tasklet_submit fwif_upstream (-EPIPE) bypass_demo 10).1 = -EPIPE ∧
    submission_disabled
      (guc_bypass_tasklet_submit fwif_upstream (-EPIPE) bypass_demo 10).2 = true :=
  ⟨by decide, by decide,
    (bypass_multi_lrc_ret_unassigned fwif_upstream (-EPIPE) bypass_demo 10 (by decide)
      (by decide) (by decide)).1,
    (bypass_multi_lrc_ret_unassigned fwif_upstream (-EPIPE) bypass_demo 10 (by decide)
      (by decide) (by decide)).2.2.2.1 rfl⟩

/-! ## Stalls recorded by the stages of a dispatch pass -/

theorem guc_add_request_stall (K : Fwif) (g : Guc) (rq : Nat) :
    (guc_add_request K g rq).2.queue = g.queue ∧
    ((guc_add_request K g rq).1 = -EBUSY →
      (guc_add_request K g rq).2.stalled_request = some rq ∧
      (guc_add_request K g rq).2.submission_stall_reason = StallReason.STALL_ADD_REQUEST) ∧
    ((guc_add_request K g rq).1 ≠ -EBUSY → DispatchFrame g (guc_add_request K g rq).2) := by
  have h := dispatch_frame_add_request K g (request_to_scheduling_context g rq)
  unfold guc_add_request
  simp only []
  split
  · rename_i hb
    exact ⟨h.queue, fun _ => ⟨rfl, rfl⟩, fun hn => absurd hb hn⟩
  · rename_i hb
    exact ⟨h.queue, fun e => absurd e hb, fun _ => h⟩

theorem guc_wq_item_append_stall (K : Fwif) (g : Guc) (rq : Nat) :
    (guc_wq_item_append K g rq).2.queue = g.queue ∧
    ((guc_wq_item_append K g rq).1 = -EBUSY →
      (guc_wq_item_append K g rq).2.stalled_request = some rq ∧
      (guc_wq_item_append K g rq).2.submission_stall_reason =
        StallReason.STALL_MOVE_LRC_TAIL) ∧
    ((guc_wq_item_append K g rq).1 ≠ -EBUSY → DispatchFrame g (guc_wq_item_append K g rq).2) := by
  have h := dispatch_frame_wq_item_append K g (request_to_scheduling_context g rq)
  have hne : (0 : Int) ≠ -EBUSY := by decide
  unfold guc_wq_item_append
  simp only []
  split
  · split
    · rename_i hb
      exact ⟨h.queue, fun _ => ⟨rfl, rfl⟩, fun hn => absurd hb hn⟩
    · rename_i hb
      exact ⟨h.queue, fun e => absurd e hb, fun _ => h⟩
  · exact ⟨rfl, fun e => absurd e hne, fun _ => ⟨rfl, rfl, rfl⟩⟩

theorem disable_submission_frame (g : Guc) : DispatchFrame g (disable_submission g) := by
  unfold disable_submission
  split <;> exact ⟨rfl, rfl, rfl⟩

theorem bypass_queue (K : Fwif) (ret_uninit : Int) (g : Guc) (rq : Nat) :
    (guc_bypass_tasklet_submit K ret_uninit g rq).2.queue = g.queue := by
  have h1 := (i915_request_submit_frame K g rq).keeps.1.queue
  have ha := fun g1 => (guc_add_request_stall K g1 rq).1
  have hw := fun g1 => (guc_wq_item_append_stall K g1 rq).1
  have hd := fun g1 => (disable_submission_frame g1).queue
  unfold guc_bypass_tasklet_submit
  simp only []
  (repeat' split) <;>
    simp [hd, ha, hw, h1, multi_lrc_submit, guc_set_lrc_tail, intel_ring_set_tail, Guc.set_ctx]

/-! ## Queue or bypass -/

/-- C23 (counterexample): with submission disabled `guc_submit_request` queues the
request and schedules a dispatch pass although the queue is empty, no request is
stalled and the context of the request is in the registration store. -/
theorem submit_request_queued_when_disabled :
    submission_disabled disabled_demo = true ∧
    disabled_demo.queue = [] ∧ disabled_demo.stalled_request = none ∧
    __get_context disabled_demo
      (disabled_demo.ctx (request_to_scheduling_context disabled_demo 10)).guc_id = some 2 ∧
    (guc_submit_request fwif_upstream 0 disabled_demo 10).queue = [(0, [10])] ∧
    (guc_submit_request fwif_upstream 0 disabled_demo 10).tasklet_scheduled = true ∧
    (guc_submit_request fwif_upstream 0 disabled_demo 10).h2g = disabled_demo.h2g := by
  decide

/-- C23 (amended): `guc_submit_request` puts the request at the tail of the priority
list of its priority, leaving the other lists as they are, schedules a dispatch pass
and hands nothing to the transport exactly when submission is disabled, a stalled
request is recorded, the queue is not empty or the scheduling context of the request
is not in the registration store. In every other case the request goes through
`guc_bypass_tasklet_submit`, a dispatch pass is scheduled only if that returns
`-EBUSY`, and the queue stays empty. -/
theorem submit_request_decision (K : Fwif) (ret_uninit : Int) (g : Guc) (rq : Nat) :
    (need_tasklet g rq = true ↔
      (submission_disabled g = true ∨ g.stalled_request ≠ none ∨ g.queue ≠ [] ∨
        __get_context g (g.ctx (request_to_scheduling_context g rq)).guc_id = none)) ∧
    (need_tasklet g rq = true →
      guc_submit_request K ret_uninit g rq = queue_request g rq (rq_prio g rq) ∧
      (∀ p, priolist (guc_submit_request K ret_uninit g rq).queue p =
        if p = rq_prio g rq then priolist g.queue p ++ [rq] else priolist g.queue p) ∧
      (guc_submit_request K ret_uninit g rq).tasklet_scheduled = true ∧
      (guc_submit_request K ret_uninit g rq).h2g = g.h2g ∧
      (guc_submit_request K ret_uninit g rq).ctx = g.ctx) ∧
    (need_tasklet g rq = false →
      guc_submit_request K ret_uninit g rq =
        (if (guc_bypass_tasklet_submit K ret_uninit g rq).1 = -EBUSY then
          tasklet_hi_schedule (guc_bypass_tasklet_submit K ret_uninit g rq).2
         else (guc_bypass_tasklet_submit K ret_uninit g rq).2) ∧
      (guc_submit_request K ret_uninit g rq).queue = []) := by
  refine ⟨?_, ?_, ?_⟩
  · unfold need_tasklet i915_sched_engine_is_empty lrc_desc_registered
    simp only [Bool.or_eq_true, Bool.not_eq_true', List.isEmpty_eq_false, ne_eq]
    cases hs : g.stalled_request <;>
      cases hl : __get_context g (g.ctx (request_to_scheduling_context g rq)).guc_id <;>
      cases hq : g.queue <;> simp
  · intro hn
    have e : guc_submit_request K ret_uninit g rq = queue_request g rq (rq_prio g rq) := by
      unfold guc_submit_request
      simp only [hn, if_true]
    rw [e]
    refine ⟨rfl, ?_, rfl, rfl, rfl⟩
    intro p
    show priolist (priolist_update (i915_sched_lookup_priolist g.queue (rq_prio g rq))
      (rq_prio g rq) (fun l => l ++ [rq])) p = _
    by_cases ep : p = rq_prio g rq
    · subst ep
      rw [priolist_update_self _ _ _ (lookup_any _ _), priolist_lookup]
      simp
    · rw [priolist_update_other _ _ _ _ ep, priolist_lookup]
      simp [ep]
  · intro hn
    have hq : g.queue = [] := by
      unfold need_tasklet i915_sched_engine_is_empty at hn
      cases h : g.queue with
      | nil => rfl
      | cons a l => simp [h] at hn
    have e : guc_submit_request K ret_uninit g rq =
        (if (guc_bypass_tasklet_submit K ret_uninit g rq).1 = -EBUSY then
          tasklet_hi_schedule (guc_bypass_tasklet_submit K ret_uninit g rq).2
         else (guc_bypass_tasklet_submit K ret_uninit g rq).2) := by
      unfold guc_submit_request
      simp only [hn, Bool.false_eq_true, if_false]
    refine ⟨e, ?_⟩
    rw [e, ← hq, ← bypass_queue K ret_uninit g rq]
    split <;> rfl

/-! ## The stages of a dispatch pass -/

theorem StageSpec.cons {g g1 : Guc} {last : Nat} {out : Bool × Guc × List DequeueEvent}
    (stage : StallReason) (hs : stage ≠ StallReason.STALL_NONE) (hf : DispatchFrame g g1)
    (h : StageSpec g1 last out) :
    StageSpec g last (out.1, out.2.1, ⟨stage, last, 0⟩ :: out.2.2) := by
  obtain ⟨h1, h2, h3, h4, h5⟩ := h
  have hne : (0 : Int) ≠ -EBUSY := by decide
  refine ⟨h1.trans hf.queue, ?_, ?_, ?_, ?_⟩
  · intro e he
    rcases List.mem_cons.1 he with rfl | he
    · exact ⟨rfl, hs⟩
    · exact h2 e he
  · intro e he hb
    rcases List.mem_cons.1 he with rfl | he
    · exact absurd hb hne
    · exact h3 e he hb
  · intro hall
    exact h4 (fun e he => hall e (List.mem_cons_of_mem _ he))
  · rintro ⟨e, he, hn0, hnb⟩
    rcases List.mem_cons.1 he with rfl | he
    · exact absurd rfl hn0
    · obtain ⟨a, b⟩ := h5 ⟨e, he, hn0, hnb⟩
      exact ⟨a.trans hf.stalled_request, b.trans hf.reason⟩

theorem StageSpec.busy {g g1 : Guc} {last : Nat} (stage : StallReason)
    (hs : stage ≠ StallReason.STALL_NONE) (hq : g1.queue = g.queue)
    (h1 : g1.stalled_request = some last) (h2 : g1.submission_stall_reason = stage) :
    StageSpec g last (false, tasklet_hi_schedule g1, [⟨stage, last, -EBUSY⟩]) := by
  have hne : (-EBUSY : Int) ≠ 0 := by decide
  refine ⟨hq, ?_, ?_, ?_, ?_⟩
  · intro e he
    rw [List.mem_singleton] at he
    subst he
    exact ⟨rfl, hs⟩
  · intro e he _
    rw [List.mem_singleton] at he
    subst he
    exact ⟨h1, h2⟩
  · intro hall
    exact absurd (hall _ (List.mem_singleton.2 rfl)) hne
  · rintro ⟨e, he, -, hnb⟩
    rw [List.mem_singleton] at he
    subst he
    exact absurd rfl hnb

theorem StageSpec.deadlk {g g1 : Guc} {last : Nat} (stage : StallReason) (ret : Int)
    (hs : stage ≠ StallReason.STALL_NONE) (hf : DispatchFrame g g1) (h0 : ret ≠ 0)
    (hb : ret ≠ -EBUSY) :
    StageSpec g last (false, dequeue_deadlk g1, [⟨stage, last, ret⟩]) := by
  refine ⟨hf.queue, ?_, ?_, ?_, ?_⟩
  · intro e he
    rw [List.mem_singleton] at he
    subst he
    exact ⟨rfl, hs⟩
  · intro e he hb2
    rw [List.mem_singleton] at he
    subst he
    exact absurd hb2 hb
  · intro hall
    exact absurd (hall _ (List.mem_singleton.2 rfl)) h0
  · intro _
    exact ⟨hf.stalled_request, hf.reason⟩

theorem dequeue_add_request_spec (K : Fwif) (g : Guc) (last : Nat) :
    StageSpec g last (dequeue_add_request K g last) ∧
    ∃ ret, (dequeue_add_request K g last).2.2 = [⟨StallReason.STALL_ADD_REQUEST, last, ret⟩] := by
  obtain ⟨hq, hb, hn⟩ := guc_add_request_stall K g last
  have hpb : (-EPIPE : Int) ≠ -EBUSY := by decide
  have hp0 : (-EPIPE : Int) ≠ 0 := by decide
  have hs : StallReason.STALL_ADD_REQUEST ≠ StallReason.STALL_NONE := by decide
  unfold dequeue_add_request
  simp only []
  generalize guc_add_request K g last = r at hq hb hn
  constructor
  · split
    · rename_i h
      rw [h] at hn ⊢
      exact StageSpec.deadlk _ _ hs (hn hpb) hp0 hpb
    · split
      · rename_i h
        rw [h]
        exact StageSpec.busy _ hs hq (hb h).1 (hb h).2
      · split
        · rename_i h1 h2
          exact StageSpec.deadlk _ _ hs (hn h1) h2 h1
        · rename_i h1 h2
          have h0 : r.1 = 0 := by
            by_contra h
            exact h2 h
          rw [h0]
          refine ⟨hq, ?_, ?_, ?_, ?_⟩
          · intro e he
            rw [List.mem_singleton] at he
            subst he
            exact ⟨rfl, hs⟩
          · intro e he hb2
            rw [List.mem_singleton] at he
            subst he
            have hne : (0 : Int) ≠ -EBUSY := by decide
            exact absurd hb2 hne
          · intro _
            exact ⟨rfl, rfl⟩
          · rintro ⟨e, he, hn0, -⟩
            rw [List.mem_singleton] at he
            subst he
            exact absurd rfl hn0
  · split
    · exact ⟨_, rfl⟩
    · split
      · exact ⟨_, rfl⟩
      · split <;> exact ⟨_, rfl⟩

theorem dequeue_move_lrc_tail_spec (K : Fwif) (g : Guc) (last : Nat) :
    StageSpec g last (dequeue_move_lrc_tail K g last) ∧
    ∃ ret rest, (dequeue_move_lrc_tail K g last).2.2 =
      ⟨StallReason.STALL_MOVE_LRC_TAIL, last, ret⟩ :: rest := by
  have hs : StallReason.STALL_MOVE_LRC_TAIL ≠ StallReason.STALL_NONE := by decide
  unfold dequeue_move_lrc_tail
  split
  · obtain ⟨hq, hb, hn⟩ := guc_wq_item_append_stall K g last
    simp only []
    generalize guc_wq_item_append K g last = r at hq hb hn
    split
    · rename_i h
      rw [h]
      exact ⟨StageSpec.busy _ hs hq (hb h).1 (hb h).2, _, _, rfl⟩
    · split
      · rename_i h1 h2
        exact ⟨StageSpec.deadlk _ _ hs (hn h1) h2 h1, _, _, rfl⟩
      · rename_i h1 h2
        have h0 : r.1 = 0 := by
          by_contra h
          exact h2 h
        rw [h0]
        exact ⟨StageSpec.cons _ hs (hn h1) (dequeue_add_request_spec K r.2 last).1, _, _, rfl⟩
  · simp only []
    refine ⟨StageSpec.cons _ hs ?_ (dequeue_add_request_spec K _ last).1, _, _, rfl⟩
    exact ⟨rfl, rfl, rfl⟩

theorem dequeue_register_context_spec (K : Fwif) (g : Guc) (last : Nat) :
    StageSpec g last (dequeue_register_context K g last) ∧
    ∃ ret rest, (dequeue_register_context K g last).2.2 =
      ⟨StallReason.STALL_REGISTER_CONTEXT, last, ret⟩ :: rest := by
  have hs : StallReason.STALL_REGISTER_CONTEXT ≠ StallReason.STALL_NONE := by decide
  have hpb : (-EPIPE : Int) ≠ -EBUSY := by decide
  have hp0 : (-EPIPE : Int) ≠ 0 := by decide
  unfold dequeue_register_context
  simp only []
  split
  · have hf := dispatch_frame_desc_pin K g (request_to_scheduling_context g last) false
    generalize guc_lrc_desc_pin K g (request_to_scheduling_context g last) false = r at hf
    split
    · rename_i h
      rw [h]
      exact ⟨StageSpec.deadlk _ _ hs hf hp0 hpb, _, _, rfl⟩
    · split
      · rename_i h
        rw [h]
        exact ⟨StageSpec.busy _ hs hf.queue rfl rfl, _, _, rfl⟩
      · split
        · rename_i h1 h2
          exact ⟨StageSpec.deadlk _ _ hs hf h2 h1, _, _, rfl⟩
        · rename_i h1 h2
          have h0 : r.1 = 0 := by
            by_contra h
            exact h2 h
          rw [h0]
          exact ⟨StageSpec.cons _ hs hf (dequeue_move_lrc_tail_spec K r.2 last).1, _, _, rfl⟩
  · exact ⟨StageSpec.cons _ hs ⟨rfl, rfl, rfl⟩ (dequeue_move_lrc_tail_spec K g last).1,
      _, _, rfl⟩

/-! ## Stall bookkeeping of a dispatch pass -/

theorem dispatch_frame_multi_lrc_submit (g : Guc) (rq : Nat) :
    DispatchFrame g (multi_lrc_submit g rq).2 := ⟨rfl, rfl, rfl⟩

theorem dequeue_priolist_frame (K : Fwif) (l : List Nat) :
    ∀ (g : Guc) (last : Option Nat) (submit : Bool),
      DispatchFrame g (dequeue_priolist K g last submit l).1 := by
  induction l with
  | nil =>
    intro g last submit
    exact ⟨rfl, rfl, rfl⟩
  | cons rq rest ih =>
    intro g last submit
    have h1 := (i915_request_submit_frame K g rq).keeps.1
    unfold dequeue_priolist
    split
    · exact ⟨rfl, rfl, rfl⟩
    · simp only []
      split
      · split
        · exact DispatchFrame.dispatch_trans h1 (dispatch_frame_multi_lrc_submit _ rq)
        · exact DispatchFrame.dispatch_trans
            (DispatchFrame.dispatch_trans h1 (dispatch_frame_multi_lrc_submit _ rq)) (ih _ _ _)
      · exact DispatchFrame.dispatch_trans h1 (ih _ _ _)

theorem dequeue_queue_frame (K : Fwif) (q : List (Int × List Nat)) :
    ∀ (g : Guc) (last : Option Nat) (submit : Bool),
      DispatchFrame g (dequeue_queue K g last submit q).1 := by
  induction q with
  | nil =>
    intro g last submit
    exact ⟨rfl, rfl, rfl⟩
  | cons p q ih =>
    intro g last submit
    have h1 := dequeue_priolist_frame K p.2 g last submit
    unfold dequeue_queue
    simp only []
    split
    · exact h1
    · exact DispatchFrame.dispatch_trans h1 (ih _ _ _)

theorem StageSpec.summary {g : Guc} {last : Nat} {out : Bool × Guc × List DequeueEvent}
    (h : StageSpec g last out)
    (hinv : g.stalled_request.isSome = true ↔
      g.submission_stall_reason ≠ StallReason.STALL_NONE) :
    (∀ e ∈ out.2.2, e.ret = -EBUSY →
      out.2.1.stalled_request = some e.rq ∧ out.2.1.submission_stall_reason = e.stage) ∧
    ((∀ e ∈ out.2.2, e.ret = 0) →
      out.2.1.stalled_request = none ∧
      out.2.1.submission_stall_reason = StallReason.STALL_NONE) ∧
    (out.2.1.stalled_request.isSome = true ↔
      out.2.1.submission_stall_reason ≠ StallReason.STALL_NONE) := by
  obtain ⟨-, h2, h3, h4, h5⟩ := h
  refine ⟨?_, h4, ?_⟩
  · intro e he hb
    rw [(h2 e he).1]
    exact h3 e he hb
  · by_cases hb : ∃ e ∈ out.2.2, e.ret = -EBUSY
    · obtain ⟨e, he, hb⟩ := hb
      obtain ⟨a, b⟩ := h3 e he hb
      rw [a, b]
      simp [(h2 e he).2]
    · by_cases h0 : ∀ e ∈ out.2.2, e.ret = 0
      · obtain ⟨a, b⟩ := h4 h0
        rw [a, b]
        simp
      · have hx : ∃ e ∈ out.2.2, e.ret ≠ 0 ∧ e.ret ≠ -EBUSY := by
          by_contra hc
          apply h0
          intro e he
          by_contra hne
          exact hc ⟨e, he, hne, fun hb2 => hb ⟨e, he, hb2⟩⟩
        obtain ⟨a, b⟩ := h5 hx
        rw [a, b]
        exact hinv

theorem stall_inv_of_frame {g g1 : Guc} (hf : DispatchFrame g g1)
    (h : g.stalled_request.isSome = true ↔
      g.submission_stall_reason ≠ StallReason.STALL_NONE) :
    g1.stalled_request.isSome = true ↔
      g1.submission_stall_reason ≠ StallReason.STALL_NONE := by
  rw [hf.stalled_request, hf.reason]
  exact h

theorem guc_add_request_stall_inv (K : Fwif) (g : Guc) (rq : Nat)
    (h : g.stalled_request.isSome = true ↔
      g.submission_stall_reason ≠ StallReason.STALL_NONE) :
    (guc_add_request K g rq).2.stalled_request.isSome = true ↔
      (guc_add_request K g rq).2.submission_stall_reason ≠ StallReason.STALL_NONE := by
  obtain ⟨-, hb, hn⟩ := guc_add_request_stall K g rq
  by_cases e : (guc_add_request K g rq).1 = -EBUSY
  · rw [(hb e).1, (hb e).2]
    simp
  · exact stall_inv_of_frame (hn e) h

theorem guc_wq_item_append_stall_inv (K : Fwif) (g : Guc) (rq : Nat)
    (h : g.stalled_request.isSome = true ↔
      g.submission_stall_reason ≠ StallReason.STALL_NONE) :
    (guc_wq_item_append K g rq).2.stalled_request.isSome = true ↔
      (guc_wq_item_append K g rq).2.submission_stall_reason ≠ StallReason.STALL_NONE := by
  obtain ⟨-, hb, hn⟩ := guc_wq_item_append_stall K g rq
  by_cases e : (guc_wq_item_append K g rq).1 = -EBUSY
  · rw [(hb e).1, (hb e).2]
    simp
  · exact stall_inv_of_frame (hn e) h

/-- The other writer of the stall record, `guc_submit_request`, keeps a request
recorded as stalled exactly when the stall reason is not `STALL_NONE`. -/
theorem submit_request_stall_inv (K : Fwif) (ret_uninit : Int) (g : Guc) (rq : Nat)
    (h : g.stalled_request.isSome = true ↔
      g.submission_stall_reason ≠ StallReason.STALL_NONE) :
    (guc_submit_request K ret_uninit g rq).stalled_request.isSome = true ↔
      (guc_submit_request K ret_uninit g rq).submission_stall_reason ≠
        StallReason.STALL_NONE := by
  have h1 := stall_inv_of_frame (i915_request_submit_frame K g rq).keeps.1 h
  generalize hg1 : __i915_request_submit K g rq = g1 at h1
  have hm : (multi_lrc_submit g1 rq).2.stalled_request.isSome = true ↔
      (multi_lrc_submit g1 rq).2.submission_stall_reason ≠ StallReason.STALL_NONE :=
    stall_inv_of_frame (dispatch_frame_multi_lrc_submit g1 rq) h1
  have hw := guc_wq_item_append_stall_inv K (multi_lrc_submit g1 rq).2 rq hm
  have hwa := guc_add_request_stall_inv K (guc_wq_item_append K (multi_lrc_submit g1 rq).2 rq).2
    rq hw
  have hs : (guc_set_lrc_tail g1 rq).stalled_request.isSome = true ↔
      (guc_set_lrc_tail g1 rq).submission_stall_reason ≠ StallReason.STALL_NONE := h1
  have hsa := guc_add_request_stall_inv K (guc_set_lrc_tail g1 rq) rq hs
  have hd := fun (X : Guc) hX => stall_inv_of_frame (disable_submission_frame X) hX
  have hbody : (guc_bypass_tasklet_submit K ret_uninit g rq).2.stalled_request.isSome = true ↔
      (guc_bypass_tasklet_submit K ret_uninit g rq).2.submission_stall_reason ≠
        StallReason.STALL_NONE := by
    unfold guc_bypass_tasklet_submit
    simp only [hg1]
    (repeat' split) <;>
      first
        | exact hwa
        | exact hw
        | exact hm
        | exact hsa
        | exact hd _ hwa
        | exact hd _ hw
        | exact hd _ hm
        | exact hd _ hsa
  unfold guc_submit_request
  split
  · exact h
  · simp only []
    split
    · exact hbody
    · exact hbody

/-- C27: a dispatch pass started in a state where a request is recorded as stalled
exactly when the stall reason is not `STALL_NONE` keeps that so, and so does
`guc_submit_request`, the other writer of the record. Whenever a stage of the pass
returns `-EBUSY`, `stalled_request` is the request the stage ran for and
`submission_stall_reason` names that stage. A pass started with a stalled request runs
the stage the reason names first, for that request, and leaves the priority queue as it
was. Whenever every stage of the pass returned 0, `stalled_request` is `NULL` and the
reason is `STALL_NONE`. -/
theorem dequeue_stall_bookkeeping (K : Fwif) (g : Guc)
    (hinv : g.stalled_request.isSome = true ↔
      g.submission_stall_reason ≠ StallReason.STALL_NONE) :
    (∀ e ∈ (guc_dequeue_one_context K g).2.2, e.ret = -EBUSY →
      (guc_dequeue_one_context K g).2.1.stalled_request = some e.rq ∧
      (guc_dequeue_one_context K g).2.1.submission_stall_reason = e.stage) ∧
    (∀ rq, g.stalled_request = some rq →
      (guc_dequeue_one_context K g).2.1.queue = g.queue ∧
      ∃ ret rest, (guc_dequeue_one_context K g).2.2 =
        ⟨g.submission_stall_reason, rq, ret⟩ :: rest) ∧
    ((∀ e ∈ (guc_dequeue_one_context K g).2.2, e.ret = 0) →
      (guc_dequeue_one_context K g).2.1.stalled_request = none ∧
      (guc_dequeue_one_context K g).2.1.submission_stall_reason = StallReason.STALL_NONE) ∧
    ((guc_dequeue_one_context K g).2.1.stalled_request.isSome = true ↔
      (guc_dequeue_one_context K g).2.1.submission_stall_reason ≠
        StallReason.STALL_NONE) ∧
    (∀ ret_uninit rq,
      (guc_submit_request K ret_uninit g rq).stalled_request.isSome = true ↔
        (guc_submit_request K ret_uninit g rq).submission_stall_reason ≠
          StallReason.STALL_NONE) := by
  have hsub := fun ret_uninit rq => submit_request_stall_inv K ret_uninit g rq hinv
  cases hs : g.stalled_request with
  | some last =>
    cases hr : g.submission_stall_reason with
    | STALL_NONE =>
      rw [hs, hr] at hinv
      simp at hinv
    | STALL_REGISTER_CONTEXT =>
      have e : guc_dequeue_one_context K g = dequeue_register_context K g last := by
        simp only [guc_dequeue_one_context, hs, hr]
      obtain ⟨h1, ret, rest, h2⟩ := dequeue_register_context_spec K g last
      obtain ⟨a, b, c⟩ := h1.summary hinv
      rw [e]
      refine ⟨a, ?_, b, c, hsub⟩
      intro rq hrq
      cases hrq
      exact ⟨h1.1, ret, rest, h2⟩
    | STALL_MOVE_LRC_TAIL =>
      have e : guc_dequeue_one_context K g = dequeue_move_lrc_tail K g last := by
        simp only [guc_dequeue_one_context, hs, hr]
      obtain ⟨h1, ret, rest, h2⟩ := dequeue_move_lrc_tail_spec K g last
      obtain ⟨a, b, c⟩ := h1.summary hinv
      rw [e]
      refine ⟨a, ?_, b, c, hsub⟩
      intro rq hrq
      cases hrq
      exact ⟨h1.1, ret, rest, h2⟩
    | STALL_ADD_REQUEST =>
      have e : guc_dequeue_one_context K g = dequeue_add_request K g last := by
        simp only [guc_dequeue_one_context, hs, hr]
      obtain ⟨h1, ret, h2⟩ := dequeue_add_request_spec K g last
      obtain ⟨a, b, c⟩ := h1.summary hinv
      rw [e]
      refine ⟨a, ?_, b, c, hsub⟩
      intro rq hrq
      cases hrq
      exact ⟨h1.1, ret, [], h2⟩
  | none =>
    have hr : g.submission_stall_reason = StallReason.STALL_NONE := by
      rw [hs] at hinv
      by_contra h
      have := hinv.2 h
      simp at this
    have hf := dequeue_queue_frame K g.queue g none false
    simp only [guc_dequeue_one_context, hs, hr, Option.isSome_none]
    generalize dequeue_queue K g none false g.queue = r at hf ⊢
    have hinv1 : ({ r.1 with queue := r.2.2.2 } : Guc).stalled_request.isSome = true ↔
        ({ r.1 with queue := r.2.2.2 } : Guc).submission_stall_reason ≠
          StallReason.STALL_NONE := by
      show r.1.stalled_request.isSome = true ↔
        r.1.submission_stall_reason ≠ StallReason.STALL_NONE
      rw [hf.stalled_request, hf.reason]
      exact hinv
    split
    · rename_i last _ _
      obtain ⟨h1, -⟩ := dequeue_register_context_spec K { r.1 with queue := r.2.2.2 } last
      obtain ⟨a, b, c⟩ := h1.summary hinv1
      refine ⟨a, ?_, b, c, hsub⟩
      intro rq hrq
      cases hrq
    · refine ⟨?_, ?_, ?_, ?_, hsub⟩
      · intro e he
        simp at he
      · intro rq hrq
        cases hrq
      · intro _
        exact ⟨rfl, rfl⟩
      · simp

/-- C27 at `stall_demo`: the add-request stage of the pass returns `-EBUSY` and request
10 is recorded as stalled at that stage; the next pass resumes there with the queue as
it was. -/
theorem dequeue_stall_bookkeeping_witness :
    ((stall_demo.stalled_request.isSome = true ↔
        stall_demo.submission_stall_reason ≠ StallReason.STALL_NONE) ∧
      (stall_demo_stalled.stalled_request.isSome = true ↔
        stall_demo_stalled.submission_stall_reason ≠ StallReason.STALL_NONE)) ∧
    ((guc_dequeue_one_context fwif_upstream stall_demo).2.1.stalled_request = some 10 ∧
      (guc_dequeue_one_context fwif_upstream stall_demo).2.1.submission_stall_reason =
        StallReason.STALL_ADD_REQUEST) ∧
    ((guc_dequeue_one_context fwif_upstream stall_demo_stalled).2.1.queue =
        stall_demo_stalled.queue ∧
      ∃ ret rest, (guc_dequeue_one_context fwif_upstream stall_demo_stalled).2.2 =
        ⟨stall_demo_stalled.submission_stall_reason, 10, ret⟩ :: rest) :=
  ⟨⟨by decide, by decide⟩,
    (dequeue_stall_bookkeeping fwif_upstream stall_demo (by decide)).1
      ⟨StallReason.STALL_ADD_REQUEST, 10, -EBUSY⟩ (by decide) rfl,
    (dequeue_stall_bookkeeping fwif_upstream stall_demo_stalled (by decide)).2.1 10
      (by decide)⟩

end GucSubmission
